import Mathlib

/-! UnLua reflection bridge: call marshaling, bit-field properties, class
reference counts and the delegate bridge.

A shallow embedding of the parts of the UnLua plugin that the verified
properties are about.  Each definition follows one function of the C++
sources and keeps its name; engine services that the plugin only calls
(property value conversion, the protected call, the native invocation) are
parameters of the model.
-/

namespace UnLua

/-! ## Values -/

/-- Contents of one native property slot (an encoded native value). -/
abbrev Value := Int

/-- Script-side values that can sit on the Lua stack. -/
inductive LuaValue where
  | nil
  | boolean (b : Bool)
  | number (n : Int)
  | function (ref : Nat)
  | cfunction (id : Nat)
  | userdata (p : Nat)
  | lightuserdata (p : Nat)
  | table (id : Nat)
  | string (s : String)
  deriving DecidableEq, Repr

/-- The Lua stack, bottom first; `lua_gettop` is its length. -/
abbrev LuaStack := List LuaValue

/-- Element at a Lua index: positive indices count from the bottom (1-based),
negative ones from the top (-1 is the top); anything else is `LUA_TNONE`. -/
def lua_at (L : LuaStack) (idx : Int) : Option LuaValue :=
  if 0 < idx then L.get? (idx.toNat - 1)
  else if idx < 0 ∧ (-idx).toNat ≤ L.length then L.get? (L.length - (-idx).toNat)
  else none

/-- Engine constant `INDEX_NONE`. -/
def INDEX_NONE : Int := -1

/-! ## Exported bit-field boolean property (`UnLuaEx.h`) -/

/-- The exported bit-field boolean property `UnLua::FExportedBitFieldBoolProperty`:
a `uint8` mask at a byte offset. -/
structure FExportedBitFieldBoolProperty where
  Offset : Nat
  Mask : Nat

namespace FExportedBitFieldBoolProperty

/-- The byte expression of `Read`: `!!(byte & Mask)`. -/
def ReadByte (Mask byte : Nat) : Bool :=
  (byte &&& Mask) != 0

/-- The byte expression of `Write`: `(byte & ~Mask) | (V ? Mask : 0)`, with the
operands promoted to 32-bit `int` (so `~Mask` is `2^32 - 1 - Mask`) and the
result stored back into a `uint8`. -/
def WriteByte (Mask byte : Nat) (V : Bool) : Nat :=
  ((byte &&& ((2 ^ 32 - 1 - Mask) % 2 ^ 32)) ||| (if V then Mask else 0)) % 256

/-- Read: the boolean pushed for the container `ContainerPtr`. -/
def Read (P : FExportedBitFieldBoolProperty) (ContainerPtr : Nat → Nat) : Bool :=
  ReadByte P.Mask (ContainerPtr P.Offset)

/-- Write: the container after storing the boolean `V`. -/
def Write (P : FExportedBitFieldBoolProperty) (ContainerPtr : Nat → Nat) (V : Bool) : Nat → Nat :=
  Function.update ContainerPtr P.Offset (WriteByte P.Mask (ContainerPtr P.Offset) V)

end FExportedBitFieldBoolProperty

/-! ## Reflected properties and functions -/

/-- The property type tags that the function descriptor inspects
(`GetPropertyType`); every other tag is `CPT_Other`. -/
inductive EPropertyType where
  | CPT_Delegate
  | CPT_MulticastDelegate
  | CPT_MulticastSparseDelegate
  | CPT_Other (tag : Nat)
  deriving DecidableEq, Repr

/-- A reflected parameter (`FProperty`): its name, the parameter flags the
marshaler tests and its type tag. -/
structure FProperty where
  Name : String
  CPF_Parm : Bool
  CPF_ReturnParm : Bool
  CPF_OutParm : Bool
  CPF_ReferenceParm : Bool
  CPF_ConstParm : Bool
  PropertyType : EPropertyType
  deriving DecidableEq, Repr

instance : Inhabited FProperty :=
  ⟨⟨"", false, false, false, false, false, EPropertyType.CPT_Other 0⟩⟩

/-- Property descriptor `FPropertyDesc`, wrapping one `FProperty`. -/
structure FPropertyDesc where
  Property : FProperty
  deriving DecidableEq, Repr, Inhabited

namespace FPropertyDesc

/-- Factory `FPropertyDesc::Create`. -/
def Create (InProperty : FProperty) : FPropertyDesc := ⟨InProperty⟩

def IsReturnParameter (P : FPropertyDesc) : Bool := P.Property.CPF_ReturnParm

def IsOutParameter (P : FPropertyDesc) : Bool :=
  P.Property.CPF_ReturnParm || (P.Property.CPF_OutParm && !P.Property.CPF_ConstParm)

def IsReferenceParameter (P : FPropertyDesc) : Bool := P.Property.CPF_ReferenceParm

def GetProperty (P : FPropertyDesc) : FProperty := P.Property

def GetPropertyType (P : FPropertyDesc) : EPropertyType := P.Property.PropertyType

end FPropertyDesc

/-- The virtual value operations of property descriptors, implemented per
property kind outside the modelled sources.  Each takes the reflected property
it is dispatched on. -/
structure PropertyOps where
  /-- Result of `InitializeValue`: the zero-initialized state of the slot. -/
  InitializeValue : FProperty → Value
  /-- Result of `GetValueInternal(L, ValuePtr, bCreateCopy)`: the one value pushed. -/
  GetValueInternal : FProperty → Value → Bool → LuaValue
  /-- Result of `SetValueInternal(L, ValuePtr, IndexInStack, bCopyValue)`: the new slot
  contents and the returned clean-up request. -/
  SetValueInternal : FProperty → Value → Option LuaValue → Bool → Value × Bool
  /-- Result of `CopyBack(L, SrcIndexInStack, DestContainerPtr)`: new slot contents and
  success. -/
  CopyBackFromStack : FProperty → Option LuaValue → Value → Value × Bool
  /-- Result of `CopyBack(L, SrcContainerPtr, DestIndexInStack)`: success (the script
  object at the index is updated in place, the stack is not). -/
  CopyBackToStack : FProperty → Value → Option LuaValue → Bool
  /-- Result of `CopyBack(Dest, Src)`: new contents of `Dest`. -/
  CopyBackValue : FProperty → Value → Value → Value
  /-- The `FLatentActionInfo` stored for the latent marker, from the thread
  reference and the script value at the marker position. -/
  LatentActionInfo : Int → Option LuaValue → Value

/-- The defaults of `FPropertyDesc`: every `CopyBack` overload returns false
and writes nothing. -/
def PropertyOps.base (Init : FProperty → Value) (Get : FProperty → Value → Bool → LuaValue)
    (Set : FProperty → Value → Option LuaValue → Bool → Value × Bool) : PropertyOps where
  InitializeValue := Init
  GetValueInternal := Get
  SetValueInternal := Set
  CopyBackFromStack := fun _ _ old => (old, false)
  CopyBackToStack := fun _ _ _ => false
  CopyBackValue := fun _ dest _ => dest
  LatentActionInfo := fun ref _ => ref

/-- Default table `FParameterCollection`: registered default values by parameter name. -/
structure FParameterCollection where
  Parameters : List (String × Value)

/-- Lookup `TMap::Find` on the default table. -/
def FParameterCollection.Find (C : FParameterCollection) (Name : String) : Option Value :=
  C.Parameters.lookup Name

/-- A reflected function (`UFunction`): child properties in declaration
order, parameter block size and the flags the descriptor reads. -/
structure UFunction where
  Name : String
  ChildProperties : List FProperty
  ParmsSize : Nat
  FUNC_Static : Bool
  FUNC_Native : Bool
  FUNC_Net : Bool
  /-- The outer class is an interface class other than `UInterface`. -/
  OuterIsInterface : Bool

/-- Which block a parameter pointer designates. -/
inductive ParamsPtr where
  | null
  | persistent
  | heap
  deriving DecidableEq, Repr

/-- Function descriptor `FFunctionDesc`. -/
structure FFunctionDesc where
  Function : UFunction
  FuncName : String
  Buffer : ParamsPtr
  OutParmRec : List FProperty
  Properties : List FPropertyDesc
  OutPropertyIndices : List Nat
  DefaultParams : Option FParameterCollection
  ReturnPropertyIndex : Int
  LatentPropertyIndex : Int
  FunctionRef : Int
  NumRefProperties : Nat
  NumCalls : Nat
  bStaticFunc : Bool
  bInterfaceFunc : Bool
  bHasDelegateParams : Bool

/-- Name of the latent marker parameter. -/
def NAME_LatentInfo : String := "LatentInfo"

namespace FFunctionDesc

/-- The state of the descriptor before the constructor walks the parameters. -/
def ctorInit (InFunction : UFunction) (InDefaultParams : Option FParameterCollection)
    (InFunctionRef : Int) : FFunctionDesc where
  Function := InFunction
  FuncName := InFunction.Name
  Buffer := if InFunction.ParmsSize > 0 then ParamsPtr.persistent else ParamsPtr.null
  OutParmRec := []
  Properties := []
  OutPropertyIndices := []
  DefaultParams := InDefaultParams
  ReturnPropertyIndex := INDEX_NONE
  LatentPropertyIndex := INDEX_NONE
  FunctionRef := InFunctionRef
  NumRefProperties := 0
  NumCalls := 0
  bStaticFunc := InFunction.FUNC_Static
  bInterfaceFunc := InFunction.OuterIsInterface
  bHasDelegateParams := false

/-- One iteration of the constructor loop over the parameters. -/
def ctorStep (D : FFunctionDesc) (Property : FProperty) : FFunctionDesc :=
  let PropertyDesc := FPropertyDesc.Create Property
  let Index : Nat := D.Properties.length
  let D1 := { D with Properties := D.Properties ++ [PropertyDesc] }
  let D2 :=
    if PropertyDesc.IsReturnParameter then
      { D1 with ReturnPropertyIndex := (Index : Int) }
    else if D1.LatentPropertyIndex == INDEX_NONE && Property.Name == NAME_LatentInfo then
      { D1 with LatentPropertyIndex := (Index : Int) }
    else if Property.CPF_OutParm || Property.CPF_ReferenceParm then
      let D3 := { D1 with NumRefProperties := (D1.NumRefProperties + 1) % 256,
                          OutParmRec := D1.OutParmRec ++ [Property] }
      if !Property.CPF_ConstParm then
        { D3 with OutPropertyIndices := D3.OutPropertyIndices ++ [Index] }
      else D3
    else D1
  if !D2.bHasDelegateParams && !PropertyDesc.IsReturnParameter then
    if PropertyDesc.GetPropertyType == EPropertyType.CPT_Delegate
        || PropertyDesc.GetPropertyType == EPropertyType.CPT_MulticastDelegate
        || PropertyDesc.GetPropertyType == EPropertyType.CPT_MulticastSparseDelegate then
      { D2 with bHasDelegateParams := true }
    else D2
  else D2

/-- Constructor `FFunctionDesc::FFunctionDesc`: the loop runs over the leading child
properties that carry `CPF_Parm`. -/
def ctor (InFunction : UFunction) (InDefaultParams : Option FParameterCollection)
    (InFunctionRef : Int) : FFunctionDesc :=
  (InFunction.ChildProperties.takeWhile (fun P => P.CPF_Parm)).foldl ctorStep
    (ctorInit InFunction InDefaultParams InFunctionRef)

def HasReturnProperty (D : FFunctionDesc) : Bool := decide (D.ReturnPropertyIndex > INDEX_NONE)

end FFunctionDesc

/-! ## Calling a native function from script (`FunctionDesc.cpp`) -/

/-- Loop state of `PreCall`: contents of the parameter block (one slot per
property index), the clean-up flags and the running `ParamIndex`. -/
structure PreCallState where
  Mem : Nat → Value
  CleanupFlags : Nat → Bool
  ParamIndex : Nat

/-- Body of the `PreCall` loop for property `i`. -/
def PreCallStep (ops : PropertyOps) (D : FFunctionDesc) (L : LuaStack)
    (NumParams FirstParamIndex ThreadRef : Int) (i : Nat) (Property : FPropertyDesc)
    (s : PreCallState) : PreCallState :=
  let Mem1 := Function.update s.Mem i (ops.InitializeValue Property.Property)
  let arg := lua_at L (FirstParamIndex + (s.ParamIndex : Int))
  if (i : Int) = D.LatentPropertyIndex then
    { s with Mem := Function.update Mem1 i (ops.LatentActionInfo ThreadRef arg) }
  else if (i : Int) = D.ReturnPropertyIndex then
    if (s.ParamIndex : Int) < NumParams then
      let r := ops.CopyBackFromStack Property.Property arg (Mem1 i)
      { s with Mem := Function.update Mem1 i r.1,
               CleanupFlags := Function.update s.CleanupFlags i (!r.2) }
    else
      { s with Mem := Mem1, CleanupFlags := Function.update s.CleanupFlags i true }
  else if (s.ParamIndex : Int) < NumParams then
    let r := ops.SetValueInternal Property.Property (Mem1 i) arg false
    { Mem := Function.update Mem1 i r.1,
      CleanupFlags := Function.update s.CleanupFlags i r.2,
      ParamIndex := s.ParamIndex + 1 }
  else if !Property.IsOutParameter then
    match D.DefaultParams with
    | some DefaultParams =>
      match DefaultParams.Find Property.GetProperty.Name with
      | some DefaultValue =>
        { Mem := Function.update Mem1 i DefaultValue,
          CleanupFlags := Function.update s.CleanupFlags i true,
          ParamIndex := s.ParamIndex + 1 }
      | none => { s with Mem := Mem1, ParamIndex := s.ParamIndex + 1 }
    | none => { s with Mem := Mem1, ParamIndex := s.ParamIndex + 1 }
  else { s with Mem := Mem1, ParamIndex := s.ParamIndex + 1 }

/-- The `PreCall` loop over the properties from index `i` on. -/
def PreCallLoop (ops : PropertyOps) (D : FFunctionDesc) (L : LuaStack)
    (NumParams FirstParamIndex ThreadRef : Int) :
    List FPropertyDesc → Nat → PreCallState → PreCallState
  | [], _, s => s
  | Property :: rest, i, s =>
    PreCallLoop ops D L NumParams FirstParamIndex ThreadRef rest (i + 1)
      (PreCallStep ops D L NumParams FirstParamIndex ThreadRef i Property s)

/-- What `PreCall` leaves behind: the descriptor (recursion counter bumped), the
block handed out, its contents and the clean-up flags. -/
structure PreCallResult where
  Desc : FFunctionDesc
  Params : ParamsPtr
  Mem : Nat → Value
  CleanupFlags : Nat → Bool

/-- Marshaling of the script arguments, `FFunctionDesc::PreCall`.  `Mem0` is the
previous contents of the block that is handed out. -/
def PreCall (ops : PropertyOps) (D : FFunctionDesc) (L : LuaStack)
    (NumParams FirstParamIndex : Int) (CleanupFlags : Nat → Bool) (ThreadRef : Int)
    (Mem0 : Nat → Value) : PreCallResult :=
  let Params : ParamsPtr :=
    if D.NumCalls < 1 && !D.bHasDelegateParams then D.Buffer
    else if D.Function.ParmsSize > 0 then ParamsPtr.heap else ParamsPtr.null
  let s := PreCallLoop ops D L NumParams FirstParamIndex ThreadRef D.Properties 0
    { Mem := Mem0, CleanupFlags := CleanupFlags, ParamIndex := 0 }
  { Desc := { D with NumCalls := (D.NumCalls + 1) % 256 },
    Params := Params, Mem := s.Mem, CleanupFlags := s.CleanupFlags }

/-- One value pushed by `PostCall`: the property index it belongs to and the
script value. -/
structure PushedValue where
  Index : Nat
  Val : LuaValue
  deriving DecidableEq, Repr

/-- Loop over `OutPropertyIndices` in `PostCall`, on the current stack `L`;
returns the values pushed, in push order. -/
def PostCallOutLoop (ops : PropertyOps) (D : FFunctionDesc)
    (NumParams FirstParamIndex : Int) (Mem : Nat → Value) :
    List Nat → LuaStack → List PushedValue
  | [], _ => []
  | Index :: rest, L =>
    let Property := D.Properties.getD Index default
    if (Index : Int) ≥ NumParams
        || !ops.CopyBackToStack Property.Property (Mem Index)
              (lua_at L (FirstParamIndex + (Index : Int))) then
      let V := ops.GetValueInternal Property.Property (Mem Index) true
      ⟨Index, V⟩ :: PostCallOutLoop ops D NumParams FirstParamIndex Mem rest (L ++ [V])
    else PostCallOutLoop ops D NumParams FirstParamIndex Mem rest L

/-- The return-value part of `PostCall`: the value pushed, if the function has
a return property, and whether the `check` on the copy-back held. -/
def PostCallReturn (ops : PropertyOps) (D : FFunctionDesc) (L : LuaStack)
    (FirstParamIndex : Int) (Mem : Nat → Value) (CleanupFlags : Nat → Bool) :
    List PushedValue × Bool :=
  if D.ReturnPropertyIndex > INDEX_NONE then
    let Property := D.Properties.getD D.ReturnPropertyIndex.toNat default
    if !CleanupFlags D.ReturnPropertyIndex.toNat then
      let ReturnIndexInStack := FirstParamIndex + D.ReturnPropertyIndex
      let bResult := ops.CopyBackToStack Property.Property (Mem D.ReturnPropertyIndex.toNat)
        (lua_at L ReturnIndexInStack)
      ([⟨D.ReturnPropertyIndex.toNat, (lua_at L ReturnIndexInStack).getD LuaValue.nil⟩], bResult)
    else
      ([⟨D.ReturnPropertyIndex.toNat,
          ops.GetValueInternal Property.Property (Mem D.ReturnPropertyIndex.toNat) true⟩], true)
  else ([], true)

/-- What `PostCall` leaves behind. -/
structure PostCallResult where
  Desc : FFunctionDesc
  /-- The returned count of values pushed. -/
  NumReturnValues : Int
  /-- The script stack on return. -/
  L : LuaStack
  /-- The values pushed, in push order. -/
  Pushed : List PushedValue
  /-- Property indices whose slot was destroyed. -/
  Destroyed : List Nat
  /-- Whether the block was released with `FMemory::Free`. -/
  Freed : Bool
  /-- Whether every `check` passed. -/
  ChecksHold : Bool

/-- Pushing the outputs, `FFunctionDesc::PostCall`. -/
def PostCall (ops : PropertyOps) (D : FFunctionDesc) (L : LuaStack)
    (NumParams FirstParamIndex : Int) (Params : ParamsPtr) (Mem : Nat → Value)
    (CleanupFlags : Nat → Bool) : PostCallResult :=
  let outs := PostCallOutLoop ops D NumParams FirstParamIndex Mem D.OutPropertyIndices L
  let L1 := L ++ outs.map PushedValue.Val
  let ret := PostCallReturn ops D L1 FirstParamIndex Mem CleanupFlags
  let NumCalls := (D.NumCalls + 255) % 256
  { Desc := { D with NumCalls := NumCalls },
    NumReturnValues := (outs.length : Int) + (ret.1.length : Int),
    L := L1 ++ ret.1.map PushedValue.Val,
    Pushed := outs ++ ret.1,
    Destroyed := (List.range D.Properties.length).filter CleanupFlags,
    Freed := Params != ParamsPtr.null && (decide (NumCalls > 0) || D.bHasDelegateParams),
    ChecksHold := ret.2 }

/-- What the call site of `CallUE` supplies besides the script stack. -/
structure CallEnv where
  /-- The target object passes `IsUObjectValid`. -/
  TargetValid : Bool
  /-- For an interface function, `FindFunctionByName` finds it on the target. -/
  FinalFunctionFound : Bool
  /-- The effect of the native invocation on the parameter block. -/
  Invoke : (Nat → Value) → (Nat → Value)
  /-- The `int32` behind `Userdata` (latent calls). -/
  ThreadRef : Int
  /-- Previous contents of the block `PreCall` hands out. -/
  Mem0 : Nat → Value

/-- What `CallUE` leaves behind. -/
structure CallUEResult where
  Desc : FFunctionDesc
  /-- The returned number of values pushed on the script stack. -/
  NumReturnValues : Int
  L : LuaStack
  Pushed : List PushedValue
  /-- Whether `PostCall` was reached. -/
  Completed : Bool
  /-- The block `PreCall` handed out and whether it was released. -/
  Params : ParamsPtr
  Freed : Bool
  ChecksHold : Bool

/-- Script-to-native call, `FFunctionDesc::CallUE`. -/
def CallUE (ops : PropertyOps) (env : CallEnv) (D : FFunctionDesc) (L : LuaStack)
    (NumParams : Int) : CallUEResult :=
  let FirstParamIndex : Int := if D.bStaticFunc then 1 else 2
  let NumParams1 : Int := if D.bStaticFunc then NumParams else NumParams - 1
  let chk : Bool := D.bStaticFunc || decide (NumParams > 0)
  if !env.TargetValid then
    { Desc := D, NumReturnValues := 0, L := L, Pushed := [], Completed := false,
      Params := ParamsPtr.null, Freed := false, ChecksHold := chk }
  else
    let pre := PreCall ops D L NumParams1 FirstParamIndex (fun _ => false) env.ThreadRef env.Mem0
    if D.bInterfaceFunc && !env.FinalFunctionFound then
      { Desc := pre.Desc, NumReturnValues := 0, L := L, Pushed := [], Completed := false,
        Params := pre.Params,
        Freed := pre.Params != ParamsPtr.null
          && (decide (pre.Desc.NumCalls > 0) || pre.Desc.bHasDelegateParams),
        ChecksHold := chk }
    else
      let post := PostCall ops pre.Desc L NumParams1 FirstParamIndex pre.Params
        (env.Invoke pre.Mem) pre.CleanupFlags
      { Desc := post.Desc, NumReturnValues := post.NumReturnValues, L := post.L,
        Pushed := post.Pushed, Completed := true, Params := pre.Params, Freed := post.Freed,
        ChecksHold := chk && post.ChecksHold }

/-! ## Calling the script override from native code (`FunctionDesc.cpp`, `LuaCore.cpp`) -/

/-- One record of the native frame's out-parameter chain (`FOutParmRec`). -/
structure FOutParmRec where
  Property : FProperty
  PropAddr : Nat
  deriving DecidableEq, Repr

/-- Search of the out-parameter chain, `FindOutParmRec`: the chain from the
record found on, or the empty chain (`nullptr`). -/
def FindOutParmRec : List FOutParmRec → FProperty → List FOutParmRec
  | [], _ => []
  | OutParam :: NextOutParm, OutProperty =>
    if OutParam.Property = OutProperty then OutParam :: NextOutParm
    else FindOutParmRec NextOutParm OutProperty

/-- Native memory a script override call can touch: the parameter block (one
slot per property index), the memory behind the out-parameter records and the
return-value slot. -/
structure NativeFrame where
  InParams : Nat → Value
  OutMem : Nat → Value
  RetValue : Value

/-- The script function run by the protected call: results, or the error
value it raises. -/
abbrev ScriptFunction := LuaValue → List LuaValue → Except LuaValue (List LuaValue)

/-- Outcome of `lua_pcall`: status, stack afterwards, and the function value
and arguments the script runtime received. -/
structure PCallResult where
  Ok : Bool
  L : LuaStack
  Callee : LuaValue
  Args : List LuaValue

/-- The runtime's `lua_pcall(L, NumArgs, NumResults, msgh)`: pops the function
and its arguments, pushes exactly `NumResults` results or one error value. -/
def lua_pcall (Script : ScriptFunction) (L : LuaStack) (NumArgs NumResults : Nat) : PCallResult :=
  let n := L.length - (NumArgs + 1)
  let Callee := (L.get? n).getD LuaValue.nil
  let Args := L.drop (n + 1)
  match Script Callee Args with
  | Except.ok rs =>
    { Ok := true, L := L.take n ++ (rs ++ List.replicate NumResults LuaValue.nil).take NumResults,
      Callee := Callee, Args := Args }
  | Except.error e => { Ok := false, L := L.take n ++ [e], Callee := Callee, Args := Args }

/-- Removes the top `n` values, `lua_pop`. -/
def lua_pop (L : LuaStack) (n : Int) : LuaStack := L.take (L.length - n.toNat)

/-- Removes the element at a positive index, `lua_remove`. -/
def lua_remove (L : LuaStack) (idx : Int) : LuaStack := L.eraseIdx (idx.toNat - 1)

/-- Pushes the error reporter, the referenced function and the target
object, `PushFunction(L, Object, FunctionRef)`; `Registry` is the registry
table and `Object` the value `PushUObject` pushes.  The test
`Type == LUA_TFUNCTION` holds of script functions and of C functions. -/
def PushFunction (Registry : Int → LuaValue) (L : LuaStack) (Object : LuaValue)
    (FunctionRef : Int) : Bool × LuaStack :=
  let N := L.length
  let L1 := L ++ [LuaValue.cfunction 0]
  let L2 := L1 ++ [Registry FunctionRef]
  match Registry FunctionRef with
  | LuaValue.function _ => (true, L2 ++ [Object])
  | LuaValue.cfunction _ => (true, L2 ++ [Object])
  | _ => (false, if L2.length - N = 0 then L2 else lua_pop L2 ((L2.length : Int) - (N : Int)))

/-- Protected call with error reporter clean-up, `CallFunction`. -/
def CallFunction (Script : ScriptFunction) (L : LuaStack) (NumArgs NumResults : Nat) :
    PCallResult :=
  let ErrorReporterIdx : Int := (L.length : Int) - (NumArgs : Int) - 1
  let r := lua_pcall Script L NumArgs NumResults
  if r.Ok then { r with L := lua_remove r.L ErrorReporterIdx }
  else
    let TopIdx : Int := (r.L.length : Int)
    { r with L := lua_pop r.L (TopIdx - ErrorReporterIdx + 1) }

/-- Parameter-pushing loop of `CallLuaInternal`: walks the properties from
index `i` on with the current chain position `OutParam`. -/
def CallLuaPushLoop (ops : PropertyOps) (N : NativeFrame) :
    List FPropertyDesc → Nat → List FOutParmRec → List LuaValue
  | [], _, _ => []
  | Property :: rest, i, OutParam =>
    if Property.IsReturnParameter then CallLuaPushLoop ops N rest (i + 1) OutParam
    else if Property.IsOutParameter then
      match FindOutParmRec OutParam Property.GetProperty with
      | Found :: NextOutParm =>
        ops.GetValueInternal Property.Property (N.OutMem Found.PropAddr) false
          :: CallLuaPushLoop ops N rest (i + 1) NextOutParm
      | [] =>
        ops.GetValueInternal Property.Property (N.InParams i) (!Property.IsReferenceParameter)
          :: CallLuaPushLoop ops N rest (i + 1) []
    else
      ops.GetValueInternal Property.Property (N.InParams i) (!Property.IsReferenceParameter)
        :: CallLuaPushLoop ops N rest (i + 1) OutParam

/-- Result read-back loop of `CallLuaInternal` over `OutPropertyIndices`. -/
def CallLuaOutLoop (ops : PropertyOps) (D : FFunctionDesc) (L : LuaStack) :
    List Nat → Int → List FOutParmRec → NativeFrame → NativeFrame
  | [], _, _, N => N
  | Index :: rest, OutPropertyIndex, OutParam, N =>
    let OutProperty := D.Properties.getD Index default
    if OutProperty.IsReferenceParameter then
      CallLuaOutLoop ops D L rest OutPropertyIndex OutParam N
    else
      match FindOutParmRec OutParam OutProperty.GetProperty with
      | [] =>
        let r := ops.SetValueInternal OutProperty.Property (N.InParams Index)
          (lua_at L OutPropertyIndex) true
        CallLuaOutLoop ops D L rest (OutPropertyIndex + 1) []
          { N with InParams := Function.update N.InParams Index r.1 }
      | Found :: NextOutParm =>
        if lua_at L OutPropertyIndex = some LuaValue.nil then
          let v := ops.CopyBackValue OutProperty.Property (N.OutMem Found.PropAddr)
            (N.InParams Index)
          CallLuaOutLoop ops D L rest (OutPropertyIndex + 1) NextOutParm
            { N with OutMem := Function.update N.OutMem Found.PropAddr v }
        else
          let r := ops.SetValueInternal OutProperty.Property (N.OutMem Found.PropAddr)
            (lua_at L OutPropertyIndex) true
          CallLuaOutLoop ops D L rest (OutPropertyIndex + 1) NextOutParm
            { N with OutMem := Function.update N.OutMem Found.PropAddr r.1 }

/-- What `CallLuaInternal` leaves behind, with the protected call it made. -/
structure CallLuaResult where
  bSuccess : Bool
  L : LuaStack
  Frame : NativeFrame
  /-- The values pushed by the parameter loop, in order. -/
  PushedParams : List LuaValue
  /-- The argument and result counts handed to `CallFunction`. -/
  NumParams : Nat
  NumResult : Nat
  /-- The function value and arguments the script runtime received. -/
  Callee : LuaValue
  Args : List LuaValue

/-- Script override call, `FFunctionDesc::CallLuaInternal`. -/
def CallLuaInternal (ops : PropertyOps) (Script : ScriptFunction) (D : FFunctionDesc)
    (L : LuaStack) (N : NativeFrame) (OutParams : List FOutParmRec) : CallLuaResult :=
  let PushedParams := CallLuaPushLoop ops N D.Properties 0 OutParams
  let L1 := L ++ PushedParams
  let NumParams : Nat :=
    if D.ReturnPropertyIndex = INDEX_NONE then D.Properties.length + 1 else D.Properties.length
  let NumResult : Nat :=
    if D.ReturnPropertyIndex = INDEX_NONE then D.OutPropertyIndices.length
    else D.OutPropertyIndices.length + 1
  let c := CallFunction Script L1 NumParams NumResult
  if !c.Ok then
    { bSuccess := false, L := c.L, Frame := N, PushedParams := PushedParams,
      NumParams := NumParams, NumResult := NumResult, Callee := c.Callee, Args := c.Args }
  else
    let NumResultOnStack : Nat := c.L.length
    let N1 :=
      if NumResult ≤ NumResultOnStack then
        CallLuaOutLoop ops D c.L D.OutPropertyIndices (-(NumResult : Int)) OutParams N
      else N
    let N2 :=
      if D.ReturnPropertyIndex > INDEX_NONE then
        if NumResultOnStack < 1 then N1
        else
          let Property := D.Properties.getD D.ReturnPropertyIndex.toNat default
          let r := ops.SetValueInternal Property.Property N1.RetValue (lua_at c.L (-1)) true
          { N1 with RetValue := r.1 }
      else N1
    { bSuccess := true, L := lua_pop c.L NumResult, Frame := N2, PushedParams := PushedParams,
      NumParams := NumParams, NumResult := NumResult, Callee := c.Callee, Args := c.Args }

/-! ## Class descriptors (`ClassDesc.cpp`) -/

/-- Class descriptor `FClassDesc`, reduced to what reference counting and
locking read and write. -/
structure FClassDesc where
  /-- The reflected struct passes `GLuaCxt->IsUObjectValid(Struct)`. -/
  StructValid : Bool
  /-- Prefixed names met by following `GetInheritanceSuper`, innermost first. -/
  SuperNames : List String
  /-- The cached `NameChain`. -/
  NameChain : List String
  RefCount : Int
  Locked : Bool

/-- The class part of the reflection registry: the descriptors by address and
the name lookup behind `FindClass`. -/
structure FReflectionRegistry where
  Descs : Nat → FClassDesc
  FindClass : String → Option Nat

namespace FClassDesc

/-- The name overload of `GetInheritanceChain`: fills the cached `NameChain`
when the struct is valid and the cache is empty. -/
def GetInheritanceNames (C : FClassDesc) : FClassDesc :=
  if C.StructValid then
    if C.NameChain.length ≤ 0 then { C with NameChain := C.NameChain ++ C.SuperNames } else C
  else C

/-- The descriptor overload of `GetInheritanceChain`, called on the descriptor
at address `this`: the registry with the cache filled, and the descriptors
found for the cached names. -/
def GetInheritanceChain (R : FReflectionRegistry) (this : Nat) : FReflectionRegistry × List Nat :=
  let C := GetInheritanceNames (R.Descs this)
  ({ R with Descs := Function.update R.Descs this C }, C.NameChain.filterMap R.FindClass)

/-- The statement `DescChain[i]->RefCount++`. -/
def IncRef (R : FReflectionRegistry) (d : Nat) : FReflectionRegistry :=
  let C := R.Descs d
  { R with Descs := Function.update R.Descs d { C with RefCount := C.RefCount + 1 } }

/-- The statement `DescChain[i]->RefCount--`. -/
def DecRef (R : FReflectionRegistry) (d : Nat) : FReflectionRegistry :=
  let C := R.Descs d
  { R with Descs := Function.update R.Descs d { C with RefCount := C.RefCount - 1 } }

/-- The statement `DescChain[i]->Locked = b`. -/
def SetLocked (b : Bool) (R : FReflectionRegistry) (d : Nat) : FReflectionRegistry :=
  let C := R.Descs d
  { R with Descs := Function.update R.Descs d { C with Locked := b } }

/-- Reference acquisition `FClassDesc::AddRef` on the descriptor at `this`. -/
def AddRef (R : FReflectionRegistry) (this : Nat) : FReflectionRegistry :=
  let r := GetInheritanceChain R this
  (this :: r.2).foldl IncRef r.1

/-- Reference release `FClassDesc::SubRef` on the descriptor at `this`. -/
def SubRef (R : FReflectionRegistry) (this : Nat) : FReflectionRegistry :=
  let r := GetInheritanceChain R this
  (this :: r.2).foldl DecRef r.1

/-- Locking `FClassDesc::AddLock`. -/
def AddLock (R : FReflectionRegistry) (this : Nat) : FReflectionRegistry :=
  let r := GetInheritanceChain R this
  (this :: r.2).foldl (SetLocked true) r.1

/-- Unlocking `FClassDesc::ReleaseLock`. -/
def ReleaseLock (R : FReflectionRegistry) (this : Nat) : FReflectionRegistry :=
  let r := GetInheritanceChain R this
  (this :: r.2).foldl (SetLocked false) r.1

/-- Query `FClassDesc::IsLocked`. -/
def IsLocked (R : FReflectionRegistry) (this : Nat) : Bool := (R.Descs this).Locked

end FClassDesc

/-! ## Delegate bridge (`DelegateHelper.cpp`, `LuaLib_Delegate.cpp`) -/

/-- Engine map `TMap`, as an association list with at most one entry per key. -/
abbrev TMap (κ ν : Type) := List (κ × ν)

namespace TMap

variable {κ ν : Type} [DecidableEq κ]

def Find : TMap κ ν → κ → Option ν
  | [], _ => none
  | (k1, v) :: rest, k => if k1 = k then some v else Find rest k

def Remove : TMap κ ν → κ → TMap κ ν
  | [], _ => []
  | (k1, v) :: rest, k => if k1 = k then Remove rest k else (k1, v) :: Remove rest k

def Add (M : TMap κ ν) (k : κ) (v : ν) : TMap κ ν := (k, v) :: Remove M k

/-- In-place change of the value stored under `k` (a write through the pointer
that `Find` returns). -/
def Update : TMap κ ν → κ → ν → TMap κ ν
  | [], _, _ => []
  | (k1, v1) :: rest, k, v =>
    if k1 = k then (k1, v) :: Update rest k v else (k1, v1) :: Update rest k v

end TMap

/-- Modelled from the spec: the callback identity `FCallbackDesc` is declared in
`DelegateHelper.h`, which is missing; a callback is identified by the triple
of owner class, script callback and target object, and two descriptors are
equal when the three agree (0 is the null pointer). -/
structure FCallbackDesc where
  Class : Nat
  CallbackFunction : Nat
  Object : Nat
  deriving DecidableEq, Repr

/-- Signature descriptor `FSignatureDesc`.  The counters are kept unbounded:
their declared widths are in `DelegateHelper.h`, outside the modelled
sources. -/
structure FSignatureDesc where
  /-- The function of `SignatureFunctionDesc`, or `none` for a null pointer. -/
  SignatureFunctionDesc : Option Nat
  CallbackRef : Int
  NumCalls : Nat
  NumBindings : Nat
  bPendingKill : Bool
  deriving DecidableEq, Repr

/-- Modelled from the spec: the constructor of `FSignatureDesc` (declared in
`DelegateHelper.h`, which is missing).  A new callback descriptor has binding
count 1, no invocation in flight and is not pending-kill. -/
def FSignatureDesc.new : FSignatureDesc :=
  { SignatureFunctionDesc := none, CallbackRef := INDEX_NONE, NumCalls := 0, NumBindings := 1,
    bPendingKill := false }

/-- The static tables of `FDelegateHelper`, with the engine state the bridge
reads (which delegate slots are bound) and a record of what was freed.
Functions are identified by their address; a synthesized function's name is
unique, so it stands for the function. -/
structure FDelegateHelper where
  Delegate2Property : TMap Nat Nat
  MulticastDelegate2Property : TMap Nat Nat
  Function2Signature : TMap Nat FSignatureDesc
  Callback2Function : TMap FCallbackDesc Nat
  Function2Callback : TMap Nat FCallbackDesc
  Class2Functions : TMap Nat (List Nat)
  MutiDelegates2Callback : TMap Nat (List FCallbackDesc)
  /-- Bound single-cast slots: delegate to (object, function name). -/
  Bound : TMap Nat (Nat × Nat)
  /-- Address the next `DuplicateUFunction` returns. -/
  NextFunction : Nat
  /-- Signature descriptors freed by `delete`, latest first, as they were then. -/
  Deleted : List (Nat × FSignatureDesc)
  /-- Functions removed by `RemoveUFunction`, latest first. -/
  Removed : List Nat
  deriving DecidableEq, Repr

namespace FDelegateHelper

/-- The tables before any binding. -/
def empty : FDelegateHelper :=
  { Delegate2Property := [], MulticastDelegate2Property := [], Function2Signature := [],
    Callback2Function := [], Function2Callback := [], Class2Functions := [],
    MutiDelegates2Callback := [], Bound := [], NextFunction := 1, Deleted := [], Removed := [] }

/-- Engine call `ScriptDelegate->BindUFunction(Object, FuncName)`. -/
def BindUFunction (S : FDelegateHelper) (Delegate Object FuncName : Nat) : FDelegateHelper :=
  { S with Bound := S.Bound.Add Delegate (Object, FuncName) }

/-- Engine query `ScriptDelegate->IsBound()`. -/
def IsBound (S : FDelegateHelper) (Delegate : Nat) : Bool := (S.Bound.Find Delegate).isSome

/-- A write to the signature descriptor of `Function` through its pointer. -/
def SetSignature (S : FDelegateHelper) (Function : Nat) (Sig : FSignatureDesc) : FDelegateHelper :=
  { S with Function2Signature := S.Function2Signature.Update Function Sig }

/-- Lookup-and-count `FDelegateHelper::GetBindedFunctionName`: the name found
(`none` is `NAME_None`), after the increment of the binding count. -/
def GetBindedFunctionName (S : FDelegateHelper) (Callback : FCallbackDesc) :
    FDelegateHelper × Option Nat :=
  match S.Callback2Function.Find Callback with
  | some CallbackFunc =>
    if CallbackFunc ≠ 0 then
      match S.Function2Signature.Find CallbackFunc with
      | some Sig =>
        (SetSignature S CallbackFunc { Sig with NumBindings := Sig.NumBindings + 1 },
          some CallbackFunc)
      | none => (S, some CallbackFunc)
    else (S, none)
  | none => (S, none)

/-- Registration `FDelegateHelper::PreBind`. -/
def PreBind (S : FDelegateHelper) (ScriptDelegate Property : Nat) : FDelegateHelper :=
  match S.Delegate2Property.Find ScriptDelegate with
  | some P =>
    if P ≠ Property then
      { S with Delegate2Property := S.Delegate2Property.Add ScriptDelegate Property }
    else S
  | none => { S with Delegate2Property := S.Delegate2Property.Add ScriptDelegate Property }

/-- Synthesis `FDelegateHelper::CreateSignature`: duplicates the template into
a new function, creates its signature descriptor and records it. -/
def CreateSignature (S : FDelegateHelper) (FuncName : Nat) (Callback : FCallbackDesc)
    (CallbackRef : Int) : FDelegateHelper :=
  let SignatureFunction := FuncName
  let SignatureDesc : FSignatureDesc :=
    { FSignatureDesc.new with SignatureFunctionDesc := some SignatureFunction,
                              CallbackRef := CallbackRef }
  let Functions := (S.Class2Functions.Find Callback.Class).getD []
  { S with Function2Signature := S.Function2Signature.Add SignatureFunction SignatureDesc,
           Callback2Function := S.Callback2Function.Add Callback SignatureFunction,
           Function2Callback := S.Function2Callback.Add SignatureFunction Callback,
           Class2Functions := S.Class2Functions.Add Callback.Class (Functions ++ [SignatureFunction]),
           NextFunction := S.NextFunction + 1 }

/-- The five-argument `FDelegateHelper::Bind`. -/
def BindProperty (S : FDelegateHelper) (ScriptDelegate Property Object : Nat)
    (Callback : FCallbackDesc) (CallbackRef : Int) : FDelegateHelper × Bool :=
  if ScriptDelegate = 0 ∨ S.IsBound ScriptDelegate = true ∨ Property = 0 ∨ Object = 0
      ∨ Callback.Class = 0 ∨ CallbackRef = INDEX_NONE then (S, false)
  else
    match S.Callback2Function.Find Callback with
    | none =>
      let FuncName := S.NextFunction
      (CreateSignature (BindUFunction S ScriptDelegate Object FuncName) FuncName Callback
        CallbackRef, true)
    | some _ => (S, true)

/-- The four-argument `FDelegateHelper::Bind`. -/
def Bind (S : FDelegateHelper) (ScriptDelegate Object : Nat) (Callback : FCallbackDesc)
    (CallbackRef : Int) : FDelegateHelper × Bool :=
  match S.Delegate2Property.Find ScriptDelegate with
  | some Property => BindProperty S ScriptDelegate Property Object Callback CallbackRef
  | none => (S, false)

/-- Teardown `FDelegateHelper::CleanUpByFunction`. -/
def CleanUpByFunction (S : FDelegateHelper) (Function : Nat) : FDelegateHelper :=
  let S1 :=
    match S.Function2Signature.Find Function with
    | some SignatureDesc =>
      { S with Function2Signature := S.Function2Signature.Remove Function,
               Deleted := (Function, SignatureDesc) :: S.Deleted }
    | none => S
  match S1.Function2Callback.Find Function with
  | some Callback =>
    let S2 := { S1 with Function2Callback := S1.Function2Callback.Remove Function,
                        Callback2Function := S1.Callback2Function.Remove Callback }
    let S3 :=
      match S2.Class2Functions.Find Callback.Class with
      | some Functions =>
        let Functions1 := Functions.filter (fun F => decide (F ≠ Function))
        if Functions1.length < 1 then
          { S2 with Class2Functions := S2.Class2Functions.Remove Callback.Class }
        else { S2 with Class2Functions := S2.Class2Functions.Update Callback.Class Functions1 }
      | none => S2
    { S3 with Removed := Function :: S3.Removed }
  | none => S1

/-- Release request `FSignatureDesc::MarkForDelete` on the signature
descriptor of `Function`. -/
def MarkForDelete (S : FDelegateHelper) (Function : Nat) (bIgnoreBindings : Bool) :
    FDelegateHelper :=
  match S.Function2Signature.Find Function with
  | none => S
  | some Sig =>
    if !bIgnoreBindings && decide (Sig.NumBindings > 1) then
      SetSignature S Function { Sig with NumBindings := Sig.NumBindings - 1 }
    else if Sig.NumCalls > 0 then
      SetSignature S Function { Sig with bPendingKill := true }
    else
      match Sig.SignatureFunctionDesc with
      | some F => CleanUpByFunction S F
      | none => S

/-- First half of `FSignatureDesc::Execute`: up to the call into script. -/
def ExecuteEnter (S : FDelegateHelper) (Function : Nat) : FDelegateHelper :=
  match S.Function2Signature.Find Function with
  | none => S
  | some Sig =>
    match Sig.SignatureFunctionDesc with
    | some _ =>
      SetSignature S Function { Sig with NumCalls := Sig.NumCalls + 1 }
    | none => S

/-- Second half of `FSignatureDesc::Execute`: from the return of the script
call on. -/
def ExecuteExit (S : FDelegateHelper) (Function : Nat) : FDelegateHelper :=
  match S.Function2Signature.Find Function with
  | none => S
  | some Sig =>
    match Sig.SignatureFunctionDesc with
    | some F =>
      let NumCalls := Sig.NumCalls - 1
      if NumCalls = 0 ∧ Sig.bPendingKill = true then
        if Sig.NumBindings > 1 then
          SetSignature S Function { Sig with NumCalls := NumCalls, bPendingKill := false }
        else
          CleanUpByFunction (SetSignature S Function { Sig with NumCalls := NumCalls }) F
      else
        SetSignature S Function { Sig with NumCalls := NumCalls }
    | none => S

/-- Invocation `FSignatureDesc::Execute`; `CallLua` is what the script callback
does to the tables while it runs. -/
def Execute (S : FDelegateHelper) (Function : Nat) (CallLua : FDelegateHelper → FDelegateHelper) :
    FDelegateHelper :=
  ExecuteExit (CallLua (ExecuteEnter S Function)) Function

/-- Object teardown `FDelegateHelper::Remove(UObject*)`; `ObjectClass` is
`Object->GetClass()`. -/
def Remove (S : FDelegateHelper) (Object ObjectClass : Nat) : FDelegateHelper :=
  ((S.Class2Functions.Find ObjectClass).getD []).foldl
    (fun S1 F =>
      match S1.Function2Callback.Find F with
      | some callback =>
        if callback.Object = Object then
          match S1.Function2Signature.Find F with
          | some _ => MarkForDelete S1 F true
          | none => S1
        else S1
      | none => S1) S

/-- Registration `FDelegateHelper::PreAdd`. -/
def PreAdd (S : FDelegateHelper) (ScriptDelegate Property : Nat) : FDelegateHelper :=
  match S.MulticastDelegate2Property.Find ScriptDelegate with
  | some P =>
    if P ≠ Property then
      { S with MulticastDelegate2Property := S.MulticastDelegate2Property.Add ScriptDelegate Property }
    else S
  | none =>
    { S with MulticastDelegate2Property := S.MulticastDelegate2Property.Add ScriptDelegate Property }

/-- The five-argument `FDelegateHelper::Add` of a multicast delegate. -/
def AddProperty (S : FDelegateHelper) (ScriptDelegate Property Object : Nat)
    (Callback : FCallbackDesc) (CallbackRef : Int) : FDelegateHelper × Bool :=
  if ScriptDelegate = 0 ∨ Property = 0 ∨ Object = 0 ∨ Callback.Class = 0
      ∨ CallbackRef = INDEX_NONE then (S, false)
  else
    match S.Callback2Function.Find Callback with
    | none =>
      let S1 := CreateSignature S S.NextFunction Callback CallbackRef
      let DelegateCallbacks := (S1.MutiDelegates2Callback.Find ScriptDelegate).getD []
      let DelegateCallbacks1 :=
        if Callback ∈ DelegateCallbacks then DelegateCallbacks else DelegateCallbacks ++ [Callback]
      ({ S1 with MutiDelegates2Callback :=
            S1.MutiDelegates2Callback.Add ScriptDelegate DelegateCallbacks1 }, true)
    | some _ => (S, true)

/-- Multicast teardown `FDelegateHelper::Clear`. -/
def Clear (S : FDelegateHelper) (InScriptDelegate : Nat) : FDelegateHelper :=
  if InScriptDelegate = 0 then S
  else
    match S.MulticastDelegate2Property.Find InScriptDelegate with
    | none => S
    | some Property =>
      if Property = 0 then S
      else
        match S.MutiDelegates2Callback.Find InScriptDelegate with
        | none => S
        | some DelegateCallbacks =>
          DelegateCallbacks.foldl
            (fun S1 Callback =>
              match S1.Callback2Function.Find Callback with
              | some CallbackFunc =>
                if CallbackFunc ≠ 0 then
                  match S1.Function2Signature.Find CallbackFunc with
                  | some _ => MarkForDelete S1 CallbackFunc false
                  | none => S1
                else S1
              | none => S1)
            { S with MutiDelegates2Callback := S.MutiDelegates2Callback.Remove InScriptDelegate }

/-- Class teardown `FDelegateHelper::CleanUpByClass`. -/
def CleanUpByClass (S : FDelegateHelper) (Class : Nat) : FDelegateHelper :=
  match S.Class2Functions.Find Class with
  | some Functions =>
    Functions.foldl CleanUpByFunction
      { S with Class2Functions := S.Class2Functions.Remove Class }
  | none => S

/-- Full teardown `FDelegateHelper::Cleanup`. -/
def Cleanup (S : FDelegateHelper) : FDelegateHelper :=
  let S1 := (S.Class2Functions.map Prod.fst).foldl CleanUpByClass S
  { S1 with Class2Functions := [], Function2Signature := [], Callback2Function := [],
            Function2Callback := [], Delegate2Property := [], MulticastDelegate2Property := [],
            MutiDelegates2Callback := [] }

/-- Script entry point `FScriptDelegate_Bind`: `NumParams` is `lua_gettop`,
`Delegate`, `Object` and `CallbackFunction` are the three arguments as
pointers (0 when the conversion fails), `ObjectClass` is `Object->GetClass()`
and `CallbackRef` the reference `luaL_ref` hands out. -/
def FScriptDelegate_Bind (S : FDelegateHelper) (NumParams : Int)
    (Delegate Object ObjectClass CallbackFunction : Nat) (CallbackRef : Int) : FDelegateHelper :=
  if NumParams ≠ 3 then S
  else if Delegate = 0 then S
  else if Object = 0 then S
  else if CallbackFunction = 0 then S
  else
    let Callback : FCallbackDesc := ⟨ObjectClass, CallbackFunction, Object⟩
    let r := GetBindedFunctionName S Callback
    match r.2 with
    | none => (Bind r.1 Delegate Object Callback CallbackRef).1
    | some FuncName => BindUFunction r.1 Delegate Object FuncName

end FDelegateHelper

end UnLua

namespace UnLua

/-! ## Concrete inputs used by the examples -/

/-- Value operations of the example: integers travel as numbers, and a
property of type tag 22 (a container) copies its value back into a userdata
argument, as the overriding descriptors of container and struct kinds do. -/
def exampleOps : PropertyOps where
  InitializeValue := fun _ => 0
  GetValueInternal := fun _ v _ => LuaValue.number v
  SetValueInternal := fun _ _ a _ =>
    match a with
    | some (LuaValue.number n) => (n, false)
    | some (LuaValue.userdata p) => ((p : Int), false)
    | _ => (0, false)
  CopyBackFromStack := fun _ _ old => (old, false)
  CopyBackToStack := fun P _ a =>
    match P.PropertyType, a with
    | EPropertyType.CPT_Other 22, some (LuaValue.userdata _) => true
    | _, _ => false
  CopyBackValue := fun _ dest _ => dest
  LatentActionInfo := fun ref _ => ref

/-- An input parameter of integer kind. -/
def intParam (Name : String) : FProperty :=
  ⟨Name, true, false, false, false, false, EPropertyType.CPT_Other 7⟩

/-- A float input parameter. -/
def floatParam (Name : String) : FProperty :=
  ⟨Name, true, false, false, false, false, EPropertyType.CPT_Other 14⟩

/-- A non-const reference parameter of array kind. -/
def arrayOutParam (Name : String) : FProperty :=
  ⟨Name, true, false, true, true, false, EPropertyType.CPT_Other 22⟩

/-- A non-const out parameter of integer kind. -/
def intOutParam (Name : String) : FProperty :=
  ⟨Name, true, false, true, false, false, EPropertyType.CPT_Other 7⟩

/-- The return parameter of integer kind. -/
def intReturnParam : FProperty :=
  ⟨"ReturnValue", true, true, true, false, false, EPropertyType.CPT_Other 7⟩

/-- The native function `void FillArray(TArray<int32>& Items, int32 Count)`. -/
def fillArrayFunction : UFunction :=
  ⟨"FillArray", [arrayOutParam "Items", intParam "Count"], 24, false, true, false, false⟩

/-- The native function `int32 Measure(int32 A, int32 B, int32& Out)`. -/
def measureFunction : UFunction :=
  ⟨"Measure", [intParam "A", intParam "B", intOutParam "Out", intReturnParam], 16,
    false, true, false, false⟩

/-- The event `void OnHit(float Damage)`. -/
def onHitFunction : UFunction :=
  ⟨"OnHit", [floatParam "Damage"], 4, false, true, false, false⟩

/-- A call site with a valid target whose native body leaves the block as is. -/
def exampleEnv : CallEnv :=
  ⟨true, true, fun m => m, 0, fun _ => 0⟩

end UnLua

namespace UnLua

/-- What the constructor loop maintains: every recorded output index names a
property that is not the return parameter, the output indices are strictly
increasing, and the return index is either unset with no return parameter
among the properties, or the index of a return parameter. -/
def FFunctionDesc.WellFormed (D : FFunctionDesc) : Prop :=
  (∀ x ∈ D.OutPropertyIndices,
      ∃ P, D.Properties.get? x = some P ∧ P.IsReturnParameter = false
        ∧ (P.Property.CPF_OutParm = true ∨ P.Property.CPF_ReferenceParm = true)
        ∧ P.Property.CPF_ConstParm = false)
  ∧ D.OutPropertyIndices.Pairwise (fun a b => a < b)
  ∧ ((D.ReturnPropertyIndex = INDEX_NONE ∧ ∀ P ∈ D.Properties, P.IsReturnParameter = false)
      ∨ ∃ P, 0 ≤ D.ReturnPropertyIndex
          ∧ D.Properties.get? D.ReturnPropertyIndex.toNat = some P ∧ P.IsReturnParameter = true)

end UnLua

namespace UnLua

/-- Argument position of property `i`: the value of `ParamIndex` when the
`PreCall` loop reaches it, that is the number of earlier properties that are
neither the latent marker nor the return slot. -/
def FFunctionDesc.ParamIndexAt (D : FFunctionDesc) : Nat → Nat
  | 0 => 0
  | i + 1 =>
    D.ParamIndexAt i
      + (if (i : Int) = D.LatentPropertyIndex ∨ (i : Int) = D.ReturnPropertyIndex then 0 else 1)

/-- The native function `void Spawn(int32 Kind, int32 Count, int32 Team)`. -/
def spawnFunction : UFunction :=
  ⟨"Spawn", [intParam "Kind", intParam "Count", intParam "Team"], 12, false, true, false, false⟩

/-- Registered defaults of `Spawn`: `Count = 7`. -/
def spawnDefaults : FParameterCollection := ⟨[("Count", 7)]⟩

end UnLua

namespace UnLua

/-- A registry holding one script function under reference 1. -/
def exampleRegistry : Int → LuaValue :=
  fun r => if r = 1 then LuaValue.function 1 else LuaValue.nil

/-- A script function that returns nothing. -/
def quietScript : ScriptFunction := fun _ _ => Except.ok []

/-- A script function that raises an error. -/
def failingScript : ScriptFunction := fun _ _ => Except.error (LuaValue.number 13)

/-- A native frame whose parameter slots hold 425, with zeroed out-parameter
memory and return slot. -/
def exampleFrame : NativeFrame := ⟨fun _ => 425, fun _ => 0, 0⟩

end UnLua

namespace UnLua

/-- Three registered classes: a pawn class (descriptor 1) deriving from
`APawn` (descriptor 2), itself deriving from `AActor` (descriptor 3). -/
def exampleClasses : FReflectionRegistry where
  Descs := fun d =>
    if d = 1 then ⟨true, ["APawn", "AActor"], [], 0, false⟩
    else if d = 2 then ⟨true, ["AActor"], [], 1, false⟩
    else ⟨true, [], [], 2, false⟩
  FindClass := fun n =>
    if n = "APawn" then some 2 else if n = "AActor" then some 3 else none

namespace FDelegateHelper

/-- Successive calls of `FScriptDelegate_Bind` with the same object, class and
script function, one per listed delegate slot (with the reference `luaL_ref`
hands out for that call). -/
def BindMany (S : FDelegateHelper) (Object ObjectClass CallbackFunction : Nat) :
    List (Nat × Int) → FDelegateHelper
  | [] => S
  | (Delegate, CallbackRef) :: rest =>
    BindMany (FScriptDelegate_Bind S 3 Delegate Object ObjectClass CallbackFunction CallbackRef)
      Object ObjectClass CallbackFunction rest

/-- Successive non-forced `MarkForDelete` calls on the signature descriptor of
`Function`. -/
def MarkMany (S : FDelegateHelper) (Function : Nat) : Nat → FDelegateHelper
  | 0 => S
  | n + 1 => MarkMany (MarkForDelete S Function false) Function n

/-- What can happen to a signature descriptor while one of its invocations
is running: a release request, a nested invocation starting or returning, or
another bind of some callback. -/
inductive SignatureOp where
  | MarkForDelete (bIgnoreBindings : Bool)
  | ExecuteEnter
  | ExecuteExit
  | Rebind (Callback : FCallbackDesc)
  deriving DecidableEq, Repr

/-- Effect of one operation on the tables, for the descriptor of `Function`. -/
def applyOp (S : FDelegateHelper) (Function : Nat) : SignatureOp → FDelegateHelper
  | SignatureOp.MarkForDelete b => MarkForDelete S Function b
  | SignatureOp.ExecuteEnter => ExecuteEnter S Function
  | SignatureOp.ExecuteExit => ExecuteExit S Function
  | SignatureOp.Rebind Callback => (GetBindedFunctionName S Callback).1

/-- Effect of a sequence of operations. -/
def runOps (S : FDelegateHelper) (Function : Nat) : List SignatureOp → FDelegateHelper
  | [] => S
  | op :: rest => runOps (applyOp S Function op) Function rest

/-- The recursion depth `NumCalls` of the descriptor of `Function` (0 if there
is none). -/
def NumCallsOf (S : FDelegateHelper) (Function : Nat) : Nat :=
  match S.Function2Signature.Find Function with
  | some Sig => Sig.NumCalls
  | none => 0

/-- The sequence stays inside the running invocation: every return in it is
the return of a nested invocation (it happens at depth greater than 1). -/
def StaysInFlight (S : FDelegateHelper) (Function : Nat) : List SignatureOp → Prop
  | [] => True
  | op :: rest =>
    (op = SignatureOp.ExecuteExit → NumCallsOf S Function > 1)
    ∧ StaysInFlight (applyOp S Function op) Function rest

end FDelegateHelper

end UnLua

namespace UnLua

/-- The callback `Callback` owns the synthesized function `F`, whose signature
descriptor has `n` bindings, `c` invocations in flight and pending-kill flag
`pk`. -/
def FDelegateHelper.Holds (S : FDelegateHelper) (Callback : FCallbackDesc) (F : Nat)
    (Ref : Int) (c n : Nat) (pk : Bool) : Prop :=
  S.Callback2Function.Find Callback = some F
  ∧ S.Function2Signature.Find F = some ⟨some F, Ref, c, n, pk⟩
  ∧ S.Function2Callback.Find F = some Callback

/-- Tables in which the single-cast slot 10 (of delegate property 20) is
registered and not yet bound. -/
def exampleTables : FDelegateHelper := FDelegateHelper.PreBind FDelegateHelper.empty 10 20

end UnLua

namespace UnLua

/-- The descriptor of `F` is present, marked pending-kill and has an
invocation in flight, and the record of freed descriptors and removed
functions is `Deleted`, `Removed`. -/
def FDelegateHelper.PendingInFlight (S : FDelegateHelper) (F : Nat)
    (Deleted : List (Nat × FSignatureDesc)) (Removed : List Nat) : Prop :=
  ∃ Sig, S.Function2Signature.Find F = some Sig ∧ Sig.bPendingKill = true ∧ Sig.NumCalls > 0
    ∧ Sig.SignatureFunctionDesc = some F ∧ S.Deleted = Deleted ∧ S.Removed = Removed

/-- Tables after one bind of the callback (class 40, script function 50,
object 30) on slot 10, while its synthesized function 1 is being invoked. -/
def exampleInFlight : FDelegateHelper :=
  FDelegateHelper.ExecuteEnter (FDelegateHelper.FScriptDelegate_Bind exampleTables 3 10 30 40 50 1) 1

end UnLua

namespace UnLua

namespace FDelegateHelper

/-- The tables describe the same set of callbacks, as the registrations of
`CreateSignature` leave them: a function with a callback is the function of
that callback and has a signature descriptor that names it, a callback with a
function is the callback of that function, and every signature descriptor
belongs to a function with a callback. -/
def Consistent (S : FDelegateHelper) : Prop :=
  (∀ F cb, S.Function2Callback.Find F = some cb →
      S.Callback2Function.Find cb = some F
      ∧ ∃ Sig, S.Function2Signature.Find F = some Sig ∧ Sig.SignatureFunctionDesc = some F)
  ∧ (∀ cb F, S.Callback2Function.Find cb = some F → S.Function2Callback.Find F = some cb)
  ∧ (∀ F Sig, S.Function2Signature.Find F = some Sig →
      ∃ cb, S.Function2Callback.Find F = some cb)

/-- Every callback whose target is `Object` was registered under
`ObjectClass`, the class of the object: its function is in the list that
`Class2Functions` keeps for that class. -/
def RegisteredUnderClass (S : FDelegateHelper) (Object ObjectClass : Nat) : Prop :=
  ∀ F cb, S.Function2Callback.Find F = some cb → cb.Object = Object →
    F ∈ (S.Class2Functions.Find ObjectClass).getD []

/-- No callback whose target is `Object` is being invoked. -/
def NoneInFlight (S : FDelegateHelper) (Object : Nat) : Prop :=
  ∀ F cb Sig, S.Function2Callback.Find F = some cb → cb.Object = Object →
    S.Function2Signature.Find F = some Sig → Sig.NumCalls = 0

/-- One round of the loop of `FDelegateHelper::Remove(UObject*)`. -/
def RemoveStep (Object : Nat) (S1 : FDelegateHelper) (F : Nat) : FDelegateHelper :=
  match S1.Function2Callback.Find F with
  | some callback =>
    if callback.Object = Object then
      match S1.Function2Signature.Find F with
      | some _ => MarkForDelete S1 F true
      | none => S1
    else S1
  | none => S1

/-- State of the loop of `Remove` on the tables `S` after the functions of
`done`: the entries of the callbacks of `done` that target `Object` are gone,
the others are as in `S`. -/
def RemovedUpTo (S : FDelegateHelper) (Object : Nat) (done : List Nat) (S1 : FDelegateHelper) :
    Prop :=
  (∀ G, (G ∈ done ∧ ∃ cb, S.Function2Callback.Find G = some cb ∧ cb.Object = Object) →
      S1.Function2Callback.Find G = none ∧ S1.Function2Signature.Find G = none)
  ∧ (∀ G, ¬ (G ∈ done ∧ ∃ cb, S.Function2Callback.Find G = some cb ∧ cb.Object = Object) →
      S1.Function2Callback.Find G = S.Function2Callback.Find G
      ∧ S1.Function2Signature.Find G = S.Function2Signature.Find G)
  ∧ (∀ cb, (cb.Object = Object ∧ ∃ G, G ∈ done ∧ S.Function2Callback.Find G = some cb) →
      S1.Callback2Function.Find cb = none)
  ∧ (∀ cb, ¬ (cb.Object = Object ∧ ∃ G, G ∈ done ∧ S.Function2Callback.Find G = some cb) →
      S1.Callback2Function.Find cb = S.Callback2Function.Find cb)

end FDelegateHelper

/-- Tables with two callbacks of class 30: function 1 targets object 40 and
function 2 targets object 41. -/
def exampleTwoTargets : FDelegateHelper :=
  { FDelegateHelper.empty with
    Function2Signature := [(1, ⟨some 1, 7, 0, 3, false⟩), (2, ⟨some 2, 8, 0, 1, false⟩)],
    Callback2Function := [(⟨30, 50, 40⟩, 1), (⟨30, 51, 41⟩, 2)],
    Function2Callback := [(1, ⟨30, 50, 40⟩), (2, ⟨30, 51, 41⟩)],
    Class2Functions := [(30, [1, 2])],
    NextFunction := 3 }

end UnLua

namespace UnLua

/-! ## Userdata handles and the registry caches (`LuaCore.cpp`) -/

/-- Type tags of the Lua C API. -/
def LUA_TNONE : Int := -1
def LUA_TNIL : Int := 0
def LUA_TBOOLEAN : Int := 1
def LUA_TLIGHTUSERDATA : Int := 2
def LUA_TNUMBER : Int := 3
def LUA_TSTRING : Int := 4
def LUA_TTABLE : Int := 5
def LUA_TFUNCTION : Int := 6
def LUA_TUSERDATA : Int := 7

def USERDATA_MAGIC : Nat := 0x1688
def BIT_VARIANT_TAG : Nat := 1 <<< 7
def BIT_TWOLEVEL_PTR : Nat := 1 <<< 5
def BIT_SCRIPT_CONTAINER : Nat := 1 <<< 4

/-- The trailer `FUserdataDesc` of a userdata block, packed to 4 bytes:
`uint16 magic; uint8 tag; uint8 padding`. -/
structure FUserdataDesc where
  magic : Nat
  tag : Nat
  padding : Nat
  deriving DecidableEq, Repr

/-- Size of the packed trailer, `sizeof(FUserdataDesc)`. -/
def sizeofFUserdataDesc : Nat := 4

/-- Size of a pointer, `sizeof(void*)`. -/
def sizeofPointer : Nat := 8

/-- A full userdata `Udata`: `len` bytes of memory, read by offset, and the
name of its metatable. -/
structure Udata where
  len : Nat
  mem : Nat → Nat
  metatable : Option String

/-- The Lua state as the bridge uses it: the stack, the tables and the full
userdata blocks (each known by the address of its memory), the named fields
of the registry, the highest address handed out so far and the content of
memory that was never written. -/
structure lua_State where
  Stack : LuaStack
  Tables : TMap Nat (TMap LuaValue LuaValue)
  Udatas : TMap Nat Udata
  Registry : TMap String LuaValue
  HeapTop : Nat
  Uninitialized : Nat → Nat

/-- Type of the value at an index, `lua_type`. -/
def lua_type (L : lua_State) (idx : Int) : Int :=
  match lua_at L.Stack idx with
  | none => LUA_TNONE
  | some LuaValue.nil => LUA_TNIL
  | some (LuaValue.boolean _) => LUA_TBOOLEAN
  | some (LuaValue.number _) => LUA_TNUMBER
  | some (LuaValue.function _) => LUA_TFUNCTION
  | some (LuaValue.cfunction _) => LUA_TFUNCTION
  | some (LuaValue.userdata _) => LUA_TUSERDATA
  | some (LuaValue.lightuserdata _) => LUA_TLIGHTUSERDATA
  | some (LuaValue.table _) => LUA_TTABLE
  | some (LuaValue.string _) => LUA_TSTRING

/-- Absolute position of an acceptable index, `lua_absindex`. -/
def lua_absindex (L : LuaStack) (idx : Int) : Int :=
  if 0 < idx then idx else (L.length : Int) + idx + 1

def lua_push (L : lua_State) (v : LuaValue) : lua_State := { L with Stack := L.Stack ++ [v] }

def lua_pushnil (L : lua_State) : lua_State := lua_push L LuaValue.nil

def lua_pushlightuserdata (L : lua_State) (p : Nat) : lua_State :=
  lua_push L (LuaValue.lightuserdata p)

def lua_pushstring (L : lua_State) (s : String) : lua_State := lua_push L (LuaValue.string s)

/-- Copy of the value at an index pushed on top, `lua_pushvalue`. -/
def lua_pushvalue (L : lua_State) (idx : Int) : lua_State :=
  lua_push L ((lua_at L.Stack idx).getD LuaValue.nil)

/-- Named field of the registry pushed on top,
`lua_getfield(L, LUA_REGISTRYINDEX, k)`. -/
def lua_getfield_registry (L : lua_State) (k : String) : lua_State :=
  lua_push L ((L.Registry.Find k).getD LuaValue.nil)

/-- Raw read `lua_rawget`: the key on top is replaced by the value the table
at `idx` holds for it. -/
def lua_rawget (L : lua_State) (idx : Int) : lua_State :=
  match lua_at L.Stack idx, lua_at L.Stack (-1) with
  | some (LuaValue.table t), some key =>
    let v := ((L.Tables.Find t).bind (fun T => T.Find key)).getD LuaValue.nil
    { L with Stack := lua_pop L.Stack 1 ++ [v] }
  | _, _ => L

/-- Raw write `lua_rawset`: the table at `idx` gets the value on top under the
key below it, and both are popped; a nil value removes the key. -/
def lua_rawset (L : lua_State) (idx : Int) : lua_State :=
  match lua_at L.Stack idx, lua_at L.Stack (-2), lua_at L.Stack (-1) with
  | some (LuaValue.table t), some key, some v =>
    let T := (L.Tables.Find t).getD []
    let T1 := if v = LuaValue.nil then T.Remove key else T.Add key v
    { L with Tables := L.Tables.Add t T1, Stack := lua_pop L.Stack 2 }
  | _, _, _ => L

/-- Address behind a userdata value, `lua_touserdata`; 0 is the null pointer. -/
def lua_touserdata (L : lua_State) (idx : Int) : Nat :=
  match lua_at L.Stack idx with
  | some (LuaValue.userdata p) => p
  | some (LuaValue.lightuserdata p) => p
  | _ => 0

/-- Allocation `lua_newuserdata`: a block of `sz` bytes above every address
in use, pushed on top; the result is the state and the address of the block. -/
def lua_newuserdata (L : lua_State) (sz : Nat) : lua_State × Nat :=
  let Userdata := L.HeapTop + 1
  ({ L with Stack := L.Stack ++ [LuaValue.userdata Userdata],
            Udatas := L.Udatas.Add Userdata
              { len := sz, mem := fun i => L.Uninitialized (Userdata + i) % 256,
                metatable := none },
            HeapTop := Userdata + sz }, Userdata)

/-- Metatable `luaL_setmetatable` of the userdata on top. -/
def luaL_setmetatable (L : lua_State) (tname : String) : lua_State :=
  match lua_at L.Stack (-1) with
  | some (LuaValue.userdata p) =>
    match L.Udatas.Find p with
    | some U => { L with Udatas := L.Udatas.Add p { U with metatable := some tname } }
    | none => L
  | _ => L

/-- Store of a pointer at an offset of a block, little-endian. -/
def StorePointer (mem : Nat → Nat) (off P : Nat) : Nat → Nat :=
  fun i => if off ≤ i ∧ i < off + sizeofPointer then P / 256 ^ (i - off) % 256 else mem i

/-- Load of the pointer at an offset of a block. -/
def LoadPointer (mem : Nat → Nat) (off : Nat) : Nat :=
  mem off + 256 * (mem (off + 1) + 256 * (mem (off + 2) + 256 * (mem (off + 3)
    + 256 * (mem (off + 4) + 256 * (mem (off + 5) + 256 * (mem (off + 6)
    + 256 * mem (off + 7)))))))

/-- Write through a pointer to a pointer, `*(void**)Userdata = P`.  Only the
memory of userdata blocks is modelled, and `Userdata` is the start of one. -/
def WritePointerAt (L : lua_State) (Userdata P : Nat) : lua_State :=
  match L.Udatas.Find Userdata with
  | some U => { L with Udatas := L.Udatas.Add Userdata { U with mem := StorePointer U.mem 0 P } }
  | none => L

/-- Read through a pointer to a pointer, `*((void**)Userdata)`. -/
def ReadPointerAt (L : lua_State) (Userdata : Nat) : Nat :=
  match L.Udatas.Find Userdata with
  | some U => LoadPointer U.mem 0
  | none => 0

/-- Trailer lookup `GetUserdataDesc`: the last four bytes of the block, if the
block is large enough and they start with the magic number. -/
def GetUserdataDesc (U : Udata) : Option FUserdataDesc :=
  let DescSize := sizeofFUserdataDesc
  let UdataMemSize := U.len
  if DescSize ≤ UdataMemSize then
    let off := UdataMemSize - DescSize
    let UserdataDesc : FUserdataDesc :=
      ⟨U.mem off + 256 * U.mem (off + 1), U.mem (off + 2), U.mem (off + 3)⟩
    if USERDATA_MAGIC ≠ UserdataDesc.magic then none else some UserdataDesc
  else none

/-- Allocation `NewUserdataWithDesc` of a block with its trailer. -/
def NewUserdataWithDesc (L : lua_State) (Size Tag Padding : Nat) : lua_State × Nat :=
  let r := lua_newuserdata L (Size + Padding + sizeofFUserdataDesc)
  let off := Size + Padding
  match r.1.Udatas.Find r.2 with
  | some U =>
    let mem1 : Nat → Nat := fun i =>
      if i = off then USERDATA_MAGIC % 256
      else if i = off + 1 then USERDATA_MAGIC / 256 % 256
      else if i = off + 2 then Tag % 256
      else if i = off + 3 then Padding % 256
      else U.mem i
    ({ r.1 with Udatas := r.1.Udatas.Add r.2 { U with mem := mem1 } }, r.2)
  | none => r

def NewUserdataWithTwoLvPtrTag (L : lua_State) (Size Object : Nat) : lua_State × Nat :=
  let r := NewUserdataWithDesc L Size (BIT_VARIANT_TAG ||| BIT_TWOLEVEL_PTR) 0
  (WritePointerAt r.1 r.2 Object, r.2)

def NewUserdataWithContainerTag (L : lua_State) (Size : Nat) : lua_State × Nat :=
  NewUserdataWithDesc L Size (BIT_VARIANT_TAG ||| BIT_SCRIPT_CONTAINER) 0

/-- Address lookup `GetUserdataFast`: the address of the userdata and the
two-level flag written to `OutTwoLvlPtr`. -/
def GetUserdataFast (L : lua_State) (Index : Int) : Nat × Bool :=
  match lua_at L.Stack Index with
  | some (LuaValue.userdata Buffer) =>
    match (L.Udatas.Find Buffer).bind GetUserdataDesc with
    | some UserdataDesc =>
      if UserdataDesc.tag &&& BIT_VARIANT_TAG ≠ 0 then
        let bTwoLvlPtr := decide (UserdataDesc.tag &&& BIT_TWOLEVEL_PTR ≠ 0)
        (if bTwoLvlPtr then Buffer else Buffer + UserdataDesc.padding, bTwoLvlPtr)
      else (Buffer, false)
    | none => (Buffer, false)
  | some (LuaValue.lightuserdata p) => (p, false)
  | _ => (0, false)

/-- Instance lookup `GetCppInstanceFast`; 0 is the null pointer. -/
def GetCppInstanceFast (L : lua_State) (Index : Int) : Nat :=
  let r := GetUserdataFast L Index
  if r.1 ≠ 0 then
    if r.2 then ReadPointerAt L r.1 else r.1
  else 0

end UnLua

namespace UnLua

/-- Removal `lua_pop` of the top `n` values of a state. -/
def lua_State.pop (L : lua_State) (n : Int) : lua_State := { L with Stack := lua_pop L.Stack n }

/-- Removal `lua_remove` of the value at an acceptable index of a state. -/
def lua_State.remove (L : lua_State) (idx : Int) : lua_State :=
  { L with Stack := lua_remove L.Stack (lua_absindex L.Stack idx) }

/-- Cache lookup `CacheScriptContainer` for the native container at `Key`;
`DescSize` and `DescName` are `Desc.GetSize()` and `Desc.GetName()`.  The
result is the state and the returned address, 0 for null. -/
def CacheScriptContainer (L : lua_State) (Key DescSize : Nat) (DescName : String) :
    lua_State × Nat :=
  if Key = 0 then (L, 0)
  else
    let L1 := lua_getfield_registry L "ScriptContainerMap"
    let L2 := lua_pushlightuserdata L1 Key
    let L3 := lua_rawget L2 (-2)
    let ValueType := lua_type L3 (-1)
    let r : lua_State × Nat :=
      if ValueType = LUA_TNIL then
        let L4 := L3.pop 1
        let n := NewUserdataWithContainerTag L4 DescSize
        let L5 := luaL_setmetatable n.1 DescName
        let L6 := lua_pushlightuserdata L5 Key
        let L7 := lua_pushvalue L6 (-2)
        (lua_rawset L7 (-4), n.2)
      else (L3, 0)
    (r.1.remove (-2), r.2)

/-- Cache removal `RemoveCachedScriptContainer`. -/
def RemoveCachedScriptContainer (L : lua_State) (Key : Nat) : lua_State :=
  if Key = 0 then L
  else
    let L1 := lua_getfield_registry L "ScriptContainerMap"
    let L2 := lua_pushlightuserdata L1 Key
    let L3 := lua_rawget L2 (-2)
    let ValueType := lua_type L3 (-1)
    let L4 :=
      if ValueType ≠ LUA_TNIL then
        lua_rawset (lua_pushnil (lua_pushlightuserdata L3 Key)) (-4)
      else L3
    L4.pop 2

/-- Handle invalidation `DeleteLuaObject` for the native object at `Object`. -/
def DeleteLuaObject (L : lua_State) (Object : Nat) : lua_State :=
  if Object = 0 then L
  else
    let L1 := lua_getfield_registry L "ObjectMap"
    let L2 := lua_pushlightuserdata L1 Object
    let L3 := lua_rawget L2 (-2)
    let ValueType := lua_type L3 (-1)
    if ValueType = LUA_TTABLE ∨ ValueType = LUA_TUSERDATA then
      let L4 :=
        if ValueType = LUA_TTABLE then
          let M1 := lua_pushstring L3 "Object"
          let M2 := lua_rawget M1 (-2)
          let Userdata := lua_touserdata M2 (-1)
          (WritePointerAt M2 Userdata 0).pop 2
        else
          let Userdata := lua_touserdata L3 (-1)
          (WritePointerAt L3 Userdata 0).pop 1
      let L5 := lua_pushlightuserdata L4 Object
      let L6 := lua_pushnil L5
      let L7 := lua_rawset L6 (-3)
      L7.pop 1
    else L3.pop 2

/-- The value cached for a native address in a named registry table. -/
def CachedValue (L : lua_State) (MapName : String) (Key : Nat) : LuaValue :=
  match L.Registry.Find MapName with
  | some (LuaValue.table t) =>
    ((L.Tables.Find t).bind (fun T => T.Find (LuaValue.lightuserdata Key))).getD LuaValue.nil
  | _ => LuaValue.nil

/-- A state with empty registry tables `ObjectMap` (table 1) and
`ScriptContainerMap` (table 2) and two values on the stack. -/
def exampleState : lua_State :=
  { Stack := [LuaValue.number 5, LuaValue.boolean true],
    Tables := [(1, []), (2, [])],
    Udatas := [],
    Registry := [("ObjectMap", LuaValue.table 1), ("ScriptContainerMap", LuaValue.table 2)],
    HeapTop := 4096,
    Uninitialized := fun _ => 0xCD }

/-- The example state after the handle of the native object at 0x7000 was
created and recorded in `ObjectMap`; the handle stays on top of the stack. -/
def exampleBoundState : lua_State :=
  let r := NewUserdataWithTwoLvPtrTag exampleState sizeofPointer 0x7000
  let L1 := lua_getfield_registry r.1 "ObjectMap"
  let L2 := lua_pushlightuserdata L1 0x7000
  let L3 := lua_pushvalue L2 (-3)
  (lua_rawset L3 (-3)).pop 1

end UnLua

namespace UnLua

/-! ## Function override (`LuaFunctionInjection.cpp`, `UnLuaManager.cpp`) -/

/-- Engine constants of `EFunctionFlags`. -/
def FUNC_Net : Nat := 0x00000040
def FUNC_Native : Nat := 0x00000400
def FUNC_Event : Nat := 0x00000800
def FUNC_BlueprintEvent : Nat := 0x08000000

/-- Engine constants of `EExprToken`, and the opcode the bridge adds. -/
def EX_Return : Nat := 0x04
def EX_Nothing : Nat := 0x0B
def EX_Max : Nat := 0x100
def EX_CallLua : Nat := EX_Max - 1

/-- A dispatch thunk `FNativeFuncPtr`: the bridge's `FLuaInvoker::execCallLua`,
the engine's byte-code interpreter `UObject::ProcessInternal`, or a native body
known by a number. -/
inductive FNativeFuncPtr where
  | execCallLua
  | ProcessInternal
  | native (id : Nat)
  deriving DecidableEq, Repr

/-- What the override pass reads and writes of a reflected function: name,
the class it is declared on (`GetOuter`), `FunctionFlags`, the dispatch thunk
(`GetNativeFunc`) and the byte code `Script`. -/
structure UFunctionObject where
  Name : String
  Outer : Nat
  FunctionFlags : Nat
  Func : FNativeFuncPtr
  Script : List Nat
  deriving DecidableEq, Repr

namespace UFunctionObject

def HasAnyFunctionFlags (F : UFunctionObject) (FlagsToCheck : Nat) : Bool :=
  decide (F.FunctionFlags &&& FlagsToCheck ≠ 0)

/-- The object read through a dangling pointer is not modelled. -/
def null : UFunctionObject := ⟨"", 0, 0, FNativeFuncPtr.ProcessInternal, []⟩

end UFunctionObject

/-- Eligibility test `IsOverridable`. -/
def IsOverridable (Function : UFunctionObject) : Bool :=
  let FlagMask := FUNC_Native ||| FUNC_Event ||| FUNC_Net
  let FlagResult := FUNC_Native ||| FUNC_Event
  Function.HasAnyFunctionFlags FUNC_BlueprintEvent
    || decide (Function.FunctionFlags &&& FlagMask = FlagResult)

/-- A native replicated event `ServerFire`: flags Native, Event and Net. -/
def serverFireNative : UFunctionObject :=
  ⟨"ServerFire", 1, FUNC_Native ||| FUNC_Event ||| FUNC_Net, FNativeFuncPtr.native 7, []⟩

/-- A native event `ReceiveTick`: flags Native and Event. -/
def receiveTickNative : UFunctionObject :=
  ⟨"ReceiveTick", 1, FUNC_Native ||| FUNC_Event, FNativeFuncPtr.native 8, []⟩

end UnLua

namespace UnLua

/-- What the override pass reads and writes of a reflected class. -/
structure UClassObject where
  /-- Ancestors, nearest first, then the implemented interfaces: the classes a
  field iterator with `IncludeSuper` and `IncludeInterfaces` visits after the
  class itself. -/
  SuperChain : List Nat
  /-- The linked list `Children` of the functions declared on the class, head
  first. -/
  Children : List Nat
  /-- The function map of the class, by name. -/
  FuncMap : TMap String Nat
  /-- The table `AddNativeFunction` fills and `UFunction::Bind` reads. -/
  NativeFunctionLookupTable : TMap String FNativeFuncPtr
  /-- Whether `IsRooted()` or `GUObjectArray.IsDisregardForGC` holds. -/
  Rooted : Bool
  /-- The entries of `ClassReps`: whether the property has `CPF_RepNotify`,
  and its `RepNotifyFunc`. -/
  ClassReps : List (Bool × String)
  deriving DecidableEq, Repr

/-- The class read through a dangling pointer is not modelled. -/
def UClassObject.null : UClassObject := ⟨[], [], [], [], false, []⟩

/-- The state the override pass works on: the members of `UUnLuaManager`
(`DuplicatedFunctions`, `CachedNatives`, `CachedScripts`), the reflected
functions and classes by address, the two maps of the reflection registry it
touches, and the build flavour. -/
structure UUnLuaManager where
  Objects : TMap Nat UFunctionObject
  Classes : TMap Nat UClassObject
  /-- Address of the next object created. -/
  NextObject : Nat
  DuplicatedFunctions : TMap Nat (List Nat)
  CachedNatives : TMap Nat FNativeFuncPtr
  CachedScripts : TMap Nat (List Nat)
  /-- Registry map `Functions`: function to the address of its descriptor. -/
  Functions : TMap Nat Nat
  /-- Registry map `OverriddenFunctions`. -/
  OverriddenFunctions : TMap Nat Nat
  /-- Whether `UE_BUILD_SHIPPING || UE_BUILD_TEST` holds. -/
  bShipping : Bool
  deriving DecidableEq, Repr

namespace UUnLuaManager

def Object (S : UUnLuaManager) (Function : Nat) : UFunctionObject :=
  (S.Objects.Find Function).getD UFunctionObject.null

def Class (S : UUnLuaManager) (Class : Nat) : UClassObject :=
  (S.Classes.Find Class).getD UClassObject.null

/-- A write through a function pointer. -/
def SetObject (S : UUnLuaManager) (Function : Nat) (Obj : UFunctionObject) : UUnLuaManager :=
  { S with Objects := S.Objects.Add Function Obj }

/-- A write through a class pointer. -/
def SetClass (S : UUnLuaManager) (Class : Nat) (C : UClassObject) : UUnLuaManager :=
  { S with Classes := S.Classes.Add Class C }

/-- Validity test `GLuaCxt->IsUObjectValid`. -/
def IsUObjectValid (S : UUnLuaManager) (Function : Nat) : Bool :=
  (S.Objects.Find Function).isSome

/-- Modelled from the spec: `FReflectionRegistry::RegisterFunction` (its body
is in `ReflectionRegistry.cpp`, which is missing) returns the descriptor of
the function, creating and recording it on first use. -/
def RegisterFunction (S : UUnLuaManager) (InFunction : Nat) : UUnLuaManager × Nat :=
  match S.Functions.Find InFunction with
  | some Desc => (S, Desc)
  | none =>
    ({ S with Functions := S.Functions.Add InFunction S.NextObject,
              NextObject := S.NextObject + 1 }, S.NextObject)

/-- Modelled from the spec: `FReflectionRegistry::UnRegisterFunction` forgets
the descriptor of the function. -/
def UnRegisterFunction (S : UUnLuaManager) (InFunction : Nat) : UUnLuaManager :=
  { S with Functions := S.Functions.Remove InFunction }

/-- Modelled from the spec: `FReflectionRegistry::AddOverriddenFunction` links
a function to the one it overrides. -/
def AddOverriddenFunction (S : UUnLuaManager) (NewFunc OverriddenFunc : Nat) : UUnLuaManager :=
  { S with OverriddenFunctions := S.OverriddenFunctions.Add NewFunc OverriddenFunc }

/-- Modelled from the spec: `FReflectionRegistry::FindOverriddenFunction`; 0
is the null pointer. -/
def FindOverriddenFunction (S : UUnLuaManager) (NewFunc : Nat) : Nat :=
  (S.OverriddenFunctions.Find NewFunc).getD 0

/-- Modelled from the spec: `FReflectionRegistry::RemoveOverriddenFunction`
removes the link and returns the overridden function. -/
def RemoveOverriddenFunction (S : UUnLuaManager) (NewFunc : Nat) : UUnLuaManager × Nat :=
  ({ S with OverriddenFunctions := S.OverriddenFunctions.Remove NewFunc },
    (S.OverriddenFunctions.Find NewFunc).getD 0)

/-- Engine iteration `TFieldIterator<UFunction>` with `IncludeSuper` and
`IncludeInterfaces`: the functions of the class, then those of its ancestors. -/
def FieldIterator (S : UUnLuaManager) (Class : Nat) : List Nat :=
  (S.Class Class).Children
    ++ ((S.Class Class).SuperChain.map (fun K => (S.Class K).Children)).flatten

/-- Engine lookup `UClass::FindFunctionByName`. -/
def FindFunctionByName (S : UUnLuaManager) (Class : Nat) (InName : String)
    (IncludeSuper : Bool) : Option Nat :=
  match (S.Class Class).FuncMap.Find InName with
  | some F => some F
  | none =>
    if IncludeSuper then
      (S.Class Class).SuperChain.findSome? (fun K => (S.Class K).FuncMap.Find InName)
    else none

/-- Engine call `UClass::AddNativeFunction`. -/
def AddNativeFunction (S : UUnLuaManager) (Class : Nat) (InName : String)
    (InPointer : FNativeFuncPtr) : UUnLuaManager :=
  let C := S.Class Class
  S.SetClass Class
    { C with NativeFunctionLookupTable := C.NativeFunctionLookupTable.Add InName InPointer }

end UUnLuaManager

/-- The eight bytes of a pointer, little-endian. -/
def PointerBytes (P : Nat) : List Nat := (List.range sizeofPointer).map (fun i => P / 256 ^ i % 256)

/-- Candidate collection `GetOverridableFunctions`. -/
def GetOverridableFunctions (S : UUnLuaManager) (Class : Nat) (Functions : TMap String Nat) :
    TMap String Nat :=
  if Class = 0 then Functions
  else
    let Functions1 := (S.FieldIterator Class).foldl
      (fun Fs Function =>
        if IsOverridable (S.Object Function) then
          match Fs.Find (S.Object Function).Name with
          | none => Fs.Add (S.Object Function).Name Function
          | some _ => Fs
        else Fs) Functions
    (S.Class Class).ClassReps.foldl
      (fun Fs Rep =>
        if Rep.1 then
          match S.FindFunctionByName Class Rep.2 true with
          | some Function =>
            match Fs.Find Rep.2 with
            | none => Fs.Add Rep.2 Function
            | some _ => Fs
          | none => Fs
        else Fs) Functions1

/-- Duplication `DuplicateUFunction`: the copy gets the new name and outer
class, is bound (`UFunction::Bind`: a native function takes the thunk
registered under its name, any other the byte-code interpreter), entered in
the function map, registered, and linked into `Children` unless the class is
rooted.  The result is the state and the new function. -/
def DuplicateUFunction (S : UUnLuaManager) (TemplateFunction OuterClass : Nat)
    (NewFuncName : String) : UUnLuaManager × Nat :=
  let T := S.Object TemplateFunction
  let NewFunc := S.NextObject
  let C := S.Class OuterClass
  let Func :=
    if T.HasAnyFunctionFlags FUNC_Native then
      (C.NativeFunctionLookupTable.Find NewFuncName).getD T.Func
    else FNativeFuncPtr.ProcessInternal
  let Obj : UFunctionObject := { T with Name := NewFuncName, Outer := OuterClass, Func := Func }
  let C1 : UClassObject :=
    { C with FuncMap := C.FuncMap.Add NewFuncName NewFunc,
             Children := if C.Rooted then C.Children else NewFunc :: C.Children }
  let S1 : UUnLuaManager :=
    { S with Objects := S.Objects.Add NewFunc Obj, Classes := S.Classes.Add OuterClass C1,
             NextObject := NewFunc + 1 }
  ((S1.RegisterFunction NewFunc).1, NewFunc)

/-- Removal `RemoveUFunction` of a duplicated function from its class. -/
def RemoveUFunction (S : UUnLuaManager) (Function OuterClass : Nat) : UUnLuaManager :=
  let S1 :=
    match S.Classes.Find OuterClass with
    | some C =>
      S.SetClass OuterClass
        { C with FuncMap := C.FuncMap.Remove (S.Object Function).Name,
                 Children := C.Children.erase Function }
    | none => S
  S1.UnRegisterFunction Function

/-- Thunk replacement `OverrideUFunction`; `Userdata` is the address of the
function descriptor. -/
def OverrideUFunction (S : UUnLuaManager) (Function : Nat) (NativeFunc : FNativeFuncPtr)
    (Userdata : Nat) (bInsertOpcodes : Bool) : UUnLuaManager :=
  let F := S.Object Function
  let F1 : UFunctionObject :=
    if !F.HasAnyFunctionFlags FUNC_Net || F.HasAnyFunctionFlags FUNC_Native then
      { F with Func := NativeFunc }
    else F
  let F2 : UFunctionObject :=
    if F1.Script.length < 1 then
      if S.bShipping then
        if bInsertOpcodes then
          { F1 with Script := F1.Script ++ [EX_CallLua] ++ PointerBytes Userdata
                                ++ [EX_Return, EX_Nothing] }
        else { F1 with Script := F1.Script ++ PointerBytes Userdata }
      else { F1 with Script := F1.Script ++ [EX_CallLua, EX_Return, EX_Nothing] }
    else F1
  S.SetObject Function F2

namespace UUnLuaManager

/-- Restoration `UUnLuaManager::ResetUFunction`. -/
def ResetUFunction (S : UUnLuaManager) (Function : Nat) (NativeFuncPtr : FNativeFuncPtr) :
    UUnLuaManager :=
  let S1 : UUnLuaManager :=
    if S.IsUObjectValid Function then
      let F : UFunctionObject := { S.Object Function with Func := NativeFuncPtr }
      let F1 : UFunctionObject :=
        if F.Script.length > 0 ∧ F.Script.head? = some EX_CallLua then { F with Script := [] }
        else F
      match S.CachedScripts.Find Function with
      | some Script =>
        { S with Objects := S.Objects.Add Function { F1 with Script := Script },
                 CachedScripts := S.CachedScripts.Remove Function }
      | none => S.SetObject Function F1
    else { S with CachedScripts := S.CachedScripts.Remove Function }
  let S2 := S1.UnRegisterFunction Function
  let r := S2.RemoveOverriddenFunction Function
  if r.1.IsUObjectValid r.2 then RemoveUFunction r.1 r.2 (r.1.Object r.2).Outer else r.1

/-- Duplication onto a derived class, `UUnLuaManager::AddFunction`. -/
def AddFunction (S : UUnLuaManager) (TemplateFunction OuterClass : Nat) (NewFuncName : String) :
    UUnLuaManager :=
  match S.FindFunctionByName OuterClass NewFuncName false with
  | some _ => S
  | none =>
    let S1 :=
      if (S.Object TemplateFunction).HasAnyFunctionFlags FUNC_Native then
        S.AddNativeFunction OuterClass NewFuncName FNativeFuncPtr.execCallLua
      else S
    let r := DuplicateUFunction S1 TemplateFunction OuterClass NewFuncName
    let NewFunc := r.2
    let S2 :=
      if !(r.1.Object NewFunc).HasAnyFunctionFlags FUNC_Native
          && decide ((r.1.Object NewFunc).Script.length > 0) then
        r.1.SetObject NewFunc { r.1.Object NewFunc with Script := [] }
      else r.1
    let d := S2.RegisterFunction NewFunc
    let S3 := OverrideUFunction d.1 NewFunc FNativeFuncPtr.execCallLua d.2 true
    let DuplicatedFuncs := (S3.DuplicatedFunctions.Find OuterClass).getD []
    let DuplicatedFuncs1 :=
      if NewFunc ∈ DuplicatedFuncs then DuplicatedFuncs else DuplicatedFuncs ++ [NewFunc]
    let S4 : UUnLuaManager :=
      { S3 with DuplicatedFunctions := S3.DuplicatedFunctions.Add OuterClass DuplicatedFuncs1 }
    S4.AddOverriddenFunction NewFunc TemplateFunction

/-- In-place override `UUnLuaManager::ReplaceFunction`. -/
def ReplaceFunction (S : UUnLuaManager) (TemplateFunction OuterClass : Nat) : UUnLuaManager :=
  if (S.Object TemplateFunction).Func = FNativeFuncPtr.execCallLua then S
  else
    match S.CachedNatives.Find TemplateFunction with
    | some _ => S
    | none =>
      let NewFuncName := (S.Object TemplateFunction).Name ++ "Copy"
      let S1 :=
        if (S.Object TemplateFunction).HasAnyFunctionFlags FUNC_Native then
          S.AddNativeFunction OuterClass NewFuncName (S.Object TemplateFunction).Func
        else S
      let r := DuplicateUFunction S1 TemplateFunction OuterClass NewFuncName
      let S2 := r.1.AddOverriddenFunction TemplateFunction r.2
      let T := S2.Object TemplateFunction
      let S3 : UUnLuaManager :=
        { S2 with CachedNatives := S2.CachedNatives.Add TemplateFunction T.Func }
      let S4 : UUnLuaManager :=
        if !T.HasAnyFunctionFlags FUNC_Native && decide (T.Script.length > 0) then
          { S3 with CachedScripts := S3.CachedScripts.Add TemplateFunction T.Script,
                    Objects := S3.Objects.Add TemplateFunction { T with Script := [] } }
        else S3
      let d := S4.RegisterFunction TemplateFunction
      OverrideUFunction d.1 TemplateFunction FNativeFuncPtr.execCallLua d.2 true

/-- Override of one function, `UUnLuaManager::OverrideFunction`. -/
def OverrideFunction (S : UUnLuaManager) (TemplateFunction OuterClass : Nat)
    (NewFuncName : String) : UUnLuaManager :=
  if (S.Object TemplateFunction).Outer ≠ OuterClass then
    let Template1 :=
      if (S.Object TemplateFunction).Script.length > 0
          ∧ (S.Object TemplateFunction).Script.head? = some EX_CallLua then
        S.FindOverriddenFunction TemplateFunction
      else TemplateFunction
    S.AddFunction Template1 OuterClass NewFuncName
  else S.ReplaceFunction TemplateFunction OuterClass

/-- Override of the candidates a script module defines,
`UUnLuaManager::OverrideFunctions`. -/
def OverrideFunctions (S : UUnLuaManager) (LuaFunctions : List String)
    (UEFunctions : TMap String Nat) (OuterClass : Nat) : UUnLuaManager :=
  LuaFunctions.foldl
    (fun S1 LuaFuncName =>
      match UEFunctions.Find LuaFuncName with
      | some Function => S1.OverrideFunction Function OuterClass LuaFuncName
      | none => S1) S

/-- The override pass of `UUnLuaManager::BindInternal`: the candidates are
collected into a fresh map and those the script module defines are
overridden. -/
def OverridePass (S : UUnLuaManager) (Class : Nat) (LuaFunctions : List String) :
    UUnLuaManager :=
  S.OverrideFunctions LuaFunctions (GetOverridableFunctions S Class []) Class

end UUnLuaManager

/-- A blueprint class 1 declares the events `ReceiveHit` (function 100) and
the replicated `ServerFire` (function 101, flag Net), both with byte code;
class 2 derives from it and declares the blueprint event `OnLanded`
(function 102) itself. -/
def exampleManager : UUnLuaManager :=
  { Objects :=
      [(100, ⟨"ReceiveHit", 1, FUNC_Event ||| FUNC_BlueprintEvent,
          FNativeFuncPtr.ProcessInternal, [0x1C, EX_Return]⟩),
       (101, ⟨"ServerFire", 1, FUNC_Net ||| FUNC_Event ||| FUNC_BlueprintEvent,
          FNativeFuncPtr.ProcessInternal, [0x46, EX_Return]⟩),
       (102, ⟨"OnLanded", 2, FUNC_Event ||| FUNC_BlueprintEvent,
          FNativeFuncPtr.ProcessInternal, [0x19, EX_Return]⟩)],
    Classes :=
      [(1, ⟨[], [100, 101], [("ReceiveHit", 100), ("ServerFire", 101)], [], false, []⟩),
       (2, ⟨[1], [102], [("OnLanded", 102)], [], false, []⟩)],
    NextObject := 200,
    DuplicatedFunctions := [],
    CachedNatives := [],
    CachedScripts := [],
    Functions := [],
    OverriddenFunctions := [],
    bShipping := false }

end UnLua

namespace UnLua

/-! ## Deletion notification (`LuaContext.cpp`, `UnLuaManager.cpp`) -/

/-- The three cleanups a deletion notification performs. -/
inductive ECleanup where
  /-- Reflection-registry cleanup, `GReflectionRegistry.NotifyUObjectDeleted`. -/
  | ReflectionRegistry
  /-- Nulling of the script-side handle, `DeleteLuaObject`. -/
  | LuaObject
  /-- Delegate cleanup, `FDelegateHelper::NotifyUObjectDeleted`. -/
  | Delegate
  deriving DecidableEq, Repr

/-- The parts of `FLuaContext` and of the globals that a deletion
notification touches, with the record `Log` of the cleanups performed, in the
order in which they ran. -/
structure FLuaContext where
  bEnable : Bool
  L : lua_State
  Delegates : FDelegateHelper
  UObjPtr2Idx : TMap Nat Int
  CandidateInputComponents : List Nat
  /-- Whether `OnWorldTickStartHandle` is registered with the world. -/
  bTickRegistered : Bool
  Log : List ECleanup

namespace FLuaContext

/-- Manager part `UUnLuaManager::NotifyUObjectDeleted`. -/
def Manager_NotifyUObjectDeleted (Cxt : FLuaContext) (Object : Nat) (bClass : Bool) :
    FLuaContext :=
  if bClass then Cxt
  else { Cxt with L := DeleteLuaObject Cxt.L Object, Log := Cxt.Log ++ [ECleanup.LuaObject] }

/-- Delegate part `FDelegateHelper::NotifyUObjectDeleted`; `ObjectClass` is
the class of the object. -/
def Delegate_NotifyUObjectDeleted (Cxt : FLuaContext) (InObject ObjectClass : Nat) :
    FLuaContext :=
  { Cxt with Delegates := Cxt.Delegates.Remove InObject ObjectClass,
             Log := Cxt.Log ++ [ECleanup.Delegate] }

/-- Deletion callback `FLuaContext::NotifyUObjectDeleted`.  The body of
`GReflectionRegistry.NotifyUObjectDeleted` is not among the sources: its
result, whether the object is a registered class, is the parameter `IsClass`,
and its effect is recorded in `Log` only. -/
def NotifyUObjectDeleted (Cxt : FLuaContext) (IsClass : Nat → Bool)
    (InObject ObjectClass : Nat) : FLuaContext :=
  if !Cxt.bEnable then { Cxt with UObjPtr2Idx := Cxt.UObjPtr2Idx.Remove InObject }
  else
    let bClass := IsClass InObject
    let C1 : FLuaContext := { Cxt with Log := Cxt.Log ++ [ECleanup.ReflectionRegistry] }
    let C2 := C1.Manager_NotifyUObjectDeleted InObject bClass
    let C3 := C2.Delegate_NotifyUObjectDeleted InObject ObjectClass
    let C4 : FLuaContext :=
      if C3.CandidateInputComponents.length > 0 then
        let Kept := C3.CandidateInputComponents.filter (fun c => decide (c ≠ InObject))
        let NumRemoved := C3.CandidateInputComponents.length - Kept.length
        { C3 with CandidateInputComponents := Kept,
                  bTickRegistered :=
                    if NumRemoved > 0 ∧ Kept.length < 1 then false else C3.bTickRegistered }
      else C3
    { C4 with UObjPtr2Idx := C4.UObjPtr2Idx.Remove InObject }

end FLuaContext

/-- An enabled context: the Lua state holds the handle of the object at
0x7000, and nothing was cleaned up yet. -/
def exampleContext : FLuaContext :=
  { bEnable := true, L := exampleBoundState, Delegates := exampleTwoTargets,
    UObjPtr2Idx := [(0x7000, 12)], CandidateInputComponents := [], bTickRegistered := false,
    Log := [] }

end UnLua

namespace UnLua

/-! ## Field registration (`ClassDesc.cpp`, `FieldDesc.h`) -/

/-- Kind of type a class descriptor describes, `FClassDesc::EType`. -/
inductive EType where
  | SCRIPTSTRUCT
  | CLASS
  | UNKNOWN
  deriving DecidableEq, Repr

/-- What field registration reads of a reflected type `UStruct`: its address,
the kind its descriptor records, whether it is native, and the names of the
properties and functions declared on it, in declaration order.  Names are
compared as the engine compares them, and are taken in one canonical case. -/
structure UStruct where
  Address : Nat
  DescType : EType
  IsNative : Bool
  Properties : List String
  Functions : List String
  deriving DecidableEq, Repr

/-- A reflected property or function: the type it is declared on (its outer)
and its name. -/
structure FMember where
  Outer : Nat
  Name : String
  deriving DecidableEq, Repr

/-- Field descriptor `FFieldDesc`; class descriptors are known by the address
of their type, 0 is the null pointer. -/
structure FFieldDesc where
  QueryClass : Nat
  OuterClass : Nat
  FieldIndex : Int
  deriving DecidableEq, Repr

/-- The tables of a class descriptor that field registration fills: `Fields`,
`Properties` and `Functions`. -/
structure FClassFields where
  Fields : TMap String FFieldDesc
  Properties : List FMember
  Functions : List FMember
  deriving DecidableEq, Repr

/-- The class descriptors of the registry, by the address of their type. -/
abbrev FFieldRegistry := TMap Nat FClassFields

/-- The tables of a class descriptor that was just created. -/
def FClassFields.empty : FClassFields := ⟨[], [], []⟩

/-- The descriptor `GReflectionRegistry.RegisterClass` finds or creates. -/
def FFieldRegistry.Class (R : FFieldRegistry) (Struct : Nat) : FClassFields :=
  (R.Find Struct).getD FClassFields.empty

/-- Modelled from the spec: `FClassDesc::GetProperty` (declared in
`ClassDesc.h`, which is missing) is the entry of `Properties` at the index. -/
def FClassFields.GetProperty (C : FClassFields) (Index : Int) : Option FMember :=
  if 0 ≤ Index then C.Properties.get? Index.toNat else none

/-- Modelled from the spec: `FClassDesc::GetFunction` (declared in
`ClassDesc.h`, which is missing) is the entry of `Functions` at the index. -/
def FClassFields.GetFunction (C : FClassFields) (Index : Int) : Option FMember :=
  if 0 ≤ Index then C.Functions.get? Index.toNat else none

namespace FFieldDesc

def IsValid (D : FFieldDesc) : Bool := decide (D.FieldIndex ≠ 0)

def IsProperty (D : FFieldDesc) : Bool := decide (D.FieldIndex > 0)

def IsFunction (D : FFieldDesc) : Bool := decide (D.FieldIndex < 0)

def IsInherited (D : FFieldDesc) : Bool := decide (D.OuterClass ≠ D.QueryClass)

def AsProperty (D : FFieldDesc) (R : FFieldRegistry) : Option FMember :=
  if D.FieldIndex > 0 then (R.Class D.OuterClass).GetProperty (D.FieldIndex - 1) else none

def AsFunction (D : FFieldDesc) (R : FFieldRegistry) : Option FMember :=
  if D.FieldIndex < 0 then (R.Class D.OuterClass).GetFunction (-D.FieldIndex - 1) else none

end FFieldDesc

/-- Engine lookup `UStruct::FindPropertyByName` on a type and its ancestors,
nearest first. -/
def FindPropertyByName (Chain : List UStruct) (InName : String) : Option FMember :=
  Chain.findSome? (fun S => if InName ∈ S.Properties then some ⟨S.Address, InName⟩ else none)

/-- Engine lookup `UClass::FindFunctionByName` on a class and its ancestors. -/
def FindFunctionInChain (Chain : List UStruct) (InName : String) : Option FMember :=
  Chain.findSome? (fun S => if InName ∈ S.Functions then some ⟨S.Address, InName⟩ else none)

/-- Index of the last occurrence of a character, `FString::FindLastChar`. -/
def FindLastChar (c : Char) : List Char → Option Nat
  | [] => none
  | x :: rest =>
    match FindLastChar c rest with
    | some i => some (i + 1)
    | none => if x = c then some 0 else none

/-- The name a property of a non-native script struct is compared by in
`RegisterField`: a name longer than `GuidStrLen + 3` loses its last
`GuidStrLen + 1` characters (`LeftChop`) and then everything from the last
underscore on (`FindLastChar`, `Mid`). -/
def DisplayName (Name : String) : String :=
  let GuidStrLen := 32
  let MinimalPostfixlen := GuidStrLen + 3
  if Name.length > MinimalPostfixlen then
    let Chopped := Name.data.take (Name.length - (GuidStrLen + 1))
    match FindLastChar '_' Chopped with
    | some FirstCharToRemove => String.mk (Chopped.take FirstCharToRemove)
    | none => String.mk Chopped
  else Name

/-- The fallback loop of `RegisterField` over the properties declared on the
type itself: the first one whose display name is the field name. -/
def FindPropertyByDisplayName (Struct : UStruct) (FieldNameStr : String) : Option FMember :=
  (Struct.Properties.find? (fun p => decide (DisplayName p = FieldNameStr))).map
    (fun p => ⟨Struct.Address, p⟩)

/-- Field registration `FClassDesc::RegisterField` on the descriptor of the
first type of `Chain` (the type and its ancestors, nearest first; an empty
chain is a descriptor without `Struct`).  The call on the descriptor of the
declaring ancestor is the recursive call; `fuel` bounds the recursion depth.
The result is the registry and the descriptor returned, `none` for null. -/
def RegisterFieldFuel : Nat → FFieldRegistry → List UStruct → String → Nat →
    FFieldRegistry × Option FFieldDesc
  | 0, R, _, _, _ => (R, none)
  | _ + 1, R, [], _, _ => (R, none)
  | fuel + 1, R, This :: Supers, FieldName, QueryClass =>
    match (R.Class This.Address).Fields.Find FieldName with
    | some FieldDesc => (R, some FieldDesc)
    | none =>
      let Property := FindPropertyByName (This :: Supers) FieldName
      let Function :=
        if Property.isNone ∧ This.DescType = EType.CLASS then
          FindFunctionInChain (This :: Supers) FieldName
        else none
      let Property1 :=
        if (Property.isNone ∧ Function.isNone) ∧ This.DescType = EType.SCRIPTSTRUCT
            ∧ This.IsNative = false then
          FindPropertyByDisplayName This FieldName
        else Property
      match Property1, Function with
      | none, none => (R, none)
      | some P, _ =>
        if P.Outer ≠ This.Address then
          RegisterFieldFuel fuel R (Supers.dropWhile (fun S => decide (S.Address ≠ P.Outer)))
            FieldName QueryClass
        else
          let C := R.Class This.Address
          let FieldDesc : FFieldDesc := ⟨QueryClass, This.Address, (C.Properties.length : Int) + 1⟩
          (R.Add This.Address
            { C with Fields := C.Fields.Add FieldName FieldDesc,
                     Properties := C.Properties ++ [P] }, some FieldDesc)
      | none, some F =>
        if F.Outer ≠ This.Address then
          RegisterFieldFuel fuel R (Supers.dropWhile (fun S => decide (S.Address ≠ F.Outer)))
            FieldName QueryClass
        else
          let C := R.Class This.Address
          let FieldDesc : FFieldDesc :=
            ⟨QueryClass, This.Address, -((C.Functions.length : Int) + 1)⟩
          (R.Add This.Address
            { C with Fields := C.Fields.Add FieldName FieldDesc,
                     Functions := C.Functions ++ [F] }, some FieldDesc)

/-- Field registration with enough fuel for every chain: each recursive call
is on a shorter chain. -/
def RegisterField (R : FFieldRegistry) (Chain : List UStruct) (FieldName : String)
    (QueryClass : Nat) : FFieldRegistry × Option FFieldDesc :=
  RegisterFieldFuel (Chain.length + 1) R Chain FieldName QueryClass

/-- The class `Actor` at address 1 declares the property `Health` and the
function `GetHealth`. -/
def actorStruct : UStruct := ⟨1, EType.CLASS, true, ["Health"], ["GetHealth"]⟩

/-- The class `Pawn` at address 2, derived from `Actor`, declares the
property `Speed` and the function `Jump`. -/
def pawnStruct : UStruct := ⟨2, EType.CLASS, true, ["Speed"], ["Jump"]⟩

end UnLua

namespace UnLua

/-- The cached field descriptors of a registry are well formed: each belongs
to the class descriptor that caches it and its index points into the
`Properties` (positive) or the `Functions` (negative) of that descriptor. -/
def FieldsValid (R : FFieldRegistry) : Prop :=
  ∀ (a : Nat) (C : FClassFields) (FieldName : String) (D : FFieldDesc),
    R.Find a = some C → C.Fields.Find FieldName = some D →
    D.OuterClass = a
    ∧ ((0 < D.FieldIndex ∧ (D.FieldIndex - 1).toNat < C.Properties.length)
      ∨ (D.FieldIndex < 0 ∧ (-D.FieldIndex - 1).toNat < C.Functions.length))

/-- The descriptor `D` is what the registry `R1` caches for the field name in
the class descriptor `D.OuterClass`, and if the registry `R` before the call
had no such entry, the call created it: the property (or function) was
appended to `Properties` (or `Functions`) and the index is its position plus
one (negated for a function). -/
def RegisteredAs (R R1 : FFieldRegistry) (FieldName : String) (D : FFieldDesc) : Prop :=
  FieldsValid R1
  ∧ (∃ C1, R1.Find D.OuterClass = some C1 ∧ C1.Fields.Find FieldName = some D)
  ∧ ((R.Class D.OuterClass).Fields.Find FieldName = none →
      (D.FieldIndex = ((R.Class D.OuterClass).Properties.length : Int) + 1
        ∧ (∃ P, (R1.Class D.OuterClass).Properties = (R.Class D.OuterClass).Properties ++ [P])
        ∧ (R1.Class D.OuterClass).Functions = (R.Class D.OuterClass).Functions)
      ∨ (D.FieldIndex = -(((R.Class D.OuterClass).Functions.length : Int) + 1)
        ∧ (∃ F, (R1.Class D.OuterClass).Functions = (R.Class D.OuterClass).Functions ++ [F])
        ∧ (R1.Class D.OuterClass).Properties = (R.Class D.OuterClass).Properties))

end UnLua

namespace UnLua

end UnLua


namespace UnLua

/-! ## Coroutine bookkeeping (`LuaContext.cpp`) -/

/-- Thread status `LUA_OK` of `lua.h`. -/
def LUA_OK : Int := 0

/-- Thread status `LUA_YIELD` of `lua.h`. -/
def LUA_YIELD : Int := 1

/-- The two thread tables of `FLuaContext` (threads by address, references as
`int32`), with the registry references released through `luaL_unref`, latest
first. -/
structure FThreadTables where
  ThreadToRef : TMap Nat Int
  RefToThread : TMap Int Nat
  Unrefs : List Int
  deriving DecidableEq

/-- Registration `FLuaContext::AddThread`. -/
def FLuaContext.AddThread (S : FThreadTables) (Thread : Nat) (ThreadRef : Int) : FThreadTables :=
  { S with
    ThreadToRef := S.ThreadToRef.Add Thread ThreadRef
    RefToThread := S.RefToThread.Add ThreadRef Thread }

/-- Resumption `FLuaContext::ResumeThread`; `lua_resume Thread` is the status
that `lua_resume` reports for the thread. -/
def FLuaContext.ResumeThread (lua_resume : Nat → Int) (S : FThreadTables) (ThreadRef : Int) :
    FThreadTables :=
  match S.RefToThread.Find ThreadRef with
  | some Thread =>
    let State := lua_resume Thread
    if State = LUA_OK then
      { ThreadToRef := S.ThreadToRef.Remove Thread
        RefToThread := S.RefToThread.Remove ThreadRef
        Unrefs := ThreadRef :: S.Unrefs }
    else S
  | none => S

end UnLua


namespace UnLua

/-! ## Script arrays (`Containers/LuaArray.h`) -/

namespace FLuaArray

/-- The scanning loop of `FLuaArray::Find` from index `i` on, over the elements
from `i` on: the first index whose element `Inner->Identical(Item, ..)`
accepts, `INDEX_NONE` when the loop runs to `Num()`. -/
def FindFrom (Identical : Value → Value → Bool) (Item : Value) : List Value → Nat → Int
  | [], _ => INDEX_NONE
  | CurrentItem :: rest, i =>
    if Identical Item CurrentItem then (i : Int) else FindFrom Identical Item rest (i + 1)

/-- Search `FLuaArray::Find`. -/
def Find (Identical : Value → Value → Bool) (A : List Value) (Item : Value) : Int :=
  FindFrom Identical Item A 0

/-- Index test `FLuaArray::IsValidIndex`. -/
def IsValidIndex (A : List Value) (Index : Int) : Bool :=
  decide (Index ≥ 0) && decide (Index < (A.length : Int))

/-- Removal `FLuaArray::Remove` of the element at `Index`. -/
def Remove (A : List Value) (Index : Int) : List Value :=
  if IsValidIndex A Index then A.eraseIdx Index.toNat else A

/-- The `while` loop of `FLuaArray::RemoveItem`, with `fuel` bounding the
number of tests of the loop condition; `none` when the bound is reached. -/
def RemoveItemLoop (Identical : Value → Value → Bool) (Item : Value) :
    Nat → List Value → Int → Int → Option (Int × List Value)
  | 0, _, _, _ => none
  | fuel + 1, A, NumRemoved, Index =>
    if Index ≠ INDEX_NONE then
      let A1 := Remove A Index
      RemoveItemLoop Identical Item fuel A1 (NumRemoved + 1) (Find Identical A1 Item)
    else some (NumRemoved, A)

/-- Removal `FLuaArray::RemoveItem` of every element identical to `Item`: the
count returned and the array left. -/
def RemoveItem (Identical : Value → Value → Bool) (fuel : Nat) (A : List Value) (Item : Value) :
    Option (Int × List Value) :=
  RemoveItemLoop Identical Item fuel A 0 (Find Identical A Item)

end FLuaArray

end UnLua


namespace UnLua

/-! ## Parameter blocks: the persistent buffer -/

/-- The property is one of the three delegate kinds the constructor of
`FFunctionDesc` looks for (`CPT_Delegate`, `CPT_MulticastDelegate`,
`CPT_MulticastSparseDelegate`). -/
def IsDelegateType (T : EPropertyType) : Bool :=
  T == EPropertyType.CPT_Delegate || T == EPropertyType.CPT_MulticastDelegate
    || T == EPropertyType.CPT_MulticastSparseDelegate

/-- The parameters of a function: its leading child properties that carry
`CPF_Parm`, the range of the constructor loop. -/
def UFunction.Parameters (F : UFunction) : List FProperty :=
  F.ChildProperties.takeWhile (fun P => P.CPF_Parm)

/-- Some parameter other than the return value is delegate-typed. -/
def UFunction.HasDelegateParameter (F : UFunction) : Bool :=
  F.Parameters.any (fun P => !P.CPF_ReturnParm && IsDelegateType P.PropertyType)

end UnLua


namespace UnLua

/-! ## Nested invocations through one descriptor -/

/-- What a call site passes to `PreCall` and `PostCall` besides the
descriptor and the parameter block. -/
structure CallArgs where
  L : LuaStack
  NumParams : Int
  FirstParamIndex : Int
  CleanupFlags : Nat → Bool
  ThreadRef : Int
  Mem : Nat → Value

/-- One event of a run of invocations through a descriptor: a `PreCall`, or the
`PostCall` of the innermost invocation still open. -/
inductive CallEvent where
  | pre (a : CallArgs)
  | post (a : CallArgs)

/-- One finished invocation: the block its `PreCall` handed out, `NumCalls`
before that `PreCall`, `NumCalls` after its `PostCall`, and whether `PostCall`
released the block with `FMemory::Free`. -/
structure PairRecord where
  Params : ParamsPtr
  NumCallsBefore : Nat
  NumCallsAfter : Nat
  Freed : Bool
  deriving DecidableEq, Repr

/-- A descriptor with its invocations in progress (innermost first, each with
the block handed out and `NumCalls` before its `PreCall`) and the finished
ones, in the order of their `PostCall`. -/
structure NestedCalls where
  Desc : FFunctionDesc
  Open : List (ParamsPtr × Nat)
  Done : List PairRecord

/-- The event is run on the descriptor; a `PostCall` gets the block of the
innermost open invocation (without one, nothing is run). -/
def NestedCalls.step (ops : PropertyOps) (S : NestedCalls) : CallEvent → NestedCalls
  | CallEvent.pre a =>
    let r := PreCall ops S.Desc a.L a.NumParams a.FirstParamIndex a.CleanupFlags a.ThreadRef a.Mem
    { Desc := r.Desc, Open := (r.Params, S.Desc.NumCalls) :: S.Open, Done := S.Done }
  | CallEvent.post a =>
    match S.Open with
    | [] => S
    | (Params, n) :: rest =>
      let r := PostCall ops S.Desc a.L a.NumParams a.FirstParamIndex Params a.Mem a.CleanupFlags
      { Desc := r.Desc, Open := rest, Done := S.Done ++ [⟨Params, n, r.Desc.NumCalls, r.Freed⟩] }

/-- A run of events. -/
def NestedCalls.run (ops : PropertyOps) (S : NestedCalls) (events : List CallEvent) :
    NestedCalls :=
  events.foldl (NestedCalls.step ops) S

/-- The events, started with `depth` invocations open, are properly nested
(every `PostCall` has an open invocation to close) and never have 256 or more
invocations open. -/
def ProperlyNested : List CallEvent → Nat → Bool
  | [], _ => true
  | CallEvent.pre _ :: rest, depth => decide (depth + 1 < 256) && ProperlyNested rest (depth + 1)
  | CallEvent.post _ :: rest, depth => decide (0 < depth) && ProperlyNested rest (depth - 1)

/-- The open invocations of a run on `D0` with `depth` of them open: the
innermost was started at depth `depth - 1` and holds the block `PreCall` hands
out there, and so on outwards. -/
def OpenInvocations (D0 : FFunctionDesc) : List (ParamsPtr × Nat) → Nat → Prop
  | [], depth => depth = 0
  | (p, n) :: rest, depth =>
    depth = n + 1 ∧
    p = (if n < 1 && !D0.bHasDelegateParams then D0.Buffer
         else if D0.Function.ParmsSize > 0 then ParamsPtr.heap else ParamsPtr.null) ∧
    OpenInvocations D0 rest n

/-- A finished invocation was handled as C25 asks. -/
def PairRecord.Good (r : PairRecord) : Prop :=
  (r.Freed = true ↔ r.Params = ParamsPtr.heap) ∧
  (r.Params = ParamsPtr.persistent → r.Freed = false) ∧
  r.NumCallsAfter = r.NumCallsBefore

/-- Arguments of a call of `OnHit` from script with the argument 3. -/
def exampleArgs : CallArgs :=
  ⟨[LuaValue.userdata 1, LuaValue.number 3], 2, 1, fun _ => false, 0, fun _ => 0⟩

/-- A call that is re-entered once before it finishes. -/
def exampleNested : List CallEvent :=
  [CallEvent.pre exampleArgs, CallEvent.pre exampleArgs, CallEvent.post exampleArgs,
    CallEvent.post exampleArgs]

end UnLua


namespace UnLua

/-- The interface function `void Interact(int32 Amount)`, declared by an
interface class. -/
def interactFunction : UFunction :=
  ⟨"Interact", [intParam "Amount"], 4, false, true, false, true⟩

/-- A call site with a valid target whose class has no function of the
requested name. -/
def missingFunctionEnv : CallEnv :=
  ⟨true, false, fun m => m, 0, fun _ => 0⟩

end UnLua


namespace UnLua

/-! ## Sequences of lock calls on class descriptors -/

/-- One call of `AddLock` or `ReleaseLock` on the descriptor at `this`. -/
inductive LockCall where
  | AddLock (this : Nat)
  | ReleaseLock (this : Nat)
  deriving DecidableEq, Repr

/-- The descriptor the call is made on. -/
def LockCall.Target : LockCall → Nat
  | LockCall.AddLock this => this
  | LockCall.ReleaseLock this => this

/-- The value the call writes to `Locked`. -/
def LockCall.Written : LockCall → Bool
  | LockCall.AddLock _ => true
  | LockCall.ReleaseLock _ => false

/-- The call is run on the registry. -/
def LockCall.Run (R : FReflectionRegistry) : LockCall → FReflectionRegistry
  | LockCall.AddLock this => FClassDesc.AddLock R this
  | LockCall.ReleaseLock this => FClassDesc.ReleaseLock R this

/-- A sequence of lock calls, run in order. -/
def RunLockCalls (R : FReflectionRegistry) (calls : List LockCall) : FReflectionRegistry :=
  calls.foldl LockCall.Run R

/-- The descriptors a call on `this` walks: `this`, then the descriptors found
for its inheritance chain. -/
def FClassDesc.LockChain (R : FReflectionRegistry) (this : Nat) : List Nat :=
  this :: (FClassDesc.GetInheritanceChain R this).2

/-- The value written by the last call of the sequence that walks over `d`
(chains taken in the registry `R`), and `b` when no call does. -/
def LastWritten (R : FReflectionRegistry) (d : Nat) : List LockCall → Bool → Bool
  | [], b => b
  | call :: rest, b =>
    LastWritten R d rest (if d ∈ FClassDesc.LockChain R call.Target then call.Written else b)

end UnLua


namespace UnLua

/-! ## Padding of struct userdata (`LuaCore.cpp`) -/

/-- The engine template `Align<T>(Val, Alignment)` for an unsigned `T` of
`bits` bits: `(T)(((uint64)Val + Alignment - 1) & ~(Alignment - 1))`, the
arithmetic being that of `uint64`. -/
def Align (bits Val Alignment : Nat) : Nat :=
  (((Val + Alignment + (2 ^ 64 - 1)) % 2 ^ 64)
    &&& (2 ^ 64 - 1 - (Alignment + (2 ^ 64 - 1)) % 2 ^ 64)) % 2 ^ bits

/-- Padding `CalcUserdataPadding(Alignment)`; `GetUdataHeaderSize` is the
distance from the `Udata` header to its memory that the function of that name
measures, kept in a `uint8`.  The difference is taken after integer promotion
and cast to `uint8`. -/
def CalcUserdataPadding (GetUdataHeaderSize Alignment : Nat) : Nat :=
  let HeaderSize := GetUdataHeaderSize % 256
  (Align 8 HeaderSize Alignment + 256 - HeaderSize) % 256

/-- Allocation `NewUserdataWithPaddingTag`. -/
def NewUserdataWithPaddingTag (L : lua_State) (Size Padding : Nat) : lua_State × Nat :=
  NewUserdataWithDesc L Size BIT_VARIANT_TAG Padding

/-- Allocation `NewUserdataWithPadding`: the state, and the address returned
(`none` for `nullptr`).  `TryToSetMetatable` stands for the function of that
name, which looks the class up, registers it if needed and sets the metatable
of the value on top. -/
def NewUserdataWithPadding (TryToSetMetatable : lua_State → String → lua_State × Bool)
    (L : lua_State) (Size : Int) (MetatableName : Option String) (PaddingSize : Nat) :
    lua_State × Option Nat :=
  if Size < 1 then (L, none)
  else if PaddingSize &&& 0x07 ≠ 0 then (L, none)
  else
    let r := NewUserdataWithPaddingTag L Size.toNat PaddingSize
    match MetatableName with
    | some Name =>
      let m := TryToSetMetatable r.1 Name
      if !m.2 then (m.1, none) else (m.1, some (r.2 + PaddingSize))
    | none => (r.1, some (r.2 + PaddingSize))

end UnLua


namespace UnLua

/-! ## The override thunk (`LuaFunctionInjection.cpp`, `FunctionDesc.cpp`, `LuaCore.cpp`) -/

/-- What the name lookup of `PushFunction` reads from the script side, and the
integer-keyed part of the registry. -/
structure ScriptHeap where
  /-- The table stored in the registry under `ObjectMap`. -/
  ObjectMap : LuaValue
  /-- Result of `lua_rawget` for a table value and a key. -/
  RawGet : LuaValue → LuaValue → LuaValue
  /-- Result of `lua_getmetatable` for a value: its metatable, if it has one. -/
  GetMetatable : LuaValue → Option LuaValue
  /-- The values stored in the registry under integer references. -/
  Registry : Int → LuaValue
  /-- The last reference `luaL_ref` handed out; references are positive. -/
  LastRef : Nat
  /-- The value `PushUObject` pushes for an object. -/
  PushUObject : Nat → LuaValue

/-- Test `lua_isfunction` of a stack slot. -/
def lua_isfunction : Option LuaValue → Bool
  | some (LuaValue.function _) => true
  | some (LuaValue.cfunction _) => true
  | _ => false

/-- Test `lua_istable` of a stack slot. -/
def lua_istable : Option LuaValue → Bool
  | some (LuaValue.table _) => true
  | _ => false

/-- Raw read `lua_rawget(L, idx)`: the key on top is replaced by the value
stored under it in the table at `idx`. -/
def ScriptHeap.lua_rawget (H : ScriptHeap) (L : LuaStack) (idx : Int) : LuaStack :=
  let t := (lua_at L idx).getD LuaValue.nil
  let k := (lua_at L (-1)).getD LuaValue.nil
  lua_pop L 1 ++ [H.RawGet t k]

/-- Lookup `GetObjectMapping`: success and the stack, with the script instance
of the object (address `Object`, 0 for null) pushed on success. -/
def GetObjectMapping (H : ScriptHeap) (L : LuaStack) (Object : Nat) : Bool × LuaStack :=
  if Object = 0 then (false, L)
  else
    let L1 := L ++ [H.ObjectMap]
    let L2 := L1 ++ [LuaValue.lightuserdata Object]
    let L3 := H.lua_rawget L2 (-2)
    if lua_at L3 (-1) ≠ some LuaValue.nil then (true, lua_remove L3 (lua_absindex L3 (-2)))
    else (false, lua_pop L3 2)

/-- The `do ... while` loop of `PushFunction(L, Object, FunctionName)`, entered
with a table on top, above the instance and the error reporter; `fuel` bounds
the number of iterations (`none` when it is used up).  The result says
whether the function was found (the stack is then the one `luaL_ref` is
called on) and gives the stack. -/
def PushFunctionLoop (H : ScriptHeap) (FunctionName : String) :
    Nat → LuaStack → Option (Bool × LuaStack)
  | 0, _ => none
  | fuel + 1, L =>
    let L1 := L ++ [LuaValue.string FunctionName]
    let L2 := H.lua_rawget L1 (-2)
    if lua_isfunction (lua_at L2 (-1)) then
      let L3 := L2 ++ [(lua_at L2 (-3)).getD LuaValue.nil]
      let L4 := lua_remove L3 (lua_absindex L3 (-3))
      let L5 := lua_remove L4 (lua_absindex L4 (-3))
      let L6 := L5 ++ [(lua_at L5 (-2)).getD LuaValue.nil]
      some (true, L6)
    else
      let L3 := lua_pop L2 1
      let L4 := L3 ++ [LuaValue.string "Super"]
      let L5 := H.lua_rawget L4 (-2)
      let L6 := lua_remove L5 (lua_absindex L5 (-2))
      if lua_istable (lua_at L6 (-1)) then PushFunctionLoop H FunctionName fuel L6
      else some (false, L6)

/-- Pushes the error reporter, the script function found by name and the
script instance of the object, `PushFunction(L, Object, FunctionName)`: the
reference returned, the stack and the registry. -/
def PushFunctionByName (H : ScriptHeap) (fuel : Nat) (L : LuaStack) (Object : Nat)
    (FunctionName : String) : Option (Int × LuaStack × ScriptHeap) :=
  let N := L.length
  let L1 := L ++ [LuaValue.cfunction 0]
  let m := GetObjectMapping H L1 Object
  let found : Option (Bool × LuaStack) :=
    if m.1 then
      if lua_istable (lua_at m.2 (-1)) then
        match H.GetMetatable ((lua_at m.2 (-1)).getD LuaValue.nil) with
        | some mt => PushFunctionLoop H FunctionName fuel (m.2 ++ [mt])
        | none => some (false, m.2)
      else some (false, m.2)
    else some (false, m.2)
  match found with
  | none => none
  | some (true, L2) =>
    let v := (lua_at L2 (-1)).getD LuaValue.nil
    let ref : Int := (H.LastRef : Int) + 1
    some (ref, lua_pop L2 1,
      { H with Registry := Function.update H.Registry ref v, LastRef := H.LastRef + 1 })
  | some (false, L2) =>
    some (INDEX_NONE,
      if L2.length - N = 0 then L2 else lua_pop L2 ((L2.length : Int) - (N : Int)), H)

/-- One unit of the bytecode of a native call frame: a complete expression,
with the value it evaluates to, or a bare opcode. -/
inductive FCodeItem where
  | expr (v : Value)
  | opcode (b : Nat)
  deriving DecidableEq, Repr

/-- Engine opcode `EX_EndFunctionParms`. -/
def EX_EndFunctionParms : Nat := 0x16

/-- The native call frame `FFrame` as the thunk uses it: the function the
frame runs (`Node`), `CurrentNativeFunction` (0 for null), whether the thunk
of `Node` is `execCallLua`, the bytecode from the current position on, the
locals and the out-parameter chain; `Stepped` and `Skipped` record the calls of
`Step` (by the index of the parameter stepped) and the code `SkipCode` passed
over. -/
structure FFrame where
  Node : Nat
  CurrentNativeFunction : Nat
  NodeIsCallLua : Bool
  Code : List FCodeItem
  Locals : Nat → Value
  OutParms : List FOutParmRec
  Stepped : List Nat
  Skipped : List FCodeItem

namespace FFrame

/-- Evaluation `Stack.Step(Stack.Object, Result)` into slot `i` of a parameter
block: an expression is consumed and its value stored; a bare opcode at the
position of an expression is left in place and nothing is stored, as the
engine handler of `EX_EndFunctionParms` does. -/
def Step (S : FFrame) (i : Nat) (Mem : Nat → Value) : FFrame × (Nat → Value) :=
  match S.Code with
  | FCodeItem.expr v :: rest =>
    ({ S with Code := rest, Stepped := S.Stepped ++ [i] }, Function.update Mem i v)
  | _ => ({ S with Stepped := S.Stepped ++ [i] }, Mem)

/-- The code at the current position, `PeekCode`. -/
def PeekCode (S : FFrame) : Option FCodeItem := S.Code.head?

/-- Advance `SkipCode(1)`. -/
def SkipCode (S : FFrame) : FFrame :=
  { S with Code := S.Code.drop 1, Skipped := S.Skipped ++ S.Code.take 1 }

/-- The loop that steps every parameter of a function into its slot of a
parameter block, from parameter index `i` on. -/
def StepParams : FFrame → List FProperty → Nat → (Nat → Value) → FFrame × (Nat → Value)
  | S, [], _, Mem => (S, Mem)
  | S, _ :: rest, i, Mem =>
    let r := S.Step i Mem
    StepParams r.1 rest (i + 1) r.2

end FFrame

/-- What a call of the thunk works on: the descriptor registered for the
function, the script stack and heap, the native frame, the memory behind the
out-parameter records, the slot behind `RESULT_PARAM`, the contents of the
descriptor's persistent buffer and the contents of freshly allocated memory. -/
structure ThunkState where
  Desc : FFunctionDesc
  L : LuaStack
  Heap : ScriptHeap
  Stack : FFrame
  OutMem : Nat → Value
  RetValue : Value
  BufferMem : Nat → Value
  Malloc : Nat → Value

/-- The parameter unpacking of `CallLua`: the block chosen, its contents after
the parameters were stepped into it, the frame after `EX_EndFunctionParms` was
skipped and whether the `check` on that opcode held. -/
structure UnpackResult where
  Params : ParamsPtr
  Mem : Nat → Value
  Stack : FFrame
  ChecksHold : Bool

/-- The `bUnpackParams` part of `FFunctionDesc::CallLua` up to the call of
`CallLuaInternal`. -/
def FFunctionDesc.UnpackParams (D : FFunctionDesc) (Stack : FFrame)
    (BufferMem Malloc : Nat → Value) : UnpackResult :=
  let Params0 : ParamsPtr := if !D.bHasDelegateParams then D.Buffer else ParamsPtr.null
  let Params : ParamsPtr :=
    if Params0 = ParamsPtr.null then
      if D.Function.ParmsSize > 0 then ParamsPtr.heap else ParamsPtr.null
    else Params0
  let Mem0 := if Params = ParamsPtr.persistent then BufferMem else Malloc
  let st := Stack.StepParams D.Function.Parameters 0 Mem0
  { Params := Params, Mem := st.2, Stack := st.1.SkipCode,
    ChecksHold := st.1.PeekCode == some (FCodeItem.opcode EX_EndFunctionParms) }

/-- What `CallLua` leaves behind. -/
structure CallLuaReturn where
  bSuccess : Bool
  State : ThunkState
  /-- The block the parameters were unpacked into (null without unpacking). -/
  Params : ParamsPtr
  /-- Whether the block was released with `FMemory::Free`. -/
  Freed : Bool
  ChecksHold : Bool

/-- The part of `FFunctionDesc::CallLua` that follows the push of the script
function: `D1`, `L1` and `H1` are the descriptor, the script stack and the
script heap after the push, `bSuccess` its outcome. -/
def FFunctionDesc.CallLuaPushed (ops : PropertyOps) (Script : ScriptFunction) (S : ThunkState)
    (D1 : FFunctionDesc) (L1 : LuaStack) (H1 : ScriptHeap) (bSuccess bUnpackParams : Bool) :
    CallLuaReturn :=
  if bSuccess then
    if bUnpackParams then
      let u := D1.UnpackParams S.Stack S.BufferMem S.Malloc
      let r := CallLuaInternal ops Script D1 L1 ⟨u.Mem, S.OutMem, S.RetValue⟩ u.Stack.OutParms
      { bSuccess := r.bSuccess,
        State :=
          { Desc := D1, L := r.L, Heap := H1, Stack := u.Stack, OutMem := r.Frame.OutMem,
            RetValue := r.Frame.RetValue,
            BufferMem :=
              if u.Params = ParamsPtr.persistent then r.Frame.InParams else S.BufferMem,
            Malloc := S.Malloc },
        Params := u.Params,
        Freed := u.Params != ParamsPtr.null && D1.bHasDelegateParams,
        ChecksHold := u.ChecksHold }
    else
      let r := CallLuaInternal ops Script D1 L1 ⟨S.Stack.Locals, S.OutMem, S.RetValue⟩
        S.Stack.OutParms
      let Stack1 : FFrame := { S.Stack with Locals := r.Frame.InParams }
      { bSuccess := r.bSuccess,
        State :=
          { Desc := D1, L := r.L, Heap := H1, Stack := Stack1, OutMem := r.Frame.OutMem,
            RetValue := r.Frame.RetValue, BufferMem := S.BufferMem, Malloc := S.Malloc },
        Params := ParamsPtr.null, Freed := false, ChecksHold := true }
  else
    { bSuccess := false, State := { S with Desc := D1, L := L1, Heap := H1 },
      Params := ParamsPtr.null, Freed := false, ChecksHold := true }

/-- Override call `FFunctionDesc::CallLua` on the object at `Context`; `none`
when the name lookup does not end within `fuel` iterations. -/
def FFunctionDesc.CallLua (ops : PropertyOps) (Script : ScriptFunction) (fuel : Nat)
    (S : ThunkState) (Context : Nat) (bUnpackParams : Bool) : Option CallLuaReturn :=
  let D := S.Desc
  if D.FunctionRef ≠ INDEX_NONE then
    let r := PushFunction S.Heap.Registry S.L (S.Heap.PushUObject Context) D.FunctionRef
    some (D.CallLuaPushed ops Script S r.2 S.Heap r.1 bUnpackParams)
  else
    let bRpcCall := D.Function.FUNC_Net
    match PushFunctionByName S.Heap fuel S.L Context
        (if bRpcCall then D.FuncName ++ "_RPC" else D.FuncName) with
    | none => none
    | some r =>
      some (FFunctionDesc.CallLuaPushed ops Script S { D with FunctionRef := r.1 } r.2.1 r.2.2
        (decide (r.1 ≠ INDEX_NONE)) bUnpackParams)

/-- The thunk `FLuaInvoker::execCallLua` (the build that looks the descriptor
up in the registry: `S.Desc` is the descriptor registered for the function the
thunk settles on). -/
def execCallLua (ops : PropertyOps) (Script : ScriptFunction) (fuel : Nat) (S : ThunkState)
    (Context : Nat) : Option CallLuaReturn :=
  let Stack := S.Stack
  let sel : Bool × FFrame × Bool :=
    if Stack.CurrentNativeFunction ≠ 0 then
      if Stack.Node ≠ Stack.CurrentNativeFunction then (true, Stack, true)
      else if Stack.NodeIsCallLua then
        (false, Stack.SkipCode, Stack.PeekCode == some (FCodeItem.opcode EX_CallLua))
      else (false, Stack, true)
    else (false, Stack, true)
  let bUnpackParams := sel.1
  match FFunctionDesc.CallLua ops Script fuel { S with Stack := sel.2.1 } Context bUnpackParams with
  | none => none
  | some r =>
    if !r.bSuccess && bUnpackParams then
      let st := r.State.Stack.StepParams r.State.Desc.Function.Parameters 0 S.Malloc
      some { r with State := { r.State with Stack := st.1.SkipCode },
                    ChecksHold := r.ChecksHold && sel.2.2 }
    else some { r with ChecksHold := r.ChecksHold && sel.2.2 }

/-- A frame entered from the native thunk of function 7 while function 5 runs:
the argument expression 30, `EX_EndFunctionParms`, then the code of the
caller that follows the call (an expression and `EX_Return`). -/
def exampleThunkFrame : FFrame :=
  { Node := 5, CurrentNativeFunction := 7, NodeIsCallLua := false,
    Code := [FCodeItem.expr 30, FCodeItem.opcode EX_EndFunctionParms, FCodeItem.expr 77,
      FCodeItem.opcode EX_Return],
    Locals := fun _ => 0, OutParms := [], Stepped := [], Skipped := [] }

/-- A script heap without script instances, holding one script function under
reference 1. -/
def exampleHeap : ScriptHeap :=
  { ObjectMap := LuaValue.table 0, RawGet := fun _ _ => LuaValue.nil,
    GetMetatable := fun _ => none, Registry := exampleRegistry, LastRef := 1,
    PushUObject := fun p => LuaValue.userdata p }

/-- The thunk state of a call of `OnHit` through the descriptor built with
the function reference `ref`. -/
def exampleThunkState (ref : Int) : ThunkState :=
  { Desc := FFunctionDesc.ctor onHitFunction none ref, L := [LuaValue.number 1],
    Heap := exampleHeap, Stack := exampleThunkFrame, OutMem := fun _ => 0, RetValue := 0,
    BufferMem := fun _ => 0, Malloc := fun _ => 0 }

end UnLua

namespace UnLua

/-- The lookup loop of `PushFunction(L, Object, FunctionName)`, entered on
the table `t`, ends within `fuel` iterations: some table of the `Super` chain
from `t` on holds a function under the name, or has no table under `Super`. -/
def ScriptHeap.LookupEnds (H : ScriptHeap) (FunctionName : String) : Nat → LuaValue → Bool
  | 0, _ => false
  | fuel + 1, t =>
    lua_isfunction (some (H.RawGet t (LuaValue.string FunctionName)))
      || !lua_istable (some (H.RawGet t (LuaValue.string "Super")))
      || H.LookupEnds FunctionName fuel (H.RawGet t (LuaValue.string "Super"))

/-- The name lookup for the object ends within `fuel` iterations of its loop
(at once when the object has no script instance with a metatable). -/
def ScriptHeap.NameLookupEnds (H : ScriptHeap) (fuel : Nat) (Object : Nat)
    (FunctionName : String) : Bool :=
  match H.GetMetatable (H.RawGet H.ObjectMap (LuaValue.lightuserdata Object)) with
  | some mt =>
    decide (Object = 0)
      || !lua_istable (some (H.RawGet H.ObjectMap (LuaValue.lightuserdata Object)))
      || H.LookupEnds FunctionName fuel mt
  | none => true

/-- The name `CallLua` looks up when the descriptor holds no reference. -/
def FFunctionDesc.LookupName (D : FFunctionDesc) : String :=
  if D.Function.FUNC_Net then D.FuncName ++ "_RPC" else D.FuncName

/-- A script heap in which object 9 has the script instance table 1, whose
metatable (table 2) has no `OnHit` but the `Super` table 3, which holds the
script function 4 under `OnHit`. -/
def exampleBoundHeap : ScriptHeap :=
  { ObjectMap := LuaValue.table 0,
    RawGet := fun t k =>
      if t = LuaValue.table 0 ∧ k = LuaValue.lightuserdata 9 then LuaValue.table 1
      else if t = LuaValue.table 2 ∧ k = LuaValue.string "Super" then LuaValue.table 3
      else if t = LuaValue.table 3 ∧ k = LuaValue.string "OnHit" then LuaValue.function 4
      else LuaValue.nil,
    GetMetatable := fun v => if v = LuaValue.table 1 then some (LuaValue.table 2) else none,
    Registry := exampleRegistry, LastRef := 1,
    PushUObject := fun p => LuaValue.userdata p }

/-- The frame of a second call of `OnHit`, with the argument expression 99,
made through the native thunk while the first call is still running. -/
def exampleInnerFrame : FFrame :=
  { exampleThunkFrame with
    Code := [FCodeItem.expr 99, FCodeItem.opcode EX_EndFunctionParms, FCodeItem.expr 78,
      FCodeItem.opcode EX_Return] }

end UnLua


namespace UnLua

/-- A script heap whose registry holds a C function under reference 3. -/
def exampleNativeHeap : ScriptHeap :=
  { exampleHeap with
    Registry := fun r => if r = 3 then LuaValue.cfunction 5 else LuaValue.nil }

end UnLua

/-! # Theorems -/

namespace UnLua

/-! ## Bit-field boolean property -/

namespace FExportedBitFieldBoolProperty

lemma testBit_false_of_lt_256 {m i : Nat} (hm : m < 256) (hi : 8 ≤ i) : m.testBit i = false := by
  apply Nat.testBit_lt_two_pow
  calc m < 2 ^ 8 := by simpa using hm
    _ ≤ 2 ^ i := Nat.pow_le_pow_right (by decide) hi

lemma WriteByte_testBit (m b : Nat) (V : Bool) (i : Nat) (hm : m < 256) :
    (WriteByte m b V).testBit i
      = (decide (i < 8) && ((b.testBit i && !m.testBit i) || (V && m.testBit i))) := by
  have h32 : m < 2 ^ 32 := lt_trans hm (by norm_num)
  have e1 : (2 ^ 32 - 1 - m) % 2 ^ 32 = 2 ^ 32 - (m + 1) := by
    rw [Nat.mod_eq_of_lt] <;> omega
  have e2 : (256 : Nat) = 2 ^ 8 := by norm_num
  unfold WriteByte
  rw [e1, e2, Nat.testBit_mod_two_pow, Nat.testBit_or, Nat.testBit_and,
    Nat.testBit_two_pow_sub_succ h32]
  by_cases hi : i < 8
  · have hi32 : i < 32 := by omega
    cases V <;> simp [hi, hi32]
  · simp [hi]

lemma WriteByte_lt (m b : Nat) (V : Bool) : WriteByte m b V < 256 := by
  unfold WriteByte
  exact Nat.mod_lt _ (by decide)

lemma ReadByte_WriteByte (m b : Nat) (V : Bool) (hm : m < 256) (h0 : m ≠ 0) :
    ReadByte m (WriteByte m b V) = V := by
  unfold ReadByte
  cases V
  · have hz : WriteByte m b false &&& m = 0 := by
      apply Nat.eq_of_testBit_eq
      intro i
      rw [Nat.testBit_and, WriteByte_testBit m b false i hm]
      cases h : m.testBit i <;> simp
    simp [hz]
  · have hz : WriteByte m b true &&& m = m := by
      apply Nat.eq_of_testBit_eq
      intro i
      rw [Nat.testBit_and, WriteByte_testBit m b true i hm]
      by_cases hi : i < 8
      · cases h : m.testBit i <;> simp [hi]
      · have := testBit_false_of_lt_256 (i := i) hm (by omega)
        simp [this]
    simp [hz, h0]

end FExportedBitFieldBoolProperty

/-- C6: for a bit-field boolean property with a non-zero `uint8` mask, any
container and any boolean `V`, `Read` after `Write V` yields `V`; the written
byte is again a byte, it agrees with the old byte on every bit outside the
mask, and no other byte of the container changes. -/
theorem bitfield_write_read_roundtrip (P : FExportedBitFieldBoolProperty)
    (ContainerPtr : Nat → Nat) (V : Bool)
    (hMask : P.Mask < 256) (hNonZero : P.Mask ≠ 0) :
    P.Read (P.Write ContainerPtr V) = V
    ∧ P.Write ContainerPtr V P.Offset < 256
    ∧ (∀ i, i < 8 → P.Mask.testBit i = false →
        (P.Write ContainerPtr V P.Offset).testBit i = (ContainerPtr P.Offset).testBit i)
    ∧ (∀ a, a ≠ P.Offset → P.Write ContainerPtr V a = ContainerPtr a) := by
  refine ⟨?_, ?_, ?_, ?_⟩
  · simp only [FExportedBitFieldBoolProperty.Read, FExportedBitFieldBoolProperty.Write,
      Function.update_same]
    exact FExportedBitFieldBoolProperty.ReadByte_WriteByte _ _ _ hMask hNonZero
  · simp only [FExportedBitFieldBoolProperty.Write, Function.update_same]
    exact FExportedBitFieldBoolProperty.WriteByte_lt _ _ _
  · intro i hi hbit
    simp only [FExportedBitFieldBoolProperty.Write, Function.update_same]
    rw [FExportedBitFieldBoolProperty.WriteByte_testBit _ _ _ _ hMask]
    simp [hi, hbit]
  · intro a ha
    simp [FExportedBitFieldBoolProperty.Write, Function.update_noteq ha]

/-- C6 at a concrete property: mask `0x04` at offset 1, container byte
`0xFB`, writing `true`. -/
theorem bitfield_write_read_roundtrip_witness :
    (4 < 256 ∧ 4 ≠ 0)
    ∧ (FExportedBitFieldBoolProperty.mk 1 4).Read
        ((FExportedBitFieldBoolProperty.mk 1 4).Write (fun _ => 251) true) = true :=
  ⟨⟨by decide, by decide⟩,
    (bitfield_write_read_roundtrip ⟨1, 4⟩ (fun _ => 251) true (by decide) (by decide)).1⟩

end UnLua

namespace UnLua

/-! ## Function descriptor construction -/

namespace FFunctionDesc

lemma ctorStep_Properties (D : FFunctionDesc) (P : FProperty) :
    (ctorStep D P).Properties = D.Properties ++ [FPropertyDesc.Create P] := by
  simp only [ctorStep]
  split_ifs <;> rfl

lemma ctorStep_Out (D : FFunctionDesc) (P : FProperty) :
    ((ctorStep D P).OutPropertyIndices = D.OutPropertyIndices
      ∧ (ctorStep D P).ReturnPropertyIndex
          = if P.CPF_ReturnParm then (D.Properties.length : Int) else D.ReturnPropertyIndex)
    ∨ ((ctorStep D P).OutPropertyIndices = D.OutPropertyIndices ++ [D.Properties.length]
        ∧ (ctorStep D P).ReturnPropertyIndex = D.ReturnPropertyIndex
        ∧ P.CPF_ReturnParm = false
        ∧ (P.CPF_OutParm = true ∨ P.CPF_ReferenceParm = true) ∧ P.CPF_ConstParm = false) := by
  simp only [ctorStep, FPropertyDesc.IsReturnParameter, FPropertyDesc.Create]
  split_ifs <;> simp_all

lemma ctorStep_flags (D : FFunctionDesc) (P : FProperty) :
    (ctorStep D P).bStaticFunc = D.bStaticFunc ∧ (ctorStep D P).bInterfaceFunc = D.bInterfaceFunc
      ∧ (ctorStep D P).NumCalls = D.NumCalls := by
  simp only [ctorStep]
  split_ifs <;> simp

lemma ctorStep_WellFormed (D : FFunctionDesc) (P : FProperty) (h : D.WellFormed) :
    (ctorStep D P).WellFormed := by
  obtain ⟨hout, hsorted, hret⟩ := h
  have hP := ctorStep_Properties D P
  have hlt : ∀ x ∈ D.OutPropertyIndices, x < D.Properties.length := by
    intro x hx
    obtain ⟨Q, hQ, _⟩ := hout x hx
    exact (List.get?_eq_some.mp hQ).1
  have hkeep : ∀ x ∈ D.OutPropertyIndices,
      ∃ Q, (D.Properties ++ [FPropertyDesc.Create P]).get? x = some Q
        ∧ Q.IsReturnParameter = false
        ∧ (Q.Property.CPF_OutParm = true ∨ Q.Property.CPF_ReferenceParm = true)
        ∧ Q.Property.CPF_ConstParm = false := by
    intro x hx
    obtain ⟨Q, hQ, hQ2⟩ := hout x hx
    refine ⟨Q, ?_, hQ2⟩
    rw [List.get?_eq_getElem?, List.getElem?_append_left (hlt x hx), ← List.get?_eq_getElem?]
    exact hQ
  have hnew : (D.Properties ++ [FPropertyDesc.Create P]).get? D.Properties.length
      = some (FPropertyDesc.Create P) := by
    simp
  have hretCase : ∀ idx : Int,
      idx = (if P.CPF_ReturnParm then (D.Properties.length : Int) else D.ReturnPropertyIndex) →
      ((idx = INDEX_NONE
          ∧ ∀ Q ∈ D.Properties ++ [FPropertyDesc.Create P], Q.IsReturnParameter = false)
        ∨ ∃ Q, 0 ≤ idx ∧ (D.Properties ++ [FPropertyDesc.Create P]).get? idx.toNat = some Q
            ∧ Q.IsReturnParameter = true) := by
    intro idx hidx
    by_cases hr : P.CPF_ReturnParm = true
    · right
      rw [if_pos hr] at hidx
      subst hidx
      refine ⟨FPropertyDesc.Create P, by omega, ?_, hr⟩
      simp
    · rw [if_neg hr] at hidx
      subst hidx
      rcases hret with ⟨h1, h2⟩ | ⟨Q, h0, hQ, hQr⟩
      · left
        refine ⟨h1, ?_⟩
        intro Q hQ
        rcases List.mem_append.mp hQ with hQ | hQ
        · exact h2 Q hQ
        · simp only [List.mem_singleton] at hQ
          subst hQ
          simpa [FPropertyDesc.IsReturnParameter, FPropertyDesc.Create] using hr
      · right
        refine ⟨Q, h0, ?_, hQr⟩
        rw [List.get?_eq_getElem?, List.getElem?_append_left (List.get?_eq_some.mp hQ).1,
          ← List.get?_eq_getElem?]
        exact hQ
  rcases ctorStep_Out D P with ⟨ho, hr⟩ | ⟨ho, hr, hnr, hflag, hconst⟩
  · refine ⟨?_, ?_, ?_⟩
    · rw [ho, hP]; exact hkeep
    · rw [ho]; exact hsorted
    · rw [hP]; exact hretCase _ hr
  · refine ⟨?_, ?_, ?_⟩
    · rw [ho, hP]
      intro x hx
      rcases List.mem_append.mp hx with hx | hx
      · exact hkeep x hx
      · simp only [List.mem_singleton] at hx
        subst hx
        exact ⟨FPropertyDesc.Create P, hnew, hnr, hflag, hconst⟩
    · rw [ho, List.pairwise_append]
      refine ⟨hsorted, List.pairwise_singleton _ _, ?_⟩
      intro a ha b hb
      simp only [List.mem_singleton] at hb
      subst hb
      exact hlt a ha
    · rw [hP]
      apply hretCase
      rw [hr, hnr]
      simp

lemma foldl_ctorStep_WellFormed (l : List FProperty) (D : FFunctionDesc) (h : D.WellFormed) :
    (l.foldl ctorStep D).WellFormed := by
  induction l generalizing D with
  | nil => exact h
  | cons P rest ih => exact ih _ (ctorStep_WellFormed D P h)

lemma foldl_ctorStep_Properties (l : List FProperty) (D : FFunctionDesc) :
    (l.foldl ctorStep D).Properties = D.Properties ++ l.map FPropertyDesc.Create := by
  induction l generalizing D with
  | nil => simp
  | cons P rest ih => simp [ih, ctorStep_Properties]

lemma ctorInit_WellFormed (F : UFunction) (dp : Option FParameterCollection) (ref : Int) :
    (ctorInit F dp ref).WellFormed := by
  refine ⟨?_, ?_, ?_⟩
  · intro x hx; simp [ctorInit] at hx
  · simp [ctorInit]
  · left; simp [ctorInit]

lemma ctor_WellFormed (F : UFunction) (dp : Option FParameterCollection) (ref : Int) :
    (ctor F dp ref).WellFormed :=
  foldl_ctorStep_WellFormed _ _ (ctorInit_WellFormed F dp ref)

lemma ctor_Properties (F : UFunction) (dp : Option FParameterCollection) (ref : Int) :
    (ctor F dp ref).Properties
      = (F.ChildProperties.takeWhile (fun P => P.CPF_Parm)).map FPropertyDesc.Create := by
  simp [ctor, foldl_ctorStep_Properties, ctorInit]

end FFunctionDesc

end UnLua

namespace UnLua

/-! ## Script-to-native calls: what `PostCall` pushes -/

lemma PostCallOutLoop_sublist (ops : PropertyOps) (D : FFunctionDesc)
    (NumParams FirstParamIndex : Int) (Mem : Nat → Value) (idxs : List Nat) (L : LuaStack) :
    List.Sublist ((PostCallOutLoop ops D NumParams FirstParamIndex Mem idxs L).map
      PushedValue.Index) idxs := by
  induction idxs generalizing L with
  | nil => simp [PostCallOutLoop]
  | cons Index rest ih =>
    simp only [PostCallOutLoop]
    split_ifs
    · simp only [List.map_cons]
      exact List.Sublist.cons₂ _ (ih _)
    · exact List.Sublist.cons _ (ih _)

lemma PostCallOutLoop_val (ops : PropertyOps) (D : FFunctionDesc)
    (NumParams FirstParamIndex : Int) (Mem : Nat → Value) (idxs : List Nat) (L : LuaStack) :
    ∀ p ∈ PostCallOutLoop ops D NumParams FirstParamIndex Mem idxs L,
      p.Val = ops.GetValueInternal (D.Properties.getD p.Index default).Property
        (Mem p.Index) true := by
  induction idxs generalizing L with
  | nil => simp [PostCallOutLoop]
  | cons Index rest ih =>
    simp only [PostCallOutLoop]
    split_ifs
    · intro p hp
      rcases List.mem_cons.mp hp with hp | hp
      · subst hp; rfl
      · exact ih _ p hp
    · exact ih _

lemma PostCallOutLoop_mem_of_ge (ops : PropertyOps) (D : FFunctionDesc)
    (NumParams FirstParamIndex : Int) (Mem : Nat → Value) (idxs : List Nat) (L : LuaStack) :
    ∀ Index ∈ idxs, NumParams ≤ (Index : Int) →
      Index ∈ (PostCallOutLoop ops D NumParams FirstParamIndex Mem idxs L).map
        PushedValue.Index := by
  induction idxs generalizing L with
  | nil => simp
  | cons Index rest ih =>
    intro x hx hge
    simp only [PostCallOutLoop]
    rcases List.mem_cons.mp hx with hx | hx
    · subst hx
      have : decide ((x : Int) ≥ NumParams) = true := by simpa using hge
      simp [this]
    · split_ifs
      · simp only [List.map_cons, List.mem_cons]
        exact Or.inr (ih _ x hx hge)
      · exact ih _ x hx hge

lemma PostCallOutLoop_all (ops : PropertyOps) (D : FFunctionDesc)
    (NumParams FirstParamIndex : Int) (Mem : Nat → Value) (idxs : List Nat) (L : LuaStack)
    (h : ∀ Index ∈ idxs, (Index : Int) < NumParams →
      ∀ v a, ops.CopyBackToStack (D.Properties.getD Index default).Property v a = false) :
    (PostCallOutLoop ops D NumParams FirstParamIndex Mem idxs L).map PushedValue.Index = idxs := by
  induction idxs generalizing L with
  | nil => simp [PostCallOutLoop]
  | cons Index rest ih =>
    have hrest : ∀ Index ∈ rest, (Index : Int) < NumParams →
        ∀ v a, ops.CopyBackToStack (D.Properties.getD Index default).Property v a = false :=
      fun x hx => h x (List.mem_cons_of_mem _ hx)
    simp only [PostCallOutLoop]
    by_cases hge : NumParams ≤ (Index : Int)
    · have : decide ((Index : Int) ≥ NumParams) = true := by simpa using hge
      simp [this, ih _ hrest]
    · have hc := h Index (List.mem_cons_self _ _) (by omega) (Mem Index)
        (lua_at L (FirstParamIndex + (Index : Int)))
      rw [hc]
      simp [ih _ hrest]

lemma PostCallReturn_length (ops : PropertyOps) (D : FFunctionDesc) (L : LuaStack)
    (FirstParamIndex : Int) (Mem : Nat → Value) (CleanupFlags : Nat → Bool) :
    (PostCallReturn ops D L FirstParamIndex Mem CleanupFlags).1.length
      = if D.HasReturnProperty then 1 else 0 := by
  simp only [PostCallReturn, FFunctionDesc.HasReturnProperty]
  by_cases h : D.ReturnPropertyIndex > INDEX_NONE
  · simp only [h, if_true, decide_True]
    split_ifs <;> rfl
  · simp [h]

lemma PostCallReturn_index (ops : PropertyOps) (D : FFunctionDesc) (L : LuaStack)
    (FirstParamIndex : Int) (Mem : Nat → Value) (CleanupFlags : Nat → Bool) :
    (PostCallReturn ops D L FirstParamIndex Mem CleanupFlags).1.map PushedValue.Index
      = if D.HasReturnProperty then [D.ReturnPropertyIndex.toNat] else [] := by
  simp only [PostCallReturn, FFunctionDesc.HasReturnProperty]
  by_cases h : D.ReturnPropertyIndex > INDEX_NONE
  · simp only [h, if_true, decide_True]
    split_ifs <;> rfl
  · simp [h]

end UnLua

namespace UnLua

lemma PostCall_count (ops : PropertyOps) (D : FFunctionDesc) (L : LuaStack)
    (NumParams FirstParamIndex : Int) (Params : ParamsPtr) (Mem : Nat → Value)
    (CleanupFlags : Nat → Bool) :
    (PostCall ops D L NumParams FirstParamIndex Params Mem CleanupFlags).NumReturnValues
        = ((PostCall ops D L NumParams FirstParamIndex Params Mem CleanupFlags).Pushed.length : Int)
    ∧ (PostCall ops D L NumParams FirstParamIndex Params Mem CleanupFlags).L
        = L ++ (PostCall ops D L NumParams FirstParamIndex Params Mem CleanupFlags).Pushed.map
            PushedValue.Val
    ∧ (PostCall ops D L NumParams FirstParamIndex Params Mem CleanupFlags).NumReturnValues
        ≤ (D.OutPropertyIndices.length : Int) + (if D.HasReturnProperty then 1 else 0)
    ∧ ((∀ Index ∈ D.OutPropertyIndices, (Index : Int) < NumParams →
          ∀ v a, ops.CopyBackToStack (D.Properties.getD Index default).Property v a = false) →
        (PostCall ops D L NumParams FirstParamIndex Params Mem CleanupFlags).NumReturnValues
          = (D.OutPropertyIndices.length : Int) + (if D.HasReturnProperty then 1 else 0)) := by
  have hsub := (PostCallOutLoop_sublist ops D NumParams FirstParamIndex Mem
    D.OutPropertyIndices L).length_le
  rw [List.length_map] at hsub
  simp only [PostCall, List.length_append, List.map_append, List.append_assoc,
    PostCallReturn_length]
  refine ⟨?_, trivial, ?_, ?_⟩
  · push_cast; rfl
  · split_ifs <;> push_cast <;> omega
  · intro h
    have hlen := congrArg List.length
      (PostCallOutLoop_all ops D NumParams FirstParamIndex Mem D.OutPropertyIndices L h)
    rw [List.length_map] at hlen
    rw [hlen]
    split_ifs <;> simp

lemma CallUE_eq_PostCall (ops : PropertyOps) (env : CallEnv) (D : FFunctionDesc)
    (L : LuaStack) (NumParams : Int)
    (hValid : env.TargetValid = true)
    (hFound : D.bInterfaceFunc = true → env.FinalFunctionFound = true) :
    (CallUE ops env D L NumParams).Completed = true
    ∧ (CallUE ops env D L NumParams).NumReturnValues
        = (PostCall ops { D with NumCalls := (D.NumCalls + 1) % 256 } L
            (if D.bStaticFunc then NumParams else NumParams - 1) (if D.bStaticFunc then 1 else 2)
            (PreCall ops D L (if D.bStaticFunc then NumParams else NumParams - 1)
              (if D.bStaticFunc then 1 else 2) (fun _ => false) env.ThreadRef env.Mem0).Params
            (env.Invoke (PreCall ops D L (if D.bStaticFunc then NumParams else NumParams - 1)
              (if D.bStaticFunc then 1 else 2) (fun _ => false) env.ThreadRef env.Mem0).Mem)
            (PreCall ops D L (if D.bStaticFunc then NumParams else NumParams - 1)
              (if D.bStaticFunc then 1 else 2) (fun _ => false) env.ThreadRef
              env.Mem0).CleanupFlags).NumReturnValues
    ∧ (CallUE ops env D L NumParams).L
        = (PostCall ops { D with NumCalls := (D.NumCalls + 1) % 256 } L
            (if D.bStaticFunc then NumParams else NumParams - 1) (if D.bStaticFunc then 1 else 2)
            (PreCall ops D L (if D.bStaticFunc then NumParams else NumParams - 1)
              (if D.bStaticFunc then 1 else 2) (fun _ => false) env.ThreadRef env.Mem0).Params
            (env.Invoke (PreCall ops D L (if D.bStaticFunc then NumParams else NumParams - 1)
              (if D.bStaticFunc then 1 else 2) (fun _ => false) env.ThreadRef env.Mem0).Mem)
            (PreCall ops D L (if D.bStaticFunc then NumParams else NumParams - 1)
              (if D.bStaticFunc then 1 else 2) (fun _ => false) env.ThreadRef
              env.Mem0).CleanupFlags).L
    ∧ (CallUE ops env D L NumParams).Pushed
        = (PostCall ops { D with NumCalls := (D.NumCalls + 1) % 256 } L
            (if D.bStaticFunc then NumParams else NumParams - 1) (if D.bStaticFunc then 1 else 2)
            (PreCall ops D L (if D.bStaticFunc then NumParams else NumParams - 1)
              (if D.bStaticFunc then 1 else 2) (fun _ => false) env.ThreadRef env.Mem0).Params
            (env.Invoke (PreCall ops D L (if D.bStaticFunc then NumParams else NumParams - 1)
              (if D.bStaticFunc then 1 else 2) (fun _ => false) env.ThreadRef env.Mem0).Mem)
            (PreCall ops D L (if D.bStaticFunc then NumParams else NumParams - 1)
              (if D.bStaticFunc then 1 else 2) (fun _ => false) env.ThreadRef
              env.Mem0).CleanupFlags).Pushed := by
  have hgo : (D.bInterfaceFunc && !env.FinalFunctionFound) = false := by
    cases hb : D.bInterfaceFunc
    · rfl
    · simp [hFound hb]
  simp only [CallUE, hValid, hgo, Bool.not_true, Bool.false_eq_true, if_false]
  exact ⟨trivial, rfl, rfl, rfl⟩

/-- C1 (as amended): when the target object is valid and, for an interface
function, the function is found on the target, `CallUE` reaches `PostCall` and
returns the number of values it pushed on the script stack.  That number is at
most M (+1 with a return parameter), M being the number of non-const reference
parameters, and it is exactly M (+1) when no output parameter positioned below
the number of supplied arguments is copied back in place by its `CopyBack`
override (so always with the base-class `CopyBack`, and always when every
output parameter is declared after the supplied arguments). -/
theorem CallUE_return_count (ops : PropertyOps) (env : CallEnv) (D : FFunctionDesc)
    (L : LuaStack) (NumParams : Int)
    (hValid : env.TargetValid = true)
    (hFound : D.bInterfaceFunc = true → env.FinalFunctionFound = true) :
    (CallUE ops env D L NumParams).Completed = true
    ∧ (CallUE ops env D L NumParams).NumReturnValues
        = ((CallUE ops env D L NumParams).Pushed.length : Int)
    ∧ (CallUE ops env D L NumParams).L
        = L ++ (CallUE ops env D L NumParams).Pushed.map PushedValue.Val
    ∧ (CallUE ops env D L NumParams).NumReturnValues
        ≤ (D.OutPropertyIndices.length : Int) + (if D.HasReturnProperty then 1 else 0)
    ∧ ((∀ Index ∈ D.OutPropertyIndices,
          (Index : Int) < (if D.bStaticFunc then NumParams else NumParams - 1) →
          ∀ v a, ops.CopyBackToStack (D.Properties.getD Index default).Property v a = false) →
        (CallUE ops env D L NumParams).NumReturnValues
          = (D.OutPropertyIndices.length : Int) + (if D.HasReturnProperty then 1 else 0)) := by
  obtain ⟨hc, hn, hl, hp⟩ := CallUE_eq_PostCall ops env D L NumParams hValid hFound
  rw [hc, hn, hl, hp]
  exact ⟨rfl, PostCall_count ops { D with NumCalls := (D.NumCalls + 1) % 256 } L _ _ _ _ _⟩

/-- C1 at `int32 Measure(int32 A, int32 B, int32& Out)` called with the target
and two arguments: one output and the return value, two values. -/
theorem CallUE_return_count_witness :
    exampleEnv.TargetValid = true
    ∧ (CallUE exampleOps exampleEnv (FFunctionDesc.ctor measureFunction none INDEX_NONE)
        [LuaValue.userdata 1, LuaValue.number 2, LuaValue.number 5] 3).NumReturnValues = 2 := by
  refine ⟨rfl, ?_⟩
  have hOut : (FFunctionDesc.ctor measureFunction none INDEX_NONE).OutPropertyIndices = [2] := by
    decide
  have h := (CallUE_return_count exampleOps exampleEnv
      (FFunctionDesc.ctor measureFunction none INDEX_NONE)
      [LuaValue.userdata 1, LuaValue.number 2, LuaValue.number 5] 3 rfl (fun _ => rfl)).2.2.2.2
    (by
      intro Index hI hlt
      rw [hOut, List.mem_singleton] at hI
      subst hI
      exact absurd hlt (by decide))
  rw [h, hOut]
  decide

/-- C1 fails as stated: `void FillArray(TArray<int32>& Items, int32 Count)` has
one input and one output parameter and no return value; called on a valid
target with exactly one argument (a script array, which lands on `Items`),
`CallUE` copies the array back in place and returns 0 values, not 1. -/
theorem CallUE_return_count_counterexample :
    (FFunctionDesc.ctor fillArrayFunction none INDEX_NONE).Properties.length = 2
    ∧ (FFunctionDesc.ctor fillArrayFunction none INDEX_NONE).OutPropertyIndices.length = 1
    ∧ (FFunctionDesc.ctor fillArrayFunction none INDEX_NONE).HasReturnProperty = false
    ∧ exampleEnv.TargetValid = true
    ∧ (CallUE exampleOps exampleEnv (FFunctionDesc.ctor fillArrayFunction none INDEX_NONE)
        [LuaValue.userdata 1, LuaValue.userdata 2] 2).Completed = true
    ∧ (CallUE exampleOps exampleEnv (FFunctionDesc.ctor fillArrayFunction none INDEX_NONE)
        [LuaValue.userdata 1, LuaValue.userdata 2] 2).NumReturnValues = 0
    ∧ (CallUE exampleOps exampleEnv (FFunctionDesc.ctor fillArrayFunction none INDEX_NONE)
        [LuaValue.userdata 1, LuaValue.userdata 2] 2).NumReturnValues
        ≠ ((FFunctionDesc.ctor fillArrayFunction none INDEX_NONE).OutPropertyIndices.length : Int) := by
  decide

/-- The value `PostCall` pushes for the return parameter: the content of the
return slot when the slot is flagged for clean-up (the script supplied no
value for it), otherwise the script value at the return position of the
stack, after the copy-back into it. -/
lemma PostCallReturn_value (ops : PropertyOps) (D : FFunctionDesc) (L : LuaStack)
    (FirstParamIndex : Int) (Mem : Nat → Value) (CleanupFlags : Nat → Bool) :
    (PostCallReturn ops D L FirstParamIndex Mem CleanupFlags).1
      = if D.HasReturnProperty then
          [⟨D.ReturnPropertyIndex.toNat,
            if CleanupFlags D.ReturnPropertyIndex.toNat then
              ops.GetValueInternal
                (D.Properties.getD D.ReturnPropertyIndex.toNat default).Property
                (Mem D.ReturnPropertyIndex.toNat) true
            else (lua_at L (FirstParamIndex + D.ReturnPropertyIndex)).getD LuaValue.nil⟩]
        else [] := by
  simp only [PostCallReturn, FFunctionDesc.HasReturnProperty]
  by_cases h : D.ReturnPropertyIndex > INDEX_NONE
  · simp only [h, if_true, decide_True]
    cases hc : CleanupFlags D.ReturnPropertyIndex.toNat <;> simp
  · simp [h]

/-- C2: for a descriptor built by the constructor, the output indices are
strictly increasing, and `PostCall` pushes first values of output parameters,
in strictly increasing declared order (each the value of its own slot, and at
least every output parameter at or beyond the supplied argument count), and
after all of them, when the function has a return parameter, the return
value: the content of the return slot, or, when the script supplied a value
at the return position, that value after the copy-back into it; the stack
grows by exactly these values. -/
theorem PostCall_push_order (ops : PropertyOps) (F : UFunction)
    (dp : Option FParameterCollection) (ref : Int) (L : LuaStack)
    (NumParams FirstParamIndex : Int) (Params : ParamsPtr) (Mem : Nat → Value)
    (CleanupFlags : Nat → Bool) :
    ∃ outs ret : List PushedValue,
      (PostCall ops (FFunctionDesc.ctor F dp ref) L NumParams FirstParamIndex Params Mem
          CleanupFlags).Pushed = outs ++ ret
      ∧ (PostCall ops (FFunctionDesc.ctor F dp ref) L NumParams FirstParamIndex Params Mem
          CleanupFlags).L = L ++ (outs ++ ret).map PushedValue.Val
      ∧ (FFunctionDesc.ctor F dp ref).OutPropertyIndices.Pairwise (fun a b => a < b)
      ∧ List.Sublist (outs.map PushedValue.Index) (FFunctionDesc.ctor F dp ref).OutPropertyIndices
      ∧ (outs.map PushedValue.Index).Pairwise (fun a b => a < b)
      ∧ (∀ p ∈ outs, p.Val = ops.GetValueInternal
            ((FFunctionDesc.ctor F dp ref).Properties.getD p.Index default).Property
            (Mem p.Index) true)
      ∧ (∀ Index ∈ (FFunctionDesc.ctor F dp ref).OutPropertyIndices,
            NumParams ≤ (Index : Int) → Index ∈ outs.map PushedValue.Index)
      ∧ ret.map PushedValue.Index
          = (if (FFunctionDesc.ctor F dp ref).HasReturnProperty
              then [(FFunctionDesc.ctor F dp ref).ReturnPropertyIndex.toNat] else [])
      ∧ ret
          = (if (FFunctionDesc.ctor F dp ref).HasReturnProperty then
              [⟨(FFunctionDesc.ctor F dp ref).ReturnPropertyIndex.toNat,
                if CleanupFlags (FFunctionDesc.ctor F dp ref).ReturnPropertyIndex.toNat then
                  ops.GetValueInternal
                    ((FFunctionDesc.ctor F dp ref).Properties.getD
                      (FFunctionDesc.ctor F dp ref).ReturnPropertyIndex.toNat default).Property
                    (Mem (FFunctionDesc.ctor F dp ref).ReturnPropertyIndex.toNat) true
                else
                  (lua_at (L ++ outs.map PushedValue.Val)
                    (FirstParamIndex + (FFunctionDesc.ctor F dp ref).ReturnPropertyIndex)).getD
                    LuaValue.nil⟩]
            else []) := by
  have hwf := FFunctionDesc.ctor_WellFormed F dp ref
  have hsub := PostCallOutLoop_sublist ops (FFunctionDesc.ctor F dp ref) NumParams
    FirstParamIndex Mem (FFunctionDesc.ctor F dp ref).OutPropertyIndices L
  refine ⟨PostCallOutLoop ops (FFunctionDesc.ctor F dp ref) NumParams FirstParamIndex Mem
      (FFunctionDesc.ctor F dp ref).OutPropertyIndices L,
    (PostCallReturn ops (FFunctionDesc.ctor F dp ref)
      (L ++ (PostCallOutLoop ops (FFunctionDesc.ctor F dp ref) NumParams FirstParamIndex Mem
        (FFunctionDesc.ctor F dp ref).OutPropertyIndices L).map PushedValue.Val)
      FirstParamIndex Mem CleanupFlags).1, rfl, ?_, hwf.2.1, hsub, hwf.2.1.sublist hsub,
    PostCallOutLoop_val _ _ _ _ _ _ _, PostCallOutLoop_mem_of_ge _ _ _ _ _ _ _,
    PostCallReturn_index _ _ _ _ _ _, PostCallReturn_value _ _ _ _ _ _⟩
  simp [PostCall]

/-- C2 at `int32 Measure(int32 A, int32 B, int32& Out)`, called with its two
inputs: with 25 in the slot of `Out` and 35 in the return slot, `PostCall`
pushes 25 and then 35, so the last value pushed is the return value. -/
theorem PostCall_push_order_witness :
    (PostCall exampleOps (FFunctionDesc.ctor measureFunction none INDEX_NONE)
        [LuaValue.userdata 1, LuaValue.number 2, LuaValue.number 5] 2 2 ParamsPtr.persistent
        (fun i => 10 * (i : Int) + 5) (fun i => decide (i = 3))).Pushed.getLast?
      = some ⟨3, LuaValue.number 35⟩ ∧
    (PostCall exampleOps (FFunctionDesc.ctor measureFunction none INDEX_NONE)
        [LuaValue.userdata 1, LuaValue.number 2, LuaValue.number 5] 2 2 ParamsPtr.persistent
        (fun i => 10 * (i : Int) + 5) (fun i => decide (i = 3))).Pushed
      = [⟨2, LuaValue.number 25⟩, ⟨3, LuaValue.number 35⟩] := by
  obtain ⟨outs, ret, hP, _, _, _, _, _, _, _, hret⟩ :=
    PostCall_push_order exampleOps measureFunction none INDEX_NONE
      [LuaValue.userdata 1, LuaValue.number 2, LuaValue.number 5] 2 2 ParamsPtr.persistent
      (fun i => 10 * (i : Int) + 5) (fun i => decide (i = 3))
  refine ⟨?_, by decide⟩
  have hH : (FFunctionDesc.ctor measureFunction none INDEX_NONE).HasReturnProperty = true := by
    decide
  have hI : (FFunctionDesc.ctor measureFunction none INDEX_NONE).ReturnPropertyIndex.toNat = 3 := by
    decide
  rw [hH, hI] at hret
  simp only [if_true, decide_True] at hret
  rw [hP, hret, List.getLast?_append, List.getLast?_singleton]
  have hv : exampleOps.GetValueInternal
      ((FFunctionDesc.ctor measureFunction none INDEX_NONE).Properties.getD 3 default).Property
      ((fun i : Nat => 10 * (i : Int) + 5) 3) true = LuaValue.number 35 := by
    decide
  rw [hv]
  rfl

end UnLua

namespace UnLua

/-! ## Default parameter substitution in `PreCall` -/

lemma PreCallStep_other (ops : PropertyOps) (D : FFunctionDesc) (L : LuaStack)
    (NumParams FirstParamIndex ThreadRef : Int) (i : Nat) (Property : FPropertyDesc)
    (s : PreCallState) (j : Nat) (hj : j ≠ i) :
    (PreCallStep ops D L NumParams FirstParamIndex ThreadRef i Property s).Mem j = s.Mem j
    ∧ (PreCallStep ops D L NumParams FirstParamIndex ThreadRef i Property s).CleanupFlags j
        = s.CleanupFlags j := by
  simp only [PreCallStep]
  split_ifs <;> (try split) <;> (try split) <;> simp [Function.update_noteq hj]

lemma PreCallStep_ParamIndex (ops : PropertyOps) (D : FFunctionDesc) (L : LuaStack)
    (NumParams FirstParamIndex ThreadRef : Int) (i : Nat) (Property : FPropertyDesc)
    (s : PreCallState) :
    (PreCallStep ops D L NumParams FirstParamIndex ThreadRef i Property s).ParamIndex
      = s.ParamIndex
        + (if (i : Int) = D.LatentPropertyIndex ∨ (i : Int) = D.ReturnPropertyIndex
            then 0 else 1) := by
  simp only [PreCallStep]
  split_ifs <;> (try split) <;> (try split) <;> simp_all

lemma PreCallLoop_other (ops : PropertyOps) (D : FFunctionDesc) (L : LuaStack)
    (NumParams FirstParamIndex ThreadRef : Int) (ps : List FPropertyDesc) (k : Nat)
    (s : PreCallState) (j : Nat) (hj : j < k) :
    (PreCallLoop ops D L NumParams FirstParamIndex ThreadRef ps k s).Mem j = s.Mem j
    ∧ (PreCallLoop ops D L NumParams FirstParamIndex ThreadRef ps k s).CleanupFlags j
        = s.CleanupFlags j := by
  induction ps generalizing k s with
  | nil => exact ⟨rfl, rfl⟩
  | cons P rest ih =>
    simp only [PreCallLoop]
    have h1 := ih (k + 1) (PreCallStep ops D L NumParams FirstParamIndex ThreadRef k P s)
      (by omega)
    have h2 := PreCallStep_other ops D L NumParams FirstParamIndex ThreadRef k P s j (by omega)
    exact ⟨h1.1.trans h2.1, h1.2.trans h2.2⟩

lemma PreCallLoop_at (ops : PropertyOps) (D : FFunctionDesc) (L : LuaStack)
    (NumParams FirstParamIndex ThreadRef : Int) (ps : List FPropertyDesc) (k : Nat)
    (s : PreCallState) (hs : s.ParamIndex = D.ParamIndexAt k) (n : Nat) (P : FPropertyDesc)
    (hP : ps.get? n = some P) :
    ∃ t : PreCallState, t.ParamIndex = D.ParamIndexAt (k + n)
      ∧ (∀ j, k + n ≤ j → t.Mem j = s.Mem j ∧ t.CleanupFlags j = s.CleanupFlags j)
      ∧ (PreCallLoop ops D L NumParams FirstParamIndex ThreadRef ps k s).Mem (k + n)
          = (PreCallStep ops D L NumParams FirstParamIndex ThreadRef (k + n) P t).Mem (k + n)
      ∧ (PreCallLoop ops D L NumParams FirstParamIndex ThreadRef ps k s).CleanupFlags (k + n)
          = (PreCallStep ops D L NumParams FirstParamIndex ThreadRef (k + n) P t).CleanupFlags
              (k + n) := by
  induction ps generalizing k s n with
  | nil => simp at hP
  | cons Q rest ih =>
    cases n with
    | zero =>
      simp only [List.get?_cons_zero, Option.some.injEq] at hP
      subst hP
      refine ⟨s, hs, fun j _ => ⟨rfl, rfl⟩, ?_, ?_⟩
      · exact (PreCallLoop_other ops D L NumParams FirstParamIndex ThreadRef rest (k + 1) _ k
          (by omega)).1
      · exact (PreCallLoop_other ops D L NumParams FirstParamIndex ThreadRef rest (k + 1) _ k
          (by omega)).2
    | succ m =>
      simp only [List.get?_cons_succ] at hP
      have hs1 : (PreCallStep ops D L NumParams FirstParamIndex ThreadRef k Q s).ParamIndex
          = D.ParamIndexAt (k + 1) := by
        rw [PreCallStep_ParamIndex, hs]
        rfl
      obtain ⟨t, ht, hkeep, hm, hf⟩ := ih (k + 1) _ hs1 m hP
      have e : k + 1 + m = k + (m + 1) := by omega
      rw [e] at ht hkeep hm hf
      refine ⟨t, ht, ?_, hm, hf⟩
      intro j hj
      have h1 := hkeep j hj
      have h2 := PreCallStep_other ops D L NumParams FirstParamIndex ThreadRef k Q s j (by omega)
      exact ⟨h1.1.trans h2.1, h1.2.trans h2.2⟩

/-- C3: in `PreCall`, take a parameter `P` at property index `i` that is
neither the return slot nor the latent marker nor an output parameter and
whose argument position is not below the number of supplied script arguments.
If the default table exists and has a value under the name of `P`, the slot of
`P` holds that value afterwards and is flagged for clean-up; if there is no
table, or no entry under that name, the slot holds the value `InitializeValue`
gave it and the flag is the one the caller passed in (every caller passes a
zeroed array, so the slot is not flagged). -/
theorem PreCall_default_substitution (ops : PropertyOps) (D : FFunctionDesc) (L : LuaStack)
    (NumParams FirstParamIndex : Int) (CleanupFlags : Nat → Bool) (ThreadRef : Int)
    (Mem0 : Nat → Value) (i : Nat) (P : FPropertyDesc)
    (hP : D.Properties.get? i = some P)
    (hLatent : (i : Int) ≠ D.LatentPropertyIndex)
    (hReturn : (i : Int) ≠ D.ReturnPropertyIndex)
    (hOut : P.IsOutParameter = false)
    (hPos : NumParams ≤ (D.ParamIndexAt i : Int)) :
    (∀ Table DefaultValue, D.DefaultParams = some Table →
        Table.Find P.Property.Name = some DefaultValue →
        (PreCall ops D L NumParams FirstParamIndex CleanupFlags ThreadRef Mem0).Mem i
            = DefaultValue
        ∧ (PreCall ops D L NumParams FirstParamIndex CleanupFlags ThreadRef Mem0).CleanupFlags i
            = true)
    ∧ ((D.DefaultParams = none
          ∨ ∃ Table, D.DefaultParams = some Table ∧ Table.Find P.Property.Name = none) →
        (PreCall ops D L NumParams FirstParamIndex CleanupFlags ThreadRef Mem0).Mem i
            = ops.InitializeValue P.Property
        ∧ (PreCall ops D L NumParams FirstParamIndex CleanupFlags ThreadRef Mem0).CleanupFlags i
            = CleanupFlags i
        ∧ (PreCall ops D L NumParams FirstParamIndex (fun _ => false) ThreadRef Mem0).CleanupFlags i
            = false) := by
  have key : ∀ Flags : Nat → Bool,
      ∃ t : PreCallState, t.ParamIndex = D.ParamIndexAt i ∧ t.CleanupFlags i = Flags i
        ∧ (PreCall ops D L NumParams FirstParamIndex Flags ThreadRef Mem0).Mem i
            = (PreCallStep ops D L NumParams FirstParamIndex ThreadRef i P t).Mem i
        ∧ (PreCall ops D L NumParams FirstParamIndex Flags ThreadRef Mem0).CleanupFlags i
            = (PreCallStep ops D L NumParams FirstParamIndex ThreadRef i P t).CleanupFlags i := by
    intro Flags
    obtain ⟨t, ht, hkeep, hm, hf⟩ := PreCallLoop_at ops D L NumParams FirstParamIndex ThreadRef
      D.Properties 0 { Mem := Mem0, CleanupFlags := Flags, ParamIndex := 0 } rfl i P hP
    simp only [Nat.zero_add] at ht hkeep hm hf
    exact ⟨t, ht, (hkeep i (le_refl i)).2, hm, hf⟩
  have hnlt : ∀ t : PreCallState, t.ParamIndex = D.ParamIndexAt i →
      ¬ ((t.ParamIndex : Int) < NumParams) := by
    intro t ht
    rw [ht]
    omega
  refine ⟨?_, ?_⟩
  · intro Table DefaultValue hT hV
    obtain ⟨t, ht, _, hm, hf⟩ := key CleanupFlags
    rw [hm, hf]
    simp [PreCallStep, hLatent, hReturn, hnlt t ht, hOut, hT, hV, FPropertyDesc.GetProperty]
  · intro hno
    have step : ∀ t : PreCallState, t.ParamIndex = D.ParamIndexAt i →
        (PreCallStep ops D L NumParams FirstParamIndex ThreadRef i P t).Mem i
            = ops.InitializeValue P.Property
        ∧ (PreCallStep ops D L NumParams FirstParamIndex ThreadRef i P t).CleanupFlags i
            = t.CleanupFlags i := by
      intro t ht
      rcases hno with hT | ⟨Table, hT, hV⟩
      · simp [PreCallStep, hLatent, hReturn, hnlt t ht, hOut, hT]
      · simp [PreCallStep, hLatent, hReturn, hnlt t ht, hOut, hT, hV, FPropertyDesc.GetProperty]
    obtain ⟨t, ht, hfl, hm, hf⟩ := key CleanupFlags
    obtain ⟨t0, ht0, hfl0, _, hf0⟩ := key (fun _ => false)
    refine ⟨?_, ?_, ?_⟩
    · rw [hm]; exact (step t ht).1
    · rw [hf, (step t ht).2, hfl]
    · rw [hf0, (step t0 ht0).2, hfl0]

/-- C3 at `Spawn(Kind, Count, Team)` with the registered default `Count = 7`,
called with one argument: `Count` (index 1) receives 7 and is flagged, `Team`
(index 2) has no default and keeps the zero state, unflagged. -/
theorem PreCall_default_substitution_witness :
    ((PreCall exampleOps (FFunctionDesc.ctor spawnFunction (some spawnDefaults) INDEX_NONE)
        [LuaValue.userdata 1, LuaValue.number 3] 1 2 (fun _ => false) 0 (fun _ => 99)).Mem 1 = 7
      ∧ (PreCall exampleOps (FFunctionDesc.ctor spawnFunction (some spawnDefaults) INDEX_NONE)
        [LuaValue.userdata 1, LuaValue.number 3] 1 2 (fun _ => false) 0
        (fun _ => 99)).CleanupFlags 1 = true)
    ∧ ((PreCall exampleOps (FFunctionDesc.ctor spawnFunction (some spawnDefaults) INDEX_NONE)
        [LuaValue.userdata 1, LuaValue.number 3] 1 2 (fun _ => false) 0 (fun _ => 99)).Mem 2 = 0
      ∧ (PreCall exampleOps (FFunctionDesc.ctor spawnFunction (some spawnDefaults) INDEX_NONE)
        [LuaValue.userdata 1, LuaValue.number 3] 1 2 (fun _ => false) 0
        (fun _ => 99)).CleanupFlags 2 = false) := by
  refine ⟨?_, ?_⟩
  · exact (PreCall_default_substitution exampleOps
      (FFunctionDesc.ctor spawnFunction (some spawnDefaults) INDEX_NONE)
      [LuaValue.userdata 1, LuaValue.number 3] 1 2 (fun _ => false) 0 (fun _ => 99) 1
      ⟨intParam "Count"⟩ (by decide) (by decide) (by decide) (by decide) (by decide)).1
      spawnDefaults 7 (by rfl) (by decide)
  · have h := (PreCall_default_substitution exampleOps
      (FFunctionDesc.ctor spawnFunction (some spawnDefaults) INDEX_NONE)
      [LuaValue.userdata 1, LuaValue.number 3] 1 2 (fun _ => false) 0 (fun _ => 99) 2
      ⟨intParam "Team"⟩ (by decide) (by decide) (by decide) (by decide) (by decide)).2
      (Or.inr ⟨spawnDefaults, by rfl, by decide⟩)
    exact ⟨h.1, h.2.1⟩

end UnLua

namespace UnLua

/-! ## Native-to-script calls: the protected call made by `CallLuaInternal` -/

lemma CallLuaPushLoop_length (ops : PropertyOps) (N : NativeFrame) (ps : List FPropertyDesc)
    (i : Nat) (OutParam : List FOutParmRec) :
    (CallLuaPushLoop ops N ps i OutParam).length
      = ps.countP (fun P => !P.IsReturnParameter) := by
  induction ps generalizing i OutParam with
  | nil => simp [CallLuaPushLoop]
  | cons P rest ih =>
    simp only [CallLuaPushLoop]
    by_cases hr : P.IsReturnParameter = true
    · simp [hr, ih]
    · have hr2 : P.IsReturnParameter = false := by simpa using hr
      simp only [hr2, Bool.false_eq_true, if_false]
      split_ifs
      · split <;> simp [ih, hr2]
      · simp [ih, hr2]

lemma lua_pcall_callee_args (Script : ScriptFunction) (L : LuaStack) (a b : Nat) :
    (lua_pcall Script L a b).Callee = (L.get? (L.length - (a + 1))).getD LuaValue.nil
    ∧ (lua_pcall Script L a b).Args = L.drop (L.length - (a + 1) + 1) := by
  simp only [lua_pcall]
  split <;> exact ⟨rfl, rfl⟩

lemma lua_pcall_ok (Script : ScriptFunction) (L : LuaStack) (a b : Nat) :
    (lua_pcall Script L a b).Ok
      = (match Script (lua_pcall Script L a b).Callee (lua_pcall Script L a b).Args with
          | Except.ok _ => true
          | Except.error _ => false) := by
  rw [(lua_pcall_callee_args Script L a b).1, (lua_pcall_callee_args Script L a b).2]
  simp only [lua_pcall]
  split <;> simp_all

lemma CallFunction_callee_args (Script : ScriptFunction) (L : LuaStack) (a b : Nat) :
    (CallFunction Script L a b).Callee = (lua_pcall Script L a b).Callee
    ∧ (CallFunction Script L a b).Args = (lua_pcall Script L a b).Args
    ∧ (CallFunction Script L a b).Ok = (lua_pcall Script L a b).Ok := by
  simp only [CallFunction]
  split_ifs with h
  · exact ⟨rfl, rfl, rfl⟩
  · exact ⟨rfl, rfl, rfl⟩

lemma CallLuaInternal_request (ops : PropertyOps) (Script : ScriptFunction) (D : FFunctionDesc)
    (L : LuaStack) (N : NativeFrame) (OutParams : List FOutParmRec) :
    (CallLuaInternal ops Script D L N OutParams).PushedParams
        = CallLuaPushLoop ops N D.Properties 0 OutParams
    ∧ (CallLuaInternal ops Script D L N OutParams).NumParams
        = (if D.ReturnPropertyIndex = INDEX_NONE then D.Properties.length + 1
            else D.Properties.length)
    ∧ (CallLuaInternal ops Script D L N OutParams).NumResult
        = (if D.ReturnPropertyIndex = INDEX_NONE then D.OutPropertyIndices.length
            else D.OutPropertyIndices.length + 1)
    ∧ (CallLuaInternal ops Script D L N OutParams).Callee
        = (lua_pcall Script (L ++ CallLuaPushLoop ops N D.Properties 0 OutParams)
            (if D.ReturnPropertyIndex = INDEX_NONE then D.Properties.length + 1
              else D.Properties.length)
            (if D.ReturnPropertyIndex = INDEX_NONE then D.OutPropertyIndices.length
              else D.OutPropertyIndices.length + 1)).Callee
    ∧ (CallLuaInternal ops Script D L N OutParams).Args
        = (lua_pcall Script (L ++ CallLuaPushLoop ops N D.Properties 0 OutParams)
            (if D.ReturnPropertyIndex = INDEX_NONE then D.Properties.length + 1
              else D.Properties.length)
            (if D.ReturnPropertyIndex = INDEX_NONE then D.OutPropertyIndices.length
              else D.OutPropertyIndices.length + 1)).Args
    ∧ (CallLuaInternal ops Script D L N OutParams).bSuccess
        = (lua_pcall Script (L ++ CallLuaPushLoop ops N D.Properties 0 OutParams)
            (if D.ReturnPropertyIndex = INDEX_NONE then D.Properties.length + 1
              else D.Properties.length)
            (if D.ReturnPropertyIndex = INDEX_NONE then D.OutPropertyIndices.length
              else D.OutPropertyIndices.length + 1)).Ok := by
  simp only [CallLuaInternal]
  generalize (if D.ReturnPropertyIndex = INDEX_NONE then D.Properties.length + 1
    else D.Properties.length) = A
  generalize (if D.ReturnPropertyIndex = INDEX_NONE then D.OutPropertyIndices.length
    else D.OutPropertyIndices.length + 1) = B
  have h := CallFunction_callee_args Script (L ++ CallLuaPushLoop ops N D.Properties 0 OutParams)
    A B
  cases hok : (CallFunction Script (L ++ CallLuaPushLoop ops N D.Properties 0 OutParams) A B).Ok
  · refine ⟨rfl, rfl, rfl, h.1, h.2.1, ?_⟩
    rw [← h.2.2, hok]
    rfl
  · refine ⟨rfl, rfl, rfl, h.1, h.2.1, ?_⟩
    rw [← h.2.2, hok]
    rfl

lemma WellFormed_numParams (D : FFunctionDesc) (hwf : D.WellFormed)
    (hOne : D.Properties.countP (fun P => P.IsReturnParameter) ≤ 1) :
    (if D.ReturnPropertyIndex = INDEX_NONE then D.Properties.length + 1 else D.Properties.length)
      = D.Properties.countP (fun P => !P.IsReturnParameter) + 1 := by
  have hsplit := List.length_eq_countP_add_countP (fun P : FPropertyDesc => P.IsReturnParameter)
    D.Properties
  have hneg : D.Properties.countP (fun P => decide ¬ (P.IsReturnParameter = true))
      = D.Properties.countP (fun P => !P.IsReturnParameter) := by
    congr 1
    funext P
    cases P.IsReturnParameter <;> rfl
  rw [hneg] at hsplit
  rcases hwf.2.2 with ⟨hnone, hall⟩ | ⟨P, h0, hP, hPr⟩
  · have hz : D.Properties.countP (fun P => P.IsReturnParameter) = 0 := by
      rw [List.countP_eq_zero]
      intro P hP
      simp [hall P hP]
    rw [if_pos hnone]
    omega
  · have hne : D.ReturnPropertyIndex ≠ INDEX_NONE := by
      unfold INDEX_NONE
      omega
    have hpos : 0 < D.Properties.countP (fun P => P.IsReturnParameter) := by
      rw [List.countP_pos_iff]
      exact ⟨P, List.get?_mem hP, hPr⟩
    rw [if_neg hne]
    omega

lemma WellFormed_numResult (D : FFunctionDesc) (hwf : D.WellFormed) :
    (if D.ReturnPropertyIndex = INDEX_NONE then D.OutPropertyIndices.length
        else D.OutPropertyIndices.length + 1)
      = D.OutPropertyIndices.length + (if D.HasReturnProperty then 1 else 0) := by
  simp only [FFunctionDesc.HasReturnProperty]
  rcases hwf.2.2 with ⟨hnone, _⟩ | ⟨P, h0, _, _⟩
  · simp [hnone]
  · have hne : D.ReturnPropertyIndex ≠ INDEX_NONE := by
      unfold INDEX_NONE
      omega
    have hgt : D.ReturnPropertyIndex > INDEX_NONE := by
      unfold INDEX_NONE
      omega
    simp [hne, hgt]

end UnLua

namespace UnLua

lemma pcall_stack_shape (base pushed : List LuaValue) (reporter fn obj : LuaValue) :
    (((base ++ [reporter, fn, obj]) ++ pushed).get?
        (((base ++ [reporter, fn, obj]) ++ pushed).length - (pushed.length + 1 + 1))).getD
          LuaValue.nil = fn
    ∧ ((base ++ [reporter, fn, obj]) ++ pushed).drop
        (((base ++ [reporter, fn, obj]) ++ pushed).length - (pushed.length + 1 + 1) + 1)
        = obj :: pushed := by
  have hlen : ((base ++ [reporter, fn, obj]) ++ pushed).length - (pushed.length + 1 + 1)
      = (base ++ [reporter]).length := by
    simp only [List.length_append, List.length_cons, List.length_nil]
    omega
  have e1 : (base ++ [reporter, fn, obj]) ++ pushed
      = (base ++ [reporter]) ++ (fn :: obj :: pushed) := by simp
  have e2 : (base ++ [reporter, fn, obj]) ++ pushed
      = (base ++ [reporter, fn]) ++ (obj :: pushed) := by simp
  refine ⟨?_, ?_⟩
  · rw [hlen, e1, List.get?_eq_getElem?, List.getElem?_append_right (le_refl _)]
    simp
  · rw [hlen, e2]
    apply List.drop_left'
    simp

/-- C4: for a descriptor built from a function with at most one return
parameter, `CallLuaInternal` pushes one script value per non-return parameter,
hands `CallFunction` (non-return parameters + 1) as argument count and (non-const
output parameters, + 1 with a return parameter) as result count; on the stack
`PushFunction` leaves (error reporter, script function, target object above
any base), the script function is the one called and its arguments are the
target object followed by exactly the pushed parameter values. -/
theorem CallLuaInternal_call_shape (ops : PropertyOps) (Script : ScriptFunction)
    (F : UFunction) (dp : Option FParameterCollection) (ref : Int) (L : LuaStack)
    (N : NativeFrame) (OutParams : List FOutParmRec)
    (hOneReturn : (F.ChildProperties.takeWhile (fun P => P.CPF_Parm)).countP
        (fun P => P.CPF_ReturnParm) ≤ 1) :
    (CallLuaInternal ops Script (FFunctionDesc.ctor F dp ref) L N OutParams).PushedParams.length
        = (FFunctionDesc.ctor F dp ref).Properties.countP (fun P => !P.IsReturnParameter)
    ∧ (CallLuaInternal ops Script (FFunctionDesc.ctor F dp ref) L N OutParams).NumParams
        = (FFunctionDesc.ctor F dp ref).Properties.countP (fun P => !P.IsReturnParameter) + 1
    ∧ (CallLuaInternal ops Script (FFunctionDesc.ctor F dp ref) L N OutParams).NumResult
        = (FFunctionDesc.ctor F dp ref).OutPropertyIndices.length
            + (if (FFunctionDesc.ctor F dp ref).HasReturnProperty then 1 else 0)
    ∧ (∀ base reporter fn obj, L = base ++ [reporter, fn, obj] →
        (CallLuaInternal ops Script (FFunctionDesc.ctor F dp ref) L N OutParams).Callee = fn
        ∧ (CallLuaInternal ops Script (FFunctionDesc.ctor F dp ref) L N OutParams).Args
            = obj :: (CallLuaInternal ops Script (FFunctionDesc.ctor F dp ref) L N
                OutParams).PushedParams) := by
  have hwf := FFunctionDesc.ctor_WellFormed F dp ref
  have hOne : (FFunctionDesc.ctor F dp ref).Properties.countP (fun P => P.IsReturnParameter)
      ≤ 1 := by
    rw [FFunctionDesc.ctor_Properties, List.countP_map]
    exact hOneReturn
  obtain ⟨hp, hn, hr, hc, ha, _⟩ :=
    CallLuaInternal_request ops Script (FFunctionDesc.ctor F dp ref) L N OutParams
  have hlen := CallLuaPushLoop_length ops N (FFunctionDesc.ctor F dp ref).Properties 0 OutParams
  have hnum := WellFormed_numParams _ hwf hOne
  refine ⟨?_, ?_, ?_, ?_⟩
  · rw [hp, hlen]
  · rw [hn, hnum]
  · rw [hr, WellFormed_numResult _ hwf]
  · intro base reporter fn obj hL
    rw [hc, ha, hp, hnum, ← hlen, (lua_pcall_callee_args _ _ _ _).1,
      (lua_pcall_callee_args _ _ _ _).2, hL]
    exact pcall_stack_shape base _ reporter fn obj

/-- C4 at the event `OnHit(float Damage)`: after `PushFunction`, the script
function is called with the target object and the one Damage value, and no
results are requested. -/
theorem CallLuaInternal_call_shape_witness :
    (onHitFunction.ChildProperties.takeWhile (fun P => P.CPF_Parm)).countP
        (fun P => P.CPF_ReturnParm) ≤ 1
    ∧ PushFunction exampleRegistry [] (LuaValue.userdata 9) 1
        = (true, [LuaValue.cfunction 0, LuaValue.function 1, LuaValue.userdata 9])
    ∧ (CallLuaInternal exampleOps quietScript (FFunctionDesc.ctor onHitFunction none 1)
        [LuaValue.cfunction 0, LuaValue.function 1, LuaValue.userdata 9] exampleFrame []).Callee
        = LuaValue.function 1
    ∧ (CallLuaInternal exampleOps quietScript (FFunctionDesc.ctor onHitFunction none 1)
        [LuaValue.cfunction 0, LuaValue.function 1, LuaValue.userdata 9] exampleFrame []).Args
        = [LuaValue.userdata 9, LuaValue.number 425]
    ∧ (CallLuaInternal exampleOps quietScript (FFunctionDesc.ctor onHitFunction none 1)
        [LuaValue.cfunction 0, LuaValue.function 1, LuaValue.userdata 9] exampleFrame []).NumResult
        = 0 := by
  have h := CallLuaInternal_call_shape exampleOps quietScript onHitFunction none 1
    [LuaValue.cfunction 0, LuaValue.function 1, LuaValue.userdata 9] exampleFrame []
    (by decide)
  have hs := h.2.2.2 [] (LuaValue.cfunction 0) (LuaValue.function 1) (LuaValue.userdata 9) rfl
  refine ⟨by decide, by decide, hs.1, ?_, ?_⟩
  · rw [hs.2]
    decide
  · rw [h.2.2.1]
    decide

lemma CallLuaInternal_frame_of_failure (ops : PropertyOps) (Script : ScriptFunction)
    (D : FFunctionDesc) (L : LuaStack) (N : NativeFrame) (OutParams : List FOutParmRec)
    (h : (CallLuaInternal ops Script D L N OutParams).bSuccess = false) :
    (CallLuaInternal ops Script D L N OutParams).Frame = N := by
  revert h
  simp only [CallLuaInternal]
  generalize (if D.ReturnPropertyIndex = INDEX_NONE then D.Properties.length + 1
    else D.Properties.length) = A
  generalize (if D.ReturnPropertyIndex = INDEX_NONE then D.OutPropertyIndices.length
    else D.OutPropertyIndices.length + 1) = B
  cases hok : (CallFunction Script (L ++ CallLuaPushLoop ops N D.Properties 0 OutParams) A B).Ok
  · intro _
    rfl
  · intro h
    simp at h

/-- C5: if the script function raises an error in the protected call that
`CallLuaInternal` makes, `CallLuaInternal` returns false and the native frame
(parameter block, out-parameter memory and return-value slot) is exactly as
it was on entry. -/
theorem CallLuaInternal_failure_leaves_frame (ops : PropertyOps) (Script : ScriptFunction)
    (D : FFunctionDesc) (L : LuaStack) (N : NativeFrame) (OutParams : List FOutParmRec)
    (e : LuaValue)
    (hFail : Script (CallLuaInternal ops Script D L N OutParams).Callee
        (CallLuaInternal ops Script D L N OutParams).Args = Except.error e) :
    (CallLuaInternal ops Script D L N OutParams).bSuccess = false
    ∧ (CallLuaInternal ops Script D L N OutParams).Frame = N := by
  obtain ⟨_, _, _, hc, ha, hb⟩ := CallLuaInternal_request ops Script D L N OutParams
  have hfalse : (CallLuaInternal ops Script D L N OutParams).bSuccess = false := by
    rw [hb, lua_pcall_ok, ← hc, ← ha, hFail]
  exact ⟨hfalse, CallLuaInternal_frame_of_failure ops Script D L N OutParams hfalse⟩

/-- C5 at `Measure(A, B, Out)` with an out-parameter record for `Out` and a
script function that raises an error. -/
theorem CallLuaInternal_failure_leaves_frame_witness :
    failingScript
        (CallLuaInternal exampleOps failingScript (FFunctionDesc.ctor measureFunction none 1)
          [LuaValue.cfunction 0, LuaValue.function 1, LuaValue.userdata 9] exampleFrame
          [⟨intOutParam "Out", 64⟩]).Callee
        (CallLuaInternal exampleOps failingScript (FFunctionDesc.ctor measureFunction none 1)
          [LuaValue.cfunction 0, LuaValue.function 1, LuaValue.userdata 9] exampleFrame
          [⟨intOutParam "Out", 64⟩]).Args = Except.error (LuaValue.number 13)
    ∧ (CallLuaInternal exampleOps failingScript (FFunctionDesc.ctor measureFunction none 1)
          [LuaValue.cfunction 0, LuaValue.function 1, LuaValue.userdata 9] exampleFrame
          [⟨intOutParam "Out", 64⟩]).bSuccess = false
    ∧ (CallLuaInternal exampleOps failingScript (FFunctionDesc.ctor measureFunction none 1)
          [LuaValue.cfunction 0, LuaValue.function 1, LuaValue.userdata 9] exampleFrame
          [⟨intOutParam "Out", 64⟩]).Frame = exampleFrame :=
  ⟨rfl, CallLuaInternal_failure_leaves_frame exampleOps failingScript
      (FFunctionDesc.ctor measureFunction none 1)
      [LuaValue.cfunction 0, LuaValue.function 1, LuaValue.userdata 9] exampleFrame
      [⟨intOutParam "Out", 64⟩] (LuaValue.number 13) rfl⟩

end UnLua

namespace UnLua

/-- On success the read-back does write: with a script function that returns
`(5, 8)`, `Measure` gets 5 stored behind the record of `Out` and 8 in the
return-value slot, and the stack is back to its height before `PushFunction`. -/
lemma CallLuaInternal_success_example :
    (CallLuaInternal exampleOps (fun _ _ => Except.ok [LuaValue.number 5, LuaValue.number 8])
        (FFunctionDesc.ctor measureFunction none 1)
        [LuaValue.cfunction 0, LuaValue.function 1, LuaValue.userdata 9] exampleFrame
        [⟨intOutParam "Out", 64⟩]).bSuccess = true
    ∧ (CallLuaInternal exampleOps (fun _ _ => Except.ok [LuaValue.number 5, LuaValue.number 8])
        (FFunctionDesc.ctor measureFunction none 1)
        [LuaValue.cfunction 0, LuaValue.function 1, LuaValue.userdata 9] exampleFrame
        [⟨intOutParam "Out", 64⟩]).Frame.OutMem 64 = 5
    ∧ (CallLuaInternal exampleOps (fun _ _ => Except.ok [LuaValue.number 5, LuaValue.number 8])
        (FFunctionDesc.ctor measureFunction none 1)
        [LuaValue.cfunction 0, LuaValue.function 1, LuaValue.userdata 9] exampleFrame
        [⟨intOutParam "Out", 64⟩]).Frame.RetValue = 8
    ∧ (CallLuaInternal exampleOps (fun _ _ => Except.ok [LuaValue.number 5, LuaValue.number 8])
        (FFunctionDesc.ctor measureFunction none 1)
        [LuaValue.cfunction 0, LuaValue.function 1, LuaValue.userdata 9] exampleFrame
        [⟨intOutParam "Out", 64⟩]).L = [] := by
  decide

end UnLua

namespace UnLua

/-! ## Reference counting along the inheritance chain -/

namespace FClassDesc

lemma IncRef_Descs (R : FReflectionRegistry) (x d : Nat) :
    ((IncRef R x).Descs d).RefCount = (R.Descs d).RefCount + (if d = x then 1 else 0)
    ∧ ((IncRef R x).Descs d).NameChain = (R.Descs d).NameChain
    ∧ ((IncRef R x).Descs d).StructValid = (R.Descs d).StructValid
    ∧ ((IncRef R x).Descs d).SuperNames = (R.Descs d).SuperNames
    ∧ (IncRef R x).FindClass = R.FindClass := by
  by_cases h : d = x
  · subst h
    simp [IncRef]
  · simp [IncRef, Function.update_noteq h, h]

lemma DecRef_Descs (R : FReflectionRegistry) (x d : Nat) :
    ((DecRef R x).Descs d).RefCount = (R.Descs d).RefCount - (if d = x then 1 else 0)
    ∧ ((DecRef R x).Descs d).NameChain = (R.Descs d).NameChain
    ∧ ((DecRef R x).Descs d).StructValid = (R.Descs d).StructValid
    ∧ ((DecRef R x).Descs d).SuperNames = (R.Descs d).SuperNames
    ∧ (DecRef R x).FindClass = R.FindClass := by
  by_cases h : d = x
  · subst h
    simp [DecRef]
  · simp [DecRef, Function.update_noteq h, h]

lemma foldl_IncRef (l : List Nat) (R : FReflectionRegistry) (d : Nat) :
    ((l.foldl IncRef R).Descs d).RefCount = (R.Descs d).RefCount + (l.count d : Int)
    ∧ ((l.foldl IncRef R).Descs d).NameChain = (R.Descs d).NameChain
    ∧ ((l.foldl IncRef R).Descs d).StructValid = (R.Descs d).StructValid
    ∧ ((l.foldl IncRef R).Descs d).SuperNames = (R.Descs d).SuperNames
    ∧ (l.foldl IncRef R).FindClass = R.FindClass := by
  induction l generalizing R with
  | nil => simp
  | cons x rest ih =>
    obtain ⟨h1, h2, h3, h4, h5⟩ := ih (IncRef R x)
    obtain ⟨g1, g2, g3, g4, g5⟩ := IncRef_Descs R x d
    simp only [List.foldl_cons]
    refine ⟨?_, h2.trans g2, h3.trans g3, h4.trans g4, h5.trans g5⟩
    rw [h1, g1, List.count_cons]
    by_cases h : d = x
    · subst h; simp; ring
    · have h' : ¬ (x = d) := fun e => h e.symm
      simp [h, h']

lemma foldl_DecRef (l : List Nat) (R : FReflectionRegistry) (d : Nat) :
    ((l.foldl DecRef R).Descs d).RefCount = (R.Descs d).RefCount - (l.count d : Int)
    ∧ ((l.foldl DecRef R).Descs d).NameChain = (R.Descs d).NameChain
    ∧ ((l.foldl DecRef R).Descs d).StructValid = (R.Descs d).StructValid
    ∧ ((l.foldl DecRef R).Descs d).SuperNames = (R.Descs d).SuperNames
    ∧ (l.foldl DecRef R).FindClass = R.FindClass := by
  induction l generalizing R with
  | nil => simp
  | cons x rest ih =>
    obtain ⟨h1, h2, h3, h4, h5⟩ := ih (DecRef R x)
    obtain ⟨g1, g2, g3, g4, g5⟩ := DecRef_Descs R x d
    simp only [List.foldl_cons]
    refine ⟨?_, h2.trans g2, h3.trans g3, h4.trans g4, h5.trans g5⟩
    rw [h1, g1, List.count_cons]
    by_cases h : d = x
    · subst h; simp; ring
    · have h' : ¬ (x = d) := fun e => h e.symm
      simp [h, h']

lemma GetInheritanceNames_fields (C : FClassDesc) :
    (GetInheritanceNames C).RefCount = C.RefCount
    ∧ (GetInheritanceNames C).StructValid = C.StructValid
    ∧ (GetInheritanceNames C).SuperNames = C.SuperNames := by
  simp only [GetInheritanceNames]
  split_ifs <;> exact ⟨rfl, rfl, rfl⟩

lemma GetInheritanceNames_congr (C C1 : FClassDesc) (h1 : C1.NameChain = C.NameChain)
    (h2 : C1.StructValid = C.StructValid) (h3 : C1.SuperNames = C.SuperNames) :
    (GetInheritanceNames C1).NameChain = (GetInheritanceNames C).NameChain := by
  simp only [GetInheritanceNames, h1, h2, h3]
  split_ifs <;> simp [h1, h3]

lemma GetInheritanceNames_idem (C : FClassDesc) :
    (GetInheritanceNames (GetInheritanceNames C)).NameChain
      = (GetInheritanceNames C).NameChain := by
  rcases C with ⟨v, sn, nc, rc, lk⟩
  cases v
  · simp [GetInheritanceNames]
  · cases nc with
    | nil => cases sn <;> simp [GetInheritanceNames]
    | cons a t => simp [GetInheritanceNames]

lemma GetInheritanceChain_RefCount (R : FReflectionRegistry) (this d : Nat) :
    (((GetInheritanceChain R this).1).Descs d).RefCount = (R.Descs d).RefCount := by
  simp only [GetInheritanceChain]
  by_cases h : d = this
  · subst h
    simp [(GetInheritanceNames_fields (R.Descs d)).1]
  · simp [Function.update_noteq h]

lemma GetInheritanceChain_chain (R R1 : FReflectionRegistry) (this : Nat)
    (hF : R1.FindClass = R.FindClass)
    (h1 : (R1.Descs this).NameChain = (GetInheritanceNames (R.Descs this)).NameChain)
    (h2 : (R1.Descs this).StructValid = (R.Descs this).StructValid)
    (h3 : (R1.Descs this).SuperNames = (R.Descs this).SuperNames) :
    (GetInheritanceChain R1 this).2 = (GetInheritanceChain R this).2 := by
  simp only [GetInheritanceChain, hF]
  congr 1
  rw [GetInheritanceNames_congr (GetInheritanceNames (R.Descs this)) (R1.Descs this) h1
    (h2.trans (GetInheritanceNames_fields _).2.1.symm)
    (h3.trans (GetInheritanceNames_fields _).2.2.symm)]
  exact GetInheritanceNames_idem _

lemma AddRef_RefCount (R : FReflectionRegistry) (this d : Nat) :
    ((AddRef R this).Descs d).RefCount
      = (R.Descs d).RefCount + ((this :: (GetInheritanceChain R this).2).count d : Int) := by
  simp only [AddRef]
  rw [(foldl_IncRef _ _ d).1, GetInheritanceChain_RefCount]

lemma SubRef_RefCount (R : FReflectionRegistry) (this d : Nat) :
    ((SubRef R this).Descs d).RefCount
      = (R.Descs d).RefCount - ((this :: (GetInheritanceChain R this).2).count d : Int) := by
  simp only [SubRef]
  rw [(foldl_DecRef _ _ d).1, GetInheritanceChain_RefCount]

lemma AddRef_chain (R : FReflectionRegistry) (this : Nat) :
    (GetInheritanceChain (AddRef R this) this).2 = (GetInheritanceChain R this).2 := by
  apply GetInheritanceChain_chain
  · simp only [AddRef]
    rw [(foldl_IncRef _ _ this).2.2.2.2]
    rfl
  · simp only [AddRef]
    rw [(foldl_IncRef _ _ this).2.1]
    simp [GetInheritanceChain]
  · simp only [AddRef]
    rw [(foldl_IncRef _ _ this).2.2.1]
    simp [GetInheritanceChain, (GetInheritanceNames_fields (R.Descs this)).2.1]
  · simp only [AddRef]
    rw [(foldl_IncRef _ _ this).2.2.2.1]
    simp [GetInheritanceChain, (GetInheritanceNames_fields (R.Descs this)).2.2]

end FClassDesc

/-- C7: let the descriptors of `D`'s chain (`D` itself followed by the
descriptors `GetInheritanceChain` finds for its ancestors) be pairwise
distinct.  Then `AddRef` on `D` raises the `RefCount` of exactly these
descriptors by one and leaves every other `RefCount` as it was, `SubRef`
lowers the same counts by one, and `AddRef` followed by `SubRef` leaves every
`RefCount` unchanged. -/
theorem AddRef_SubRef_cascade (R : FReflectionRegistry) (this : Nat)
    (hDistinct : (this :: (FClassDesc.GetInheritanceChain R this).2).Nodup) :
    (∀ d, ((FClassDesc.AddRef R this).Descs d).RefCount
        = (R.Descs d).RefCount
          + (if d ∈ this :: (FClassDesc.GetInheritanceChain R this).2 then 1 else 0))
    ∧ (∀ d, ((FClassDesc.SubRef R this).Descs d).RefCount
        = (R.Descs d).RefCount
          - (if d ∈ this :: (FClassDesc.GetInheritanceChain R this).2 then 1 else 0))
    ∧ (∀ d, ((FClassDesc.SubRef (FClassDesc.AddRef R this) this).Descs d).RefCount
        = (R.Descs d).RefCount) := by
  have hcount : ∀ d, ((this :: (FClassDesc.GetInheritanceChain R this).2).count d : Int)
      = (if d ∈ this :: (FClassDesc.GetInheritanceChain R this).2 then 1 else 0) := by
    intro d
    by_cases hm : d ∈ this :: (FClassDesc.GetInheritanceChain R this).2
    · rw [if_pos hm, List.count_eq_one_of_mem hDistinct hm]
      rfl
    · rw [if_neg hm, List.count_eq_zero_of_not_mem hm]
      rfl
  refine ⟨?_, ?_, ?_⟩
  · intro d
    rw [FClassDesc.AddRef_RefCount, hcount]
  · intro d
    rw [FClassDesc.SubRef_RefCount, hcount]
  · intro d
    rw [FClassDesc.SubRef_RefCount, FClassDesc.AddRef_chain, FClassDesc.AddRef_RefCount]
    ring

end UnLua

namespace UnLua

/-- C7 at a pawn class deriving from `APawn` and `AActor`: its chain resolves
to three distinct descriptors, and `AddRef` takes the count of `AActor` from 2
to 3. -/
theorem AddRef_SubRef_cascade_witness :
    (1 :: (FClassDesc.GetInheritanceChain exampleClasses 1).2).Nodup
    ∧ ((FClassDesc.AddRef exampleClasses 1).Descs 3).RefCount = 3
    ∧ ((FClassDesc.SubRef (FClassDesc.AddRef exampleClasses 1) 1).Descs 3).RefCount = 2 := by
  have h := AddRef_SubRef_cascade exampleClasses 1 (by decide)
  refine ⟨by decide, ?_, ?_⟩
  · rw [h.1 3]
    decide
  · rw [h.2.2 3]
    decide

end UnLua

namespace UnLua

/-! ## Delegate bridge: binding counts and deferred deletion -/

namespace TMap

variable {κ ν : Type} [DecidableEq κ]

lemma Find_Remove_same (M : TMap κ ν) (k : κ) : Find (Remove M k) k = none := by
  induction M with
  | nil => rfl
  | cons e rest ih =>
    rcases e with ⟨k1, v⟩
    simp only [Remove]
    split_ifs with h
    · exact ih
    · simp only [Find, h, if_false]
      exact ih

lemma Find_Remove_other (M : TMap κ ν) (k k2 : κ) (hk : k2 ≠ k) :
    Find (Remove M k) k2 = Find M k2 := by
  induction M with
  | nil => rfl
  | cons e rest ih =>
    rcases e with ⟨k1, v⟩
    simp only [Remove]
    split_ifs with h
    · have h2 : ¬ (k1 = k2) := fun e => hk (e.symm.trans h)
      simp only [Find, h2, if_false]
      exact ih
    · simp only [Find]
      split_ifs
      · rfl
      · exact ih

lemma Remove_of_Find_none (M : TMap κ ν) (k : κ) (h : Find M k = none) : Remove M k = M := by
  induction M with
  | nil => rfl
  | cons e rest ih =>
    rcases e with ⟨k1, v⟩
    simp only [Find] at h
    split_ifs at h with h1
    simp only [Remove, h1, if_false, ih h]

lemma Find_Add_same (M : TMap κ ν) (k : κ) (v : ν) : Find (Add M k v) k = some v := by
  simp [Add, Find]

lemma Find_Add_other (M : TMap κ ν) (k k2 : κ) (v : ν) (hk : k2 ≠ k) :
    Find (Add M k v) k2 = Find M k2 := by
  have h : ¬ (k = k2) := fun e => hk e.symm
  simp only [Add, Find, h, if_false]
  exact Find_Remove_other M k k2 hk

lemma length_Add_of_Find_none (M : TMap κ ν) (k : κ) (v : ν) (h : Find M k = none) :
    (Add M k v).length = M.length + 1 := by
  simp [Add, Remove_of_Find_none M k h]

lemma Find_Update_same (M : TMap κ ν) (k : κ) (v w : ν) (h : Find M k = some w) :
    Find (Update M k v) k = some v := by
  induction M with
  | nil => simp [Find] at h
  | cons e rest ih =>
    rcases e with ⟨k1, v1⟩
    simp only [Find] at h
    simp only [Update]
    split_ifs at h ⊢ with h1
    · simp [Find, h1]
    · simp only [Find, h1, if_false]
      exact ih h

lemma Find_Update_other (M : TMap κ ν) (k k2 : κ) (v : ν) (hk : k2 ≠ k) :
    Find (Update M k v) k2 = Find M k2 := by
  induction M with
  | nil => rfl
  | cons e rest ih =>
    rcases e with ⟨k1, v1⟩
    simp only [Update]
    split_ifs with h1
    · have h3 : ¬ (k1 = k2) := fun e => hk (e.symm.trans h1)
      simp only [Find, h3, if_false]
      exact ih
    · simp only [Find]
      split_ifs
      · rfl
      · exact ih

lemma length_Update (M : TMap κ ν) (k : κ) (v : ν) : (Update M k v).length = M.length := by
  induction M with
  | nil => rfl
  | cons e rest ih =>
    rcases e with ⟨k1, v1⟩
    simp only [Update]
    split_ifs <;> simp [ih]

end TMap

end UnLua

namespace UnLua

namespace FDelegateHelper

lemma Bind_first (S : FDelegateHelper) (Object ObjectClass CallbackFunction Delegate Property : Nat)
    (CallbackRef : Int)
    (hNew : S.Callback2Function.Find ⟨ObjectClass, CallbackFunction, Object⟩ = none)
    (hObject : Object ≠ 0) (hClass : ObjectClass ≠ 0) (hFunction : CallbackFunction ≠ 0)
    (hDelegate : Delegate ≠ 0) (hProperty : S.Delegate2Property.Find Delegate = some Property)
    (hPropNZ : Property ≠ 0) (hUnbound : S.IsBound Delegate = false)
    (hRef : CallbackRef ≠ INDEX_NONE) :
    FScriptDelegate_Bind S 3 Delegate Object ObjectClass CallbackFunction CallbackRef
      = CreateSignature (BindUFunction S Delegate Object S.NextFunction) S.NextFunction
          ⟨ObjectClass, CallbackFunction, Object⟩ CallbackRef := by
  simp [FScriptDelegate_Bind, GetBindedFunctionName, Bind, BindProperty, hNew, hObject, hClass,
    hFunction, hDelegate, hProperty, hPropNZ, hUnbound, hRef]

lemma CreateSignature_facts (S : FDelegateHelper) (Delegate Object : Nat)
    (Callback : FCallbackDesc) (CallbackRef : Int)
    (hFresh : S.Function2Signature.Find S.NextFunction = none) :
    (CreateSignature (BindUFunction S Delegate Object S.NextFunction) S.NextFunction Callback
        CallbackRef).Holds Callback S.NextFunction CallbackRef 0 1 false
    ∧ (CreateSignature (BindUFunction S Delegate Object S.NextFunction) S.NextFunction Callback
        CallbackRef).NextFunction = S.NextFunction + 1
    ∧ (CreateSignature (BindUFunction S Delegate Object S.NextFunction) S.NextFunction Callback
        CallbackRef).Function2Signature.length = S.Function2Signature.length + 1
    ∧ (CreateSignature (BindUFunction S Delegate Object S.NextFunction) S.NextFunction Callback
        CallbackRef).Deleted = S.Deleted
    ∧ (CreateSignature (BindUFunction S Delegate Object S.NextFunction) S.NextFunction Callback
        CallbackRef).Removed = S.Removed := by
  refine ⟨⟨?_, ?_, ?_⟩, rfl, ?_, rfl, rfl⟩
  · simp [CreateSignature, BindUFunction, TMap.Find_Add_same]
  · simp [CreateSignature, BindUFunction, TMap.Find_Add_same, FSignatureDesc.new]
  · simp [CreateSignature, BindUFunction, TMap.Find_Add_same]
  · simp only [CreateSignature, BindUFunction]
    exact TMap.length_Add_of_Find_none _ _ _ hFresh

lemma Bind_again (S : FDelegateHelper) (Object ObjectClass CallbackFunction Delegate F : Nat)
    (CallbackRef Ref : Int) (c n : Nat) (pk : Bool)
    (hHolds : S.Holds ⟨ObjectClass, CallbackFunction, Object⟩ F Ref c n pk) (hF : F ≠ 0)
    (hObject : Object ≠ 0) (hFunction : CallbackFunction ≠ 0) (hDelegate : Delegate ≠ 0) :
    (FScriptDelegate_Bind S 3 Delegate Object ObjectClass CallbackFunction CallbackRef).Holds
        ⟨ObjectClass, CallbackFunction, Object⟩ F Ref c (n + 1) pk
    ∧ (FScriptDelegate_Bind S 3 Delegate Object ObjectClass CallbackFunction
        CallbackRef).NextFunction = S.NextFunction
    ∧ (FScriptDelegate_Bind S 3 Delegate Object ObjectClass CallbackFunction
        CallbackRef).Function2Signature.length = S.Function2Signature.length
    ∧ (FScriptDelegate_Bind S 3 Delegate Object ObjectClass CallbackFunction
        CallbackRef).Deleted = S.Deleted
    ∧ (FScriptDelegate_Bind S 3 Delegate Object ObjectClass CallbackFunction
        CallbackRef).Removed = S.Removed := by
  obtain ⟨h1, h2, h3⟩ := hHolds
  have e : FScriptDelegate_Bind S 3 Delegate Object ObjectClass CallbackFunction CallbackRef
      = BindUFunction (SetSignature S F ⟨some F, Ref, c, n + 1, pk⟩) Delegate Object F := by
    simp [FScriptDelegate_Bind, GetBindedFunctionName, h1, h2, hF, hObject, hFunction, hDelegate]
  rw [e]
  refine ⟨⟨h1, ?_, h3⟩, rfl, ?_, rfl, rfl⟩
  · simp only [BindUFunction, SetSignature]
    exact TMap.Find_Update_same _ _ _ _ h2
  · simp only [BindUFunction, SetSignature]
    exact TMap.length_Update _ _ _

lemma BindMany_again (rest : List (Nat × Int)) (S : FDelegateHelper)
    (Object ObjectClass CallbackFunction F : Nat) (Ref : Int) (c n : Nat) (pk : Bool)
    (hHolds : S.Holds ⟨ObjectClass, CallbackFunction, Object⟩ F Ref c n pk) (hF : F ≠ 0)
    (hObject : Object ≠ 0) (hFunction : CallbackFunction ≠ 0)
    (hRest : ∀ e ∈ rest, e.1 ≠ 0) :
    (BindMany S Object ObjectClass CallbackFunction rest).Holds
        ⟨ObjectClass, CallbackFunction, Object⟩ F Ref c (n + rest.length) pk
    ∧ (BindMany S Object ObjectClass CallbackFunction rest).NextFunction = S.NextFunction
    ∧ (BindMany S Object ObjectClass CallbackFunction rest).Function2Signature.length
        = S.Function2Signature.length
    ∧ (BindMany S Object ObjectClass CallbackFunction rest).Deleted = S.Deleted
    ∧ (BindMany S Object ObjectClass CallbackFunction rest).Removed = S.Removed := by
  induction rest generalizing S n with
  | nil => exact ⟨hHolds, rfl, rfl, rfl, rfl⟩
  | cons e rest ih =>
    rcases e with ⟨Delegate, CallbackRef⟩
    obtain ⟨g1, g2, g3, g4, g5⟩ := Bind_again S Object ObjectClass CallbackFunction Delegate F
      CallbackRef Ref c n pk hHolds hF hObject hFunction
      (hRest (Delegate, CallbackRef) (List.mem_cons_self _ _))
    obtain ⟨i1, i2, i3, i4, i5⟩ := ih _ (n + 1) g1 (fun e he => hRest e (List.mem_cons_of_mem _ he))
    simp only [BindMany, List.length_cons]
    have e : n + (rest.length + 1) = n + 1 + rest.length := by omega
    rw [e]
    exact ⟨i1, i2.trans g2, i3.trans g3, i4.trans g4, i5.trans g5⟩

lemma MarkForDelete_decrement (S : FDelegateHelper) (Callback : FCallbackDesc) (F : Nat)
    (Ref : Int) (c n : Nat) (pk : Bool) (hHolds : S.Holds Callback F Ref c n pk) (hn : n > 1) :
    (MarkForDelete S F false).Holds Callback F Ref c (n - 1) pk
    ∧ (MarkForDelete S F false).Deleted = S.Deleted
    ∧ (MarkForDelete S F false).Removed = S.Removed := by
  obtain ⟨h1, h2, h3⟩ := hHolds
  have e : MarkForDelete S F false = SetSignature S F ⟨some F, Ref, c, n - 1, pk⟩ := by
    simp [MarkForDelete, h2, hn]
  rw [e]
  refine ⟨⟨h1, ?_, h3⟩, rfl, rfl⟩
  simp only [SetSignature]
  exact TMap.Find_Update_same _ _ _ _ h2

lemma CleanUpByFunction_facts (S : FDelegateHelper) (Callback : FCallbackDesc) (F : Nat)
    (Sig : FSignatureDesc)
    (h2 : S.Function2Signature.Find F = some Sig)
    (h3 : S.Function2Callback.Find F = some Callback) :
    (CleanUpByFunction S F).Function2Signature.Find F = none
    ∧ (CleanUpByFunction S F).Callback2Function.Find Callback = none
    ∧ (CleanUpByFunction S F).Function2Callback.Find F = none
    ∧ (CleanUpByFunction S F).Deleted = (F, Sig) :: S.Deleted
    ∧ (CleanUpByFunction S F).Removed = F :: S.Removed := by
  simp only [CleanUpByFunction, h2, h3]
  split
  · split_ifs <;>
      exact ⟨TMap.Find_Remove_same _ _, TMap.Find_Remove_same _ _, TMap.Find_Remove_same _ _,
        rfl, rfl⟩
  · exact ⟨TMap.Find_Remove_same _ _, TMap.Find_Remove_same _ _, TMap.Find_Remove_same _ _,
      rfl, rfl⟩

lemma MarkForDelete_cleanup (S : FDelegateHelper) (Callback : FCallbackDesc) (F : Nat)
    (Ref : Int) (n : Nat) (pk b : Bool) (hHolds : S.Holds Callback F Ref 0 n pk)
    (hn : b = true ∨ n ≤ 1) :
    (MarkForDelete S F b).Function2Signature.Find F = none
    ∧ (MarkForDelete S F b).Callback2Function.Find Callback = none
    ∧ (MarkForDelete S F b).Function2Callback.Find F = none
    ∧ (MarkForDelete S F b).Deleted = (F, ⟨some F, Ref, 0, n, pk⟩) :: S.Deleted
    ∧ (MarkForDelete S F b).Removed = F :: S.Removed := by
  obtain ⟨h1, h2, h3⟩ := hHolds
  have e : MarkForDelete S F b = CleanUpByFunction S F := by
    rcases hn with hb | hn
    · simp [MarkForDelete, h2, hb]
    · have : ¬ (1 < n) := by omega
      simp [MarkForDelete, h2, this]
  rw [e]
  exact CleanUpByFunction_facts S Callback F _ h2 h3

lemma MarkMany_partial (j : Nat) (S : FDelegateHelper) (Callback : FCallbackDesc) (F : Nat)
    (Ref : Int) (c n : Nat) (pk : Bool) (hHolds : S.Holds Callback F Ref c n pk) (hj : j < n) :
    (MarkMany S F j).Holds Callback F Ref c (n - j) pk
    ∧ (MarkMany S F j).Deleted = S.Deleted
    ∧ (MarkMany S F j).Removed = S.Removed := by
  induction j generalizing S n with
  | zero => exact ⟨hHolds, rfl, rfl⟩
  | succ j ih =>
    obtain ⟨g1, g2, g3⟩ := MarkForDelete_decrement S Callback F Ref c n pk hHolds (by omega)
    obtain ⟨i1, i2, i3⟩ := ih _ (n - 1) g1 (by omega)
    simp only [MarkMany]
    have e : n - (j + 1) = n - 1 - j := by omega
    rw [e]
    exact ⟨i1, i2.trans g2, i3.trans g3⟩

lemma MarkMany_succ (j : Nat) (S : FDelegateHelper) (F : Nat) :
    MarkMany S F (j + 1) = MarkForDelete (MarkMany S F j) F false := by
  induction j generalizing S with
  | zero => rfl
  | succ j ih =>
    conv_lhs => rw [MarkMany]
    rw [ih]
    rfl

end FDelegateHelper

end UnLua

namespace UnLua

/-- C8 (as amended): start from tables in which the triple (class, script
callback, target object) has no synthesized function, and let the first of
`k` calls of `FScriptDelegate_Bind` for that triple be accepted: its delegate
slot is registered with a delegate property and not bound at that moment, and
the reference is valid.  Then the `k` calls create exactly one synthesized
function and one signature descriptor, whose `NumBindings` is `k` with no
invocation in flight; after `j < k` non-forced `MarkForDelete` calls the
descriptor is still there with `k - j` bindings and nothing has been freed,
and the `k`-th call removes it from the tables and frees it. -/
theorem Bind_count_and_release (S : FDelegateHelper)
    (Object ObjectClass CallbackFunction Delegate Property : Nat) (CallbackRef : Int)
    (rest : List (Nat × Int))
    (hNew : S.Callback2Function.Find ⟨ObjectClass, CallbackFunction, Object⟩ = none)
    (hFresh : S.Function2Signature.Find S.NextFunction = none)
    (hFreshNZ : S.NextFunction ≠ 0)
    (hObject : Object ≠ 0) (hClass : ObjectClass ≠ 0) (hFunction : CallbackFunction ≠ 0)
    (hDelegate : Delegate ≠ 0) (hProperty : S.Delegate2Property.Find Delegate = some Property)
    (hPropNZ : Property ≠ 0) (hUnbound : S.IsBound Delegate = false)
    (hRef : CallbackRef ≠ INDEX_NONE)
    (hRest : ∀ e ∈ rest, e.1 ≠ 0) :
    (FDelegateHelper.BindMany S Object ObjectClass CallbackFunction
        ((Delegate, CallbackRef) :: rest)).Holds ⟨ObjectClass, CallbackFunction, Object⟩
        S.NextFunction CallbackRef 0 (rest.length + 1) false
    ∧ (FDelegateHelper.BindMany S Object ObjectClass CallbackFunction
        ((Delegate, CallbackRef) :: rest)).NextFunction = S.NextFunction + 1
    ∧ (FDelegateHelper.BindMany S Object ObjectClass CallbackFunction
        ((Delegate, CallbackRef) :: rest)).Function2Signature.length
        = S.Function2Signature.length + 1
    ∧ (∀ j, j < rest.length + 1 →
        (FDelegateHelper.MarkMany (FDelegateHelper.BindMany S Object ObjectClass CallbackFunction
          ((Delegate, CallbackRef) :: rest)) S.NextFunction j).Holds
          ⟨ObjectClass, CallbackFunction, Object⟩ S.NextFunction CallbackRef 0
          (rest.length + 1 - j) false
        ∧ (FDelegateHelper.MarkMany (FDelegateHelper.BindMany S Object ObjectClass
          CallbackFunction ((Delegate, CallbackRef) :: rest)) S.NextFunction j).Deleted
          = S.Deleted
        ∧ (FDelegateHelper.MarkMany (FDelegateHelper.BindMany S Object ObjectClass
          CallbackFunction ((Delegate, CallbackRef) :: rest)) S.NextFunction j).Removed
          = S.Removed)
    ∧ ((FDelegateHelper.MarkMany (FDelegateHelper.BindMany S Object ObjectClass CallbackFunction
          ((Delegate, CallbackRef) :: rest)) S.NextFunction
          (rest.length + 1)).Function2Signature.Find S.NextFunction = none
      ∧ (FDelegateHelper.MarkMany (FDelegateHelper.BindMany S Object ObjectClass CallbackFunction
          ((Delegate, CallbackRef) :: rest)) S.NextFunction
          (rest.length + 1)).Callback2Function.Find ⟨ObjectClass, CallbackFunction, Object⟩ = none
      ∧ (FDelegateHelper.MarkMany (FDelegateHelper.BindMany S Object ObjectClass CallbackFunction
          ((Delegate, CallbackRef) :: rest)) S.NextFunction (rest.length + 1)).Deleted
          = (S.NextFunction, ⟨some S.NextFunction, CallbackRef, 0, 1, false⟩) :: S.Deleted
      ∧ (FDelegateHelper.MarkMany (FDelegateHelper.BindMany S Object ObjectClass CallbackFunction
          ((Delegate, CallbackRef) :: rest)) S.NextFunction (rest.length + 1)).Removed
          = S.NextFunction :: S.Removed) := by
  have hfirst := FDelegateHelper.Bind_first S Object ObjectClass CallbackFunction Delegate
    Property CallbackRef hNew hObject hClass hFunction hDelegate hProperty hPropNZ hUnbound hRef
  obtain ⟨c1, c2, c3, c4, c5⟩ := FDelegateHelper.CreateSignature_facts S Delegate Object
    ⟨ObjectClass, CallbackFunction, Object⟩ CallbackRef hFresh
  rw [← hfirst] at c1 c2 c3 c4 c5
  obtain ⟨b1, b2, b3, b4, b5⟩ := FDelegateHelper.BindMany_again rest _ Object ObjectClass
    CallbackFunction S.NextFunction CallbackRef 0 1 false c1 hFreshNZ hObject hFunction hRest
  have e : 1 + rest.length = rest.length + 1 := by omega
  rw [e] at b1
  simp only [FDelegateHelper.BindMany]
  refine ⟨b1, b2.trans c2, b3.trans c3, ?_, ?_⟩
  · intro j hj
    obtain ⟨m1, m2, m3⟩ := FDelegateHelper.MarkMany_partial j _ _ S.NextFunction CallbackRef 0
      (rest.length + 1) false b1 hj
    exact ⟨m1, m2.trans (b4.trans c4), m3.trans (b5.trans c5)⟩
  · obtain ⟨m1, m2, m3⟩ := FDelegateHelper.MarkMany_partial rest.length _ _ S.NextFunction
      CallbackRef 0 (rest.length + 1) false b1 (by omega)
    have e2 : rest.length + 1 - rest.length = 1 := by omega
    rw [e2] at m1
    obtain ⟨k1, k2, _, k4, k5⟩ := FDelegateHelper.MarkForDelete_cleanup _ _ S.NextFunction
      CallbackRef 1 false false m1 (Or.inr (le_refl 1))
    rw [FDelegateHelper.MarkMany_succ]
    refine ⟨k1, k2, ?_, ?_⟩
    · rw [k4, m2, b4, c4]
    · rw [k5, m3, b5, c5]

/-- C8 with two binds of one callback on the registered, unbound slot 10: one
function (address 1) with two bindings; the first `MarkForDelete` keeps it,
the second frees it. -/
theorem Bind_count_and_release_witness :
    (exampleTables.Callback2Function.Find ⟨40, 50, 30⟩ = none
      ∧ exampleTables.Delegate2Property.Find 10 = some 20
      ∧ exampleTables.IsBound 10 = false)
    ∧ (FDelegateHelper.BindMany exampleTables 30 40 50 [(10, 1), (10, 2)]).Holds
        ⟨40, 50, 30⟩ 1 1 0 2 false
    ∧ (FDelegateHelper.MarkMany (FDelegateHelper.BindMany exampleTables 30 40 50
        [(10, 1), (10, 2)]) 1 1).Deleted = []
    ∧ (FDelegateHelper.MarkMany (FDelegateHelper.BindMany exampleTables 30 40 50
        [(10, 1), (10, 2)]) 1 2).Deleted = [(1, ⟨some 1, 1, 0, 1, false⟩)] := by
  have h := Bind_count_and_release exampleTables 30 40 50 10 20 1 [(10, 2)]
    (by decide) (by decide) (by decide) (by decide) (by decide) (by decide) (by decide)
    (by decide) (by decide) (by decide) (by decide) (by decide)
  exact ⟨⟨by decide, by decide, by decide⟩, h.1, (h.2.2.2.1 1 (by decide)).2.1, h.2.2.2.2.2.2.1⟩

/-- C8 fails as stated: slot 10 is registered but already bound to another
callback (script function 50).  Binding the triple (class 40, script function
51, object 30), which has no synthesized function, twice through
`FScriptDelegate_Bind` on that slot is rejected by the guard of `Bind` both
times: no function and no signature descriptor is created for the triple, so
no binding count of 2 exists. -/
theorem Bind_count_counterexample :
    (FDelegateHelper.FScriptDelegate_Bind exampleTables 3 10 30 40 50 1).Callback2Function.Find
        ⟨40, 51, 30⟩ = none
    ∧ (FDelegateHelper.FScriptDelegate_Bind exampleTables 3 10 30 40 50 1).IsBound 10 = true
    ∧ (FDelegateHelper.BindMany (FDelegateHelper.FScriptDelegate_Bind exampleTables 3 10 30 40 50 1)
        30 40 51 [(10, 2), (10, 3)]).Callback2Function.Find ⟨40, 51, 30⟩ = none
    ∧ (FDelegateHelper.BindMany (FDelegateHelper.FScriptDelegate_Bind exampleTables 3 10 30 40 50 1)
        30 40 51 [(10, 2), (10, 3)]).Function2Signature.length
        = (FDelegateHelper.FScriptDelegate_Bind exampleTables 3 10 30 40 50 1).Function2Signature.length
    ∧ (FDelegateHelper.BindMany (FDelegateHelper.FScriptDelegate_Bind exampleTables 3 10 30 40 50 1)
        30 40 51 [(10, 2), (10, 3)]).NextFunction
        = (FDelegateHelper.FScriptDelegate_Bind exampleTables 3 10 30 40 50 1).NextFunction := by
  decide

end UnLua

namespace UnLua

namespace FDelegateHelper

lemma CleanUpByFunction_sig (S : FDelegateHelper) (F : Nat) (Sig : FSignatureDesc)
    (h2 : S.Function2Signature.Find F = some Sig) :
    (CleanUpByFunction S F).Function2Signature.Find F = none
    ∧ (CleanUpByFunction S F).Deleted = (F, Sig) :: S.Deleted := by
  simp only [CleanUpByFunction, h2]
  split
  · split
    · split_ifs <;> exact ⟨TMap.Find_Remove_same _ _, rfl⟩
    · exact ⟨TMap.Find_Remove_same _ _, rfl⟩
  · exact ⟨TMap.Find_Remove_same _ _, rfl⟩

lemma SetSignature_facts (S : FDelegateHelper) (F : Nat) (Sig New : FSignatureDesc)
    (h : S.Function2Signature.Find F = some Sig) :
    (SetSignature S F New).Function2Signature.Find F = some New
    ∧ (SetSignature S F New).Deleted = S.Deleted
    ∧ (SetSignature S F New).Removed = S.Removed :=
  ⟨TMap.Find_Update_same _ _ _ _ h, rfl, rfl⟩

lemma MarkForDelete_pending (S : FDelegateHelper) (F : Nat) (Sig : FSignatureDesc) (b : Bool)
    (hSig : S.Function2Signature.Find F = some Sig) (hCalls : Sig.NumCalls > 0)
    (hForce : b = true ∨ Sig.NumBindings ≤ 1) :
    MarkForDelete S F b = SetSignature S F { Sig with bPendingKill := true } := by
  rcases hForce with hb | hn
  · simp [MarkForDelete, hSig, hb, hCalls]
  · have : ¬ (1 < Sig.NumBindings) := by omega
    simp [MarkForDelete, hSig, this, hCalls]

lemma applyOp_PendingInFlight (S : FDelegateHelper) (F : Nat)
    (Deleted : List (Nat × FSignatureDesc)) (Removed : List Nat) (op : SignatureOp)
    (h : S.PendingInFlight F Deleted Removed)
    (hop : op = SignatureOp.ExecuteExit → NumCallsOf S F > 1) :
    (applyOp S F op).PendingInFlight F Deleted Removed := by
  obtain ⟨Sig, hSig, hpk, hc, hd, hdel, hrem⟩ := h
  obtain ⟨d, ref, c, n, pk⟩ := Sig
  simp only at hpk hc hd
  subst hpk hd
  cases op with
  | MarkForDelete b =>
    simp only [applyOp, MarkForDelete, hSig]
    split_ifs with h1
    · obtain ⟨g1, g2, g3⟩ := SetSignature_facts S F _ ⟨some F, ref, c, n - 1, true⟩ hSig
      exact ⟨_, g1, rfl, hc, rfl, g2.trans hdel, g3.trans hrem⟩
    · obtain ⟨g1, g2, g3⟩ := SetSignature_facts S F _ ⟨some F, ref, c, n, true⟩ hSig
      exact ⟨_, g1, rfl, hc, rfl, g2.trans hdel, g3.trans hrem⟩
  | ExecuteEnter =>
    simp only [applyOp, ExecuteEnter, hSig]
    obtain ⟨g1, g2, g3⟩ := SetSignature_facts S F _ ⟨some F, ref, c + 1, n, true⟩ hSig
    exact ⟨_, g1, rfl, Nat.succ_pos c, rfl, g2.trans hdel, g3.trans hrem⟩
  | ExecuteExit =>
    have hgt : c > 1 := by
      have := hop rfl
      simpa [NumCallsOf, hSig] using this
    have hne : ¬ (c - 1 = 0) := by omega
    simp only [applyOp, ExecuteExit, hSig, hne, false_and, if_false]
    obtain ⟨g1, g2, g3⟩ := SetSignature_facts S F _ ⟨some F, ref, c - 1, n, true⟩ hSig
    exact ⟨_, g1, rfl, (by show c - 1 > 0; omega), rfl, g2.trans hdel, g3.trans hrem⟩
  | Rebind Callback =>
    simp only [applyOp, GetBindedFunctionName]
    split
    · rename_i F2 hF2
      split_ifs with hz
      · split
        · rename_i Sig2 hSig2
          by_cases hFF : F2 = F
          · subst hFF
            rw [hSig] at hSig2
            cases hSig2
            obtain ⟨g1, g2, g3⟩ := SetSignature_facts S F2 _ ⟨some F2, ref, c, n + 1, true⟩ hSig
            exact ⟨_, g1, rfl, hc, rfl, g2.trans hdel, g3.trans hrem⟩
          · refine ⟨⟨some F, ref, c, n, true⟩, ?_, rfl, hc, rfl, hdel, hrem⟩
            simp only [SetSignature]
            rw [TMap.Find_Update_other _ _ _ _ (fun e => hFF e.symm)]
            exact hSig
        · exact ⟨_, hSig, rfl, hc, rfl, hdel, hrem⟩
      · exact ⟨_, hSig, rfl, hc, rfl, hdel, hrem⟩
    · exact ⟨_, hSig, rfl, hc, rfl, hdel, hrem⟩

lemma runOps_PendingInFlight (ops : List SignatureOp) (S : FDelegateHelper) (F : Nat)
    (Deleted : List (Nat × FSignatureDesc)) (Removed : List Nat)
    (h : S.PendingInFlight F Deleted Removed) (hFlight : StaysInFlight S F ops) :
    (runOps S F ops).PendingInFlight F Deleted Removed := by
  induction ops generalizing S with
  | nil => exact h
  | cons op rest ih =>
    obtain ⟨h1, h2⟩ := hFlight
    exact ih _ (applyOp_PendingInFlight S F Deleted Removed op h h1) h2

lemma ExecuteExit_last (S : FDelegateHelper) (F : Nat) (Sig : FSignatureDesc)
    (hSig : S.Function2Signature.Find F = some Sig) (hd : Sig.SignatureFunctionDesc = some F)
    (hpk : Sig.bPendingKill = true) (hc : Sig.NumCalls = 1) :
    (Sig.NumBindings ≤ 1 →
        (ExecuteExit S F).Function2Signature.Find F = none
        ∧ (ExecuteExit S F).Deleted = (F, { Sig with NumCalls := 0 }) :: S.Deleted)
    ∧ (Sig.NumBindings > 1 →
        (ExecuteExit S F).Function2Signature.Find F
            = some { Sig with NumCalls := 0, bPendingKill := false }
        ∧ (ExecuteExit S F).Deleted = S.Deleted) := by
  obtain ⟨d, ref, c, n, pk⟩ := Sig
  simp only at hpk hc hd
  subst hpk hd hc
  refine ⟨?_, ?_⟩
  · intro hn
    have hnot : ¬ (n > 1) := by
      simp only at hn
      omega
    simp only [ExecuteExit, hSig, Nat.sub_self, and_self, if_true, hnot, if_false]
    exact CleanUpByFunction_sig _ F _
      (SetSignature_facts S F _ ⟨some F, ref, 0, n, true⟩ hSig).1
  · intro hn
    simp only at hn
    simp only [ExecuteExit, hSig, Nat.sub_self, and_self, if_true, hn]
    obtain ⟨g1, g2, _⟩ := SetSignature_facts S F _ ⟨some F, ref, 0, n, false⟩ hSig
    exact ⟨g1, g2⟩

lemma ExecuteExit_nested (S : FDelegateHelper) (F : Nat) (Sig : FSignatureDesc)
    (hSig : S.Function2Signature.Find F = some Sig) (hd : Sig.SignatureFunctionDesc = some F)
    (hc : Sig.NumCalls > 1) :
    (ExecuteExit S F).Function2Signature.Find F
        = some { Sig with NumCalls := Sig.NumCalls - 1 }
    ∧ (ExecuteExit S F).Deleted = S.Deleted := by
  obtain ⟨d, ref, c, n, pk⟩ := Sig
  simp only at hc hd
  subst hd
  have hne : ¬ (c - 1 = 0) := by omega
  simp only [ExecuteExit, hSig, hne, false_and, if_false]
  obtain ⟨g1, g2, _⟩ := SetSignature_facts S F _ ⟨some F, ref, c - 1, n, pk⟩ hSig
  exact ⟨g1, g2⟩

end FDelegateHelper

/-- C9: let `MarkForDelete` be called on a signature descriptor with an
invocation in flight (`NumCalls > 0`), forced or with at most one binding.
Then (1) that call frees nothing and leaves the descriptor in the tables with
`bPendingKill` set; (2) whatever release requests, binds and nested
invocations follow while the invocation is still in flight, the descriptor
stays in the tables, pending-kill, and nothing is freed; (3) when `Execute`
then returns with `NumCalls` at 1, bringing it to 0, the descriptor is freed
if `NumBindings` is at most 1 at that moment, and otherwise kept with the flag
cleared; a return at `NumCalls > 1` only decrements. -/
theorem MarkForDelete_deferred_cleanup (S : FDelegateHelper) (F : Nat) (Sig : FSignatureDesc)
    (bIgnoreBindings : Bool) (ops : List FDelegateHelper.SignatureOp)
    (hSig : S.Function2Signature.Find F = some Sig)
    (hDesc : Sig.SignatureFunctionDesc = some F)
    (hCalls : Sig.NumCalls > 0)
    (hForce : bIgnoreBindings = true ∨ Sig.NumBindings ≤ 1)
    (hFlight : FDelegateHelper.StaysInFlight (FDelegateHelper.MarkForDelete S F bIgnoreBindings)
      F ops) :
    ((FDelegateHelper.MarkForDelete S F bIgnoreBindings).Function2Signature.Find F
        = some { Sig with bPendingKill := true }
      ∧ (FDelegateHelper.MarkForDelete S F bIgnoreBindings).Deleted = S.Deleted
      ∧ (FDelegateHelper.MarkForDelete S F bIgnoreBindings).Removed = S.Removed)
    ∧ ∃ Sig2,
        (FDelegateHelper.runOps (FDelegateHelper.MarkForDelete S F bIgnoreBindings) F
          ops).Function2Signature.Find F = some Sig2
        ∧ Sig2.bPendingKill = true ∧ Sig2.NumCalls > 0
        ∧ (FDelegateHelper.runOps (FDelegateHelper.MarkForDelete S F bIgnoreBindings) F
            ops).Deleted = S.Deleted
        ∧ (FDelegateHelper.runOps (FDelegateHelper.MarkForDelete S F bIgnoreBindings) F
            ops).Removed = S.Removed
        ∧ (Sig2.NumCalls = 1 → Sig2.NumBindings ≤ 1 →
            (FDelegateHelper.ExecuteExit (FDelegateHelper.runOps
              (FDelegateHelper.MarkForDelete S F bIgnoreBindings) F ops) F).Function2Signature.Find
              F = none
            ∧ (FDelegateHelper.ExecuteExit (FDelegateHelper.runOps
              (FDelegateHelper.MarkForDelete S F bIgnoreBindings) F ops) F).Deleted
              = (F, { Sig2 with NumCalls := 0 }) :: S.Deleted)
        ∧ (Sig2.NumCalls = 1 → Sig2.NumBindings > 1 →
            (FDelegateHelper.ExecuteExit (FDelegateHelper.runOps
              (FDelegateHelper.MarkForDelete S F bIgnoreBindings) F ops) F).Function2Signature.Find
              F = some { Sig2 with NumCalls := 0, bPendingKill := false }
            ∧ (FDelegateHelper.ExecuteExit (FDelegateHelper.runOps
              (FDelegateHelper.MarkForDelete S F bIgnoreBindings) F ops) F).Deleted = S.Deleted)
        ∧ (Sig2.NumCalls > 1 →
            (FDelegateHelper.ExecuteExit (FDelegateHelper.runOps
              (FDelegateHelper.MarkForDelete S F bIgnoreBindings) F ops) F).Function2Signature.Find
              F = some { Sig2 with NumCalls := Sig2.NumCalls - 1 }
            ∧ (FDelegateHelper.ExecuteExit (FDelegateHelper.runOps
              (FDelegateHelper.MarkForDelete S F bIgnoreBindings) F ops) F).Deleted
              = S.Deleted) := by
  have e := FDelegateHelper.MarkForDelete_pending S F Sig bIgnoreBindings hSig hCalls hForce
  obtain ⟨g1, g2, g3⟩ := FDelegateHelper.SetSignature_facts S F Sig
    { Sig with bPendingKill := true } hSig
  rw [← e] at g1 g2 g3
  have hpend : (FDelegateHelper.MarkForDelete S F bIgnoreBindings).PendingInFlight F
      S.Deleted S.Removed := ⟨_, g1, rfl, hCalls, hDesc, g2, g3⟩
  obtain ⟨Sig2, r1, r2, r3, r4, r5, r6⟩ :=
    FDelegateHelper.runOps_PendingInFlight ops _ F S.Deleted S.Removed hpend hFlight
  refine ⟨⟨g1, g2, g3⟩, Sig2, r1, r2, r3, r5, r6, ?_, ?_, ?_⟩
  · intro hc hn
    have h := (FDelegateHelper.ExecuteExit_last _ F Sig2 r1 r4 r2 hc).1 hn
    rw [r5] at h
    exact h
  · intro hc hn
    have h := (FDelegateHelper.ExecuteExit_last _ F Sig2 r1 r4 r2 hc).2 hn
    rw [r5] at h
    exact h
  · intro hc
    have h := FDelegateHelper.ExecuteExit_nested _ F Sig2 r1 r4 hc
    rw [r5] at h
    exact h

end UnLua

namespace UnLua

/-- C9 at a callback that unbinds itself while it runs: one bind, the
invocation in flight, then `MarkForDelete`.  Nothing is freed by that call;
the descriptor is freed when the invocation returns. -/
theorem MarkForDelete_deferred_cleanup_witness :
    (exampleInFlight.Function2Signature.Find 1 = some ⟨some 1, 1, 1, 1, false⟩
      ∧ FDelegateHelper.StaysInFlight (FDelegateHelper.MarkForDelete exampleInFlight 1 false) 1
          [FDelegateHelper.SignatureOp.ExecuteEnter, FDelegateHelper.SignatureOp.ExecuteExit])
    ∧ (FDelegateHelper.MarkForDelete exampleInFlight 1 false).Function2Signature.Find 1
        = some ⟨some 1, 1, 1, 1, true⟩
    ∧ (FDelegateHelper.MarkForDelete exampleInFlight 1 false).Deleted = []
    ∧ (FDelegateHelper.runOps (FDelegateHelper.MarkForDelete exampleInFlight 1 false) 1
        [FDelegateHelper.SignatureOp.ExecuteEnter,
          FDelegateHelper.SignatureOp.ExecuteExit]).Deleted = []
    ∧ (FDelegateHelper.ExecuteExit (FDelegateHelper.runOps
        (FDelegateHelper.MarkForDelete exampleInFlight 1 false) 1
        [FDelegateHelper.SignatureOp.ExecuteEnter, FDelegateHelper.SignatureOp.ExecuteExit])
        1).Deleted = [(1, ⟨some 1, 1, 0, 1, true⟩)] := by
  have hFlight : FDelegateHelper.StaysInFlight
      (FDelegateHelper.MarkForDelete exampleInFlight 1 false) 1
      [FDelegateHelper.SignatureOp.ExecuteEnter, FDelegateHelper.SignatureOp.ExecuteExit] := by
    refine ⟨?_, ?_, trivial⟩
    · intro h
      cases h
    · intro _
      decide
  have h := MarkForDelete_deferred_cleanup exampleInFlight 1 ⟨some 1, 1, 1, 1, false⟩ false
    [FDelegateHelper.SignatureOp.ExecuteEnter, FDelegateHelper.SignatureOp.ExecuteExit]
    (by decide) rfl (by decide) (Or.inr (by decide)) hFlight
  obtain ⟨⟨p1, p2, _⟩, Sig2, r1, _, _, r4, _, r6, _, _⟩ := h
  have hS2 : (FDelegateHelper.runOps (FDelegateHelper.MarkForDelete exampleInFlight 1 false) 1
      [FDelegateHelper.SignatureOp.ExecuteEnter,
        FDelegateHelper.SignatureOp.ExecuteExit]).Function2Signature.Find 1
      = some ⟨some 1, 1, 1, 1, true⟩ := by decide
  rw [hS2] at r1
  cases r1
  exact ⟨⟨by decide, hFlight⟩, p1, p2, r4, (r6 rfl (by decide)).2⟩

/-- C10 at a failing input: while the synthesized function 1 of class 40 is
being invoked (`NumCalls = 1`), the object teardown `Remove` defers the
deletion, but `CleanUpByClass` for class 40, and likewise `Cleanup`, free the
signature descriptor with its invocation still in flight. -/
theorem CleanUpByClass_frees_descriptor_in_flight :
    FDelegateHelper.NumCallsOf exampleInFlight 1 = 1
    ∧ (FDelegateHelper.Remove exampleInFlight 30 40).Deleted = []
    ∧ (FDelegateHelper.Remove exampleInFlight 30 40).Function2Signature.Find 1
        = some ⟨some 1, 1, 1, 1, true⟩
    ∧ (FDelegateHelper.CleanUpByClass exampleInFlight 40).Deleted
        = [(1, ⟨some 1, 1, 1, 1, false⟩)]
    ∧ (FDelegateHelper.CleanUpByClass exampleInFlight 40).Function2Signature.Find 1 = none
    ∧ (FDelegateHelper.Cleanup exampleInFlight).Deleted = [(1, ⟨some 1, 1, 1, 1, false⟩)] := by
  decide

end UnLua

namespace UnLua

/-! ## Object teardown of the delegate bridge -/

namespace FDelegateHelper

lemma Remove_eq_foldl (S : FDelegateHelper) (Object ObjectClass : Nat) :
    Remove S Object ObjectClass
      = ((S.Class2Functions.Find ObjectClass).getD []).foldl (RemoveStep Object) S := rfl

lemma CleanUpByFunction_tables (S : FDelegateHelper) (Callback : FCallbackDesc) (F : Nat)
    (Sig : FSignatureDesc)
    (h2 : S.Function2Signature.Find F = some Sig)
    (h3 : S.Function2Callback.Find F = some Callback) :
    (CleanUpByFunction S F).Function2Signature = S.Function2Signature.Remove F
    ∧ (CleanUpByFunction S F).Function2Callback = S.Function2Callback.Remove F
    ∧ (CleanUpByFunction S F).Callback2Function = S.Callback2Function.Remove Callback := by
  simp only [CleanUpByFunction, h2, h3]
  split
  · split_ifs <;> exact ⟨rfl, rfl, rfl⟩
  · exact ⟨rfl, rfl, rfl⟩

lemma RemoveStep_RemovedUpTo (Object : Nat) (S : FDelegateHelper) (hC : S.Consistent)
    (hN : S.NoneInFlight Object) (done : List Nat) (S1 : FDelegateHelper) (F : Nat)
    (h : RemovedUpTo S Object done S1) :
    RemovedUpTo S Object (F :: done) (RemoveStep Object S1 F) := by
  obtain ⟨a1, a2, c1, c2⟩ := h
  have key : ∀ S2 : FDelegateHelper, RemovedUpTo S Object (F :: done) S2 →
      RemoveStep Object S1 F = S2 → RemovedUpTo S Object (F :: done) (RemoveStep Object S1 F) := by
    intro S2 h e
    rw [e]
    exact h
  by_cases hT : ∃ cb, S.Function2Callback.Find F = some cb ∧ cb.Object = Object
  · obtain ⟨cb, hcb, hO⟩ := hT
    by_cases hd : F ∈ done
    · -- a second occurrence of a function already torn down
      have hnone := (a1 F ⟨hd, cb, hcb, hO⟩).1
      have e : RemoveStep Object S1 F = S1 := by simp [RemoveStep, hnone]
      refine key S1 ⟨?_, ?_, ?_, ?_⟩ e
      · intro G hG
        apply a1 G
        rcases hG with ⟨hm, hx⟩
        rcases List.mem_cons.1 hm with rfl | hm
        · exact ⟨hd, hx⟩
        · exact ⟨hm, hx⟩
      · intro G hG
        exact a2 G (fun h => hG ⟨List.mem_cons_of_mem _ h.1, h.2⟩)
      · intro cb1 h
        apply c1 cb1
        obtain ⟨h1, G, hm, hx⟩ := h
        rcases List.mem_cons.1 hm with rfl | hm
        · exact ⟨h1, G, hd, hx⟩
        · exact ⟨h1, G, hm, hx⟩
      · intro cb1 h
        exact c2 cb1 (fun h1 => h ⟨h1.1, h1.2.choose, List.mem_cons_of_mem _ h1.2.choose_spec.1,
          h1.2.choose_spec.2⟩)
    · -- the function is torn down now
      have hkeep := a2 F (fun h => hd h.1)
      obtain ⟨hc2f, Sig, hSig, hDesc⟩ := hC.1 F cb hcb
      have h3 : S1.Function2Callback.Find F = some cb := hkeep.1.trans hcb
      have h2 : S1.Function2Signature.Find F = some Sig := hkeep.2.trans hSig
      have hCalls : Sig.NumCalls = 0 := hN F cb Sig hcb hO hSig
      have e : RemoveStep Object S1 F = CleanUpByFunction S1 F := by
        simp [RemoveStep, h3, h2, hO, MarkForDelete, hCalls, hDesc]
      obtain ⟨t1, t2, t3⟩ := CleanUpByFunction_tables S1 cb F Sig h2 h3
      refine key _ ⟨?_, ?_, ?_, ?_⟩ e
      · intro G hG
        rw [t1, t2]
        rcases hG with ⟨hm, hx⟩
        by_cases hGF : G = F
        · subst hGF
          exact ⟨TMap.Find_Remove_same _ _, TMap.Find_Remove_same _ _⟩
        · rw [TMap.Find_Remove_other _ _ _ hGF, TMap.Find_Remove_other _ _ _ hGF]
          rcases List.mem_cons.1 hm with h | hm
          · exact absurd h hGF
          · exact a1 G ⟨hm, hx⟩
      · intro G hG
        rw [t1, t2]
        have hGF : G ≠ F := by
          rintro rfl
          exact hG ⟨List.mem_cons_self _ _, cb, hcb, hO⟩
        rw [TMap.Find_Remove_other _ _ _ hGF, TMap.Find_Remove_other _ _ _ hGF]
        exact a2 G (fun h => hG ⟨List.mem_cons_of_mem _ h.1, h.2⟩)
      · intro cb1 h
        rw [t3]
        obtain ⟨h1, G, hm, hx⟩ := h
        by_cases hcc : cb1 = cb
        · subst hcc
          exact TMap.Find_Remove_same _ _
        · rw [TMap.Find_Remove_other _ _ _ hcc]
          rcases List.mem_cons.1 hm with h | hm
          · subst h
            rw [hcb] at hx
            exact absurd (Option.some.inj hx).symm hcc
          · exact c1 cb1 ⟨h1, G, hm, hx⟩
      · intro cb1 h
        rw [t3]
        have hcc : cb1 ≠ cb := by
          rintro rfl
          exact h ⟨hO, F, List.mem_cons_self _ _, hcb⟩
        rw [TMap.Find_Remove_other _ _ _ hcc]
        exact c2 cb1 (fun h1 => h ⟨h1.1, h1.2.choose,
          List.mem_cons_of_mem _ h1.2.choose_spec.1, h1.2.choose_spec.2⟩)
  · -- the function has no callback on `Object`: nothing happens
    have hkeep := a2 F (fun h => hT h.2)
    have e : RemoveStep Object S1 F = S1 := by
      simp only [RemoveStep]
      rw [hkeep.1]
      cases hF : S.Function2Callback.Find F with
      | none => rfl
      | some cb =>
        have : cb.Object ≠ Object := fun h => hT ⟨cb, hF, h⟩
        simp [this]
    refine key S1 ⟨?_, ?_, ?_, ?_⟩ e
    · intro G hG
      apply a1 G
      rcases hG with ⟨hm, hx⟩
      rcases List.mem_cons.1 hm with rfl | hm
      · exact absurd hx hT
      · exact ⟨hm, hx⟩
    · intro G hG
      by_cases hGF : G = F
      · subst hGF
        exact hkeep
      · apply a2 G
        rintro ⟨hm, hx⟩
        exact hG ⟨List.mem_cons_of_mem _ hm, hx⟩
    · intro cb1 h
      apply c1 cb1
      obtain ⟨h1, G, hm, hx⟩ := h
      rcases List.mem_cons.1 hm with rfl | hm
      · exact absurd ⟨cb1, hx, h1⟩ hT
      · exact ⟨h1, G, hm, hx⟩
    · intro cb1 h
      exact c2 cb1 (fun h1 => h ⟨h1.1, h1.2.choose, List.mem_cons_of_mem _ h1.2.choose_spec.1,
        h1.2.choose_spec.2⟩)

lemma foldl_RemoveStep (Object : Nat) (S : FDelegateHelper) (hC : S.Consistent)
    (hN : S.NoneInFlight Object) (Fs : List Nat) :
    ∀ (done : List Nat) (S1 : FDelegateHelper), RemovedUpTo S Object done S1 →
      RemovedUpTo S Object (Fs.reverse ++ done) (Fs.foldl (RemoveStep Object) S1) := by
  induction Fs with
  | nil => intro done S1 h; exact h
  | cons F rest ih =>
    intro done S1 h
    have r := ih (F :: done) _ (RemoveStep_RemovedUpTo Object S hC hN done S1 F h)
    simpa using r

end FDelegateHelper

end UnLua

namespace UnLua

/-- Claim C11: on consistent tables in which every callback targeting the
object is registered under the object's class and none of them is being
invoked, after `Remove` of the object no entry of `Function2Callback` or
`Callback2Function` has a callback targeting the object and every remaining
entry of `Function2Signature` belongs to a callback with another target,
whatever the binding counts were; the three entries of every callback with
another target are what they were. -/
theorem Remove_tears_down_object_callbacks (S : FDelegateHelper) (Object ObjectClass : Nat)
    (hC : S.Consistent) (hReg : S.RegisteredUnderClass Object ObjectClass)
    (hFlight : S.NoneInFlight Object) :
    (∀ F cb, (S.Remove Object ObjectClass).Function2Callback.Find F = some cb →
        cb.Object ≠ Object)
    ∧ (∀ cb F, (S.Remove Object ObjectClass).Callback2Function.Find cb = some F →
        cb.Object ≠ Object)
    ∧ (∀ F Sig, (S.Remove Object ObjectClass).Function2Signature.Find F = some Sig →
        ∃ cb, (S.Remove Object ObjectClass).Function2Callback.Find F = some cb
          ∧ cb.Object ≠ Object)
    ∧ (∀ F cb, S.Function2Callback.Find F = some cb → cb.Object ≠ Object →
        (S.Remove Object ObjectClass).Function2Callback.Find F = some cb
        ∧ (S.Remove Object ObjectClass).Callback2Function.Find cb = S.Callback2Function.Find cb
        ∧ (S.Remove Object ObjectClass).Function2Signature.Find F
            = S.Function2Signature.Find F) := by
  have h0 : FDelegateHelper.RemovedUpTo S Object [] S :=
    ⟨fun G h => absurd h.1 (List.not_mem_nil _), fun _ _ => ⟨rfl, rfl⟩,
      fun cb h => absurd h.2.choose_spec.1 (List.not_mem_nil _), fun _ _ => rfl⟩
  have h := FDelegateHelper.foldl_RemoveStep Object S hC hFlight
    ((S.Class2Functions.Find ObjectClass).getD []) [] S h0
  rw [← FDelegateHelper.Remove_eq_foldl, List.append_nil] at h
  obtain ⟨a1, a2, c1, c2⟩ := h
  have hmem : ∀ F cb, S.Function2Callback.Find F = some cb → cb.Object = Object →
      F ∈ ((S.Class2Functions.Find ObjectClass).getD []).reverse :=
    fun F cb h1 h2 => List.mem_reverse.2 (hReg F cb h1 h2)
  have p1 : ∀ F cb, (S.Remove Object ObjectClass).Function2Callback.Find F = some cb →
      cb.Object ≠ Object := by
    intro F cb hF hO
    by_cases hT : F ∈ ((S.Class2Functions.Find ObjectClass).getD []).reverse
        ∧ ∃ cb, S.Function2Callback.Find F = some cb ∧ cb.Object = Object
    · rw [(a1 F hT).1] at hF
      cases hF
    · have e := (a2 F hT).1
      rw [hF] at e
      exact hT ⟨hmem F cb e.symm hO, cb, e.symm, hO⟩
  refine ⟨p1, ?_, ?_, ?_⟩
  · intro cb F hF hO
    by_cases hT : cb.Object = Object
        ∧ ∃ G, G ∈ ((S.Class2Functions.Find ObjectClass).getD []).reverse
          ∧ S.Function2Callback.Find G = some cb
    · rw [c1 cb hT] at hF
      cases hF
    · have e := c2 cb hT
      rw [hF] at e
      have hcb := hC.2.1 cb F e.symm
      exact hT ⟨hO, F, hmem F cb hcb hO, hcb⟩
  · intro F Sig hF
    by_cases hT : F ∈ ((S.Class2Functions.Find ObjectClass).getD []).reverse
        ∧ ∃ cb, S.Function2Callback.Find F = some cb ∧ cb.Object = Object
    · rw [(a1 F hT).2] at hF
      cases hF
    · have e := a2 F hT
      rw [hF] at e
      obtain ⟨cb, hcb⟩ := hC.2.2 F Sig e.2.symm
      have hcb1 : (S.Remove Object ObjectClass).Function2Callback.Find F = some cb :=
        e.1.trans hcb
      exact ⟨cb, hcb1, p1 F cb hcb1⟩
  · intro F cb hF hO
    have hT : ¬ (F ∈ ((S.Class2Functions.Find ObjectClass).getD []).reverse
        ∧ ∃ cb, S.Function2Callback.Find F = some cb ∧ cb.Object = Object) := by
      rintro ⟨_, cb1, h1, h2⟩
      rw [hF] at h1
      cases h1
      exact hO h2
    have hT2 : ¬ (cb.Object = Object
        ∧ ∃ G, G ∈ ((S.Class2Functions.Find ObjectClass).getD []).reverse
          ∧ S.Function2Callback.Find G = some cb) := fun h => hO h.1
    exact ⟨(a2 F hT).1.trans hF, c2 cb hT2, (a2 F hT).2⟩

end UnLua

namespace UnLua

lemma exampleTwoTargets_Find_callback (F : Nat) (cb : FCallbackDesc)
    (h : exampleTwoTargets.Function2Callback.Find F = some cb) :
    (F = 1 ∧ cb = ⟨30, 50, 40⟩) ∨ (F = 2 ∧ cb = ⟨30, 51, 41⟩) := by
  simp only [exampleTwoTargets, FDelegateHelper.empty, TMap.Find] at h
  split_ifs at h with h1 h2
  · exact Or.inl ⟨h1.symm, (Option.some.inj h).symm⟩
  · exact Or.inr ⟨h2.symm, (Option.some.inj h).symm⟩

lemma exampleTwoTargets_Consistent : exampleTwoTargets.Consistent := by
  refine ⟨?_, ?_, ?_⟩
  · intro F cb h
    rcases exampleTwoTargets_Find_callback F cb h with ⟨rfl, rfl⟩ | ⟨rfl, rfl⟩
    · exact ⟨by decide, _, rfl, rfl⟩
    · exact ⟨by decide, _, rfl, rfl⟩
  · intro cb F h
    simp only [exampleTwoTargets, FDelegateHelper.empty, TMap.Find] at h
    split_ifs at h with h1 h2
    · cases h; subst h1; decide
    · cases h; subst h2; decide
  · intro F Sig h
    simp only [exampleTwoTargets, FDelegateHelper.empty, TMap.Find] at h
    split_ifs at h with h1 h2
    · subst h1; exact ⟨_, rfl⟩
    · subst h2; exact ⟨_, rfl⟩

/-- Witness of C11: object 40 of class 30 owns function 1 (three bindings);
after `Remove` function 1 is gone from the three tables and function 2, whose
target is object 41, is untouched. -/
theorem Remove_tears_down_object_callbacks_witness :
    (exampleTwoTargets.Remove 40 30).Function2Callback = [(2, ⟨30, 51, 41⟩)]
    ∧ (exampleTwoTargets.Remove 40 30).Function2Signature = [(2, ⟨some 2, 8, 0, 1, false⟩)]
    ∧ (∀ F cb, (exampleTwoTargets.Remove 40 30).Function2Callback.Find F = some cb →
        cb.Object ≠ 40)
    ∧ (∀ cb F, (exampleTwoTargets.Remove 40 30).Callback2Function.Find cb = some F →
        cb.Object ≠ 40) := by
  have h := Remove_tears_down_object_callbacks exampleTwoTargets 40 30
    exampleTwoTargets_Consistent
    (by
      intro F cb h hO
      rcases exampleTwoTargets_Find_callback F cb h with ⟨rfl, rfl⟩ | ⟨rfl, rfl⟩
      · decide
      · exact absurd hO (by decide))
    (by
      intro F cb Sig h hO hS
      rcases exampleTwoTargets_Find_callback F cb h with ⟨rfl, rfl⟩ | ⟨rfl, rfl⟩
      · cases hS; rfl
      · exact absurd hO (by decide))
  exact ⟨by decide, by decide, h.1, h.2.1⟩

end UnLua

namespace UnLua

/-! ## Userdata handles -/

lemma lua_at_append_neg (S T : LuaStack) (k : Nat) (h1 : 1 ≤ k) (h2 : k ≤ T.length) :
    lua_at (S ++ T) (-(k : Int)) = T.get? (T.length - k) := by
  have hpos : ¬ (0 : Int) < -(k : Int) := by omega
  have hk : (-(-(k : Int))).toNat = k := by simp
  have hlen : (S ++ T).length = S.length + T.length := List.length_append _ _
  have hneg : (-(k : Int)) < 0 ∧ (-(-(k : Int))).toNat ≤ (S ++ T).length := by
    rw [hk, hlen]
    constructor
    · omega
    · omega
  unfold lua_at
  rw [if_neg hpos, if_pos hneg, hk, hlen]
  rw [List.get?_eq_getElem?, List.get?_eq_getElem?, List.getElem?_append_right (by omega)]
  congr 1
  omega

lemma lua_pop_append (S T : LuaStack) (n : Nat) (h : n = T.length) :
    lua_pop (S ++ T) (n : Int) = S := by
  subst h
  simp [lua_pop]

lemma LoadPointer_StorePointer (mem : Nat → Nat) (P : Nat) :
    LoadPointer (StorePointer mem 0 P) 0 = P % 2 ^ 64 := by
  simp only [LoadPointer, StorePointer, sizeofPointer]
  norm_num
  omega

end UnLua

namespace UnLua

lemma lua_at_1_1 (S : LuaStack) (a : LuaValue) : lua_at (S ++ [a]) (-1) = some a :=
  lua_at_append_neg S [a] 1 (by decide) (by simp)

lemma lua_at_2_1 (S : LuaStack) (a b : LuaValue) : lua_at (S ++ [a, b]) (-1) = some b :=
  lua_at_append_neg S [a, b] 1 (by decide) (by simp)

lemma lua_at_2_2 (S : LuaStack) (a b : LuaValue) : lua_at (S ++ [a, b]) (-2) = some a :=
  lua_at_append_neg S [a, b] 2 (by decide) (by simp)

lemma lua_at_3_1 (S : LuaStack) (a b c : LuaValue) : lua_at (S ++ [a, b, c]) (-1) = some c :=
  lua_at_append_neg S [a, b, c] 1 (by decide) (by simp)

lemma lua_at_3_2 (S : LuaStack) (a b c : LuaValue) : lua_at (S ++ [a, b, c]) (-2) = some b :=
  lua_at_append_neg S [a, b, c] 2 (by decide) (by simp)

lemma lua_at_3_3 (S : LuaStack) (a b c : LuaValue) : lua_at (S ++ [a, b, c]) (-3) = some a :=
  lua_at_append_neg S [a, b, c] 3 (by decide) (by simp)

lemma lua_at_4_1 (S : LuaStack) (a b c d : LuaValue) :
    lua_at (S ++ [a, b, c, d]) (-1) = some d :=
  lua_at_append_neg S [a, b, c, d] 1 (by decide) (by simp)

lemma lua_at_4_2 (S : LuaStack) (a b c d : LuaValue) :
    lua_at (S ++ [a, b, c, d]) (-2) = some c :=
  lua_at_append_neg S [a, b, c, d] 2 (by decide) (by simp)

lemma lua_at_4_4 (S : LuaStack) (a b c d : LuaValue) :
    lua_at (S ++ [a, b, c, d]) (-4) = some a :=
  lua_at_append_neg S [a, b, c, d] 4 (by decide) (by simp)

lemma lua_pop_1 (S : LuaStack) (a : LuaValue) : lua_pop (S ++ [a]) 1 = S :=
  lua_pop_append S [a] 1 rfl

lemma lua_pop_2 (S : LuaStack) (a b : LuaValue) : lua_pop (S ++ [a, b]) 2 = S :=
  lua_pop_append S [a, b] 2 rfl

lemma eraseIdx_length_append (S : LuaStack) (a b : LuaValue) :
    (S ++ [a, b]).eraseIdx S.length = S ++ [b] := by
  induction S with
  | nil => rfl
  | cons x S ih => simp only [List.cons_append, List.length_cons, List.eraseIdx_cons_succ, ih]

lemma lua_remove_2 (S : LuaStack) (a b : LuaValue) :
    lua_remove (S ++ [a, b]) (lua_absindex (S ++ [a, b]) (-2)) = S ++ [b] := by
  have e : lua_absindex (S ++ [a, b]) (-2) = ((S.length + 1 : Nat) : Int) := by
    simp only [lua_absindex, List.length_append, List.length_cons, List.length_nil]
    have : ¬ (0 : Int) < -2 := by decide
    rw [if_neg this]
    push_cast
    ring
  rw [e]
  simp only [lua_remove, Int.toNat_ofNat, Nat.add_sub_cancel]
  exact eraseIdx_length_append S a b

lemma lua_pop_2_1 (S : LuaStack) (a b : LuaValue) : lua_pop (S ++ [a, b]) 1 = S ++ [a] := by
  have := lua_pop_append (S ++ [a]) [b] 1 rfl
  simpa using this

lemma lua_pop_3_1 (S : LuaStack) (a b c : LuaValue) :
    lua_pop (S ++ [a, b, c]) 1 = S ++ [a, b] := by
  have := lua_pop_append (S ++ [a, b]) [c] 1 rfl
  simpa using this

lemma lua_pop_3_2 (S : LuaStack) (a b c : LuaValue) : lua_pop (S ++ [a, b, c]) 2 = S ++ [a] := by
  have := lua_pop_append (S ++ [a]) [b, c] 2 rfl
  simpa using this

lemma lua_pop_4_2 (S : LuaStack) (a b c d : LuaValue) :
    lua_pop (S ++ [a, b, c, d]) 2 = S ++ [a, b] := by
  have := lua_pop_append (S ++ [a, b]) [c, d] 2 rfl
  simpa using this

/-- The stack shapes that repeated pushes produce, flattened. -/
lemma push_push (S : LuaStack) (a b : LuaValue) : S ++ [a] ++ [b] = S ++ [a, b] := by simp

lemma push_push_push (S : LuaStack) (a b c : LuaValue) : S ++ [a, b] ++ [c] = S ++ [a, b, c] := by
  simp

lemma push_push_push_push (S : LuaStack) (a b c d : LuaValue) :
    S ++ [a, b, c] ++ [d] = S ++ [a, b, c, d] := by simp

end UnLua

namespace UnLua

/-- The block that `NewUserdataWithTwoLvPtrTag` creates: at a fresh non-null
address, pushed on top, with a valid two-level trailer and the object address
in its first eight bytes. -/
lemma NewUserdataWithTwoLvPtrTag_facts (L : lua_State) (Size P : Nat)
    (hSize : sizeofPointer ≤ Size) :
    (NewUserdataWithTwoLvPtrTag L Size P).2 = L.HeapTop + 1
    ∧ (NewUserdataWithTwoLvPtrTag L Size P).1.Stack
        = L.Stack ++ [LuaValue.userdata (L.HeapTop + 1)]
    ∧ ∃ U, (NewUserdataWithTwoLvPtrTag L Size P).1.Udatas.Find (L.HeapTop + 1) = some U
        ∧ U.len = Size + sizeofFUserdataDesc
        ∧ GetUserdataDesc U = some ⟨USERDATA_MAGIC, BIT_VARIANT_TAG ||| BIT_TWOLEVEL_PTR, 0⟩
        ∧ LoadPointer U.mem 0 = P % 2 ^ 64 := by
  simp only [sizeofPointer] at hSize
  simp only [NewUserdataWithTwoLvPtrTag, NewUserdataWithDesc, lua_newuserdata, WritePointerAt,
    TMap.Find_Add_same, Nat.add_zero]
  refine ⟨trivial, trivial, _, rfl, rfl, ?_, LoadPointer_StorePointer _ _⟩
  have h1 : ¬ (Size < 0 + 8) := by omega
  have h2 : ¬ (Size + 1 < 0 + 8) := by omega
  have h3 : ¬ (Size + 2 < 0 + 8) := by omega
  have h4 : ¬ (Size + 3 < 0 + 8) := by omega
  simp [GetUserdataDesc, sizeofFUserdataDesc, StorePointer, sizeofPointer, h1, h2, h3, h4,
    USERDATA_MAGIC, BIT_VARIANT_TAG, BIT_TWOLEVEL_PTR]

/-- A store into the first eight bytes leaves the trailer of a block of at
least twelve bytes as it was. -/
lemma GetUserdataDesc_StorePointer (U : Udata) (P : Nat)
    (hlen : sizeofPointer + sizeofFUserdataDesc ≤ U.len) :
    GetUserdataDesc { U with mem := StorePointer U.mem 0 P } = GetUserdataDesc U := by
  simp only [sizeofPointer, sizeofFUserdataDesc] at hlen
  have h1 : ¬ (U.len - 4 < 0 + 8) := by omega
  have h2 : ¬ (U.len - 4 + 1 < 0 + 8) := by omega
  have h3 : ¬ (U.len - 4 + 2 < 0 + 8) := by omega
  have h4 : ¬ (U.len - 4 + 3 < 0 + 8) := by omega
  simp [GetUserdataDesc, sizeofFUserdataDesc, StorePointer, sizeofPointer, h1, h2, h3, h4]

/-- Resolution of a handle whose block has a two-level trailer. -/
lemma resolve_two_level (L : lua_State) (idx : Int) (A : Nat) (U : Udata) (d : FUserdataDesc)
    (hA : A ≠ 0) (hidx : lua_at L.Stack idx = some (LuaValue.userdata A))
    (hU : L.Udatas.Find A = some U) (hd : GetUserdataDesc U = some d)
    (hv : d.tag &&& BIT_VARIANT_TAG ≠ 0) (ht : d.tag &&& BIT_TWOLEVEL_PTR ≠ 0) :
    GetUserdataFast L idx = (A, true) ∧ GetCppInstanceFast L idx = LoadPointer U.mem 0 := by
  have e : GetUserdataFast L idx = (A, true) := by
    simp [GetUserdataFast, hidx, hU, hd, hv, ht]
  refine ⟨e, ?_⟩
  simp [GetCppInstanceFast, e, hA, ReadPointerAt, hU]

/-- Effect of `DeleteLuaObject` when `ObjectMap` holds the handle itself. -/
lemma DeleteLuaObject_userdata (L : lua_State) (Object t A : Nat) (T : TMap LuaValue LuaValue)
    (U : Udata) (hO : Object ≠ 0)
    (hReg : L.Registry.Find "ObjectMap" = some (LuaValue.table t))
    (hT : L.Tables.Find t = some T)
    (hEntry : T.Find (LuaValue.lightuserdata Object) = some (LuaValue.userdata A))
    (hU : L.Udatas.Find A = some U) :
    (DeleteLuaObject L Object).Stack = L.Stack
    ∧ (DeleteLuaObject L Object).Udatas.Find A
        = some { U with mem := StorePointer U.mem 0 0 } := by
  simp [DeleteLuaObject, hO, lua_getfield_registry, hReg, lua_push, lua_pushlightuserdata,
    lua_rawget, lua_at_2_1, lua_at_2_2, lua_pop_1, hT, hEntry, lua_type, LUA_TTABLE,
    LUA_TUSERDATA, LUA_TNIL, lua_touserdata, WritePointerAt, hU, lua_State.pop, lua_pushnil,
    lua_rawset, lua_at_3_1, lua_at_3_2, lua_at_3_3, lua_pop_2, TMap.Find_Add_same, lua_pop_2_1,
    lua_pop_3_1, lua_pop_3_2, lua_pop_4_2]

end UnLua

namespace UnLua

/-- Effect of `DeleteLuaObject` when `ObjectMap` holds the instance table of
the object, whose field `Object` is the handle. -/
lemma DeleteLuaObject_table (L : lua_State) (Object t i A : Nat) (T I : TMap LuaValue LuaValue)
    (U : Udata) (hO : Object ≠ 0)
    (hReg : L.Registry.Find "ObjectMap" = some (LuaValue.table t))
    (hT : L.Tables.Find t = some T)
    (hEntry : T.Find (LuaValue.lightuserdata Object) = some (LuaValue.table i))
    (hI : L.Tables.Find i = some I)
    (hField : I.Find (LuaValue.string "Object") = some (LuaValue.userdata A))
    (hU : L.Udatas.Find A = some U) :
    (DeleteLuaObject L Object).Stack = L.Stack
    ∧ (DeleteLuaObject L Object).Udatas.Find A
        = some { U with mem := StorePointer U.mem 0 0 } := by
  simp [DeleteLuaObject, hO, lua_getfield_registry, hReg, lua_push, lua_pushlightuserdata,
    lua_rawget, lua_at_2_1, lua_at_2_2, lua_pop_1, hT, hEntry, lua_type, LUA_TTABLE,
    LUA_TUSERDATA, LUA_TNIL, lua_touserdata, WritePointerAt, hU, lua_State.pop, lua_pushnil,
    lua_rawset, lua_at_3_1, lua_at_3_2, lua_at_3_3, lua_pop_2, TMap.Find_Add_same, lua_pop_2_1,
    lua_pop_3_1, lua_pop_3_2, lua_pop_4_2, lua_pushstring, hI, hField]

/-- Claim C12: the handle that `NewUserdataWithTwoLvPtrTag` creates for the
native object at `P` (a block of at least pointer size) resolves through
`GetUserdataFast` to its own address with the two-level flag set, and
`GetCppInstanceFast` returns `P`; in every later state in which the block is as
created and `ObjectMap` holds the handle for `P` (directly or as field
`Object` of the instance table), after `DeleteLuaObject` the same handle
still resolves with the two-level flag set and `GetCppInstanceFast` returns
null. -/
theorem two_level_handle_resolves_then_null (L : lua_State) (Size P : Nat)
    (hSize : sizeofPointer ≤ Size) (hP : P < 2 ^ 64) :
    GetUserdataFast (NewUserdataWithTwoLvPtrTag L Size P).1 (-1)
        = ((NewUserdataWithTwoLvPtrTag L Size P).2, true)
    ∧ GetCppInstanceFast (NewUserdataWithTwoLvPtrTag L Size P).1 (-1) = P
    ∧ ∀ (L2 : lua_State) (t : Nat) (T : TMap LuaValue LuaValue), P ≠ 0 →
        L2.Udatas.Find (NewUserdataWithTwoLvPtrTag L Size P).2
          = (NewUserdataWithTwoLvPtrTag L Size P).1.Udatas.Find
              (NewUserdataWithTwoLvPtrTag L Size P).2 →
        L2.Registry.Find "ObjectMap" = some (LuaValue.table t) →
        L2.Tables.Find t = some T →
        (T.Find (LuaValue.lightuserdata P)
            = some (LuaValue.userdata (NewUserdataWithTwoLvPtrTag L Size P).2)
          ∨ ∃ i I, T.Find (LuaValue.lightuserdata P) = some (LuaValue.table i)
              ∧ L2.Tables.Find i = some I
              ∧ I.Find (LuaValue.string "Object")
                  = some (LuaValue.userdata (NewUserdataWithTwoLvPtrTag L Size P).2)) →
        ∀ idx : Int,
          lua_at (DeleteLuaObject L2 P).Stack idx
            = some (LuaValue.userdata (NewUserdataWithTwoLvPtrTag L Size P).2) →
          GetUserdataFast (DeleteLuaObject L2 P) idx
              = ((NewUserdataWithTwoLvPtrTag L Size P).2, true)
          ∧ GetCppInstanceFast (DeleteLuaObject L2 P) idx = 0 := by
  obtain ⟨hA, hStack, U, hU, hlen, hd, hload⟩ := NewUserdataWithTwoLvPtrTag_facts L Size P hSize
  have hv : (⟨USERDATA_MAGIC, BIT_VARIANT_TAG ||| BIT_TWOLEVEL_PTR, 0⟩ : FUserdataDesc).tag
      &&& BIT_VARIANT_TAG ≠ 0 := by decide
  have ht : (⟨USERDATA_MAGIC, BIT_VARIANT_TAG ||| BIT_TWOLEVEL_PTR, 0⟩ : FUserdataDesc).tag
      &&& BIT_TWOLEVEL_PTR ≠ 0 := by decide
  rw [hA] at *
  have hTop : lua_at (NewUserdataWithTwoLvPtrTag L Size P).1.Stack (-1)
      = some (LuaValue.userdata (L.HeapTop + 1)) := by
    rw [hStack]
    exact lua_at_1_1 _ _
  obtain ⟨r1, r2⟩ := resolve_two_level _ (-1) (L.HeapTop + 1) U _ (Nat.succ_ne_zero _) hTop hU
    hd hv ht
  refine ⟨r1, ?_, ?_⟩
  · rw [r2, hload]
    exact Nat.mod_eq_of_lt hP
  · intro L2 t T hP0 hBlock hReg hT hEntry idx hidx
    rw [hU] at hBlock
    have hlen2 : sizeofPointer + sizeofFUserdataDesc ≤ U.len := by
      rw [hlen]
      exact Nat.add_le_add_right hSize _
    have hfacts : (DeleteLuaObject L2 P).Udatas.Find (L.HeapTop + 1)
        = some { U with mem := StorePointer U.mem 0 0 } := by
      rcases hEntry with hE | ⟨i, I, hE, hI, hF⟩
      · exact (DeleteLuaObject_userdata L2 P t _ T U hP0 hReg hT hE hBlock).2
      · exact (DeleteLuaObject_table L2 P t i _ T I U hP0 hReg hT hE hI hF hBlock).2
    have hd2 := (GetUserdataDesc_StorePointer U 0 hlen2).trans hd
    obtain ⟨q1, q2⟩ := resolve_two_level _ idx (L.HeapTop + 1) _ _ (Nat.succ_ne_zero _) hidx
      hfacts hd2 hv ht
    refine ⟨q1, ?_⟩
    rw [q2]
    exact LoadPointer_StorePointer _ _

end UnLua

namespace UnLua

/-- Witness of C12: in the example state the handle of the object at 0x7000
sits at address 4097; it resolves to 0x7000 when created and, pushed again
after `DeleteLuaObject`, to null. -/
theorem two_level_handle_resolves_then_null_witness :
    sizeofPointer ≤ 8 ∧ (0x7000 : Nat) < 2 ^ 64
    ∧ GetUserdataFast (NewUserdataWithTwoLvPtrTag exampleState 8 0x7000).1 (-1) = (4097, true)
    ∧ GetCppInstanceFast (NewUserdataWithTwoLvPtrTag exampleState 8 0x7000).1 (-1) = 0x7000
    ∧ GetCppInstanceFast (DeleteLuaObject exampleBoundState 0x7000) (-1) = 0 := by
  have h := two_level_handle_resolves_then_null exampleState 8 0x7000 (by decide) (by decide)
  refine ⟨by decide, by decide, h.1, h.2.1, ?_⟩
  have hStack : (DeleteLuaObject exampleBoundState 0x7000).Stack = exampleBoundState.Stack :=
    (DeleteLuaObject_userdata exampleBoundState 0x7000 1 4097
      [(LuaValue.lightuserdata 0x7000, LuaValue.userdata 4097)] _ (by decide) rfl rfl rfl rfl).1
  exact (h.2.2 exampleBoundState 1 [(LuaValue.lightuserdata 0x7000, LuaValue.userdata 4097)]
    (by decide) rfl rfl rfl (Or.inl rfl) (-1) (by rw [hStack]; rfl)).2

end UnLua

namespace UnLua

/-! ## Cache of script containers -/

lemma CachedValue_eq (L : lua_State) (MapName : String) (Key m : Nat)
    (hReg : L.Registry.Find MapName = some (LuaValue.table m)) :
    CachedValue L MapName Key
      = ((L.Tables.Find m).bind
          (fun T => T.Find (LuaValue.lightuserdata Key))).getD LuaValue.nil := by
  simp [CachedValue, hReg]

/-- A miss of `CacheScriptContainer`: a block is allocated above every
address in use, recorded under the key and left on top. -/
lemma CacheScriptContainer_miss (L : lua_State) (Key m DescSize : Nat) (DescName : String)
    (hKey : Key ≠ 0)
    (hReg : L.Registry.Find "ScriptContainerMap" = some (LuaValue.table m))
    (hMiss : CachedValue L "ScriptContainerMap" Key = LuaValue.nil) :
    (CacheScriptContainer L Key DescSize DescName).2 = L.HeapTop + 1
    ∧ (CacheScriptContainer L Key DescSize DescName).1.Stack
        = L.Stack ++ [LuaValue.userdata (L.HeapTop + 1)]
    ∧ CachedValue (CacheScriptContainer L Key DescSize DescName).1 "ScriptContainerMap" Key
        = LuaValue.userdata (L.HeapTop + 1)
    ∧ (CacheScriptContainer L Key DescSize DescName).1.Registry = L.Registry
    ∧ L.HeapTop ≤ (CacheScriptContainer L Key DescSize DescName).1.HeapTop := by
  rw [CachedValue_eq L _ Key m hReg] at hMiss
  have e : (CacheScriptContainer L Key DescSize DescName).1.Registry = L.Registry := by
    simp [CacheScriptContainer, hKey, lua_getfield_registry, hReg, lua_push,
      lua_pushlightuserdata, lua_rawget, lua_at_2_1, lua_at_2_2, lua_pop_2_1, hMiss, lua_type,
      LUA_TNIL, lua_State.pop, NewUserdataWithContainerTag, NewUserdataWithDesc,
      lua_newuserdata, TMap.Find_Add_same, luaL_setmetatable, lua_at_1_1, lua_pushvalue,
      lua_at_3_2, lua_rawset, lua_at_4_1, lua_at_4_2, lua_at_4_4, lua_pop_4_2,
      lua_State.remove, lua_remove_2]
  refine ⟨?_, ?_, ?_, e, ?_⟩
  · simp [CacheScriptContainer, hKey, lua_getfield_registry, hReg, lua_push,
      lua_pushlightuserdata, lua_rawget, lua_at_2_1, lua_at_2_2, lua_pop_2_1, hMiss, lua_type,
      LUA_TNIL, lua_State.pop, NewUserdataWithContainerTag, NewUserdataWithDesc,
      lua_newuserdata, TMap.Find_Add_same]
  · simp [CacheScriptContainer, hKey, lua_getfield_registry, hReg, lua_push,
      lua_pushlightuserdata, lua_rawget, lua_at_2_1, lua_at_2_2, lua_pop_2_1, hMiss, lua_type,
      LUA_TNIL, lua_State.pop, NewUserdataWithContainerTag, NewUserdataWithDesc,
      lua_newuserdata, TMap.Find_Add_same, luaL_setmetatable, lua_at_1_1, lua_pushvalue,
      lua_at_3_2, lua_rawset, lua_at_4_1, lua_at_4_2, lua_at_4_4, lua_pop_4_2,
      lua_State.remove, lua_remove_2]
  · rw [CachedValue_eq _ _ Key m (by rw [e]; exact hReg)]
    simp [CacheScriptContainer, hKey, lua_getfield_registry, hReg, lua_push,
      lua_pushlightuserdata, lua_rawget, lua_at_2_1, lua_at_2_2, lua_pop_2_1, hMiss, lua_type,
      LUA_TNIL, lua_State.pop, NewUserdataWithContainerTag, NewUserdataWithDesc,
      lua_newuserdata, TMap.Find_Add_same, luaL_setmetatable, lua_at_1_1, lua_pushvalue,
      lua_at_3_2, lua_rawset, lua_at_4_1, lua_at_4_2, lua_at_4_4, lua_pop_4_2,
      lua_State.remove, lua_remove_2]
  · simp [CacheScriptContainer, hKey, lua_getfield_registry, hReg, lua_push,
      lua_pushlightuserdata, lua_rawget, lua_at_2_1, lua_at_2_2, lua_pop_2_1, hMiss, lua_type,
      LUA_TNIL, lua_State.pop, NewUserdataWithContainerTag, NewUserdataWithDesc,
      lua_newuserdata, TMap.Find_Add_same, luaL_setmetatable, lua_at_1_1, lua_pushvalue,
      lua_at_3_2, lua_rawset, lua_at_4_1, lua_at_4_2, lua_at_4_4, lua_pop_4_2,
      lua_State.remove, lua_remove_2]
    omega

end UnLua

namespace UnLua

lemma lua_type_ne_nil (L : lua_State) (idx : Int) (v : LuaValue)
    (h : lua_at L.Stack idx = some v) (hv : v ≠ LuaValue.nil) : lua_type L idx ≠ LUA_TNIL := by
  unfold lua_type
  rw [h]
  cases v <;>
    simp_all [LUA_TNIL, LUA_TBOOLEAN, LUA_TNUMBER, LUA_TFUNCTION, LUA_TUSERDATA,
      LUA_TLIGHTUSERDATA, LUA_TTABLE, LUA_TSTRING]

/-- A hit of `CacheScriptContainer`: null is returned, the cached value is
left on top and nothing else changes. -/
lemma CacheScriptContainer_hit (L : lua_State) (Key m DescSize : Nat) (DescName : String)
    (v : LuaValue) (hKey : Key ≠ 0)
    (hReg : L.Registry.Find "ScriptContainerMap" = some (LuaValue.table m))
    (hHit : CachedValue L "ScriptContainerMap" Key = v) (hv : v ≠ LuaValue.nil) :
    (CacheScriptContainer L Key DescSize DescName).2 = 0
    ∧ (CacheScriptContainer L Key DescSize DescName).1.Stack = L.Stack ++ [v]
    ∧ CachedValue (CacheScriptContainer L Key DescSize DescName).1 "ScriptContainerMap" Key = v
    := by
  have hHit2 := hHit
  rw [CachedValue_eq L _ Key m hReg] at hHit
  have hType : lua_type { L with Stack := L.Stack ++ [LuaValue.table m, v] } (-1) ≠ LUA_TNIL :=
    lua_type_ne_nil _ _ v (lua_at_2_1 _ _ _) hv
  have e : CacheScriptContainer L Key DescSize DescName
      = ({ L with Stack := L.Stack ++ [v] }, 0) := by
    simp only [CacheScriptContainer, hKey, if_false, lua_getfield_registry, hReg, lua_push,
      lua_pushlightuserdata, lua_rawget, push_push, lua_at_2_1, lua_at_2_2, lua_pop_2_1,
      Option.getD_some, hHit, if_neg hType, lua_State.remove, lua_remove_2]
  rw [e]
  exact ⟨rfl, rfl, hHit2⟩

/-- Effect of `RemoveCachedScriptContainer`: the key is no longer cached; the
stack, the registry and the heap top are as before. -/
lemma RemoveCachedScriptContainer_facts (L : lua_State) (Key m : Nat) (hKey : Key ≠ 0)
    (hReg : L.Registry.Find "ScriptContainerMap" = some (LuaValue.table m)) :
    CachedValue (RemoveCachedScriptContainer L Key) "ScriptContainerMap" Key = LuaValue.nil
    ∧ (RemoveCachedScriptContainer L Key).Stack = L.Stack
    ∧ (RemoveCachedScriptContainer L Key).Registry = L.Registry
    ∧ (RemoveCachedScriptContainer L Key).HeapTop = L.HeapTop := by
  by_cases hv : CachedValue L "ScriptContainerMap" Key = LuaValue.nil
  · have hv2 := hv
    rw [CachedValue_eq L _ Key m hReg] at hv
    have e : RemoveCachedScriptContainer L Key = L := by
      simp [RemoveCachedScriptContainer, hKey, lua_getfield_registry, hReg, lua_push,
        lua_pushlightuserdata, lua_rawget, lua_at_2_1, lua_at_2_2, lua_pop_2_1, hv, lua_type,
        LUA_TNIL, lua_State.pop, lua_pop_2]
    rw [e]
    exact ⟨hv2, rfl, rfl, rfl⟩
  · obtain ⟨v, hval⟩ : ∃ v, CachedValue L "ScriptContainerMap" Key = v := ⟨_, rfl⟩
    rw [hval] at hv
    rw [CachedValue_eq L _ Key m hReg] at hval
    have hType : lua_type { L with Stack := L.Stack ++ [LuaValue.table m, v] } (-1) ≠ LUA_TNIL :=
      lua_type_ne_nil _ _ v (lua_at_2_1 _ _ _) hv
    obtain ⟨T1, hT1⟩ : ∃ T1 : TMap Nat (TMap LuaValue LuaValue), T1 = L.Tables.Add m
        (((L.Tables.Find m).getD []).Remove (LuaValue.lightuserdata Key)) := ⟨_, rfl⟩
    have e : RemoveCachedScriptContainer L Key = { L with Tables := T1 } := by
      rw [hT1]
      simp only [RemoveCachedScriptContainer, hKey, if_false, lua_getfield_registry, hReg,
        lua_push, lua_pushlightuserdata, lua_rawget, push_push, lua_at_2_1, lua_at_2_2,
        lua_pop_2_1, Option.getD_some, hval, hType, ne_eq, not_false_eq_true, if_true,
        lua_pushnil, push_push_push, push_push_push_push, lua_rawset, lua_at_4_1, lua_at_4_2,
        lua_at_4_4, lua_pop_4_2, lua_State.pop, lua_pop_2]
    rw [e]
    refine ⟨?_, rfl, rfl, rfl⟩
    simp [CachedValue, hReg, hT1, TMap.Find_Add_same, TMap.Find_Remove_same]

end UnLua

namespace UnLua

/-- Claim C13: for a non-null container address `Key` that is not cached, the
first `CacheScriptContainer` returns a non-null, newly allocated handle, leaves
it on top of the stack and caches it; in every state in which that handle is
still cached, `CacheScriptContainer` returns null, leaves that same handle on
top and keeps it cached; and from every later state, after
`RemoveCachedScriptContainer` the next `CacheScriptContainer` returns a
non-null handle different from the first one, on top of the stack and cached. -/
theorem CacheScriptContainer_identity (L : lua_State) (Key m DescSize : Nat)
    (DescName : String) (hKey : Key ≠ 0)
    (hReg : L.Registry.Find "ScriptContainerMap" = some (LuaValue.table m))
    (hFirst : CachedValue L "ScriptContainerMap" Key = LuaValue.nil) :
    (CacheScriptContainer L Key DescSize DescName).2 ≠ 0
    ∧ (CacheScriptContainer L Key DescSize DescName).2 = L.HeapTop + 1
    ∧ (CacheScriptContainer L Key DescSize DescName).1.Stack
        = L.Stack ++ [LuaValue.userdata (CacheScriptContainer L Key DescSize DescName).2]
    ∧ CachedValue (CacheScriptContainer L Key DescSize DescName).1 "ScriptContainerMap" Key
        = LuaValue.userdata (CacheScriptContainer L Key DescSize DescName).2
    ∧ (∀ (L2 : lua_State) (Size2 : Nat) (Name2 : String),
        L2.Registry.Find "ScriptContainerMap" = some (LuaValue.table m) →
        CachedValue L2 "ScriptContainerMap" Key
          = LuaValue.userdata (CacheScriptContainer L Key DescSize DescName).2 →
        (CacheScriptContainer L2 Key Size2 Name2).2 = 0
        ∧ (CacheScriptContainer L2 Key Size2 Name2).1.Stack
            = L2.Stack ++ [LuaValue.userdata (CacheScriptContainer L Key DescSize DescName).2]
        ∧ CachedValue (CacheScriptContainer L2 Key Size2 Name2).1 "ScriptContainerMap" Key
            = LuaValue.userdata (CacheScriptContainer L Key DescSize DescName).2)
    ∧ (∀ (L2 : lua_State) (Size3 : Nat) (Name3 : String),
        L2.Registry.Find "ScriptContainerMap" = some (LuaValue.table m) →
        (CacheScriptContainer L Key DescSize DescName).1.HeapTop ≤ L2.HeapTop →
        (CacheScriptContainer (RemoveCachedScriptContainer L2 Key) Key Size3 Name3).2 ≠ 0
        ∧ (CacheScriptContainer (RemoveCachedScriptContainer L2 Key) Key Size3 Name3).2
            ≠ (CacheScriptContainer L Key DescSize DescName).2
        ∧ (CacheScriptContainer (RemoveCachedScriptContainer L2 Key) Key Size3 Name3).1.Stack
            = L2.Stack ++ [LuaValue.userdata
                (CacheScriptContainer (RemoveCachedScriptContainer L2 Key) Key Size3 Name3).2]
        ∧ CachedValue (CacheScriptContainer (RemoveCachedScriptContainer L2 Key) Key Size3
              Name3).1 "ScriptContainerMap" Key
            = LuaValue.userdata
                (CacheScriptContainer (RemoveCachedScriptContainer L2 Key) Key Size3 Name3).2)
    := by
  obtain ⟨a1, a2, a3, _, a5⟩ := CacheScriptContainer_miss L Key m DescSize DescName hKey hReg
    hFirst
  rw [a1]
  refine ⟨Nat.succ_ne_zero _, rfl, a2, a3, ?_, ?_⟩
  · intro L2 Size2 Name2 hReg2 hHit
    exact CacheScriptContainer_hit L2 Key m Size2 Name2 _ hKey hReg2 hHit (by simp)
  · intro L2 Size3 Name3 hReg2 hLater
    obtain ⟨b1, b2, b3, b4⟩ := RemoveCachedScriptContainer_facts L2 Key m hKey hReg2
    obtain ⟨c1, c2, c3, _, _⟩ := CacheScriptContainer_miss (RemoveCachedScriptContainer L2 Key)
      Key m Size3 Name3 hKey (by rw [b3]; exact hReg2) b1
    rw [c1, b4]
    refine ⟨Nat.succ_ne_zero _, ?_, ?_, ?_⟩
    · have hTop : L.HeapTop + 1 ≤ (CacheScriptContainer L Key DescSize DescName).1.HeapTop := by
        have e : (CacheScriptContainer L Key DescSize DescName).1.HeapTop
            = L.HeapTop + 1 + (DescSize + 0 + sizeofFUserdataDesc) := by
          rw [CachedValue_eq L _ Key m hReg] at hFirst
          simp [CacheScriptContainer, hKey, lua_getfield_registry, hReg, lua_push,
            lua_pushlightuserdata, lua_rawget, lua_at_2_1, lua_at_2_2, lua_pop_2_1, hFirst,
            lua_type, LUA_TNIL, lua_State.pop, NewUserdataWithContainerTag,
            NewUserdataWithDesc, lua_newuserdata, TMap.Find_Add_same, luaL_setmetatable,
            lua_at_1_1, lua_pushvalue, lua_at_3_2, lua_rawset, lua_at_4_1, lua_at_4_2,
            lua_at_4_4, lua_pop_4_2, lua_State.remove, lua_remove_2]
        omega
      omega
    · rw [c2, b2, b4]
    · rw [c3, b4]

end UnLua

namespace UnLua

/-- Witness of C13: in the example state the container at 0x9000 is not
cached; the first lookup creates the handle at 4097, the second returns null
with the same handle on top, and after the removal a third lookup creates the
handle at another address. -/
theorem CacheScriptContainer_identity_witness :
    (0x9000 : Nat) ≠ 0
    ∧ (CacheScriptContainer exampleState 0x9000 24 "TArray").2 = 4097
    ∧ (CacheScriptContainer (CacheScriptContainer exampleState 0x9000 24 "TArray").1 0x9000 24
        "TArray").2 = 0
    ∧ (CacheScriptContainer (CacheScriptContainer exampleState 0x9000 24 "TArray").1 0x9000 24
        "TArray").1.Stack
        = (CacheScriptContainer exampleState 0x9000 24 "TArray").1.Stack
            ++ [LuaValue.userdata 4097]
    ∧ (CacheScriptContainer (RemoveCachedScriptContainer
        (CacheScriptContainer exampleState 0x9000 24 "TArray").1 0x9000) 0x9000 24 "TArray").2
        ≠ 4097 := by
  have h := CacheScriptContainer_identity exampleState 0x9000 2 24 "TArray" (by decide) rfl rfl
  obtain ⟨_, h2, _, h4, h5, h6⟩ := h
  have hReg : (CacheScriptContainer exampleState 0x9000 24 "TArray").1.Registry.Find
      "ScriptContainerMap" = some (LuaValue.table 2) := by
    rw [(CacheScriptContainer_miss exampleState 0x9000 2 24 "TArray" (by decide) rfl rfl).2.2.2.1]
    rfl
  have q := h5 _ 24 "TArray" hReg h4
  have w := h6 _ 24 "TArray" hReg (le_refl _)
  rw [h2] at q w
  exact ⟨by decide, h2, q.1, q.2.1, w.2.1⟩

end UnLua

namespace UnLua

/-! ## Eligibility for override -/

lemma and_bit_cases (n i : Nat) : n &&& 2 ^ i = 0 ∨ n &&& 2 ^ i = 2 ^ i := by
  rw [Nat.and_two_pow]
  cases n.testBit i <;> simp

lemma flag_mask_split (n : Nat) :
    n &&& (FUNC_Native ||| FUNC_Event ||| FUNC_Net)
      = (n &&& 2 ^ 10 ||| n &&& 2 ^ 11) ||| n &&& 2 ^ 6 := by
  have e : FUNC_Native ||| FUNC_Event ||| FUNC_Net = (2 ^ 10 ||| 2 ^ 11) ||| 2 ^ 6 := by decide
  rw [e, Nat.and_or_distrib_left, Nat.and_or_distrib_left]

/-- Counterexample to C17 as stated: a function whose flags are Native, Event
and Net (a native replicated event) includes both Native and Event and is not
overridable. -/
theorem IsOverridable_counterexample :
    serverFireNative.HasAnyFunctionFlags FUNC_Native = true
    ∧ serverFireNative.HasAnyFunctionFlags FUNC_Event = true
    ∧ IsOverridable serverFireNative = false := by decide

/-- Claim C17, amended: for every function whose flags include both Native
and Event, `IsOverridable` returns true exactly when the Net flag is clear or
the BlueprintEvent flag is set. -/
theorem IsOverridable_native_event (Function : UFunctionObject)
    (hNative : Function.HasAnyFunctionFlags FUNC_Native = true)
    (hEvent : Function.HasAnyFunctionFlags FUNC_Event = true) :
    IsOverridable Function = true
      ↔ (Function.HasAnyFunctionFlags FUNC_Net = false
          ∨ Function.HasAnyFunctionFlags FUNC_BlueprintEvent = true) := by
  have eN : FUNC_Native = 2 ^ 10 := by decide
  have eE : FUNC_Event = 2 ^ 11 := by decide
  have eT : FUNC_Net = 2 ^ 6 := by decide
  simp only [UFunctionObject.HasAnyFunctionFlags, decide_eq_true_eq, eN, eE] at hNative hEvent
  have h10 : Function.FunctionFlags &&& 2 ^ 10 = 2 ^ 10 :=
    (and_bit_cases _ 10).resolve_left hNative
  have h11 : Function.FunctionFlags &&& 2 ^ 11 = 2 ^ 11 :=
    (and_bit_cases _ 11).resolve_left hEvent
  have hmask : Function.FunctionFlags &&& (FUNC_Native ||| FUNC_Event ||| FUNC_Net)
      = (2 ^ 10 ||| 2 ^ 11) ||| Function.FunctionFlags &&& 2 ^ 6 := by
    rw [flag_mask_split, h10, h11]
  have hres : FUNC_Native ||| FUNC_Event = 2 ^ 10 ||| 2 ^ 11 := by decide
  rw [hres] at hmask
  have hIff : IsOverridable Function = true
      ↔ (Function.FunctionFlags &&& FUNC_BlueprintEvent ≠ 0
          ∨ (2 ^ 10 ||| 2 ^ 11) ||| Function.FunctionFlags &&& 2 ^ 6 = 2 ^ 10 ||| 2 ^ 11) := by
    simp only [IsOverridable, Bool.or_eq_true, decide_eq_true_eq,
      UFunctionObject.HasAnyFunctionFlags, hmask, hres]
  have hNet : Function.HasAnyFunctionFlags FUNC_Net = false
      ↔ Function.FunctionFlags &&& 2 ^ 6 = 0 := by
    simp only [UFunctionObject.HasAnyFunctionFlags, eT, decide_eq_false_iff_not, not_not]
  have hBP : Function.HasAnyFunctionFlags FUNC_BlueprintEvent = true
      ↔ Function.FunctionFlags &&& FUNC_BlueprintEvent ≠ 0 := by
    simp only [UFunctionObject.HasAnyFunctionFlags, decide_eq_true_eq]
  rw [hIff, hNet, hBP]
  rcases and_bit_cases Function.FunctionFlags 6 with h6 | h6
  · rw [h6]
    constructor
    · intro _
      exact Or.inl rfl
    · intro _
      exact Or.inr (by decide)
  · rw [h6]
    constructor
    · rintro (h | h)
      · exact Or.inr h
      · exact absurd h (by decide)
    · rintro (h | h)
      · exact absurd h (by decide)
      · exact Or.inl h

/-- Witness of C17 amended: the native event `ReceiveTick` has Native and
Event set and Net clear, and is overridable. -/
theorem IsOverridable_native_event_witness :
    receiveTickNative.HasAnyFunctionFlags FUNC_Native = true
    ∧ receiveTickNative.HasAnyFunctionFlags FUNC_Event = true
    ∧ IsOverridable receiveTickNative = true :=
  ⟨by decide, by decide,
    (IsOverridable_native_event receiveTickNative (by decide) (by decide)).2
      (Or.inl (by decide))⟩

end UnLua

namespace UnLua

/-! ## The override pass run twice -/

/-- Failing input of C18: class 2 inherits the replicated blueprint event
`ServerFire` (flag Net, not native) from class 1 and its script module defines
`ServerFire`.  The first pass duplicates the event onto class 2 as function
200, whose thunk `OverrideUFunction` leaves alone because of the Net flag.
The second pass finds function 200 on class 2 itself, takes it for a function
that is not overridden yet and replaces it in place: a further duplicate
`ServerFireCopy` (function 202) is created, `CachedNatives` and
`CachedScripts` get an entry for function 200, and the link from function 200
to the function it overrides now names the new duplicate instead of the
inherited event 101.  For the events without the Net flag the second pass
changes nothing. -/
theorem OverridePass_twice_duplicates_net_event :
    ((exampleManager.OverridePass 2 ["ServerFire"]).Object 200).Name = "ServerFire"
    ∧ ((exampleManager.OverridePass 2 ["ServerFire"]).Object 200).Func
        = FNativeFuncPtr.ProcessInternal
    ∧ (exampleManager.OverridePass 2 ["ServerFire"]).CachedNatives = []
    ∧ (exampleManager.OverridePass 2 ["ServerFire"]).CachedScripts = []
    ∧ (exampleManager.OverridePass 2 ["ServerFire"]).FindFunctionByName 2 "ServerFireCopy" false
        = none
    ∧ (exampleManager.OverridePass 2 ["ServerFire"]).OverriddenFunctions.Find 200 = some 101
    ∧ ((exampleManager.OverridePass 2 ["ServerFire"]).OverridePass 2 ["ServerFire"]).CachedNatives
        = [(200, FNativeFuncPtr.ProcessInternal)]
    ∧ ((exampleManager.OverridePass 2 ["ServerFire"]).OverridePass 2 ["ServerFire"]).CachedScripts
        = [(200, [EX_CallLua, EX_Return, EX_Nothing])]
    ∧ ((exampleManager.OverridePass 2 ["ServerFire"]).OverridePass 2
        ["ServerFire"]).FindFunctionByName 2 "ServerFireCopy" false = some 202
    ∧ ((exampleManager.OverridePass 2 ["ServerFire"]).OverridePass 2
        ["ServerFire"]).OverriddenFunctions.Find 200 = some 202
    ∧ ((exampleManager.OverridePass 2 ["ReceiveHit", "OnLanded"]).OverridePass 2
        ["ReceiveHit", "OnLanded"]) = exampleManager.OverridePass 2 ["ReceiveHit", "OnLanded"]
    := by
  refine ⟨?_, ?_, ?_, ?_, ?_, ?_, ?_, ?_, ?_, ?_, ?_⟩ <;> decide

end UnLua

namespace UnLua

/-! ## In-place override and its restoration -/

namespace UUnLuaManager

/-- What `DuplicateUFunction` leaves untouched: every object but the new one,
the caches and the build flavour. -/
lemma DuplicateUFunction_facts (S : UUnLuaManager) (T C : Nat) (n : String) (F : Nat)
    (hF : F ≠ S.NextObject) :
    (DuplicateUFunction S T C n).2 = S.NextObject
    ∧ (DuplicateUFunction S T C n).1.Objects.Find F = S.Objects.Find F
    ∧ (DuplicateUFunction S T C n).1.CachedNatives = S.CachedNatives
    ∧ (DuplicateUFunction S T C n).1.CachedScripts = S.CachedScripts
    ∧ (DuplicateUFunction S T C n).1.bShipping = S.bShipping := by
  simp only [DuplicateUFunction, RegisterFunction]
  split <;> exact ⟨trivial, TMap.Find_Add_other _ _ _ _ hF, rfl, rfl, rfl⟩

lemma AddNativeFunction_facts (S : UUnLuaManager) (C : Nat) (n : String) (p : FNativeFuncPtr) :
    (S.AddNativeFunction C n p).Objects = S.Objects
    ∧ (S.AddNativeFunction C n p).CachedNatives = S.CachedNatives
    ∧ (S.AddNativeFunction C n p).CachedScripts = S.CachedScripts
    ∧ (S.AddNativeFunction C n p).bShipping = S.bShipping
    ∧ (S.AddNativeFunction C n p).NextObject = S.NextObject :=
  ⟨rfl, rfl, rfl, rfl, rfl⟩

lemma RegisterFunction_facts (S : UUnLuaManager) (F : Nat) :
    (S.RegisterFunction F).1.Objects = S.Objects
    ∧ (S.RegisterFunction F).1.CachedNatives = S.CachedNatives
    ∧ (S.RegisterFunction F).1.CachedScripts = S.CachedScripts
    ∧ (S.RegisterFunction F).1.bShipping = S.bShipping := by
  simp only [RegisterFunction]
  split <;> exact ⟨rfl, rfl, rfl, rfl⟩

/-- What `OverrideUFunction` does to the function: the thunk is replaced
unless the function is a non-native Net function, and an empty `Script` gets
the opcode `EX_CallLua` first. -/
lemma OverrideUFunction_facts (S : UUnLuaManager) (F : Nat) (Obj : UFunctionObject) (d : Nat)
    (hObj : S.Objects.Find F = some Obj) :
    ∃ F2, (OverrideUFunction S F FNativeFuncPtr.execCallLua d true).Objects.Find F = some F2
      ∧ (Obj.Script = [] → F2.Script.head? = some EX_CallLua)
      ∧ (Obj.Script ≠ [] → F2.Script = Obj.Script)
      ∧ (OverrideUFunction S F FNativeFuncPtr.execCallLua d true).CachedNatives = S.CachedNatives
      ∧ (OverrideUFunction S F FNativeFuncPtr.execCallLua d true).CachedScripts
          = S.CachedScripts := by
  refine ⟨_, TMap.Find_Add_same _ _ _, ?_, ?_, rfl, rfl⟩
  · intro hE
    simp only [UUnLuaManager.Object, hObj, Option.getD_some]
    split_ifs <;> simp_all
  · intro hE
    have hlen : ¬ Obj.Script.length < 1 := by
      cases hS : Obj.Script with
      | nil => exact absurd hS hE
      | cons a l => simp
    simp only [UUnLuaManager.Object, hObj, Option.getD_some]
    split_ifs <;> simp_all

end UUnLuaManager

end UnLua

namespace UnLua

namespace UUnLuaManager

/-- State of a not yet overridden function after `ReplaceFunction`: its thunk
is cached; a non-native function with byte code has the byte code cached and
starts with `EX_CallLua`, as does a function without byte code; a native
function with byte code keeps it. -/
lemma ReplaceFunction_facts (S : UUnLuaManager) (F C : Nat) (Obj : UFunctionObject)
    (hObj : S.Objects.Find F = some Obj) (hThunk : Obj.Func ≠ FNativeFuncPtr.execCallLua)
    (hNat : S.CachedNatives.Find F = none) (hFresh : F ≠ S.NextObject) :
    (S.ReplaceFunction F C).CachedNatives.Find F = some Obj.Func
    ∧ ∃ F2, (S.ReplaceFunction F C).Objects.Find F = some F2
      ∧ ((Obj.HasAnyFunctionFlags FUNC_Native = false ∧ Obj.Script ≠ []) →
          (S.ReplaceFunction F C).CachedScripts.Find F = some Obj.Script
          ∧ F2.Script.head? = some EX_CallLua)
      ∧ (¬ (Obj.HasAnyFunctionFlags FUNC_Native = false ∧ Obj.Script ≠ []) →
          (S.ReplaceFunction F C).CachedScripts.Find F = S.CachedScripts.Find F
          ∧ (Obj.Script = [] → F2.Script.head? = some EX_CallLua)
          ∧ (Obj.Script ≠ [] → F2.Script = Obj.Script)) := by
  have hO : S.Object F = Obj := by simp [UUnLuaManager.Object, hObj]
  -- the state before the duplication
  obtain ⟨S1, hS1, a1, a2, a3, a4⟩ : ∃ S1 : UUnLuaManager,
      S1 = (if (S.Object F).HasAnyFunctionFlags FUNC_Native then
              S.AddNativeFunction C ((S.Object F).Name ++ "Copy") (S.Object F).Func else S)
      ∧ S1.Objects = S.Objects ∧ S1.CachedNatives = S.CachedNatives
      ∧ S1.CachedScripts = S.CachedScripts ∧ S1.NextObject = S.NextObject := by
    refine ⟨_, rfl, ?_⟩
    split_ifs <;> exact ⟨rfl, rfl, rfl, rfl⟩
  have hFresh1 : F ≠ S1.NextObject := by rw [a4]; exact hFresh
  obtain ⟨_, b2, b3, b4, _⟩ :=
    DuplicateUFunction_facts S1 F C ((S.Object F).Name ++ "Copy") F hFresh1
  -- the state after the caches are filled
  obtain ⟨S2, hS2⟩ : ∃ S2 : UUnLuaManager,
      S2 = (DuplicateUFunction S1 F C ((S.Object F).Name ++ "Copy")).1.AddOverriddenFunction F
        (DuplicateUFunction S1 F C ((S.Object F).Name ++ "Copy")).2 := ⟨_, rfl⟩
  have c1 : S2.Objects.Find F = some Obj := by
    rw [hS2]; exact b2.trans (by rw [a1]; exact hObj)
  have c2 : S2.CachedScripts = S.CachedScripts := by rw [hS2]; exact b4.trans a3
  have hT : S2.Object F = Obj := by simp [UUnLuaManager.Object, c1]
  have e : S.ReplaceFunction F C
      = (let T := S2.Object F
         let S3 : UUnLuaManager := { S2 with CachedNatives := S2.CachedNatives.Add F T.Func }
         let S4 : UUnLuaManager :=
           if !T.HasAnyFunctionFlags FUNC_Native && decide (T.Script.length > 0) then
             { S3 with CachedScripts := S3.CachedScripts.Add F T.Script,
                       Objects := S3.Objects.Add F { T with Script := [] } }
           else S3
         OverrideUFunction (S4.RegisterFunction F).1 F FNativeFuncPtr.execCallLua
           (S4.RegisterFunction F).2 true) := by
    have h1 : ¬ ((S.Object F).Func = FNativeFuncPtr.execCallLua) := by rw [hO]; exact hThunk
    simp only [ReplaceFunction, h1, if_false, hNat, hS2, hS1]
  rw [e, hT]
  by_cases hE : Obj.HasAnyFunctionFlags FUNC_Native = false ∧ Obj.Script ≠ []
  · have hlen : Obj.Script.length > 0 := List.length_pos.2 hE.2
    have hcond : (!Obj.HasAnyFunctionFlags FUNC_Native && decide (Obj.Script.length > 0))
        = true := by simp [hE.1, hlen]
    simp only [hcond, if_true]
    obtain ⟨r1, r2, r3, _⟩ := RegisterFunction_facts
      ({ S2 with CachedNatives := S2.CachedNatives.Add F Obj.Func,
                 CachedScripts := S2.CachedScripts.Add F Obj.Script,
                 Objects := S2.Objects.Add F { Obj with Script := [] } }) F
    obtain ⟨F2, o1, o2, _, o4, o5⟩ := OverrideUFunction_facts _ F { Obj with Script := [] }
      (RegisterFunction
        ({ S2 with CachedNatives := S2.CachedNatives.Add F Obj.Func,
                   CachedScripts := S2.CachedScripts.Add F Obj.Script,
                   Objects := S2.Objects.Add F { Obj with Script := [] } }) F).2
      (by rw [r1]; exact TMap.Find_Add_same _ _ _)
    refine ⟨?_, F2, o1, ?_, ?_⟩
    · rw [o4, r2]; exact TMap.Find_Add_same _ _ _
    · intro _
      refine ⟨?_, o2 rfl⟩
      rw [o5, r3]; exact TMap.Find_Add_same _ _ _
    · intro h; exact absurd hE h
  · have hcond : (!Obj.HasAnyFunctionFlags FUNC_Native && decide (Obj.Script.length > 0))
        = false := by
      cases hN : Obj.HasAnyFunctionFlags FUNC_Native with
      | true => rfl
      | false =>
        have : Obj.Script = [] := by
          by_contra h
          exact hE ⟨hN, h⟩
        simp [this]
    simp only [hcond, Bool.false_eq_true, if_false]
    obtain ⟨r1, r2, r3, _⟩ := RegisterFunction_facts
      ({ S2 with CachedNatives := S2.CachedNatives.Add F Obj.Func }) F
    obtain ⟨F2, o1, o2, o3, o4, o5⟩ := OverrideUFunction_facts _ F Obj
      (RegisterFunction ({ S2 with CachedNatives := S2.CachedNatives.Add F Obj.Func }) F).2
      (by rw [r1]; exact c1)
    refine ⟨?_, F2, o1, ?_, ?_⟩
    · rw [o4, r2]; exact TMap.Find_Add_same _ _ _
    · intro h; exact absurd h hE
    · intro _
      refine ⟨?_, o2, o3⟩
      rw [o5, r3]
      exact congrArg (fun M => TMap.Find M F) c2

/-- The function itself after `ResetUFunction`, in terms of the state before. -/
lemma ResetUFunction_Objects (S : UUnLuaManager) (F : Nat) (p : FNativeFuncPtr)
    (F2 : UFunctionObject) (hObj : S.Objects.Find F = some F2) :
    (S.ResetUFunction F p).Objects.Find F
      = some { Name := F2.Name, Outer := F2.Outer, FunctionFlags := F2.FunctionFlags,
               Func := p,
               Script := match S.CachedScripts.Find F with
                 | some Script => Script
                 | none =>
                   if F2.Script.length > 0 ∧ F2.Script.head? = some EX_CallLua then []
                   else F2.Script } := by
  have hValid : S.IsUObjectValid F = true := by simp [IsUObjectValid, hObj]
  have hO : S.Object F = F2 := by simp [UUnLuaManager.Object, hObj]
  have hTail : ∀ S1 : UUnLuaManager,
      (let S2 := S1.UnRegisterFunction F
       let r := S2.RemoveOverriddenFunction F
       if r.1.IsUObjectValid r.2 then RemoveUFunction r.1 r.2 (r.1.Object r.2).Outer
       else r.1).Objects = S1.Objects := by
    intro S1
    simp only [UnRegisterFunction, RemoveOverriddenFunction, RemoveUFunction, SetClass]
    split_ifs
    · split <;> rfl
    · rfl
  unfold ResetUFunction
  rw [hTail]
  simp only [hValid, if_true, hO]
  cases hC : S.CachedScripts.Find F with
  | some Script =>
    simp only [TMap.Find_Add_same]
    split_ifs <;> rfl
  | none =>
    simp only [SetObject, TMap.Find_Add_same]
    split_ifs <;> rfl

end UUnLuaManager

end UnLua

namespace UnLua

/-- Claim C19: for a valid function that is not yet overridden (its thunk is
not `execCallLua`, it has no entry in `CachedNatives` or `CachedScripts`, and
if native its byte code does not start with the opcode `EX_CallLua`),
`ReplaceFunction` stores the function's thunk in `CachedNatives`, and
`ResetUFunction` with that thunk leaves the function's dispatch thunk and
`Script` bytes equal to what they were before `ReplaceFunction`. -/
theorem ReplaceFunction_ResetUFunction_restores (S : UUnLuaManager) (F C : Nat)
    (Obj : UFunctionObject) (hObj : S.Objects.Find F = some Obj)
    (hThunk : Obj.Func ≠ FNativeFuncPtr.execCallLua)
    (hNat : S.CachedNatives.Find F = none) (hScr : S.CachedScripts.Find F = none)
    (hOp : Obj.HasAnyFunctionFlags FUNC_Native = true → Obj.Script.head? ≠ some EX_CallLua)
    (hFresh : F ≠ S.NextObject) :
    ∃ NativeFuncPtr, (S.ReplaceFunction F C).CachedNatives.Find F = some NativeFuncPtr
      ∧ (((S.ReplaceFunction F C).ResetUFunction F NativeFuncPtr).Object F).Func = Obj.Func
      ∧ (((S.ReplaceFunction F C).ResetUFunction F NativeFuncPtr).Object F).Script
          = Obj.Script := by
  obtain ⟨h1, F2, h2, h3, h4⟩ :=
    UUnLuaManager.ReplaceFunction_facts S F C Obj hObj hThunk hNat hFresh
  refine ⟨Obj.Func, h1, ?_⟩
  have hR := UUnLuaManager.ResetUFunction_Objects (S.ReplaceFunction F C) F Obj.Func F2 h2
  simp only [UUnLuaManager.Object, hR, Option.getD_some, true_and]
  by_cases hE : Obj.HasAnyFunctionFlags FUNC_Native = false ∧ Obj.Script ≠ []
  · rw [(h3 hE).1]
  · obtain ⟨g1, g2, g3⟩ := h4 hE
    rw [g1, hScr]
    by_cases hS : Obj.Script = []
    · have hh := g2 hS
      have hpos : F2.Script.length > 0 := by
        cases hF : F2.Script with
        | nil => rw [hF] at hh; cases hh
        | cons a l => simp
      simp only [hpos, hh, and_self, if_true]
      exact hS.symm
    · have hN : Obj.HasAnyFunctionFlags FUNC_Native = true := by
        cases hb : Obj.HasAnyFunctionFlags FUNC_Native with
        | true => rfl
        | false => exact absurd ⟨hb, hS⟩ hE
      have hne : ¬ (F2.Script.length > 0 ∧ F2.Script.head? = some EX_CallLua) := by
        rw [g3 hS]
        exact fun h => hOp hN h.2
      simp only [hne, if_false]
      exact g3 hS

end UnLua

namespace UnLua

/-- Witness of C19: the blueprint event `OnLanded` of class 2 (function 102,
thunk `ProcessInternal`, byte code 0x19 0x04) is replaced in place and reset;
thunk and byte code are as before. -/
theorem ReplaceFunction_ResetUFunction_restores_witness :
    exampleManager.Objects.Find 102
        = some ⟨"OnLanded", 2, FUNC_Event ||| FUNC_BlueprintEvent,
            FNativeFuncPtr.ProcessInternal, [0x19, EX_Return]⟩
    ∧ ((exampleManager.ReplaceFunction 102 2).Object 102).Func = FNativeFuncPtr.execCallLua
    ∧ ((exampleManager.ReplaceFunction 102 2).Object 102).Script
        = [EX_CallLua, EX_Return, EX_Nothing]
    ∧ ∃ NativeFuncPtr,
        (exampleManager.ReplaceFunction 102 2).CachedNatives.Find 102 = some NativeFuncPtr
        ∧ (((exampleManager.ReplaceFunction 102 2).ResetUFunction 102 NativeFuncPtr).Object
            102).Func = FNativeFuncPtr.ProcessInternal
        ∧ (((exampleManager.ReplaceFunction 102 2).ResetUFunction 102 NativeFuncPtr).Object
            102).Script = [0x19, EX_Return] :=
  ⟨by decide, by decide, by decide,
    ReplaceFunction_ResetUFunction_restores exampleManager 102 2
      ⟨"OnLanded", 2, FUNC_Event ||| FUNC_BlueprintEvent, FNativeFuncPtr.ProcessInternal,
        [0x19, EX_Return]⟩
      (by decide) (by decide) (by decide) (by decide) (by decide) (by decide)⟩

end UnLua

namespace UnLua

/-! ## Order of the cleanups of a deletion notification -/

/-- Counterexample to C20 as stated: for the object at 0x7000 (not a class)
the enabled context runs the reflection-registry cleanup first, then the
nulling of the handle, then the delegate cleanup; the order claimed, handle,
delegate, registry, is not the order performed. -/
theorem NotifyUObjectDeleted_order_counterexample :
    (exampleContext.NotifyUObjectDeleted (fun _ => false) 0x7000 30).Log
        = [ECleanup.ReflectionRegistry, ECleanup.LuaObject, ECleanup.Delegate]
    ∧ (exampleContext.NotifyUObjectDeleted (fun _ => false) 0x7000 30).Log
        ≠ [ECleanup.LuaObject, ECleanup.Delegate, ECleanup.ReflectionRegistry] := by
  constructor <;> decide

/-- Claim C20, amended: while the bridge is enabled, the notification runs the
reflection-registry cleanup first, then (unless the registry reports the
object as a class) `DeleteLuaObject` on the script state, then the delegate
cleanup `Remove` of the object, and nothing else is recorded; the script state
and the delegate tables afterwards are the results of these calls. -/
theorem NotifyUObjectDeleted_order (Cxt : FLuaContext) (IsClass : Nat → Bool)
    (InObject ObjectClass : Nat) (hEnable : Cxt.bEnable = true) :
    (Cxt.NotifyUObjectDeleted IsClass InObject ObjectClass).Log
        = Cxt.Log ++ [ECleanup.ReflectionRegistry]
            ++ (if IsClass InObject then [] else [ECleanup.LuaObject]) ++ [ECleanup.Delegate]
    ∧ (Cxt.NotifyUObjectDeleted IsClass InObject ObjectClass).L
        = (if IsClass InObject then Cxt.L else DeleteLuaObject Cxt.L InObject)
    ∧ (Cxt.NotifyUObjectDeleted IsClass InObject ObjectClass).Delegates
        = Cxt.Delegates.Remove InObject ObjectClass := by
  simp only [FLuaContext.NotifyUObjectDeleted, hEnable, Bool.not_true, Bool.false_eq_true,
    if_false, FLuaContext.Manager_NotifyUObjectDeleted,
    FLuaContext.Delegate_NotifyUObjectDeleted]
  cases IsClass InObject <;> simp <;> split_ifs <;> simp

/-- Witness of C20 amended: the example context is enabled; after the
notification for the object at 0x7000 the three cleanups are recorded in the
order registry, handle, delegate, and the handle on top of the stack resolves
to null. -/
theorem NotifyUObjectDeleted_order_witness :
    exampleContext.bEnable = true
    ∧ (exampleContext.NotifyUObjectDeleted (fun _ => false) 0x7000 30).Log
        = [ECleanup.ReflectionRegistry, ECleanup.LuaObject, ECleanup.Delegate]
    ∧ (exampleContext.NotifyUObjectDeleted (fun _ => false) 0x7000 30).L
        = DeleteLuaObject exampleBoundState 0x7000 :=
  ⟨rfl, (NotifyUObjectDeleted_order exampleContext (fun _ => false) 0x7000 30 rfl).1,
    (NotifyUObjectDeleted_order exampleContext (fun _ => false) 0x7000 30 rfl).2.1⟩

end UnLua

namespace UnLua

/-! ## Field registration -/

lemma FieldsValid_nil : FieldsValid [] := by
  intro a C FieldName D h
  cases h

lemma Class_Fields_some (R : FFieldRegistry) (a : Nat) (FieldName : String) (D : FFieldDesc)
    (h : (R.Class a).Fields.Find FieldName = some D) :
    ∃ C, R.Find a = some C ∧ C.Fields.Find FieldName = some D := by
  unfold FFieldRegistry.Class at h
  cases hF : R.Find a with
  | none => rw [hF] at h; cases h
  | some C => rw [hF] at h; exact ⟨C, rfl, h⟩

/-- Caching a new property keeps the cached descriptors well formed. -/
lemma FieldsValid_add_property (R : FFieldRegistry) (hR : FieldsValid R) (a Q : Nat)
    (FieldName : String) (P : FMember) :
    FieldsValid (R.Add a
      { Fields := (R.Class a).Fields.Add FieldName
          ⟨Q, a, ((R.Class a).Properties.length : Int) + 1⟩,
        Properties := (R.Class a).Properties ++ [P],
        Functions := (R.Class a).Functions }) := by
  intro b C N D hb hD
  by_cases hba : b = a
  · subst hba
    rw [TMap.Find_Add_same] at hb
    cases hb
    by_cases hN : N = FieldName
    · subst hN
      rw [TMap.Find_Add_same] at hD
      cases hD
      refine ⟨rfl, Or.inl ⟨?_, ?_⟩⟩
      · show (0 : Int) < ((R.Class b).Properties.length : Int) + 1
        omega
      · show ((((R.Class b).Properties.length : Int) + 1) - 1).toNat
          < ((R.Class b).Properties ++ [P]).length
        simp only [List.length_append, List.length_singleton]
        omega
    · rw [TMap.Find_Add_other _ _ _ _ hN] at hD
      obtain ⟨C0, hC0, hD0⟩ := Class_Fields_some R b N D hD
      obtain ⟨h1, h2⟩ := hR b C0 N D hC0 hD0
      have hC : R.Class b = C0 := by simp [FFieldRegistry.Class, hC0]
      refine ⟨h1, ?_⟩
      rw [hC]
      rcases h2 with ⟨g1, g2⟩ | ⟨g1, g2⟩
      · refine Or.inl ⟨g1, ?_⟩
        simp only [List.length_append, List.length_singleton]
        omega
      · exact Or.inr ⟨g1, g2⟩
  · rw [TMap.Find_Add_other _ _ _ _ hba] at hb
    exact hR b C N D hb hD

/-- Caching a new function keeps the cached descriptors well formed. -/
lemma FieldsValid_add_function (R : FFieldRegistry) (hR : FieldsValid R) (a Q : Nat)
    (FieldName : String) (F : FMember) :
    FieldsValid (R.Add a
      { Fields := (R.Class a).Fields.Add FieldName
          ⟨Q, a, -(((R.Class a).Functions.length : Int) + 1)⟩,
        Properties := (R.Class a).Properties,
        Functions := (R.Class a).Functions ++ [F] }) := by
  intro b C N D hb hD
  by_cases hba : b = a
  · subst hba
    rw [TMap.Find_Add_same] at hb
    cases hb
    by_cases hN : N = FieldName
    · subst hN
      rw [TMap.Find_Add_same] at hD
      cases hD
      refine ⟨rfl, Or.inr ⟨?_, ?_⟩⟩
      · show -(((R.Class b).Functions.length : Int) + 1) < 0
        omega
      · show (-(-(((R.Class b).Functions.length : Int) + 1)) - 1).toNat
          < ((R.Class b).Functions ++ [F]).length
        simp only [List.length_append, List.length_singleton]
        omega
    · rw [TMap.Find_Add_other _ _ _ _ hN] at hD
      obtain ⟨C0, hC0, hD0⟩ := Class_Fields_some R b N D hD
      obtain ⟨h1, h2⟩ := hR b C0 N D hC0 hD0
      have hC : R.Class b = C0 := by simp [FFieldRegistry.Class, hC0]
      refine ⟨h1, ?_⟩
      rw [hC]
      rcases h2 with ⟨g1, g2⟩ | ⟨g1, g2⟩
      · exact Or.inl ⟨g1, g2⟩
      · refine Or.inr ⟨g1, ?_⟩
        simp only [List.length_append, List.length_singleton]
        omega
  · rw [TMap.Find_Add_other _ _ _ _ hba] at hb
    exact hR b C N D hb hD

end UnLua

namespace UnLua

lemma RegisteredAs_cached (R : FFieldRegistry) (hR : FieldsValid R) (a : Nat)
    (FieldName : String) (D : FFieldDesc)
    (h : (R.Class a).Fields.Find FieldName = some D) : RegisteredAs R R FieldName D := by
  obtain ⟨C, hC, hD⟩ := Class_Fields_some R a FieldName D h
  have hO := (hR a C FieldName D hC hD).1
  refine ⟨hR, ⟨C, by rw [hO]; exact hC, hD⟩, ?_⟩
  intro hnone
  rw [hO, h] at hnone
  cases hnone

lemma RegisteredAs_property (R : FFieldRegistry) (hR : FieldsValid R) (a Q : Nat)
    (FieldName : String) (P : FMember) :
    RegisteredAs R
      (R.Add a
        { Fields := (R.Class a).Fields.Add FieldName
            ⟨Q, a, ((R.Class a).Properties.length : Int) + 1⟩,
          Properties := (R.Class a).Properties ++ [P],
          Functions := (R.Class a).Functions })
      FieldName ⟨Q, a, ((R.Class a).Properties.length : Int) + 1⟩ := by
  refine ⟨FieldsValid_add_property R hR a Q FieldName P,
    ⟨_, TMap.Find_Add_same _ _ _, TMap.Find_Add_same _ _ _⟩, ?_⟩
  intro _
  refine Or.inl ⟨rfl, ⟨P, ?_⟩, ?_⟩
  · simp only [FFieldRegistry.Class, TMap.Find_Add_same, Option.getD_some]
  · simp only [FFieldRegistry.Class, TMap.Find_Add_same, Option.getD_some]

lemma RegisteredAs_function (R : FFieldRegistry) (hR : FieldsValid R) (a Q : Nat)
    (FieldName : String) (F : FMember) :
    RegisteredAs R
      (R.Add a
        { Fields := (R.Class a).Fields.Add FieldName
            ⟨Q, a, -(((R.Class a).Functions.length : Int) + 1)⟩,
          Properties := (R.Class a).Properties,
          Functions := (R.Class a).Functions ++ [F] })
      FieldName ⟨Q, a, -(((R.Class a).Functions.length : Int) + 1)⟩ := by
  refine ⟨FieldsValid_add_function R hR a Q FieldName F,
    ⟨_, TMap.Find_Add_same _ _ _, TMap.Find_Add_same _ _ _⟩, ?_⟩
  intro _
  refine Or.inr ⟨rfl, ⟨F, ?_⟩, ?_⟩
  · simp only [FFieldRegistry.Class, TMap.Find_Add_same, Option.getD_some]
  · simp only [FFieldRegistry.Class, TMap.Find_Add_same, Option.getD_some]

/-- Every descriptor that `RegisterField` returns on a well-formed registry
is registered as described by `RegisteredAs`. -/
lemma RegisterFieldFuel_RegisteredAs (FieldName : String) (Q : Nat) :
    ∀ (fuel : Nat) (R : FFieldRegistry) (Chain : List UStruct) (R1 : FFieldRegistry)
      (D : FFieldDesc), FieldsValid R →
      RegisterFieldFuel fuel R Chain FieldName Q = (R1, some D) →
      RegisteredAs R R1 FieldName D := by
  intro fuel
  induction fuel with
  | zero =>
    intro R Chain R1 D _ h
    simp [RegisterFieldFuel] at h
  | succ fuel ih =>
    intro R Chain R1 D hR h
    cases Chain with
    | nil => simp [RegisterFieldFuel] at h
    | cons This Supers =>
      rw [RegisterFieldFuel] at h
      split at h
      · rename_i FieldDesc hFind
        cases h
        exact RegisteredAs_cached R hR This.Address FieldName D hFind
      · simp only at h
        split at h
        · cases h
        · split_ifs at h
          · exact ih R _ R1 D hR h
          · cases h
            exact RegisteredAs_property R hR This.Address Q FieldName _
        · split_ifs at h
          · exact ih R _ R1 D hR h
          · cases h
            exact RegisteredAs_function R hR This.Address Q FieldName _

end UnLua

namespace UnLua

/-- A cached descriptor with a positive index is a property: `AsProperty`
returns the entry of `Properties` at the index minus one. -/
lemma AsProperty_of_pos (R1 : FFieldRegistry) (D : FFieldDesc) (C1 : FClassFields)
    (hC : R1.Find D.OuterClass = some C1) (hpos : 0 < D.FieldIndex)
    (hlt : (D.FieldIndex - 1).toNat < C1.Properties.length) :
    ∃ (k : Nat) (P : FMember), D.FieldIndex = (k : Int) + 1
      ∧ (R1.Class D.OuterClass).Properties.get? k = some P ∧ D.AsProperty R1 = some P := by
  have hClass : R1.Class D.OuterClass = C1 := by simp [FFieldRegistry.Class, hC]
  refine ⟨(D.FieldIndex - 1).toNat, C1.Properties.get ⟨_, hlt⟩, by omega, ?_, ?_⟩
  · rw [hClass]
    exact List.get?_eq_get hlt
  · have h0 : (0 : Int) ≤ D.FieldIndex - 1 := by omega
    simp only [FFieldDesc.AsProperty, hpos, gt_iff_lt, if_true, hClass,
      FClassFields.GetProperty, h0]
    exact List.get?_eq_get hlt

/-- A cached descriptor with a negative index is a function: `AsFunction`
returns the entry of `Functions` at minus the index minus one. -/
lemma AsFunction_of_neg (R1 : FFieldRegistry) (D : FFieldDesc) (C1 : FClassFields)
    (hC : R1.Find D.OuterClass = some C1) (hneg : D.FieldIndex < 0)
    (hlt : (-D.FieldIndex - 1).toNat < C1.Functions.length) :
    ∃ (k : Nat) (F : FMember), D.FieldIndex = -((k : Int) + 1)
      ∧ (R1.Class D.OuterClass).Functions.get? k = some F ∧ D.AsFunction R1 = some F := by
  have hClass : R1.Class D.OuterClass = C1 := by simp [FFieldRegistry.Class, hC]
  refine ⟨(-D.FieldIndex - 1).toNat, C1.Functions.get ⟨_, hlt⟩, by omega, ?_, ?_⟩
  · rw [hClass]
    exact List.get?_eq_get hlt
  · have h0 : (0 : Int) ≤ -D.FieldIndex - 1 := by omega
    simp only [FFieldDesc.AsFunction, hneg, if_true, hClass, FClassFields.GetFunction, h0]
    exact List.get?_eq_get hlt

/-- Claim C14: on a registry whose cached descriptors are well formed (the
empty registry is, and `RegisterField` keeps it so), every descriptor that
`RegisterField` returns has a `FieldIndex` other than 0; if `IsProperty`
holds the index is k+1 for a position k of `Properties` and `AsProperty`
returns `Properties[k]`; if `IsFunction` holds the index is -(k+1) for a
position k of `Functions` and `AsFunction` returns `Functions[k]`; and when
the call created the descriptor, the property (function) was appended at the
position k equal to the previous length of `Properties` (`Functions`), with
index k+1 (-(k+1)). -/
theorem RegisterField_FieldIndex (R : FFieldRegistry) (Chain : List UStruct)
    (FieldName : String) (QueryClass : Nat) (R1 : FFieldRegistry) (D : FFieldDesc)
    (hR : FieldsValid R)
    (h : RegisterField R Chain FieldName QueryClass = (R1, some D)) :
    D.FieldIndex ≠ 0 ∧ D.IsValid = true ∧ FieldsValid R1
    ∧ (D.IsProperty = true ∨ D.IsFunction = true)
    ∧ (D.IsProperty = true → ∃ (k : Nat) (P : FMember), D.FieldIndex = (k : Int) + 1
        ∧ (R1.Class D.OuterClass).Properties.get? k = some P ∧ D.AsProperty R1 = some P)
    ∧ (D.IsFunction = true → ∃ (k : Nat) (F : FMember), D.FieldIndex = -((k : Int) + 1)
        ∧ (R1.Class D.OuterClass).Functions.get? k = some F ∧ D.AsFunction R1 = some F)
    ∧ ((R.Class D.OuterClass).Fields.Find FieldName = none →
        (D.FieldIndex = ((R.Class D.OuterClass).Properties.length : Int) + 1
          ∧ ∃ P, (R1.Class D.OuterClass).Properties = (R.Class D.OuterClass).Properties ++ [P]
            ∧ D.AsProperty R1 = some P)
        ∨ (D.FieldIndex = -(((R.Class D.OuterClass).Functions.length : Int) + 1)
          ∧ ∃ F, (R1.Class D.OuterClass).Functions = (R.Class D.OuterClass).Functions ++ [F]
            ∧ D.AsFunction R1 = some F)) := by
  obtain ⟨hV, ⟨C1, hC1, hD1⟩, hNew⟩ :=
    RegisterFieldFuel_RegisteredAs FieldName QueryClass _ R Chain R1 D hR h
  obtain ⟨_, hIdx⟩ := hV D.OuterClass C1 FieldName D hC1 hD1
  have hne : D.FieldIndex ≠ 0 := by
    rcases hIdx with ⟨g, _⟩ | ⟨g, _⟩ <;> omega
  have hProp : D.IsProperty = true → ∃ (k : Nat) (P : FMember), D.FieldIndex = (k : Int) + 1
      ∧ (R1.Class D.OuterClass).Properties.get? k = some P ∧ D.AsProperty R1 = some P := by
    intro hp
    simp only [FFieldDesc.IsProperty, decide_eq_true_eq] at hp
    rcases hIdx with ⟨g1, g2⟩ | ⟨g1, _⟩
    · exact AsProperty_of_pos R1 D C1 hC1 g1 g2
    · omega
  have hFun : D.IsFunction = true → ∃ (k : Nat) (F : FMember), D.FieldIndex = -((k : Int) + 1)
      ∧ (R1.Class D.OuterClass).Functions.get? k = some F ∧ D.AsFunction R1 = some F := by
    intro hp
    simp only [FFieldDesc.IsFunction, decide_eq_true_eq] at hp
    rcases hIdx with ⟨g1, _⟩ | ⟨g1, g2⟩
    · omega
    · exact AsFunction_of_neg R1 D C1 hC1 g1 g2
  refine ⟨hne, by simp [FFieldDesc.IsValid, hne], hV, ?_, hProp, hFun, ?_⟩
  · rcases hIdx with ⟨g, _⟩ | ⟨g, _⟩
    · exact Or.inl (by simp [FFieldDesc.IsProperty, g])
    · exact Or.inr (by simp [FFieldDesc.IsFunction, g])
  · intro hnone
    rcases hNew hnone with ⟨e1, ⟨P, e2⟩, _⟩ | ⟨e1, ⟨F, e2⟩, _⟩
    · refine Or.inl ⟨e1, P, e2, ?_⟩
      obtain ⟨k, P1, k1, k2, k3⟩ := hProp (by simp only [FFieldDesc.IsProperty, decide_eq_true_eq]; omega)
      rw [k3, ← k2, e2]
      have hk : k = (R.Class D.OuterClass).Properties.length := by omega
      rw [hk]
      simp
    · refine Or.inr ⟨e1, F, e2, ?_⟩
      obtain ⟨k, F1, k1, k2, k3⟩ := hFun (by simp only [FFieldDesc.IsFunction, decide_eq_true_eq]; omega)
      rw [k3, ← k2, e2]
      have hk : k = (R.Class D.OuterClass).Functions.length := by omega
      rw [hk]
      simp

end UnLua

namespace UnLua

/-- Witness of C14: on the empty registry the lookup of `Jump` on `Pawn`
creates the descriptor with index -1 for `Functions[0]`, and the lookup of
`Health`, declared on `Actor`, the descriptor with index 1 for
`Properties[0]` of `Actor`. -/
theorem RegisterField_FieldIndex_witness :
    RegisterField [] [pawnStruct, actorStruct] "Jump" 2
        = ([(2, ⟨[("Jump", ⟨2, 2, -1⟩)], [], [⟨2, "Jump"⟩]⟩)], some ⟨2, 2, -1⟩)
    ∧ (⟨2, 2, -1⟩ : FFieldDesc).IsFunction = true
    ∧ (⟨2, 2, -1⟩ : FFieldDesc).AsFunction [(2, ⟨[("Jump", ⟨2, 2, -1⟩)], [], [⟨2, "Jump"⟩]⟩)]
        = some ⟨2, "Jump"⟩
    ∧ (⟨2, 2, -1⟩ : FFieldDesc).FieldIndex ≠ 0 := by
  have h := RegisterField_FieldIndex [] [pawnStruct, actorStruct] "Jump" 2
    [(2, ⟨[("Jump", ⟨2, 2, -1⟩)], [], [⟨2, "Jump"⟩]⟩)] ⟨2, 2, -1⟩ FieldsValid_nil (by decide)
  exact ⟨by decide, by decide, by decide, h.1⟩

end UnLua

namespace UnLua

/-! ## The inherited flag of a cached descriptor -/

/-- Failing input of C15: `Health` is declared on `Actor` (address 1), the
parent of `Pawn` (address 2).  Looked up first, from either type, the
descriptor has the right flag.  Looked up from `Pawn` after a lookup from
`Actor`, the call returns the descriptor cached by the first lookup, whose
`IsInherited` is false although the field is declared on an ancestor of
`Pawn`; looked up from `Actor` after a lookup from `Pawn`, it returns the
descriptor whose `IsInherited` is true although the field is declared on
`Actor` itself. -/
theorem IsInherited_stale_for_cached_descriptor :
    (RegisterField [] [actorStruct] "Health" 1).2 = some ⟨1, 1, 1⟩
    ∧ (RegisterField [] [pawnStruct, actorStruct] "Health" 2).2 = some ⟨2, 1, 1⟩
    ∧ (⟨1, 1, 1⟩ : FFieldDesc).IsInherited = false
    ∧ (⟨2, 1, 1⟩ : FFieldDesc).IsInherited = true
    ∧ (RegisterField (RegisterField [] [actorStruct] "Health" 1).1 [pawnStruct, actorStruct]
        "Health" 2).2 = some ⟨1, 1, 1⟩
    ∧ (RegisterField (RegisterField [] [pawnStruct, actorStruct] "Health" 2).1 [actorStruct]
        "Health" 1).2 = some ⟨2, 1, 1⟩ := by
  refine ⟨?_, ?_, ?_, ?_, ?_, ?_⟩ <;> decide

end UnLua

namespace UnLua

/-! ## Fallback by generated member names -/

end UnLua

namespace UnLua

end UnLua

namespace UnLua

end UnLua

namespace UnLua

end UnLua

namespace UnLua

end UnLua

namespace UnLua

/-! ## Coroutine bookkeeping -/

/-- Counterexample to C21 as stated: thread 7 is registered under reference 3
and the resumed coroutine yields again (status `LUA_YIELD`); after
`ResumeThread(3)` both tables still hold their entry. -/
theorem ResumeThread_yield_counterexample :
    (FLuaContext.ResumeThread (fun _ => LUA_YIELD)
        (FLuaContext.AddThread ⟨[], [], []⟩ 7 3) 3).RefToThread.Find 3 = some 7 ∧
    (FLuaContext.ResumeThread (fun _ => LUA_YIELD)
        (FLuaContext.AddThread ⟨[], [], []⟩ 7 3) 3).ThreadToRef.Find 7 = some 3 := by
  decide

/-- Claim C21, amended: for a thread `T` registered under the reference `r` by
`AddThread`, after `ResumeThread(r)` the reference is no longer a key of
`RefToThread` and the thread no longer a key of `ThreadToRef` exactly when
`lua_resume` reports `LUA_OK`; in that case the reference is released, and for
every other status the tables are left as they were. -/
theorem ResumeThread_removes_iff_finished (lua_resume : Nat → Int) (S : FThreadTables)
    (T : Nat) (r : Int) :
    (((FLuaContext.ResumeThread lua_resume (FLuaContext.AddThread S T r) r).RefToThread.Find r
          = none ∧
        (FLuaContext.ResumeThread lua_resume (FLuaContext.AddThread S T r) r).ThreadToRef.Find T
          = none) ↔ lua_resume T = LUA_OK) ∧
    (FLuaContext.ResumeThread lua_resume (FLuaContext.AddThread S T r) r).Unrefs
      = (if lua_resume T = LUA_OK then r :: S.Unrefs else S.Unrefs) ∧
    (FLuaContext.ResumeThread lua_resume (FLuaContext.AddThread S T r) r
      = if lua_resume T = LUA_OK then
          { ThreadToRef := (S.ThreadToRef.Add T r).Remove T
            RefToThread := (S.RefToThread.Add r T).Remove r
            Unrefs := r :: S.Unrefs }
        else FLuaContext.AddThread S T r) := by
  have hF : (FLuaContext.AddThread S T r).RefToThread.Find r = some T := by
    simp [FLuaContext.AddThread, TMap.Find_Add_same]
  have hT : (FLuaContext.AddThread S T r).ThreadToRef.Find T = some r := by
    simp [FLuaContext.AddThread, TMap.Find_Add_same]
  by_cases h : lua_resume T = LUA_OK
  · simp only [FLuaContext.ResumeThread, hF, h, if_true]
    refine ⟨⟨fun _ => trivial, fun _ => ⟨TMap.Find_Remove_same _ _, TMap.Find_Remove_same _ _⟩⟩,
      rfl, ?_⟩
    simp [FLuaContext.AddThread]
  · simp only [FLuaContext.ResumeThread, hF, h, if_false]
    refine ⟨⟨fun hh => ?_, fun hh => absurd hh (by simp)⟩, rfl, trivial⟩
    simp at hh

/-- Witness of C21 (amended): thread 7 under reference 3, finishing with
`LUA_OK`, is dropped from both tables and its reference released. -/
theorem ResumeThread_removes_iff_finished_witness :
    (FLuaContext.ResumeThread (fun _ => LUA_OK)
        (FLuaContext.AddThread ⟨[], [], []⟩ 7 3) 3) = ⟨[], [], [3]⟩ := by
  have h := (ResumeThread_removes_iff_finished (fun _ => LUA_OK) ⟨[], [], []⟩ 7 3).2.2
  rw [h]
  decide

end UnLua

namespace UnLua

/-! ## Script arrays: `RemoveItem` -/

namespace FLuaArray

lemma FindFrom_none (Identical : Value → Value → Bool) (Item : Value) (A : List Value) (i : Nat)
    (h : ∀ c ∈ A, Identical Item c = false) : FindFrom Identical Item A i = INDEX_NONE := by
  induction A generalizing i with
  | nil => rfl
  | cons c rest ih =>
    have hc : Identical Item c = false := h c (List.mem_cons_self _ _)
    simp only [FindFrom, hc]
    exact ih (i + 1) (fun x hx => h x (List.mem_cons_of_mem _ hx))

lemma FindFrom_first (Identical : Value → Value → Bool) (Item : Value) (P : List Value)
    (c : Value) (R : List Value) (i : Nat)
    (hP : ∀ x ∈ P, Identical Item x = false) (hc : Identical Item c = true) :
    FindFrom Identical Item (P ++ c :: R) i = ((i + P.length : Nat) : Int) := by
  induction P generalizing i with
  | nil => simp [FindFrom, hc]
  | cons p rest ih =>
    have hp : Identical Item p = false := hP p (List.mem_cons_self _ _)
    have e := ih (i + 1) (fun x hx => hP x (List.mem_cons_of_mem _ hx))
    show (if Identical Item p then ((i : Nat) : Int)
        else FindFrom Identical Item (rest ++ c :: R) (i + 1)) = _
    rw [hp, e]
    simp only [List.length_cons, Bool.false_eq_true, if_false]
    congr 1
    omega

/-- Either no element is identical to the item, or the array splits at the
first identical element. -/
lemma split_first (Identical : Value → Value → Bool) (Item : Value) (A : List Value) :
    (∀ c ∈ A, Identical Item c = false) ∨
    ∃ P c R, A = P ++ c :: R ∧ (∀ x ∈ P, Identical Item x = false) ∧ Identical Item c = true := by
  induction A with
  | nil => exact Or.inl (fun c hc => by simp at hc)
  | cons a rest ih =>
    by_cases ha : Identical Item a = true
    · exact Or.inr ⟨[], a, rest, rfl, fun x hx => by simp at hx, ha⟩
    · have ha2 : Identical Item a = false := by simpa using ha
      rcases ih with h | ⟨P, c, R, hA, hP, hc⟩
      · left
        intro x hx
        rcases List.mem_cons.mp hx with e | e
        · rw [e]; exact ha2
        · exact h x e
      · right
        refine ⟨a :: P, c, R, by rw [hA]; rfl, ?_, hc⟩
        intro x hx
        rcases List.mem_cons.mp hx with e | e
        · rw [e]; exact ha2
        · exact hP x e

lemma eraseIdx_first (P : List Value) (c : Value) (R : List Value) :
    (P ++ c :: R).eraseIdx P.length = P ++ R := by
  induction P with
  | nil => rfl
  | cons p rest ih => simp [List.eraseIdx, ih]

lemma Remove_first (P : List Value) (c : Value) (R : List Value) :
    Remove (P ++ c :: R) ((P.length : Nat) : Int) = P ++ R := by
  have hv : IsValidIndex (P ++ c :: R) ((P.length : Nat) : Int) = true := by
    simp [IsValidIndex]
  simp only [Remove, hv, if_true, Int.toNat_ofNat]
  exact eraseIdx_first P c R

lemma INDEX_NONE_ne_ofNat (n : Nat) : ((n : Nat) : Int) ≠ INDEX_NONE := by
  unfold INDEX_NONE
  omega

lemma RemoveItemLoop_spec (Identical : Value → Value → Bool) (Item : Value) :
    ∀ (n : Nat) (A : List Value) (fuel : Nat) (NumRemoved : Int),
      A.length ≤ n → A.length < fuel →
      RemoveItemLoop Identical Item fuel A NumRemoved (Find Identical A Item)
        = some (NumRemoved + ((A.countP (fun c => Identical Item c) : Nat) : Int),
                A.filter (fun c => !Identical Item c)) := by
  intro n
  induction n with
  | zero =>
    intro A fuel NumRemoved hn hf
    have hA : A = [] := List.length_eq_zero.mp (Nat.le_zero.mp hn)
    subst hA
    obtain ⟨f, rfl⟩ : ∃ f, fuel = f + 1 := ⟨fuel - 1, by simp at hf; omega⟩
    simp [RemoveItemLoop, Find, FindFrom]
  | succ n ih =>
    intro A fuel NumRemoved hn hf
    obtain ⟨f, rfl⟩ : ∃ f, fuel = f + 1 := ⟨fuel - 1, by omega⟩
    rcases split_first Identical Item A with h | ⟨P, c, R, hA, hP, hc⟩
    · have hcount : A.countP (fun c => Identical Item c) = 0 := by
        rw [List.countP_eq_zero]
        intro x hx
        simp [h x hx]
      have hfilter : A.filter (fun c => !Identical Item c) = A := by
        rw [List.filter_eq_self]
        intro x hx
        simp [h x hx]
      simp [RemoveItemLoop, Find, FindFrom_none Identical Item A 0 h, hcount, hfilter]
    · subst hA
      have hfind : Find Identical (P ++ c :: R) Item = ((P.length : Nat) : Int) := by
        unfold Find
        rw [FindFrom_first Identical Item P c R 0 hP hc]
        simp
      rw [hfind]
      simp only [RemoveItemLoop, ne_eq, INDEX_NONE_ne_ofNat, not_false_eq_true, if_true,
        Remove_first]
      have hlen : (P ++ R).length ≤ n := by
        simp only [List.length_append, List.length_cons] at hn ⊢
        omega
      have hlf : (P ++ R).length < f := by
        simp only [List.length_append, List.length_cons] at hf ⊢
        omega
      rw [ih (P ++ R) f (NumRemoved + 1) hlen hlf]
      have hPc : P.countP (fun c => Identical Item c) = 0 := by
        rw [List.countP_eq_zero]
        intro x hx
        simp [hP x hx]
      have hPf : P.filter (fun c => !Identical Item c) = P := by
        rw [List.filter_eq_self]
        intro x hx
        simp [hP x hx]
      simp only [List.countP_append, List.countP_cons, hc, if_true, List.filter_append,
        List.filter_cons, Bool.not_true, hPc, hPf]
      simp
      omega

lemma Find_filter (Identical : Value → Value → Bool) (Item : Value) (A : List Value) :
    Find Identical (A.filter (fun c => !Identical Item c)) Item = INDEX_NONE := by
  apply FindFrom_none
  intro c hc
  have := (List.mem_filter.mp hc).2
  simpa using this

end FLuaArray

/-- Claim C22: for every array, item and element comparison, `RemoveItem` ends
as soon as its loop may test its condition more often than the array has
elements; it returns the number of elements of the original array identical to
the item and leaves exactly the other elements, in their original order; a
`Find` of the item in the array left returns `INDEX_NONE`. -/
theorem RemoveItem_removes_all (Identical : Value → Value → Bool) (A : List Value)
    (Item : Value) (fuel : Nat) (hfuel : A.length < fuel) :
    FLuaArray.RemoveItem Identical fuel A Item
      = some (((A.countP (fun c => Identical Item c) : Nat) : Int),
              A.filter (fun c => !Identical Item c)) ∧
    FLuaArray.Find Identical (A.filter (fun c => !Identical Item c)) Item = INDEX_NONE := by
  refine ⟨?_, FLuaArray.Find_filter Identical Item A⟩
  unfold FLuaArray.RemoveItem
  rw [FLuaArray.RemoveItemLoop_spec Identical Item A.length A fuel 0 (le_refl _) hfuel]
  simp

/-- Witness of C22: removing 5 from the array 5, 1, 5, 2, 5 (compared by
equality) returns 3 and leaves 1, 2. -/
theorem RemoveItem_removes_all_witness :
    FLuaArray.RemoveItem (fun a b => decide (a = b)) 6 [5, 1, 5, 2, 5] 5 = some (3, [1, 2]) ∧
    FLuaArray.Find (fun a b => decide (a = b)) [1, 2] 5 = INDEX_NONE :=
  RemoveItem_removes_all (fun a b => decide (a = b)) [5, 1, 5, 2, 5] 5 6 (by decide)

end UnLua

namespace UnLua

/-! ## Parameter blocks: the persistent buffer -/

namespace FFunctionDesc

lemma ctorStep_buffer (D : FFunctionDesc) (P : FProperty) :
    (ctorStep D P).Buffer = D.Buffer ∧ (ctorStep D P).Function = D.Function := by
  simp only [ctorStep]
  split_ifs <;> exact ⟨rfl, rfl⟩

lemma ctorStep_delegate (D : FFunctionDesc) (P : FProperty) :
    (ctorStep D P).bHasDelegateParams
      = (D.bHasDelegateParams || (!P.CPF_ReturnParm && IsDelegateType P.PropertyType)) := by
  simp only [ctorStep, FPropertyDesc.IsReturnParameter, FPropertyDesc.Create,
    FPropertyDesc.GetPropertyType, IsDelegateType]
  split_ifs <;> simp_all

lemma foldl_ctorStep_buffer (l : List FProperty) (D : FFunctionDesc) :
    (l.foldl ctorStep D).Buffer = D.Buffer ∧ (l.foldl ctorStep D).Function = D.Function := by
  induction l generalizing D with
  | nil => exact ⟨rfl, rfl⟩
  | cons P rest ih =>
    simp only [List.foldl_cons]
    exact ⟨(ih _).1.trans (ctorStep_buffer D P).1, (ih _).2.trans (ctorStep_buffer D P).2⟩

lemma foldl_ctorStep_delegate (l : List FProperty) (D : FFunctionDesc) :
    (l.foldl ctorStep D).bHasDelegateParams
      = (D.bHasDelegateParams
          || l.any (fun P => !P.CPF_ReturnParm && IsDelegateType P.PropertyType)) := by
  induction l generalizing D with
  | nil => simp
  | cons P rest ih =>
    simp only [List.foldl_cons, List.any_cons]
    rw [ih, ctorStep_delegate, Bool.or_assoc]

lemma ctor_Buffer (F : UFunction) (dp : Option FParameterCollection) (ref : Int) :
    (ctor F dp ref).Buffer = (if F.ParmsSize > 0 then ParamsPtr.persistent else ParamsPtr.null) := by
  unfold ctor
  rw [(foldl_ctorStep_buffer _ _).1]
  rfl

lemma ctor_Function (F : UFunction) (dp : Option FParameterCollection) (ref : Int) :
    (ctor F dp ref).Function = F := by
  unfold ctor
  rw [(foldl_ctorStep_buffer _ _).2]
  rfl

lemma ctor_bHasDelegateParams (F : UFunction) (dp : Option FParameterCollection) (ref : Int) :
    (ctor F dp ref).bHasDelegateParams = F.HasDelegateParameter := by
  unfold ctor
  rw [foldl_ctorStep_delegate]
  simp [ctorInit, UFunction.HasDelegateParameter, UFunction.Parameters]

lemma ctor_NumCalls (F : UFunction) (dp : Option FParameterCollection) (ref : Int) :
    (ctor F dp ref).NumCalls = 0 := by
  unfold ctor
  generalize (F.ChildProperties.takeWhile (fun P => P.CPF_Parm)) = l
  have h : ∀ (l : List FProperty) (D : FFunctionDesc),
      (l.foldl ctorStep D).NumCalls = D.NumCalls := by
    intro l
    induction l with
    | nil => intro D; rfl
    | cons P rest ih => intro D; simp only [List.foldl_cons]; rw [ih, (ctorStep_flags D P).2.2]
  rw [h]
  rfl

end FFunctionDesc

/-- Claim C23: for the descriptor the constructor builds from a function, at
any value `n` of the recursion counter, `bHasDelegateParams` says that some
parameter other than the return value is delegate-typed; `PreCall` hands out
the descriptor's buffer when `n` is 0 and there is no such parameter, and in
every other case a fresh allocation, or null when the parameter size is 0; so
the block handed out is the persistent buffer exactly when `n` is 0, no
non-return parameter is delegate-typed and the function has parameters. -/
theorem PreCall_buffer_choice (ops : PropertyOps) (F : UFunction)
    (dp : Option FParameterCollection) (ref : Int) (n : Nat) (L : LuaStack)
    (NumParams FirstParamIndex : Int) (CleanupFlags : Nat → Bool) (ThreadRef : Int)
    (Mem0 : Nat → Value) :
    (FFunctionDesc.ctor F dp ref).bHasDelegateParams = F.HasDelegateParameter ∧
    (FFunctionDesc.ctor F dp ref).Buffer
      = (if F.ParmsSize > 0 then ParamsPtr.persistent else ParamsPtr.null) ∧
    (PreCall ops { FFunctionDesc.ctor F dp ref with NumCalls := n } L NumParams FirstParamIndex
        CleanupFlags ThreadRef Mem0).Params
      = (if n = 0 ∧ F.HasDelegateParameter = false then (FFunctionDesc.ctor F dp ref).Buffer
         else if F.ParmsSize > 0 then ParamsPtr.heap else ParamsPtr.null) ∧
    ((PreCall ops { FFunctionDesc.ctor F dp ref with NumCalls := n } L NumParams FirstParamIndex
        CleanupFlags ThreadRef Mem0).Params = ParamsPtr.persistent
      ↔ n = 0 ∧ F.HasDelegateParameter = false ∧ 0 < F.ParmsSize) := by
  have hB := FFunctionDesc.ctor_Buffer F dp ref
  have hD := FFunctionDesc.ctor_bHasDelegateParams F dp ref
  have hF := FFunctionDesc.ctor_Function F dp ref
  have hP : (PreCall ops { FFunctionDesc.ctor F dp ref with NumCalls := n } L NumParams
        FirstParamIndex CleanupFlags ThreadRef Mem0).Params
      = (if n = 0 ∧ F.HasDelegateParameter = false then (FFunctionDesc.ctor F dp ref).Buffer
         else if F.ParmsSize > 0 then ParamsPtr.heap else ParamsPtr.null) := by
    simp only [PreCall, hD, hF]
    by_cases h0 : n = 0 <;> cases hd : F.HasDelegateParameter <;> simp [h0, hd]
  refine ⟨hD, hB, hP, ?_⟩
  rw [hP, hB]
  by_cases h0 : n = 0 <;> cases hd : F.HasDelegateParameter <;>
    by_cases hs : F.ParmsSize > 0 <;> simp [h0, hd, hs]

end UnLua

namespace UnLua

/-! ## Nested invocations through one descriptor -/

/-- The block `PreCall` hands out at recursion depth `n`. -/
lemma PreCall_Params (ops : PropertyOps) (D : FFunctionDesc) (a : CallArgs) :
    (PreCall ops D a.L a.NumParams a.FirstParamIndex a.CleanupFlags a.ThreadRef a.Mem).Params
      = (if D.NumCalls < 1 && !D.bHasDelegateParams then D.Buffer
         else if D.Function.ParmsSize > 0 then ParamsPtr.heap else ParamsPtr.null) ∧
    (PreCall ops D a.L a.NumParams a.FirstParamIndex a.CleanupFlags a.ThreadRef a.Mem).Desc
      = { D with NumCalls := (D.NumCalls + 1) % 256 } := ⟨rfl, rfl⟩

lemma PostCall_Freed (ops : PropertyOps) (D : FFunctionDesc) (a : CallArgs) (Params : ParamsPtr) :
    (PostCall ops D a.L a.NumParams a.FirstParamIndex Params a.Mem a.CleanupFlags).Freed
      = (Params != ParamsPtr.null
          && (decide ((D.NumCalls + 255) % 256 > 0) || D.bHasDelegateParams)) ∧
    (PostCall ops D a.L a.NumParams a.FirstParamIndex Params a.Mem a.CleanupFlags).Desc
      = { D with NumCalls := (D.NumCalls + 255) % 256 } := ⟨rfl, rfl⟩

lemma NestedCalls_run_Good (ops : PropertyOps) (D0 : FFunctionDesc)
    (hB : D0.Buffer ≠ ParamsPtr.heap) :
    ∀ (events : List CallEvent) (S : NestedCalls) (depth : Nat),
      S.Desc = { D0 with NumCalls := depth } → depth < 256 →
      OpenInvocations D0 S.Open depth → (∀ r ∈ S.Done, r.Good) →
      ProperlyNested events depth = true →
      ∀ r ∈ (NestedCalls.run ops S events).Done, r.Good := by
  intro events
  induction events with
  | nil => intro S depth _ _ _ hDone _ r hr; exact hDone r hr
  | cons e rest ih =>
    intro S depth hDesc hdepth hOpen hDone hNest
    obtain ⟨SDesc, SOpen, SDone⟩ := S
    simp only at hDesc hOpen hDone
    subst hDesc
    cases e with
    | pre a =>
      simp only [ProperlyNested, Bool.and_eq_true, decide_eq_true_eq] at hNest
      simp only [NestedCalls.run, List.foldl_cons]
      have hmod : (depth + 1) % 256 = depth + 1 := Nat.mod_eq_of_lt hNest.1
      refine ih _ (depth + 1) ?_ hNest.1 ?_ hDone hNest.2
      · show (PreCall ops _ a.L a.NumParams a.FirstParamIndex a.CleanupFlags a.ThreadRef
          a.Mem).Desc = _
        rw [(PreCall_Params ops _ a).2]
        simp only [hmod]
      · show OpenInvocations D0 (((PreCall ops _ a.L a.NumParams a.FirstParamIndex a.CleanupFlags
          a.ThreadRef a.Mem).Params, depth) :: SOpen) (depth + 1)
        rw [(PreCall_Params ops _ a).1]
        exact ⟨rfl, rfl, hOpen⟩
    | post a =>
      simp only [ProperlyNested, Bool.and_eq_true, decide_eq_true_eq] at hNest
      simp only [NestedCalls.run, List.foldl_cons]
      rcases SOpen with _ | ⟨⟨p, n⟩, restOpen⟩
      · simp only [OpenInvocations] at hOpen
        omega
      · obtain ⟨hd, hp, hrest⟩ := hOpen
        have hn : (depth + 255) % 256 = n := by omega
        have hstep : NestedCalls.step ops ⟨{ D0 with NumCalls := depth }, (p, n) :: restOpen, SDone⟩
              (CallEvent.post a)
            = { Desc := { D0 with NumCalls := n }, Open := restOpen,
                Done := SDone ++ [⟨p, n, n,
                  p != ParamsPtr.null && (decide (n > 0) || D0.bHasDelegateParams)⟩] } := by
          show NestedCalls.mk (PostCall ops _ a.L a.NumParams a.FirstParamIndex p a.Mem
              a.CleanupFlags).Desc restOpen
            (SDone ++ [⟨p, n, (PostCall ops _ a.L a.NumParams a.FirstParamIndex p a.Mem
              a.CleanupFlags).Desc.NumCalls, (PostCall ops _ a.L a.NumParams a.FirstParamIndex p
              a.Mem a.CleanupFlags).Freed⟩]) = _
          rw [(PostCall_Freed ops _ a p).1, (PostCall_Freed ops _ a p).2]
          simp only [hn]
        rw [hstep]
        have hn1 : depth - 1 = n := by omega
        rw [hn1] at hNest
        refine ih _ n rfl (by omega) hrest ?_ hNest.2
        intro r hr
        rcases List.mem_append.mp hr with h | h
        · exact hDone r h
        · simp only [List.mem_singleton] at h
          subst h
          simp only [PairRecord.Good]
          by_cases h0 : n < 1 <;> cases hdel : D0.bHasDelegateParams <;>
            by_cases hs : D0.Function.ParmsSize > 0 <;>
            simp [h0, hdel, hs] at hp <;> subst hp
          all_goals (cases hb : D0.Buffer <;> simp_all <;> omega)

/-- Claim C25: on the descriptor the constructor builds, for every properly
nested run of `PreCall` and `PostCall` events that never has 256 invocations
open, each `PostCall` frees the parameter block exactly when the matching
`PreCall` heap-allocated it, never frees the persistent buffer, and leaves
`NumCalls` at its value before the matching `PreCall`. -/
theorem PostCall_frees_exactly_heap_blocks (ops : PropertyOps) (F : UFunction)
    (dp : Option FParameterCollection) (ref : Int) (events : List CallEvent)
    (hNested : ProperlyNested events 0 = true) :
    ∀ r ∈ (NestedCalls.run ops ⟨FFunctionDesc.ctor F dp ref, [], []⟩ events).Done,
      (r.Freed = true ↔ r.Params = ParamsPtr.heap) ∧
      (r.Params = ParamsPtr.persistent → r.Freed = false) ∧
      r.NumCallsAfter = r.NumCallsBefore := by
  have hB : (FFunctionDesc.ctor F dp ref).Buffer ≠ ParamsPtr.heap := by
    rw [FFunctionDesc.ctor_Buffer]
    split_ifs <;> simp
  have hDesc : (FFunctionDesc.ctor F dp ref)
      = { FFunctionDesc.ctor F dp ref with NumCalls := 0 } := by
    have h0 := FFunctionDesc.ctor_NumCalls F dp ref
    generalize FFunctionDesc.ctor F dp ref = D at h0
    cases D
    simp only at h0
    subst h0
    rfl
  exact NestedCalls_run_Good ops (FFunctionDesc.ctor F dp ref) hB events
    ⟨FFunctionDesc.ctor F dp ref, [], []⟩ 0 hDesc (by omega) rfl
    (fun r hr => by simp at hr) hNested

/-- Witness of C25: two nested calls of `OnHit`; the inner invocation gets a
heap block, which its `PostCall` frees, the outer one the persistent buffer,
which is kept. -/
theorem PostCall_frees_exactly_heap_blocks_witness :
    ProperlyNested exampleNested 0 = true ∧
    ∀ r ∈ (NestedCalls.run exampleOps ⟨FFunctionDesc.ctor onHitFunction none INDEX_NONE, [], []⟩
        exampleNested).Done,
      (r.Freed = true ↔ r.Params = ParamsPtr.heap) ∧
      (r.Params = ParamsPtr.persistent → r.Freed = false) ∧
      r.NumCallsAfter = r.NumCallsBefore :=
  ⟨by decide, PostCall_frees_exactly_heap_blocks exampleOps onHitFunction none INDEX_NONE
    exampleNested (by decide)⟩

end UnLua

namespace UnLua

/-! ## The interface path of `CallUE` -/

/-- Failing input of C26: `Interact`, declared by an interface, is called
from script at recursion depth 0 on a valid object whose class has no such
function.  `PreCall` hands out the persistent buffer and raises `NumCalls` to
1; the early return leaves `NumCalls` at 1 and, because it tests the raised
counter, releases the persistent buffer with `FMemory::Free`.  A call that
finds its function restores the counter and keeps the buffer. -/
theorem CallUE_interface_miss_frees_persistent_buffer :
    (FFunctionDesc.ctor interactFunction none INDEX_NONE).NumCalls = 0 ∧
    (FFunctionDesc.ctor interactFunction none INDEX_NONE).Buffer = ParamsPtr.persistent ∧
    (CallUE exampleOps missingFunctionEnv (FFunctionDesc.ctor interactFunction none INDEX_NONE)
        [LuaValue.userdata 1, LuaValue.number 3] 2).Completed = false ∧
    (CallUE exampleOps missingFunctionEnv (FFunctionDesc.ctor interactFunction none INDEX_NONE)
        [LuaValue.userdata 1, LuaValue.number 3] 2).Params = ParamsPtr.persistent ∧
    (CallUE exampleOps missingFunctionEnv (FFunctionDesc.ctor interactFunction none INDEX_NONE)
        [LuaValue.userdata 1, LuaValue.number 3] 2).Freed = true ∧
    (CallUE exampleOps missingFunctionEnv (FFunctionDesc.ctor interactFunction none INDEX_NONE)
        [LuaValue.userdata 1, LuaValue.number 3] 2).Desc.NumCalls = 1 ∧
    (CallUE exampleOps exampleEnv (FFunctionDesc.ctor interactFunction none INDEX_NONE)
        [LuaValue.userdata 1, LuaValue.number 3] 2).Freed = false ∧
    (CallUE exampleOps exampleEnv (FFunctionDesc.ctor interactFunction none INDEX_NONE)
        [LuaValue.userdata 1, LuaValue.number 3] 2).Desc.NumCalls = 0 := by
  decide

end UnLua

namespace UnLua

/-! ## Sequences of lock calls on class descriptors -/

namespace FClassDesc

lemma SetLocked_Descs (b : Bool) (R : FReflectionRegistry) (x d : Nat) :
    ((SetLocked b R x).Descs d).Locked = (if d = x then b else (R.Descs d).Locked)
    ∧ ((SetLocked b R x).Descs d).NameChain = (R.Descs d).NameChain
    ∧ ((SetLocked b R x).Descs d).StructValid = (R.Descs d).StructValid
    ∧ ((SetLocked b R x).Descs d).SuperNames = (R.Descs d).SuperNames
    ∧ (SetLocked b R x).FindClass = R.FindClass := by
  by_cases h : d = x
  · subst h
    simp [SetLocked]
  · simp [SetLocked, Function.update_noteq h, h]

lemma foldl_SetLocked (b : Bool) (l : List Nat) (R : FReflectionRegistry) (d : Nat) :
    ((l.foldl (SetLocked b) R).Descs d).Locked = (if d ∈ l then b else (R.Descs d).Locked)
    ∧ ((l.foldl (SetLocked b) R).Descs d).NameChain = (R.Descs d).NameChain
    ∧ ((l.foldl (SetLocked b) R).Descs d).StructValid = (R.Descs d).StructValid
    ∧ ((l.foldl (SetLocked b) R).Descs d).SuperNames = (R.Descs d).SuperNames
    ∧ (l.foldl (SetLocked b) R).FindClass = R.FindClass := by
  induction l generalizing R with
  | nil => simp
  | cons x rest ih =>
    obtain ⟨h1, h2, h3, h4, h5⟩ := ih (SetLocked b R x)
    obtain ⟨g1, g2, g3, g4, g5⟩ := SetLocked_Descs b R x d
    simp only [List.foldl_cons]
    refine ⟨?_, h2.trans g2, h3.trans g3, h4.trans g4, h5.trans g5⟩
    rw [h1, g1]
    by_cases hr : d ∈ rest
    · simp [hr]
    · by_cases hx : d = x
      · simp [hx]
      · simp [hr, hx]

lemma GetInheritanceNames_Locked (C : FClassDesc) :
    (GetInheritanceNames C).Locked = C.Locked := by
  simp only [GetInheritanceNames]
  split_ifs <;> rfl

lemma GetInheritanceChain_Locked (R : FReflectionRegistry) (this d : Nat) :
    (((GetInheritanceChain R this).1).Descs d).Locked = (R.Descs d).Locked := by
  simp only [GetInheritanceChain]
  by_cases h : d = this
  · subst h
    simp [GetInheritanceNames_Locked]
  · simp [Function.update_noteq h]

/-- A lock call on `this` writes its value to the descriptors it walks and
leaves the other flags. -/
lemma Run_Locked (R : FReflectionRegistry) (call : LockCall) (d : Nat) :
    IsLocked (call.Run R) d
      = (if d ∈ LockChain R call.Target then call.Written else IsLocked R d) := by
  cases call with
  | AddLock this =>
    simp only [LockCall.Run, IsLocked, AddLock, LockCall.Target, LockCall.Written, LockChain]
    rw [(foldl_SetLocked true _ _ d).1, GetInheritanceChain_Locked]
  | ReleaseLock this =>
    simp only [LockCall.Run, IsLocked, ReleaseLock, LockCall.Target, LockCall.Written, LockChain]
    rw [(foldl_SetLocked false _ _ d).1, GetInheritanceChain_Locked]

/-- Chains depend on the name lookup and on three fields of the descriptor. -/
lemma GetInheritanceChain_congr (R R1 : FReflectionRegistry) (y : Nat)
    (hF : R1.FindClass = R.FindClass)
    (h1 : (R1.Descs y).NameChain = (R.Descs y).NameChain)
    (h2 : (R1.Descs y).StructValid = (R.Descs y).StructValid)
    (h3 : (R1.Descs y).SuperNames = (R.Descs y).SuperNames) :
    (GetInheritanceChain R1 y).2 = (GetInheritanceChain R y).2 := by
  simp only [GetInheritanceChain, hF]
  rw [GetInheritanceNames_congr (R.Descs y) (R1.Descs y) h1 h2 h3]

/-- A lock call changes no chain. -/
lemma Run_LockChain (R : FReflectionRegistry) (call : LockCall) (y : Nat) :
    LockChain (call.Run R) y = LockChain R y := by
  have key : ∀ (b : Bool) (this : Nat),
      (GetInheritanceChain
        ((this :: (GetInheritanceChain R this).2).foldl (SetLocked b) (GetInheritanceChain R this).1)
        y).2 = (GetInheritanceChain R y).2 := by
    intro b this
    obtain ⟨_, f2, f3, f4, f5⟩ := foldl_SetLocked b (this :: (GetInheritanceChain R this).2)
      (GetInheritanceChain R this).1 y
    by_cases hy : y = this
    · subst hy
      apply GetInheritanceChain_chain
      · rw [f5]; rfl
      · rw [f2]; simp [GetInheritanceChain]
      · rw [f3]; simp [GetInheritanceChain, (GetInheritanceNames_fields (R.Descs y)).2.1]
      · rw [f4]; simp [GetInheritanceChain, (GetInheritanceNames_fields (R.Descs y)).2.2]
    · apply GetInheritanceChain_congr
      · rw [f5]; rfl
      · rw [f2]; simp [GetInheritanceChain, Function.update_noteq hy]
      · rw [f3]; simp [GetInheritanceChain, Function.update_noteq hy]
      · rw [f4]; simp [GetInheritanceChain, Function.update_noteq hy]
  cases call with
  | AddLock this =>
    simp only [LockChain, LockCall.Run, AddLock]
    rw [key true this]
  | ReleaseLock this =>
    simp only [LockChain, LockCall.Run, ReleaseLock]
    rw [key false this]

end FClassDesc

lemma LastWritten_congr (R R1 : FReflectionRegistry) (d : Nat)
    (h : ∀ y, FClassDesc.LockChain R1 y = FClassDesc.LockChain R y) :
    ∀ (calls : List LockCall) (b : Bool), LastWritten R1 d calls b = LastWritten R d calls b := by
  intro calls
  induction calls with
  | nil => intro b; rfl
  | cons call rest ih =>
    intro b
    simp only [LastWritten, h]
    exact ih _

/-- Counterexample to C27 as stated: on the pawn class descriptor (1, deriving
from descriptors 2 and 3) `AddLock` is called twice and `ReleaseLock` once, so
one `AddLock` is still unmatched; the descriptor and its two ancestors report
`IsLocked() = false`. -/
theorem IsLocked_counterexample :
    FClassDesc.LockChain exampleClasses 1 = [1, 2, 3] ∧
    FClassDesc.IsLocked (RunLockCalls exampleClasses
      [LockCall.AddLock 1, LockCall.AddLock 1, LockCall.ReleaseLock 1]) 1 = false ∧
    FClassDesc.IsLocked (RunLockCalls exampleClasses
      [LockCall.AddLock 1, LockCall.AddLock 1, LockCall.ReleaseLock 1]) 2 = false ∧
    FClassDesc.IsLocked (RunLockCalls exampleClasses
      [LockCall.AddLock 1, LockCall.AddLock 1, LockCall.ReleaseLock 1]) 3 = false := by
  decide

/-- Claim C27, amended: a lock call changes no inheritance chain, and after
every sequence of `AddLock` and `ReleaseLock` calls a descriptor reports the
value written by the last call that walked over it (the call was made on it or
on a descriptor whose inheritance chain contains it): true after an `AddLock`,
false after a `ReleaseLock`, and its earlier value when no call walked over
it. -/
theorem IsLocked_last_call (R : FReflectionRegistry) (calls : List LockCall) (d : Nat) :
    (∀ y, FClassDesc.LockChain (RunLockCalls R calls) y = FClassDesc.LockChain R y) ∧
    FClassDesc.IsLocked (RunLockCalls R calls) d
      = LastWritten R d calls (FClassDesc.IsLocked R d) := by
  induction calls generalizing R with
  | nil => exact ⟨fun _ => rfl, rfl⟩
  | cons call rest ih =>
    have hc := FClassDesc.Run_LockChain R call
    obtain ⟨i1, i2⟩ := ih (call.Run R)
    refine ⟨fun y => (i1 y).trans (hc y), ?_⟩
    show FClassDesc.IsLocked (RunLockCalls (call.Run R) rest) d = _
    rw [i2, LastWritten_congr R (call.Run R) d hc, FClassDesc.Run_Locked]
    rfl

/-- Witness of C27 (amended): on the pawn class, `AddLock` on the pawn, then
`ReleaseLock` on its parent class (descriptor 2): the pawn still reports
locked, its two ancestors do not. -/
theorem IsLocked_last_call_witness :
    FClassDesc.IsLocked (RunLockCalls exampleClasses
      [LockCall.AddLock 1, LockCall.ReleaseLock 2]) 1 = true ∧
    FClassDesc.IsLocked (RunLockCalls exampleClasses
      [LockCall.AddLock 1, LockCall.ReleaseLock 2]) 3 = false := by
  rw [(IsLocked_last_call exampleClasses [LockCall.AddLock 1, LockCall.ReleaseLock 2] 1).2,
    (IsLocked_last_call exampleClasses [LockCall.AddLock 1, LockCall.ReleaseLock 2] 3).2]
  decide

end UnLua

namespace UnLua

/-! ## Padding of struct userdata -/

set_option maxRecDepth 100000 in
/-- The padding for every alignment `2 ^ k` up to 128 and every header size
`8 * j` below 256, by enumeration. -/
lemma CalcUserdataPadding_table :
    ∀ k, k < 8 → ∀ j, j < 32 →
      CalcUserdataPadding (8 * j) (2 ^ k) < 2 ^ k
      ∧ (8 * j + CalcUserdataPadding (8 * j) (2 ^ k)) % 2 ^ k = 0
      ∧ CalcUserdataPadding (8 * j) (2 ^ k) % 8 = 0 := by
  decide

lemma CalcUserdataPadding_mod (H A : Nat) :
    CalcUserdataPadding H A = CalcUserdataPadding (H % 256) A := by
  simp [CalcUserdataPadding, Nat.mod_mod]

lemma and_seven_of_mod_eight (p : Nat) (h : p % 8 = 0) : p &&& 0x07 = 0 := by
  have e : p &&& (2 ^ 3 - 1) = p % 2 ^ 3 := Nat.and_pow_two_sub_one_eq_mod p 3
  simpa [h] using e

/-- Claim C28: for every alignment `2 ^ k` up to 128 and every header size `H`
that is a multiple of 8, the padding `p` that `CalcUserdataPadding` returns
is below the alignment, makes `H + p` a multiple of the alignment and is a
multiple of 8; `NewUserdataWithPadding`, called with a size of at least 1 and
this padding, passes its padding test and, unless setting the metatable
fails, returns the start of the block it allocates plus `p`. -/
theorem CalcUserdataPadding_aligns (k H : Nat) (hk : k ≤ 7) (hH : 8 ∣ H)
    (TryToSetMetatable : lua_State → String → lua_State × Bool) (L : lua_State) (Size : Int)
    (hSize : 1 ≤ Size) (MetatableName : Option String)
    (hMeta : ∀ Name, MetatableName = some Name →
      (TryToSetMetatable
        (NewUserdataWithPaddingTag L Size.toNat (CalcUserdataPadding H (2 ^ k))).1 Name).2 = true) :
    CalcUserdataPadding H (2 ^ k) < 2 ^ k ∧
    2 ^ k ∣ H + CalcUserdataPadding H (2 ^ k) ∧
    8 ∣ CalcUserdataPadding H (2 ^ k) ∧
    (NewUserdataWithPadding TryToSetMetatable L Size MetatableName
        (CalcUserdataPadding H (2 ^ k))).2
      = some ((NewUserdataWithPaddingTag L Size.toNat (CalcUserdataPadding H (2 ^ k))).2
          + CalcUserdataPadding H (2 ^ k)) := by
  obtain ⟨j, rfl⟩ := hH
  have hmod : (8 * j) % 256 = 8 * (j % 32) := by omega
  have hj : j % 32 < 32 := Nat.mod_lt _ (by decide)
  obtain ⟨t1, t2, t3⟩ := CalcUserdataPadding_table k (by omega) (j % 32) hj
  have hp : CalcUserdataPadding (8 * j) (2 ^ k) = CalcUserdataPadding (8 * (j % 32)) (2 ^ k) := by
    rw [CalcUserdataPadding_mod, hmod]
  rw [hp] at hMeta ⊢
  generalize CalcUserdataPadding (8 * (j % 32)) (2 ^ k) = p at t1 t2 t3 hMeta ⊢
  refine ⟨t1, ?_, Nat.dvd_of_mod_eq_zero t3, ?_⟩
  · have h256 : 2 ^ k ∣ 256 := by
      have : (256 : Nat) = 2 ^ 8 := by norm_num
      rw [this]
      exact pow_dvd_pow 2 (by omega)
    have hsplit : 8 * j + p = 256 * (j / 32) + (8 * (j % 32) + p) := by omega
    rw [hsplit]
    exact Nat.dvd_add (Dvd.dvd.mul_right h256 _) (Nat.dvd_of_mod_eq_zero t2)
  · have hS : ¬ (Size < 1) := by omega
    have hand : p &&& 0x07 = 0 := and_seven_of_mod_eight p t3
    simp only [NewUserdataWithPadding, hS, if_false, hand, ne_eq, not_true_eq_false]
    cases hM : MetatableName with
    | none => rfl
    | some Name =>
      have hT := hMeta Name hM
      simp only [hT, Bool.not_true, Bool.false_eq_true, if_false]

/-- Witness of C28: with the 40-byte header of Lua 5.3 and a 64-byte aligned
struct of 16 bytes, the padding is 24 and the address returned is 24 bytes
into the new block. -/
theorem CalcUserdataPadding_aligns_witness :
    CalcUserdataPadding 40 (2 ^ 6) = 24 ∧
    CalcUserdataPadding 40 (2 ^ 6) < 2 ^ 6 ∧
    2 ^ 6 ∣ 40 + CalcUserdataPadding 40 (2 ^ 6) ∧
    8 ∣ CalcUserdataPadding 40 (2 ^ 6) ∧
    (NewUserdataWithPadding (fun S _ => (S, true)) exampleState 16 none
        (CalcUserdataPadding 40 (2 ^ 6))).2
      = some ((NewUserdataWithPaddingTag exampleState (16 : Int).toNat
          (CalcUserdataPadding 40 (2 ^ 6))).2 + CalcUserdataPadding 40 (2 ^ 6)) :=
  ⟨by decide, CalcUserdataPadding_aligns 6 40 (by decide) (by decide) (fun S _ => (S, true))
    exampleState 16 (by decide) none (fun _ h => by simp at h)⟩

end UnLua

namespace UnLua

/-! ## The override thunk: the script stack -/

lemma lua_remove_neg (S T : LuaStack) (k : Nat) (h1 : 1 ≤ k) (h2 : k ≤ T.length) :
    lua_remove (S ++ T) (lua_absindex (S ++ T) (-(k : Int)))
      = S ++ T.eraseIdx (T.length - k) := by
  have hpos : ¬ (0 : Int) < -(k : Int) := by omega
  have e : lua_absindex (S ++ T) (-(k : Int)) = ((S.length + (T.length - k) + 1 : Nat) : Int) := by
    simp only [lua_absindex, if_neg hpos, List.length_append]
    push_cast
    omega
  rw [e]
  simp only [lua_remove, Int.toNat_ofNat, Nat.add_sub_cancel]
  rw [List.eraseIdx_append_of_length_le (by omega)]
  congr 2
  omega

lemma lua_pop_all_above (L X : LuaStack) :
    (if (L ++ X).length - L.length = 0 then L ++ X
      else lua_pop (L ++ X) (((L ++ X).length : Int) - (L.length : Int))) = L := by
  have hlen : (L ++ X).length - L.length = X.length := by simp
  rw [hlen]
  by_cases hX : X.length = 0
  · rw [if_pos hX]
    have : X = [] := List.length_eq_zero.mp hX
    simp [this]
  · rw [if_neg hX]
    have e : (((L ++ X).length : Int) - (L.length : Int)) = ((X.length : Nat) : Int) := by
      simp
    rw [e]
    exact lua_pop_append L X X.length rfl

/-- The by-reference `PushFunction` leaves the reporter, a function and the
object above the stack it was given, or that stack unchanged. -/
lemma PushFunction_shape (Registry : Int → LuaValue) (L : LuaStack) (Object : LuaValue)
    (FunctionRef : Int) :
    ((PushFunction Registry L Object FunctionRef).1 = true ∧
      ∃ fn, (PushFunction Registry L Object FunctionRef).2 = L ++ [LuaValue.cfunction 0, fn, Object])
    ∨ ((PushFunction Registry L Object FunctionRef).1 = false ∧
      (PushFunction Registry L Object FunctionRef).2 = L) := by
  simp only [PushFunction]
  have hpop := lua_pop_all_above L [LuaValue.cfunction 0, Registry FunctionRef]
  have e2 : L ++ [LuaValue.cfunction 0] ++ [Registry FunctionRef]
      = L ++ [LuaValue.cfunction 0, Registry FunctionRef] := by simp
  rw [e2]
  cases h : Registry FunctionRef with
  | function f =>
    left
    exact ⟨rfl, ⟨LuaValue.function f, by simp⟩⟩
  | cfunction f =>
    left
    exact ⟨rfl, ⟨LuaValue.cfunction f, by simp⟩⟩
  | _ =>
    right
    rw [h] at hpop
    exact ⟨rfl, hpop⟩

/-- The by-reference `PushFunction` succeeds exactly when the registry holds
a function, script or C, under the reference. -/
lemma PushFunction_success (Registry : Int → LuaValue) (L : LuaStack) (Object : LuaValue)
    (FunctionRef : Int) :
    (PushFunction Registry L Object FunctionRef).1
      = lua_isfunction (some (Registry FunctionRef)) := by
  simp only [PushFunction]
  cases h : Registry FunctionRef <;> rfl

lemma lua_rawget_top (H : ScriptHeap) (S : LuaStack) (t k : LuaValue) :
    H.lua_rawget (S ++ [t, k]) (-2) = S ++ [t, H.RawGet t k] := by
  simp only [ScriptHeap.lua_rawget, lua_at_2_2, lua_at_2_1, Option.getD_some, lua_pop_2_1]
  simp

lemma GetObjectMapping_shape (H : ScriptHeap) (L : LuaStack) (Object : Nat) :
    ((GetObjectMapping H L Object).1 = true ∧ ∃ v, (GetObjectMapping H L Object).2 = L ++ [v])
    ∨ ((GetObjectMapping H L Object).1 = false ∧ (GetObjectMapping H L Object).2 = L) := by
  simp only [GetObjectMapping]
  by_cases h0 : Object = 0
  · right
    simp [h0]
  · simp only [h0, if_false, push_push, lua_rawget_top, lua_at_2_1]
    by_cases hnil : H.RawGet H.ObjectMap (LuaValue.lightuserdata Object) = LuaValue.nil
    · right
      simp [hnil, lua_pop_2]
    · left
      have hne : some (H.RawGet H.ObjectMap (LuaValue.lightuserdata Object)) ≠ some LuaValue.nil := by
        simpa using hnil
      simp only [ne_eq, hne, not_false_eq_true, if_true, lua_remove_2]
      exact ⟨trivial, _, rfl⟩

/-- The lookup loop, entered on the reporter, the instance and a table, ends
with the reporter, the function, the instance and the function again, or with
the reporter, the instance and one more value. -/
lemma PushFunctionLoop_shape (H : ScriptHeap) (FunctionName : String) :
    ∀ (fuel : Nat) (base : LuaStack) (rep inst t : LuaValue) (r : Bool × LuaStack),
      PushFunctionLoop H FunctionName fuel (base ++ [rep, inst, t]) = some r →
      (r.1 = true ∧ ∃ f, r.2 = base ++ [rep, f, inst, f])
      ∨ (r.1 = false ∧ ∃ s, r.2 = base ++ [rep, inst, s]) := by
  intro fuel
  induction fuel with
  | zero => intro base rep inst t r h; simp [PushFunctionLoop] at h
  | succ n ih =>
    intro base rep inst t r h
    have e1 : base ++ [rep, inst, t] ++ [LuaValue.string FunctionName]
        = (base ++ [rep, inst]) ++ [t, LuaValue.string FunctionName] := by simp
    have e2 : ∀ v, (base ++ [rep, inst]) ++ [t, v] = base ++ [rep, inst, t, v] := by
      intro v; simp
    simp only [PushFunctionLoop] at h
    rw [e1, lua_rawget_top, e2] at h
    by_cases hf : lua_isfunction (some (H.RawGet t (LuaValue.string FunctionName))) = true
    · left
      simp only [lua_at_4_1, hf, if_true] at h
      have a3 : lua_at (base ++ [rep, inst, t, H.RawGet t (LuaValue.string FunctionName)]) (-3)
          = some inst := lua_at_append_neg base _ 3 (by decide) (by simp)
      rw [a3] at h
      simp only [Option.getD_some] at h
      have e3 : base ++ [rep, inst, t, H.RawGet t (LuaValue.string FunctionName)] ++ [inst]
          = base ++ [rep, inst, t, H.RawGet t (LuaValue.string FunctionName), inst] := by simp
      rw [e3] at h
      have r1 := lua_remove_neg base
        [rep, inst, t, H.RawGet t (LuaValue.string FunctionName), inst] 3 (by decide) (by simp)
      have r1' : lua_remove (base ++ [rep, inst, t, H.RawGet t (LuaValue.string FunctionName), inst])
          (lua_absindex (base ++ [rep, inst, t, H.RawGet t (LuaValue.string FunctionName), inst])
            (-3))
          = base ++ [rep, inst, H.RawGet t (LuaValue.string FunctionName), inst] := r1
      rw [r1'] at h
      have r2 := lua_remove_neg base
        [rep, inst, H.RawGet t (LuaValue.string FunctionName), inst] 3 (by decide) (by simp)
      have r2' : lua_remove (base ++ [rep, inst, H.RawGet t (LuaValue.string FunctionName), inst])
          (lua_absindex (base ++ [rep, inst, H.RawGet t (LuaValue.string FunctionName), inst])
            (-3))
          = base ++ [rep, H.RawGet t (LuaValue.string FunctionName), inst] := r2
      rw [r2'] at h
      rw [lua_at_3_2] at h
      simp only [Option.getD_some, Option.some.injEq] at h
      subst h
      exact ⟨rfl, H.RawGet t (LuaValue.string FunctionName), by simp⟩
    · simp only [lua_at_4_1, hf, Bool.false_eq_true, if_false] at h
      have p1 : lua_pop (base ++ [rep, inst, t, H.RawGet t (LuaValue.string FunctionName)]) 1
          = base ++ [rep, inst, t] := by
        have := lua_pop_append (base ++ [rep, inst, t])
          [H.RawGet t (LuaValue.string FunctionName)] 1 rfl
        simpa using this
      rw [p1] at h
      have e4 : base ++ [rep, inst, t] ++ [LuaValue.string "Super"]
          = (base ++ [rep, inst]) ++ [t, LuaValue.string "Super"] := by simp
      rw [e4, lua_rawget_top, lua_remove_2] at h
      have e5 : (base ++ [rep, inst]) ++ [H.RawGet t (LuaValue.string "Super")]
          = base ++ [rep, inst, H.RawGet t (LuaValue.string "Super")] := by simp
      rw [e5] at h
      by_cases ht : lua_istable (lua_at (base ++ [rep, inst,
          H.RawGet t (LuaValue.string "Super")]) (-1)) = true
      · rw [if_pos ht] at h
        exact ih base rep inst _ r h
      · rw [if_neg ht] at h
        simp only [Option.some.injEq] at h
        subst h
        right
        exact ⟨rfl, _, rfl⟩

/-- The by-name `PushFunction` returns a reference other than `INDEX_NONE`
with the reporter, the function and the instance above the stack it was
given, or `INDEX_NONE` with that stack unchanged. -/
lemma PushFunctionByName_shape (H : ScriptHeap) (fuel : Nat) (L : LuaStack) (Object : Nat)
    (FunctionName : String) (r : Int × LuaStack × ScriptHeap)
    (h : PushFunctionByName H fuel L Object FunctionName = some r) :
    (r.1 ≠ INDEX_NONE ∧ ∃ f inst, r.2.1 = L ++ [LuaValue.cfunction 0, f, inst])
    ∨ (r.1 = INDEX_NONE ∧ r.2.1 = L) := by
  simp only [PushFunctionByName] at h
  have notFound : ∀ X : LuaStack,
      (some (INDEX_NONE,
        (if (L ++ X).length - L.length = 0 then L ++ X
          else lua_pop (L ++ X) (((L ++ X).length : Int) - (L.length : Int))), H)
        : Option (Int × LuaStack × ScriptHeap)) = some r →
      (r.1 ≠ INDEX_NONE ∧ ∃ f inst, r.2.1 = L ++ [LuaValue.cfunction 0, f, inst])
      ∨ (r.1 = INDEX_NONE ∧ r.2.1 = L) := by
    intro X hX
    rw [lua_pop_all_above] at hX
    simp only [Option.some.injEq] at hX
    subst hX
    exact Or.inr ⟨rfl, rfl⟩
  rcases GetObjectMapping_shape H (L ++ [LuaValue.cfunction 0]) Object with
    ⟨hm1, v, hm2⟩ | ⟨hm1, hm2⟩
  · rw [hm1, hm2] at h
    simp only [if_true, push_push, lua_at_2_1, Option.getD_some] at h
    by_cases ht : lua_istable (some v) = true
    · simp only [ht, if_true] at h
      cases hmt : H.GetMetatable v with
      | none =>
        rw [hmt] at h
        exact notFound [LuaValue.cfunction 0, v] h
      | some mt =>
        rw [hmt] at h
        simp only [push_push_push] at h
        cases hloop : PushFunctionLoop H FunctionName fuel (L ++ [LuaValue.cfunction 0, v, mt]) with
        | none => rw [hloop] at h; simp at h
        | some q =>
          rw [hloop] at h
          rcases PushFunctionLoop_shape H FunctionName fuel L _ _ _ q hloop with
            ⟨hq1, f, hq2⟩ | ⟨hq1, s, hq2⟩
          · obtain ⟨q1, q2⟩ := q
            simp only at hq1 hq2
            subst hq1
            subst hq2
            simp only [Option.some.injEq] at h
            subst h
            left
            refine ⟨?_, f, v, ?_⟩
            · show (H.LastRef : Int) + 1 ≠ INDEX_NONE
              unfold INDEX_NONE
              omega
            · show lua_pop (L ++ [LuaValue.cfunction 0, f, v, f]) 1 = _
              have := lua_pop_append (L ++ [LuaValue.cfunction 0, f, v]) [f] 1 rfl
              simpa using this
          · obtain ⟨q1, q2⟩ := q
            simp only at hq1 hq2
            subst hq1
            subst hq2
            exact notFound [LuaValue.cfunction 0, v, s] h
    · simp only [ht, Bool.false_eq_true, if_false] at h
      exact notFound [LuaValue.cfunction 0, v] h
  · rw [hm1, hm2] at h
    simp only [Bool.false_eq_true, if_false] at h
    exact notFound [LuaValue.cfunction 0] h

end UnLua

namespace UnLua

/-- The protected call on the reporter, the function, the object and the
pushed parameters: on success the requested number of results is left above
the base, on failure the base alone. -/
lemma CallFunction_stack (Script : ScriptFunction) (base pushed : LuaStack)
    (rep fn obj : LuaValue) (B : Nat) :
    ((CallFunction Script (base ++ [rep, fn, obj] ++ pushed) (pushed.length + 1) B).Ok = true ∧
      ∃ X : LuaStack, X.length = B ∧
        (CallFunction Script (base ++ [rep, fn, obj] ++ pushed) (pushed.length + 1) B).L
          = base ++ X)
    ∨ ((CallFunction Script (base ++ [rep, fn, obj] ++ pushed) (pushed.length + 1) B).Ok = false ∧
        (CallFunction Script (base ++ [rep, fn, obj] ++ pushed) (pushed.length + 1) B).L
          = base) := by
  have hlen : (base ++ [rep, fn, obj] ++ pushed).length - (pushed.length + 1 + 1)
      = base.length + 1 := by
    simp only [List.length_append, List.length_cons, List.length_nil]
    omega
  have htake : (base ++ [rep, fn, obj] ++ pushed).take (base.length + 1) = base ++ [rep] := by
    have e : base ++ [rep, fn, obj] ++ pushed = (base ++ [rep]) ++ (fn :: obj :: pushed) := by
      simp
    rw [e]
    apply List.take_left'
    simp
  have hidx : (((base ++ [rep, fn, obj] ++ pushed).length : Int)
      - ((pushed.length + 1 : Nat) : Int) - 1) = ((base.length + 1 : Nat) : Int) := by
    simp only [List.length_append, List.length_cons, List.length_nil]
    push_cast
    omega
  simp only [CallFunction, lua_pcall, hlen, htake, hidx]
  cases hS : Script (((base ++ [rep, fn, obj] ++ pushed).get? (base.length + 1)).getD LuaValue.nil)
      ((base ++ [rep, fn, obj] ++ pushed).drop (base.length + 1 + 1)) with
  | ok rs =>
    left
    simp only [if_true]
    refine ⟨trivial, (rs ++ List.replicate B LuaValue.nil).take B, ?_, ?_⟩
    · simp
    · simp only [lua_remove, Int.toNat_ofNat, Nat.add_sub_cancel]
      have e : base ++ [rep] ++ (rs ++ List.replicate B LuaValue.nil).take B
          = base ++ (rep :: (rs ++ List.replicate B LuaValue.nil).take B) := by simp
      rw [e, List.eraseIdx_append_of_length_le (le_refl _)]
      simp
  | error e =>
    right
    simp only [Bool.false_eq_true, if_false]
    refine ⟨trivial, ?_⟩
    have e1 : (((base ++ [rep] ++ [e]).length : Int) - ((base.length + 1 : Nat) : Int) + 1)
        = ((2 : Nat) : Int) := by
      simp only [List.length_append, List.length_cons, List.length_nil]
      push_cast
      omega
    rw [e1]
    have e2 : base ++ [rep] ++ [e] = base ++ [rep, e] := by simp
    rw [e2]
    exact lua_pop_append base [rep, e] 2 rfl

/-- With the reporter, the function and the object on top of `base`,
`CallLuaInternal` leaves `base`, whether the protected call succeeds or
fails. -/
lemma CallLuaInternal_stack (ops : PropertyOps) (Script : ScriptFunction) (D : FFunctionDesc)
    (base : LuaStack) (rep fn obj : LuaValue) (N : NativeFrame) (OutParams : List FOutParmRec)
    (hwf : D.WellFormed)
    (hOne : D.Properties.countP (fun P => P.IsReturnParameter) ≤ 1) :
    (CallLuaInternal ops Script D (base ++ [rep, fn, obj]) N OutParams).L = base := by
  have hnum := WellFormed_numParams D hwf hOne
  have hlen := CallLuaPushLoop_length ops N D.Properties 0 OutParams
  simp only [CallLuaInternal]
  rw [hnum, ← hlen]
  generalize (if D.ReturnPropertyIndex = INDEX_NONE then D.OutPropertyIndices.length
    else D.OutPropertyIndices.length + 1) = B
  rcases CallFunction_stack Script base (CallLuaPushLoop ops N D.Properties 0 OutParams)
    rep fn obj B with ⟨hok, X, hX, hL⟩ | ⟨hok, hL⟩
  · simp only [hok, Bool.not_true, Bool.false_eq_true, if_false, hL]
    exact lua_pop_append base X B hX.symm
  · simp only [hok, Bool.not_false, if_true, hL]

end UnLua

namespace UnLua

lemma PushFunctionLoop_isSome (H : ScriptHeap) (FunctionName : String) :
    ∀ (fuel : Nat) (base : LuaStack) (rep inst t : LuaValue),
      H.LookupEnds FunctionName fuel t = true →
      (PushFunctionLoop H FunctionName fuel (base ++ [rep, inst, t])).isSome = true := by
  intro fuel
  induction fuel with
  | zero => intro base rep inst t h; simp [ScriptHeap.LookupEnds] at h
  | succ n ih =>
    intro base rep inst t h
    have e1 : base ++ [rep, inst, t] ++ [LuaValue.string FunctionName]
        = (base ++ [rep, inst]) ++ [t, LuaValue.string FunctionName] := by simp
    have e2 : ∀ v, (base ++ [rep, inst]) ++ [t, v] = base ++ [rep, inst, t, v] := by
      intro v; simp
    simp only [PushFunctionLoop]
    rw [e1, lua_rawget_top, e2]
    by_cases hf : lua_isfunction (some (H.RawGet t (LuaValue.string FunctionName))) = true
    · simp only [lua_at_4_1, hf, if_true, Option.isSome_some]
    · simp only [lua_at_4_1, hf, Bool.false_eq_true, if_false]
      have p1 : lua_pop (base ++ [rep, inst, t, H.RawGet t (LuaValue.string FunctionName)]) 1
          = base ++ [rep, inst, t] := by
        have := lua_pop_append (base ++ [rep, inst, t])
          [H.RawGet t (LuaValue.string FunctionName)] 1 rfl
        simpa using this
      rw [p1]
      have e4 : base ++ [rep, inst, t] ++ [LuaValue.string "Super"]
          = (base ++ [rep, inst]) ++ [t, LuaValue.string "Super"] := by simp
      rw [e4, lua_rawget_top, lua_remove_2]
      have e5 : (base ++ [rep, inst]) ++ [H.RawGet t (LuaValue.string "Super")]
          = base ++ [rep, inst, H.RawGet t (LuaValue.string "Super")] := by simp
      rw [e5, lua_at_3_1]
      by_cases ht : lua_istable (some (H.RawGet t (LuaValue.string "Super"))) = true
      · rw [if_pos ht]
        apply ih
        simp only [ScriptHeap.LookupEnds, Bool.or_eq_true, Bool.not_eq_true'] at h
        rcases h with (h | h) | h
        · exact absurd h hf
        · rw [ht] at h; exact absurd h (by simp)
        · exact h
      · rw [if_neg ht]
        rfl

lemma PushFunctionByName_isSome (H : ScriptHeap) (fuel : Nat) (L : LuaStack) (Object : Nat)
    (FunctionName : String) (h : H.NameLookupEnds fuel Object FunctionName = true) :
    (PushFunctionByName H fuel L Object FunctionName).isSome = true := by
  simp only [PushFunctionByName, GetObjectMapping]
  by_cases h0 : Object = 0
  · simp [h0]
  · simp only [h0, if_false, push_push, push_push_push]
    have e1 : L ++ [LuaValue.cfunction 0, H.ObjectMap, LuaValue.lightuserdata Object]
        = (L ++ [LuaValue.cfunction 0]) ++ [H.ObjectMap, LuaValue.lightuserdata Object] := by simp
    rw [e1, lua_rawget_top, lua_at_2_1]
    generalize hv : H.RawGet H.ObjectMap (LuaValue.lightuserdata Object) = v at h ⊢
    simp only [ScriptHeap.NameLookupEnds, hv] at h
    by_cases hnil : v = LuaValue.nil
    · subst hnil
      simp
    · have hne : some v ≠ some LuaValue.nil := by simpa using hnil
      simp only [ne_eq, hne, not_false_eq_true, if_true, lua_remove_2, push_push, lua_at_2_1,
        Option.getD_some]
      by_cases ht : lua_istable (some v) = true
      · simp only [ht, if_true]
        cases hmt : H.GetMetatable v with
        | none => simp
        | some mt =>
          rw [hmt] at h
          simp only [h0, decide_False, ht, Bool.not_true, Bool.false_or] at h
          simp only [push_push_push]
          have hs := PushFunctionLoop_isSome H FunctionName fuel L (LuaValue.cfunction 0) v mt h
          cases hloop : PushFunctionLoop H FunctionName fuel (L ++ [LuaValue.cfunction 0, v, mt]) with
          | none => rw [hloop] at hs; simp at hs
          | some q =>
            obtain ⟨q1, q2⟩ := q
            cases q1 <;> simp
      · simp [ht]

/-- Claim C30: for a well-formed descriptor with at most one return
parameter, whatever `CallLua` meets (no script function, a protected call
that succeeds, one that fails), it returns with the script stack it was
entered with, so with the same height; and it does return when the
descriptor holds a function reference or the name lookup ends within the
given number of iterations. -/
theorem CallLua_preserves_stack_height (ops : PropertyOps) (Script : ScriptFunction)
    (fuel : Nat) (S : ThunkState) (Context : Nat) (bUnpackParams : Bool)
    (hwf : S.Desc.WellFormed)
    (hOne : S.Desc.Properties.countP (fun P => P.IsReturnParameter) ≤ 1) :
    (∀ r, FFunctionDesc.CallLua ops Script fuel S Context bUnpackParams = some r →
      r.State.L = S.L ∧ r.State.L.length = S.L.length) ∧
    ((S.Desc.FunctionRef ≠ INDEX_NONE
        ∨ S.Heap.NameLookupEnds fuel Context S.Desc.LookupName = true) →
      (FFunctionDesc.CallLua ops Script fuel S Context bUnpackParams).isSome = true) := by
  have key : ∀ (b : Bool) (L1 : LuaStack) (H1 : ScriptHeap) (D1 : FFunctionDesc),
      D1.WellFormed → D1.Properties.countP (fun P => P.IsReturnParameter) ≤ 1 →
      ((b = true ∧ ∃ fn obj, L1 = S.L ++ [LuaValue.cfunction 0, fn, obj])
        ∨ (b = false ∧ L1 = S.L)) →
      (FFunctionDesc.CallLuaPushed ops Script S D1 L1 H1 b bUnpackParams).State.L = S.L := by
    intro b L1 H1 D1 hwf1 hOne1 hshape
    rcases hshape with ⟨hb, fn, obj, hL1⟩ | ⟨hb, hL1⟩
    · subst hb
      subst hL1
      simp only [FFunctionDesc.CallLuaPushed, if_true]
      cases bUnpackParams
      · simp only [Bool.false_eq_true, if_false]
        exact CallLuaInternal_stack ops Script D1 S.L _ fn obj _ _ hwf1 hOne1
      · simp only [if_true]
        exact CallLuaInternal_stack ops Script D1 S.L _ fn obj _ _ hwf1 hOne1
    · subst hb
      subst hL1
      simp only [FFunctionDesc.CallLuaPushed, Bool.false_eq_true, if_false]
  refine ⟨?_, ?_⟩
  · intro r hr
    have hL : r.State.L = S.L := by
      simp only [FFunctionDesc.CallLua] at hr
      by_cases href : S.Desc.FunctionRef ≠ INDEX_NONE
      · rw [if_pos href] at hr
        simp only [Option.some.injEq] at hr
        subst hr
        refine key _ _ _ _ hwf hOne ?_
        rcases PushFunction_shape S.Heap.Registry S.L (S.Heap.PushUObject Context)
          S.Desc.FunctionRef with ⟨h1, fn, h2⟩ | ⟨h1, h2⟩
        · exact Or.inl ⟨h1, fn, _, h2⟩
        · exact Or.inr ⟨h1, h2⟩
      · rw [if_neg href] at hr
        cases hp : PushFunctionByName S.Heap fuel S.L Context
            (if S.Desc.Function.FUNC_Net = true then S.Desc.FuncName ++ "_RPC"
              else S.Desc.FuncName) with
        | none => rw [hp] at hr; simp at hr
        | some q =>
          rw [hp] at hr
          simp only [Option.some.injEq] at hr
          subst hr
          refine key _ _ _ _ hwf hOne ?_
          rcases PushFunctionByName_shape _ _ _ _ _ q hp with ⟨h1, f, inst, h2⟩ | ⟨h1, h2⟩
          · exact Or.inl ⟨by simpa using h1, f, inst, h2⟩
          · exact Or.inr ⟨by simp [h1], h2⟩
    exact ⟨hL, by rw [hL]⟩
  · intro hEnds
    simp only [FFunctionDesc.CallLua]
    by_cases href : S.Desc.FunctionRef ≠ INDEX_NONE
    · rw [if_pos href]
      rfl
    · rw [if_neg href]
      rcases hEnds with h | h
      · exact absurd h href
      · have hs := PushFunctionByName_isSome S.Heap fuel S.L Context S.Desc.LookupName h
        simp only [FFunctionDesc.LookupName] at hs
        cases hp : PushFunctionByName S.Heap fuel S.L Context
            (if S.Desc.Function.FUNC_Net = true then S.Desc.FuncName ++ "_RPC"
              else S.Desc.FuncName) with
        | none => rw [hp] at hs; simp at hs
        | some q => rfl

end UnLua

namespace UnLua

/-- Witness of C30: the call of `OnHit` through the descriptor holding
reference 1 returns with the one-element stack it was entered with, when the
script function returns and when it raises an error; so does the call through
a descriptor without reference, when the name lookup finds nothing and when it
finds the function in the `Super` table of the metatable, and the call
through a reference under which the registry holds a C function, which is
called like a script function. -/
theorem CallLua_preserves_stack_height_witness :
    (exampleThunkState 1).Desc.WellFormed ∧
    (exampleThunkState 1).Desc.Properties.countP (fun P => P.IsReturnParameter) ≤ 1 ∧
    ((∀ r, FFunctionDesc.CallLua exampleOps failingScript 5 (exampleThunkState 1) 9 true = some r →
        r.State.L = (exampleThunkState 1).L ∧ r.State.L.length = (exampleThunkState 1).L.length) ∧
      (((exampleThunkState 1).Desc.FunctionRef ≠ INDEX_NONE
          ∨ (exampleThunkState 1).Heap.NameLookupEnds 5 9 (exampleThunkState 1).Desc.LookupName
              = true) →
        (FFunctionDesc.CallLua exampleOps failingScript 5 (exampleThunkState 1) 9 true).isSome
          = true)) ∧
    (FFunctionDesc.CallLua exampleOps failingScript 5 (exampleThunkState 1) 9 true).map
        (fun r => (r.bSuccess, r.State.L)) = some (false, [LuaValue.number 1]) ∧
    (FFunctionDesc.CallLua exampleOps quietScript 5 (exampleThunkState 1) 9 true).map
        (fun r => (r.bSuccess, r.State.L)) = some (true, [LuaValue.number 1]) ∧
    (FFunctionDesc.CallLua exampleOps quietScript 5 (exampleThunkState INDEX_NONE) 9 true).map
        (fun r => (r.bSuccess, r.State.L)) = some (false, [LuaValue.number 1]) ∧
    (FFunctionDesc.CallLua exampleOps quietScript 5
        { exampleThunkState INDEX_NONE with Heap := exampleBoundHeap } 9 true).map
        (fun r => (r.bSuccess, r.State.Desc.FunctionRef, r.State.L))
      = some (true, 2, [LuaValue.number 1]) ∧
    (PushFunction exampleNativeHeap.Registry [LuaValue.number 1] (LuaValue.userdata 9) 3
      = (true, [LuaValue.number 1, LuaValue.cfunction 0, LuaValue.cfunction 5,
          LuaValue.userdata 9])) ∧
    (FFunctionDesc.CallLua exampleOps quietScript 5
        { exampleThunkState 3 with Heap := exampleNativeHeap } 9 true).map
        (fun r => (r.bSuccess, r.State.L)) = some (true, [LuaValue.number 1]) ∧
    (FFunctionDesc.CallLua exampleOps failingScript 5
        { exampleThunkState 3 with Heap := exampleNativeHeap } 9 true).map
        (fun r => (r.bSuccess, r.State.L)) = some (false, [LuaValue.number 1]) :=
  ⟨FFunctionDesc.ctor_WellFormed onHitFunction none 1, by decide,
    CallLua_preserves_stack_height exampleOps failingScript 5 (exampleThunkState 1) 9 true
      (FFunctionDesc.ctor_WellFormed onHitFunction none 1) (by decide),
    by decide, by decide, by decide, by decide, by decide, by decide, by decide⟩

/-! ## The override thunk: parameter unpacking -/

/-- Failing input of C29: `OnHit` is called through the native thunk, so
the thunk unpacks its one parameter from the caller's bytecode (the argument
expression, `EX_EndFunctionParms`, then the caller's next expression and
`EX_Return`), and the script function raises an error.  `CallLua` has stepped
the parameter and skipped `EX_EndFunctionParms` before the protected call
fails; the thunk then steps the parameter again, which consumes the caller's
next expression, and skips `EX_Return`.  When the script function returns, and
when there is no script function, the parameter is stepped once and only
`EX_EndFunctionParms` is skipped. -/
theorem execCallLua_steps_twice_on_script_error :
    (execCallLua exampleOps failingScript 5 (exampleThunkState 1) 9).map
        (fun r => (r.bSuccess, r.State.Stack.Stepped)) = some (false, [0, 0]) ∧
    (execCallLua exampleOps failingScript 5 (exampleThunkState 1) 9).map
        (fun r => (r.State.Stack.Skipped, r.State.Stack.Code))
      = some ([FCodeItem.opcode EX_EndFunctionParms, FCodeItem.opcode EX_Return], []) ∧
    (execCallLua exampleOps quietScript 5 (exampleThunkState 1) 9).map
        (fun r => (r.bSuccess, r.State.Stack.Stepped)) = some (true, [0]) ∧
    (execCallLua exampleOps quietScript 5 (exampleThunkState 1) 9).map
        (fun r => (r.State.Stack.Skipped, r.State.Stack.Code))
      = some ([FCodeItem.opcode EX_EndFunctionParms],
          [FCodeItem.expr 77, FCodeItem.opcode EX_Return]) ∧
    (execCallLua exampleOps quietScript 5 (exampleThunkState INDEX_NONE) 9).map
        (fun r => (r.bSuccess, r.State.Stack.Stepped)) = some (false, [0]) ∧
    (execCallLua exampleOps quietScript 5 (exampleThunkState INDEX_NONE) 9).map
        (fun r => (r.State.Stack.Skipped, r.State.Stack.Code))
      = some ([FCodeItem.opcode EX_EndFunctionParms],
          [FCodeItem.expr 77, FCodeItem.opcode EX_Return]) := by
  decide

/-- Failing input of C24: `OnHit` (one float parameter, no delegate
parameter) is called through the native thunk with the argument 30, and
while its script function runs the same event is raised again through the
thunk with the argument 99.  The outer invocation unpacks 30 into the
persistent buffer; the inner invocation is given the persistent buffer too and
leaves 99 in the slot the outer invocation reads its parameter from.  The
choice does not look at `NumCalls`: at `NumCalls = 1`, where `PreCall`
allocates, `CallLua` still takes the persistent buffer. -/
theorem CallLua_reentrant_overwrites_persistent_buffer :
    ((FFunctionDesc.ctor onHitFunction none 1).UnpackParams exampleThunkFrame
        (fun _ => 0) (fun _ => 0)).Params = ParamsPtr.persistent ∧
    ((FFunctionDesc.ctor onHitFunction none 1).UnpackParams exampleThunkFrame
        (fun _ => 0) (fun _ => 0)).Mem 0 = 30 ∧
    (FFunctionDesc.CallLua exampleOps quietScript 5
        { exampleThunkState 1 with
          Stack := exampleInnerFrame
          BufferMem := ((FFunctionDesc.ctor onHitFunction none 1).UnpackParams exampleThunkFrame
            (fun _ => 0) (fun _ => 0)).Mem } 9 true).map
        (fun r => (r.bSuccess, r.Params, r.State.BufferMem 0))
      = some (true, ParamsPtr.persistent, 99) ∧
    (FFunctionDesc.UnpackParams { FFunctionDesc.ctor onHitFunction none 1 with NumCalls := 1 }
        exampleInnerFrame (fun _ => 0) (fun _ => 0)).Params = ParamsPtr.persistent ∧
    (PreCall exampleOps { FFunctionDesc.ctor onHitFunction none 1 with NumCalls := 1 }
        [LuaValue.userdata 1, LuaValue.number 3] 1 2 (fun _ => false) 0 (fun _ => 0)).Params
      = ParamsPtr.heap := by
  decide

end UnLua

namespace UnLua

/-! ## The override thunk: the step log in general -/

lemma StepParams_log (ps : List FProperty) :
    ∀ (S : FFrame) (i : Nat) (Mem : Nat → Value),
      (S.StepParams ps i Mem).1.Stepped = S.Stepped ++ List.range' i ps.length
      ∧ (S.StepParams ps i Mem).1.Skipped = S.Skipped := by
  induction ps with
  | nil => intro S i Mem; simp [FFrame.StepParams]
  | cons P rest ih =>
    intro S i Mem
    simp only [FFrame.StepParams]
    obtain ⟨h1, h2⟩ := ih (S.Step i Mem).1 (i + 1) (S.Step i Mem).2
    have hs : (S.Step i Mem).1.Stepped = S.Stepped ++ [i] ∧ (S.Step i Mem).1.Skipped = S.Skipped := by
      simp only [FFrame.Step]
      split <;> exact ⟨rfl, rfl⟩
    rw [h1, h2, hs.1, hs.2]
    simp [List.range'_succ]

/-- Whenever the thunk unpacks the parameters, the descriptor's reference
yields a script function and the call reports failure, every parameter has
been stepped twice. -/
lemma execCallLua_steps_twice_of_failure (ops : PropertyOps) (Script : ScriptFunction)
    (fuel : Nat) (S : ThunkState) (Context : Nat) (r : CallLuaReturn)
    (hN : S.Stack.CurrentNativeFunction ≠ 0)
    (hU : S.Stack.Node ≠ S.Stack.CurrentNativeFunction)
    (href : S.Desc.FunctionRef ≠ INDEX_NONE)
    (hpush : (PushFunction S.Heap.Registry S.L (S.Heap.PushUObject Context)
      S.Desc.FunctionRef).1 = true)
    (hr : execCallLua ops Script fuel S Context = some r) (hfail : r.bSuccess = false) :
    r.State.Stack.Stepped
      = S.Stack.Stepped ++ List.range' 0 S.Desc.Function.Parameters.length
          ++ List.range' 0 S.Desc.Function.Parameters.length := by
  have hcall : FFunctionDesc.CallLua ops Script fuel { S with Stack := S.Stack } Context true
      = some (FFunctionDesc.CallLuaPushed ops Script S S.Desc
          (PushFunction S.Heap.Registry S.L (S.Heap.PushUObject Context) S.Desc.FunctionRef).2
          S.Heap true true) := by
    simp only [FFunctionDesc.CallLua]
    rw [if_pos href, hpush]
  have hStack : (FFunctionDesc.CallLuaPushed ops Script S S.Desc
      (PushFunction S.Heap.Registry S.L (S.Heap.PushUObject Context) S.Desc.FunctionRef).2
      S.Heap true true).State.Stack = (S.Desc.UnpackParams S.Stack S.BufferMem S.Malloc).Stack
      ∧ (FFunctionDesc.CallLuaPushed ops Script S S.Desc
      (PushFunction S.Heap.Registry S.L (S.Heap.PushUObject Context) S.Desc.FunctionRef).2
      S.Heap true true).State.Desc = S.Desc := ⟨rfl, rfl⟩
  simp only [execCallLua] at hr
  rw [if_pos hN, if_pos hU] at hr
  simp only [hcall, Bool.and_true] at hr
  generalize FFunctionDesc.CallLuaPushed ops Script S S.Desc
      (PushFunction S.Heap.Registry S.L (S.Heap.PushUObject Context) S.Desc.FunctionRef).2
      S.Heap true true = r0 at hr hStack
  cases hb : r0.bSuccess
  · simp only [hb, Bool.not_false, if_true, Option.some.injEq] at hr
    subst hr
    simp only [FFrame.SkipCode]
    rw [(StepParams_log _ _ _ _).1, hStack.1, hStack.2]
    simp only [FFunctionDesc.UnpackParams, FFrame.SkipCode]
    rw [(StepParams_log _ _ _ _).1]
  · simp only [hb, Bool.not_true, Bool.false_eq_true, if_false, Option.some.injEq] at hr
    subst hr
    simp only [hb] at hfail
    exact absurd hfail (by simp)

end UnLua
